import Mathlib

/-!
# Body-control game: orchestration core

A shallow embedding of `src/js/components/GameState.js`,
`src/js/components/EventManager.js`, the action dispatch of
`src/js/components/InputHandler.js` and the frame loop of `src/js/main.js`.

Conventions of the embedding.

* JavaScript numbers are modelled by exact rationals `ℚ`; counters that only
  ever hold small non-negative integers (`currentStage`, `stepCount`,
  `conversationStep`) are `Nat`.
* `Date.now()` and `Math.random()` are inputs: every operation that reads one
  of them takes the value read as an argument (`now`, `r`).
* A `setTimeout` call appends its callback, tagged with the requested delay,
  to the field `timers`; running a pending callback is a separate step
  (`EventManager.fireTimer`).  The model does not fix when a pending callback
  runs relative to frames and key presses.
* Calls into the presentation layer (`asciiVideo.playSequence`, the event
  display, the end screen) are appended to the field `trace`, as are the
  entries of `startEvent` and `triggerGameOver`.  Console logging, audio cues
  and CSS styling do not feed back into the state and are left out.
-/

/-! ## Data model -/

/-- The `status` strings of a vital. -/
inductive VitalStatus
  | normal | critical | low | high | dry | offline
  deriving DecidableEq

/-- The event type strings. -/
inductive EventType
  | baseline | orderCoffee | runningWoods | finish
  deriving DecidableEq

/-- The ending type strings handed to `triggerGameOver`. -/
inductive EndingType
  | success | failure
  deriving DecidableEq

/-- The foot strings handed to `handleStep`. -/
inductive Foot
  | left | right
  deriving DecidableEq

/-- The alert classes of `showVitalAlert`. -/
inductive AlertType
  | info | warning | danger
  deriving DecidableEq

/-- The messages `GameState` hands to `showVitalAlert`. -/
inductive AlertMessage
  | respiratoryOnline | ocularOnline | turningBlue | gasping
  | heartCritical | heartRacing | eyesDry
  deriving DecidableEq

/-- The field `vitals.oxygen`. -/
structure Oxygen where
  current : ℚ
  max : ℚ
  min : ℚ
  decayRate : ℚ
  status : VitalStatus
  enabled : Bool
  deriving DecidableEq

/-- The field `vitals.heartRate`. -/
structure HeartRate where
  current : ℚ
  max : ℚ
  min : ℚ
  decayRate : ℚ
  lastBeat : ℚ
  status : VitalStatus
  enabled : Bool
  deriving DecidableEq

/-- The field `vitals.eyes`. -/
structure Eyes where
  moisture : ℚ
  max : ℚ
  min : ℚ
  dryRate : ℚ
  lastBlink : ℚ
  status : VitalStatus
  enabled : Bool
  deriving DecidableEq

/-- The field `vitals`. -/
structure Vitals where
  oxygen : Oxygen
  heartRate : HeartRate
  eyes : Eyes
  deriving DecidableEq

/-- The field `suspicion`. -/
structure Suspicion where
  current : ℚ
  max : ℚ
  decayRate : ℚ
  deriving DecidableEq

/-- The field `vitalIntroduction`. -/
structure VitalIntroduction where
  breathingUnlockedAt : ℚ
  blinkingUnlockedAt : ℚ
  breathingUnlocked : Bool
  blinkingUnlocked : Bool
  deriving DecidableEq

/-- The object `lastAlertTimes`; a key that was never written is `none`.
The object itself is created empty by the first `checkExtremeVitals`, which
is indistinguishable from it having been there from the start. -/
structure LastAlertTimes where
  oxygen : Option ℚ
  hyperventilating : Option ℚ
  heartLow : Option ℚ
  heartHigh : Option ℚ
  eyes : Option ℚ
  deriving DecidableEq

/-- The event object built by `startEvent`.  `options` is `none` for the
empty object and holds `endingType` and `reason` otherwise.  The two fields
aliasing `runningState` and `conversationState` are read by the display
only and are left out. -/
structure GameEvent where
  type : EventType
  name : String
  startTime : ℚ
  duration : ℚ
  options : Option (EndingType × String)
  deriving DecidableEq

/-- The class `GameState`.  `alerts` records the calls of `showVitalAlert`
and `blinkTimers` counts the pending 300 ms callbacks of `blink`. -/
structure GameState where
  vitals : Vitals
  suspicion : Suspicion
  currentEvent : Option GameEvent
  gameTime : ℚ
  difficulty : ℚ
  isBlinking : Bool
  gameStarted : Bool
  vitalIntroduction : VitalIntroduction
  lastAlertTimes : LastAlertTimes
  alerts : List (AlertMessage × AlertType)
  blinkTimers : Nat
  deriving DecidableEq

/-- One entry of `gameProgression.stages`. -/
structure Stage where
  type : EventType
  duration : ℚ
  startTime : ℚ
  deriving DecidableEq

/-- The field `gameProgression`. -/
structure GameProgression where
  currentStage : Nat
  stages : List Stage
  completed : Bool
  deriving DecidableEq

/-- One conversation option. -/
structure ConversationOption where
  text : String
  correct : Bool
  deriving DecidableEq

/-- The field `conversationState`. -/
structure ConversationState where
  eyeContactLevel : ℚ
  eyeContactTarget : ℚ
  lastSwallowTime : ℚ
  swallowPromptActive : Bool
  conversationOptions : Option (List ConversationOption)
  waitingForResponse : Bool
  conversationStep : Nat
  deriving DecidableEq

/-- The field `runningState`. -/
structure RunningState where
  distance : ℚ
  lastStepFoot : Option Foot
  stepCount : Nat
  jumpPromptActive : Bool
  obstacleTimer : ℚ
  completed : Bool
  deriving DecidableEq

/-- The contents handed to the event display. -/
inductive Popup
  | baselineIntro | coffeeIntro | swallowPrompt | swallowCountdown (timeLeft : ℚ)
  | conversation1 | conversation2 | woodsIntro | obstacle (index : Int)
  | awkward | woodsSuccess | failureCaption (reason : String)
  deriving DecidableEq

/-- The callbacks `EventManager` hands to `setTimeout`. -/
inductive Timer
  | promptEyeContact
  | promptSwallow
  | startConversation
  | swallowTimeout
  | showSecondConversation
  | jumpPrompt
  | jumpTimeout
  | endCurrentEvent
  | showEndScreen (endingType : EndingType)
  deriving DecidableEq

/-- The recorded calls. -/
inductive Effect
  | playSequence (name : String)
  | showEventDisplay (content : Popup) (urgent : Bool) (force : Bool)
  | updateEventPopup (content : Popup)
  | hideEventPopup
  | fadeOutColumns
  | showEndScreen (endingType : EndingType)
  | startEvent (eventType : EventType)
  | triggerGameOver (type : EndingType) (reason : String)
  deriving DecidableEq

/-- The class `EventManager`, with the `GameState` it refers to. -/
structure EventManager where
  gameState : GameState
  currentEvent : Option GameEvent
  eventTimer : ℚ
  nextEventTime : ℚ
  isEnding : Bool
  gameProgression : GameProgression
  conversationState : ConversationState
  runningState : RunningState
  timers : List (ℚ × Timer)
  trace : List Effect
  deriving DecidableEq

/-! ## `GameState` -/

/-- The constructor of `GameState`; `now` is the value of `Date.now()`. -/
def GameState.new (now : ℚ) : GameState where
  vitals :=
    { oxygen :=
        { current := 50, max := 100, min := 0, decayRate := 3,
          status := .normal, enabled := false }
      heartRate :=
        { current := 50, max := 100, min := 0, decayRate := 30, lastBeat := now,
          status := .normal, enabled := true }
      eyes :=
        { moisture := 100, max := 100, min := 0, dryRate := 3, lastBlink := now,
          status := .normal, enabled := false } }
  suspicion := { current := 0, max := 100, decayRate := 4 / 5 }
  currentEvent := none
  gameTime := 0
  difficulty := 1
  isBlinking := false
  gameStarted := false
  vitalIntroduction :=
    { breathingUnlockedAt := 20000, blinkingUnlockedAt := 30000,
      breathingUnlocked := false, blinkingUnlocked := false }
  lastAlertTimes :=
    { oxygen := none, hyperventilating := none, heartLow := none,
      heartHigh := none, eyes := none }
  alerts := []
  blinkTimers := 0

/-- The method `showVitalAlert`: the alert is recorded. -/
def GameState.showVitalAlert (gs : GameState) (message : AlertMessage)
    (type : AlertType) : GameState :=
  let alerts := gs.alerts ++ [(message, type)]
  { gs with alerts := alerts }

/-- The method `addSuspicion`.  `gameOver`, which it calls at the maximum,
only writes to the console. -/
def GameState.addSuspicion (gs : GameState) (amount : ℚ) : GameState :=
  let current := gs.suspicion.current + amount
  let current := min gs.suspicion.max current
  { gs with suspicion.current := current }

/-- The method `startGame`. -/
def GameState.startGame (gs : GameState) : GameState :=
  let gs := { gs with gameStarted := true }
  { gs with gameTime := 0 }

/-- The method `updateVitalIntroduction`. -/
def GameState.updateVitalIntroduction (gs : GameState) : GameState :=
  let gs :=
    if !gs.vitalIntroduction.breathingUnlocked
        && decide (gs.gameTime ≥ gs.vitalIntroduction.breathingUnlockedAt) then
      let gs := { gs with vitalIntroduction.breathingUnlocked := true }
      let gs := { gs with vitals.oxygen.enabled := true }
      let gs := { gs with vitals.oxygen.current := 50 }
      gs.showVitalAlert .respiratoryOnline .info
    else gs
  if !gs.vitalIntroduction.blinkingUnlocked
      && decide (gs.gameTime ≥ gs.vitalIntroduction.blinkingUnlockedAt) then
    let gs := { gs with vitalIntroduction.blinkingUnlocked := true }
    let gs := { gs with vitals.eyes.enabled := true }
    let gs := { gs with vitals.eyes.moisture := 100 }
    gs.showVitalAlert .ocularOnline .info
  else gs

/-- The method `updateVitalStatuses`. -/
def GameState.updateVitalStatuses (gs : GameState) : GameState :=
  let oxygenStatus : VitalStatus :=
    if gs.vitals.oxygen.enabled then
      if gs.vitals.oxygen.current < 20 then .critical
      else if gs.vitals.oxygen.current < 40 then .low
      else if gs.vitals.oxygen.current > 80 then .high
      else .normal
    else .offline
  let heartStatus : VitalStatus :=
    if gs.vitals.heartRate.enabled then
      if gs.vitals.heartRate.current < 20 then .low
      else if gs.vitals.heartRate.current > 80 then .high
      else .normal
    else .offline
  let eyesStatus : VitalStatus :=
    if gs.vitals.eyes.enabled then
      if gs.vitals.eyes.moisture < 30 then .dry else .normal
    else .offline
  let gs := { gs with vitals.oxygen.status := oxygenStatus }
  let gs := { gs with vitals.heartRate.status := heartStatus }
  { gs with vitals.eyes.status := eyesStatus }

/-- The test `this.currentEvent && this.currentEvent.type === t`. -/
def isEventOfType (currentEvent : Option GameEvent) (t : EventType) : Bool :=
  match currentEvent with
  | some ev => ev.type == t
  | none => false

/-- The method `updateVitals`. -/
def GameState.updateVitals (gs : GameState) (deltaTime : ℚ) : GameState :=
  let dt := deltaTime / 1000
  let gs :=
    if gs.vitals.oxygen.enabled then
      let current := gs.vitals.oxygen.current - gs.vitals.oxygen.decayRate * dt * gs.difficulty
      let current := max 0 (min gs.vitals.oxygen.max current)
      { gs with vitals.oxygen.current := current }
    else gs
  let gs :=
    if gs.vitals.eyes.enabled then
      let moisture := gs.vitals.eyes.moisture - gs.vitals.eyes.dryRate * dt * gs.difficulty
      let moisture := max 0 (min gs.vitals.eyes.max moisture)
      { gs with vitals.eyes.moisture := moisture }
    else gs
  let gs :=
    if gs.vitals.heartRate.enabled then
      let current :=
        gs.vitals.heartRate.current - gs.vitals.heartRate.decayRate * dt * gs.difficulty
      { gs with vitals.heartRate.current := current }
    else gs
  let gs :=
    if isEventOfType gs.currentEvent .runningWoods then
      let oxygen := gs.vitals.oxygen.current - 4 / 5 * dt * gs.difficulty
      let gs := { gs with vitals.oxygen.current := oxygen }
      let heartRate := gs.vitals.heartRate.current - 3 * dt * gs.difficulty
      { gs with vitals.heartRate.current := heartRate }
    else gs
  let heartRate := max 0 (min gs.vitals.heartRate.max gs.vitals.heartRate.current)
  let gs := { gs with vitals.heartRate.current := heartRate }
  gs.updateVitalStatuses

/-- The method `updateSuspicion`. -/
def GameState.updateSuspicion (gs : GameState) (deltaTime : ℚ) : GameState :=
  let dt := deltaTime / 1000
  let current := gs.suspicion.current - gs.suspicion.decayRate * dt
  let current := max 0 (min gs.suspicion.max current)
  { gs with suspicion.current := current }

/-- The test `!t || now - t > 2000` on a key of `lastAlertTimes`: a key that
is missing or holds `0` is falsy. -/
def alertDue (last : Option ℚ) (now : ℚ) : Bool :=
  match last with
  | none => true
  | some t => t == 0 || decide (now - t > 2000)

/-- The method `checkExtremeVitals`; `now` is the value of `Date.now()`. -/
def GameState.checkExtremeVitals (gs : GameState) (now : ℚ) : GameState :=
  let gs :=
    if gs.vitals.oxygen.enabled then
      if decide (gs.vitals.oxygen.current ≤ 5) && alertDue gs.lastAlertTimes.oxygen now then
        let gs := (gs.showVitalAlert .turningBlue .danger).addSuspicion 3
        { gs with lastAlertTimes.oxygen := some now }
      else if decide (gs.vitals.oxygen.current ≥ 90)
          && alertDue gs.lastAlertTimes.hyperventilating now then
        let gs := (gs.showVitalAlert .gasping .warning).addSuspicion 2
        { gs with lastAlertTimes.hyperventilating := some now }
      else gs
    else gs
  let gs :=
    if gs.vitals.heartRate.enabled then
      if decide (gs.vitals.heartRate.current ≤ 5) && alertDue gs.lastAlertTimes.heartLow now then
        let gs := (gs.showVitalAlert .heartCritical .danger).addSuspicion 3
        { gs with lastAlertTimes.heartLow := some now }
      else if decide (gs.vitals.heartRate.current ≥ 95)
          && alertDue gs.lastAlertTimes.heartHigh now then
        let gs := (gs.showVitalAlert .heartRacing .warning).addSuspicion 2
        { gs with lastAlertTimes.heartHigh := some now }
      else gs
    else gs
  if gs.vitals.eyes.enabled && decide (gs.vitals.eyes.moisture ≤ 10)
      && alertDue gs.lastAlertTimes.eyes now then
    let gs := (gs.showVitalAlert .eyesDry .warning).addSuspicion 2
    { gs with lastAlertTimes.eyes := some now }
  else gs

/-- The method `updateVisualEffects`: the filter styling of the page body
is presentation only; what remains is the call of `checkExtremeVitals`. -/
def GameState.updateVisualEffects (gs : GameState) (now : ℚ) : GameState :=
  gs.checkExtremeVitals now

/-- The method `update`. -/
def GameState.update (gs : GameState) (deltaTime now : ℚ) : GameState :=
  let gs :=
    if gs.gameStarted then
      let gameTime := gs.gameTime + deltaTime
      let gs := { gs with gameTime := gameTime }
      let gs := gs.updateVitalIntroduction
      let difficulty := 1 + gs.gameTime / 120000 * (1 / 2)
      let gs := { gs with difficulty := difficulty }
      let gs := gs.updateVitals deltaTime
      gs.updateSuspicion deltaTime
    else gs
  gs.updateVisualEffects now

/-- The method `breathe`. -/
def GameState.breathe (gs : GameState) : GameState :=
  if !gs.vitals.oxygen.enabled then gs
  else
    let current := gs.vitals.oxygen.current + 15
    let current := min gs.vitals.oxygen.max current
    let gs := { gs with vitals.oxygen.current := current }
    if gs.vitals.oxygen.current > 90 then gs.addSuspicion 3 else gs

/-- The method `heartbeat`. -/
def GameState.heartbeat (gs : GameState) (now : ℚ) : GameState :=
  let current := gs.vitals.heartRate.current + 30
  let current := min gs.vitals.heartRate.max current
  let gs := { gs with vitals.heartRate.current := current }
  { gs with vitals.heartRate.lastBeat := now }

/-- The method `blink`; its 300 ms callback is `GameState.blinkTimeout`. -/
def GameState.blink (gs : GameState) (now : ℚ) : GameState :=
  if !gs.vitals.eyes.enabled then gs
  else
    let gs := { gs with isBlinking := true }
    let moisture := gs.vitals.eyes.max
    let gs := { gs with vitals.eyes.moisture := moisture }
    let gs := { gs with vitals.eyes.lastBlink := now }
    let pending := gs.blinkTimers + 1
    { gs with blinkTimers := pending }

/-- The callback scheduled by `blink`. -/
def GameState.blinkTimeout (gs : GameState) : GameState :=
  let gs := { gs with isBlinking := false }
  let pending := gs.blinkTimers - 1
  { gs with blinkTimers := pending }

/-! ## `EventManager` -/

/-- The stage list of the constructor. -/
def defaultStages : List Stage :=
  [ { type := .baseline, duration := 20000, startTime := 30000 },
    { type := .runningWoods, duration := 45000, startTime := 50000 },
    { type := .orderCoffee, duration := 30000, startTime := 100000 },
    { type := .runningWoods, duration := 45000, startTime := 132000 },
    { type := .finish, duration := 8000, startTime := 179000 } ]

/-- The default value of `conversationState` (constructor and
`endCurrentEvent`). -/
def defaultConversationState : ConversationState where
  eyeContactLevel := 50
  eyeContactTarget := 50
  lastSwallowTime := 0
  swallowPromptActive := false
  conversationOptions := none
  waitingForResponse := false
  conversationStep := 0

/-- The default value of `runningState` (constructor and
`endCurrentEvent`). -/
def defaultRunningState : RunningState where
  distance := 0
  lastStepFoot := none
  stepCount := 0
  jumpPromptActive := false
  obstacleTimer := 0
  completed := false

/-- The constructor of `EventManager`. -/
def EventManager.new (gameState : GameState) : EventManager where
  gameState := gameState
  currentEvent := none
  eventTimer := 0
  nextEventTime := 30000
  isEnding := false
  gameProgression := { currentStage := 0, stages := defaultStages, completed := false }
  conversationState := defaultConversationState
  runningState := defaultRunningState
  timers := []
  trace := []

/-- The method `getEventName`. -/
def getEventName : EventType → String
  | .baseline => "Baseline Recording"
  | .orderCoffee => "Order Coffee"
  | .runningWoods => "Running Through Woods"
  | .finish => "Mission Complete"

/-- The method `getEventDuration`. -/
def getEventDuration : EventType → ℚ
  | .baseline => 15000
  | .orderCoffee => 30000
  | .runningWoods => 45000
  | .finish => 8000

/-- A call of `setTimeout(callback, delay)`. -/
def EventManager.setTimeout (em : EventManager) (callback : Timer) (delay : ℚ) :
    EventManager :=
  let timers := em.timers ++ [(delay, callback)]
  { em with timers := timers }

/-- A recorded call. -/
def EventManager.emit (em : EventManager) (e : Effect) : EventManager :=
  let trace := em.trace ++ [e]
  { em with trace := trace }

/-- The method `asciiVideo.playSequence`, as called by `EventManager`. -/
def EventManager.playSequence (em : EventManager) (name : String) : EventManager :=
  em.emit (.playSequence name)

/-- The method `hideEventPopup`. -/
def EventManager.hideEventPopup (em : EventManager) : EventManager :=
  em.emit .hideEventPopup

/-- The method `showEventDisplay`. -/
def EventManager.showEventDisplay (em : EventManager) (content : Popup)
    (urgent : Bool) (force : Bool) : EventManager :=
  if em.isEnding && !force then em
  else em.emit (.showEventDisplay content urgent force)

/-- The method `showEventPopup`. -/
def EventManager.showEventPopup (em : EventManager) (content : Popup)
    (urgent : Bool) : EventManager :=
  em.showEventDisplay content urgent false

/-- The method `showFailureCaption`. -/
def EventManager.showFailureCaption (em : EventManager) (reason : String) : EventManager :=
  em.showEventDisplay (.failureCaption reason) true true

/-- The method `updateEventPopup`. -/
def EventManager.updateEventPopup (em : EventManager) (content : Popup) : EventManager :=
  if em.isEnding then em else em.emit (.updateEventPopup content)

/-- The method `showEndScreen`. -/
def EventManager.showEndScreen (em : EventManager) (endingType : EndingType) :
    EventManager :=
  em.emit (.showEndScreen endingType)

/-- The method `fadeOutColumns`. -/
def EventManager.fadeOutColumns (em : EventManager) : EventManager :=
  em.emit .fadeOutColumns

/-- The method `muteUIForEnd`. -/
def EventManager.muteUIForEnd (em : EventManager) : EventManager :=
  let em := em.hideEventPopup
  let em := { em with conversationState.eyeContactLevel := 50 }
  let em := { em with conversationState.eyeContactTarget := 50 }
  let em := { em with conversationState.swallowPromptActive := false }
  let em := { em with conversationState.waitingForResponse := false }
  { em with runningState.jumpPromptActive := false }

/-- The method `endCurrentEvent`.  The test
`currentStage < stages.length - 1` is written without the subtraction. -/
def EventManager.endCurrentEvent (em : EventManager) : EventManager :=
  let eventType := em.currentEvent.map (·.type)
  let em :=
    if em.gameProgression.currentStage + 1 < em.gameProgression.stages.length then
      let currentStage := em.gameProgression.currentStage + 1
      { em with gameProgression.currentStage := currentStage }
    else em
  let em := { em with currentEvent := none }
  let em := { em with gameState.currentEvent := none }
  let em := if !em.isEnding then em.hideEventPopup else em
  let em := { em with conversationState := defaultConversationState }
  let em := { em with runningState := defaultRunningState }
  if eventType ≠ some .finish then em.playSequence "idle" else em

/-- The method `startBaselineEvent`. -/
def EventManager.startBaselineEvent (em : EventManager) : EventManager :=
  (em.playSequence "baseline").showEventPopup .baselineIntro false

/-- The method `startFinishEvent`. -/
def EventManager.startFinishEvent (em : EventManager) (endingType : EndingType)
    (reason : String) : EventManager :=
  let em := { em with isEnding := true }
  let em := em.muteUIForEnd
  let em := em.fadeOutColumns
  let videoName := if endingType = .success then "success" else "failure"
  let em := em.playSequence videoName
  let em := if endingType = .failure then em.showFailureCaption reason else em
  em.setTimeout (.showEndScreen endingType) (getEventDuration .finish)

/-- The method `startOrderCoffeeEvent`; `r` is the value of `Math.random()`. -/
def EventManager.startOrderCoffeeEvent (em : EventManager) (r : ℚ) : EventManager :=
  let em := em.playSequence "coffee"
  let em := { em with conversationState.eyeContactLevel := 50 }
  let em := { em with conversationState.eyeContactTarget := 40 + r * 20 }
  let em := em.showEventPopup .coffeeIntro false
  let em := em.setTimeout .promptEyeContact 3000
  let em := em.setTimeout .promptSwallow 8000
  em.setTimeout .startConversation 12000

/-- The method `promptEyeContact`: it only writes to the console. -/
def EventManager.promptEyeContact (em : EventManager) : EventManager :=
  em

/-- The method `promptSwallow`; `now` is the value of `Date.now()`. -/
def EventManager.promptSwallow (em : EventManager) (now : ℚ) : EventManager :=
  if isEventOfType em.currentEvent .orderCoffee then
    let em := { em with conversationState.swallowPromptActive := true }
    let em := { em with conversationState.lastSwallowTime := now }
    let em := em.showEventPopup .swallowPrompt true
    em.setTimeout .swallowTimeout 3000
  else em

/-- The callback scheduled by `promptSwallow`. -/
def EventManager.swallowTimeout (em : EventManager) : EventManager :=
  if em.conversationState.swallowPromptActive then
    let em := { em with conversationState.swallowPromptActive := false }
    let gameState := em.gameState.addSuspicion 8
    let em := { em with gameState := gameState }
    em.hideEventPopup
  else em

/-- The options of `showFirstConversation`. -/
def firstConversationOptions : List ConversationOption :=
  [ { text := "coffee", correct := true },
    { text := "frog", correct := false },
    { text := "revenge", correct := false },
    { text := "sustenance", correct := false } ]

/-- The options of `showSecondConversation`. -/
def secondConversationOptions : List ConversationOption :=
  [ { text := "credits", correct := false },
    { text := "human dollars", correct := true },
    { text := "frogs", correct := false } ]

/-- The method `showFirstConversation`. -/
def EventManager.showFirstConversation (em : EventManager) : EventManager :=
  let em := { em with conversationState.conversationOptions := some firstConversationOptions }
  let em := { em with conversationState.waitingForResponse := true }
  em.showEventPopup .conversation1 false

/-- The method `startConversation`. -/
def EventManager.startConversation (em : EventManager) : EventManager :=
  if isEventOfType em.currentEvent .orderCoffee then
    ({ em with conversationState.conversationStep := 1 }).showFirstConversation
  else em

/-- The method `showSecondConversation`. -/
def EventManager.showSecondConversation (em : EventManager) : EventManager :=
  let em := { em with conversationState.conversationStep := 2 }
  let em := { em with conversationState.conversationOptions := some secondConversationOptions }
  let em := { em with conversationState.waitingForResponse := true }
  em.showEventPopup .conversation2 false

/-- The method `scheduleJumpPrompt`; `r` is the value of `Math.random()`. -/
def EventManager.scheduleJumpPrompt (em : EventManager) (r : ℚ) : EventManager :=
  if isEventOfType em.currentEvent .runningWoods then
    em.setTimeout .jumpPrompt (5000 + r * 8000)
  else em

/-- The method `startRunningWoodsEvent`; `r` is the value of `Math.random()`
read by `scheduleJumpPrompt`. -/
def EventManager.startRunningWoodsEvent (em : EventManager) (r : ℚ) : EventManager :=
  let em := em.playSequence "walking"
  let em := { em with runningState.distance := 0 }
  let em := { em with runningState.lastStepFoot := none }
  let em := { em with runningState.stepCount := 0 }
  let em := { em with runningState.completed := false }
  let em := em.showEventPopup .woodsIntro false
  em.scheduleJumpPrompt r

/-- The method `promptJump`; `r` is the value of `Math.random()` that picks
the obstacle text. -/
def EventManager.promptJump (em : EventManager) (r : ℚ) : EventManager :=
  if isEventOfType em.currentEvent .runningWoods then
    let em := { em with runningState.jumpPromptActive := true }
    let em := em.showEventPopup (.obstacle ⌊r * 4⌋) true
    em.setTimeout .jumpTimeout 2000
  else em

/-- The callback scheduled by `promptJump`. -/
def EventManager.jumpTimeout (em : EventManager) : EventManager :=
  if em.runningState.jumpPromptActive then
    let em := { em with runningState.jumpPromptActive := false }
    let gameState := em.gameState.addSuspicion 10
    let em := { em with gameState := gameState }
    let distance := max 0 (em.runningState.distance - 10)
    let em := { em with runningState.distance := distance }
    em.hideEventPopup
  else em

/-- The method `startEvent`.  `options` is `none` for the default empty
object; `r` is the value of `Math.random()` read by the event's setup. -/
def EventManager.startEvent (em : EventManager) (eventType : EventType)
    (options : Option (EndingType × String)) (r : ℚ) : EventManager :=
  let em := em.emit (.startEvent eventType)
  let duration :=
    match em.gameProgression.stages.get? em.gameProgression.currentStage with
    | some currentStage =>
      if currentStage.type = eventType then currentStage.duration
      else getEventDuration eventType
    | none => getEventDuration eventType
  let ev : GameEvent :=
    { type := eventType, name := getEventName eventType, startTime := em.eventTimer,
      duration := duration, options := options }
  let em := { em with currentEvent := some ev }
  let em := { em with gameState.currentEvent := some ev }
  match eventType with
  | .baseline => em.startBaselineEvent
  | .orderCoffee => em.startOrderCoffeeEvent r
  | .runningWoods => em.startRunningWoodsEvent r
  | .finish =>
    match options with
    | some (endingType, reason) => em.startFinishEvent endingType reason
    | none => em.startFinishEvent .success ""

/-- The method `triggerGameOver`. -/
def EventManager.triggerGameOver (em : EventManager) (type : EndingType)
    (reason : String) : EventManager :=
  let em := em.emit (.triggerGameOver type reason)
  let em := { em with gameProgression.completed := true }
  let em := if em.currentEvent.isSome then em.endCurrentEvent else em
  em.startEvent .finish (some (type, reason)) 0

/-- The method `checkForNextStage`; `r` is the value of `Math.random()` read
when an event is started. -/
def EventManager.checkForNextStage (em : EventManager) (r : ℚ) : EventManager :=
  match em.gameProgression.stages.get? em.gameProgression.currentStage with
  | none => em
  | some currentStage =>
    if em.eventTimer ≥ currentStage.startTime then
      if currentStage.type = .finish then
        if !em.gameProgression.completed then em.triggerGameOver .success ""
        else em
      else em.startEvent currentStage.type none r
    else em

/-- The method `checkGameOverConditions`. -/
def EventManager.checkGameOverConditions (em : EventManager) : EventManager :=
  if em.gameState.suspicion.current ≥ em.gameState.suspicion.max then
    em.triggerGameOver .failure "Suspicion reached maximum"
  else em

/-- The method `updateOrderCoffeeEvent`; `now` is the value of `Date.now()`. -/
def EventManager.updateOrderCoffeeEvent (em : EventManager) (deltaTime now : ℚ) :
    EventManager :=
  let targetDiff := |em.conversationState.eyeContactLevel - em.conversationState.eyeContactTarget|
  let em :=
    if targetDiff > 15 then
      let gameState := em.gameState.addSuspicion (1 / 2 * (deltaTime / 1000))
      { em with gameState := gameState }
    else em
  if em.conversationState.swallowPromptActive then
    let timeLeft := 3000 - (now - em.conversationState.lastSwallowTime)
    if timeLeft > 0 then em.updateEventPopup (.swallowCountdown timeLeft) else em
  else em

/-- The method `updateRunningWoodsEvent`. -/
def EventManager.updateRunningWoodsEvent (em : EventManager) : EventManager :=
  if decide (em.runningState.distance ≥ 100) && !em.runningState.completed then
    let em := { em with runningState.completed := true }
    let em := em.showEventDisplay .woodsSuccess false false
    em.setTimeout .endCurrentEvent 2000
  else em

/-- The method `updateCurrentEvent`.  It is called with an event set. -/
def EventManager.updateCurrentEvent (em : EventManager) (deltaTime now : ℚ) :
    EventManager :=
  match em.currentEvent with
  | none => em
  | some ev =>
    let eventAge := em.eventTimer - ev.startTime
    if eventAge ≥ ev.duration then em.endCurrentEvent
    else
      match ev.type with
      | .orderCoffee => em.updateOrderCoffeeEvent deltaTime now
      | .runningWoods => em.updateRunningWoodsEvent
      | _ => em

/-- The method `update`; `now` and `r` are the values of `Date.now()` and
`Math.random()` read during the call. -/
def EventManager.update (em : EventManager) (deltaTime now r : ℚ) : EventManager :=
  if em.gameState.gameStarted && !em.gameProgression.completed then
    let eventTimer := em.eventTimer + deltaTime
    let em := { em with eventTimer := eventTimer }
    let em := if em.currentEvent.isNone then em.checkForNextStage r else em
    let em := if em.currentEvent.isSome then em.updateCurrentEvent deltaTime now else em
    em.checkGameOverConditions
  else em

/-! ### Input handlers -/

/-- The method `handleEyeContact`. -/
def EventManager.handleEyeContact (em : EventManager) : EventManager :=
  if em.isEnding then em
  else if isEventOfType em.currentEvent .orderCoffee then
    let level : ℚ := if em.conversationState.eyeContactLevel < 50 then 70 else 30
    { em with conversationState.eyeContactLevel := level }
  else em

/-- The method `handleSwallow`. -/
def EventManager.handleSwallow (em : EventManager) : EventManager :=
  if em.isEnding then em
  else if isEventOfType em.currentEvent .orderCoffee
      && em.conversationState.swallowPromptActive then
    ({ em with conversationState.swallowPromptActive := false }).hideEventPopup
  else em

/-- The method `handleStep`. -/
def EventManager.handleStep (em : EventManager) (foot : Foot) : EventManager :=
  if em.isEnding then em
  else if isEventOfType em.currentEvent .runningWoods then
    if em.runningState.lastStepFoot = some foot then
      let distance := max 0 (em.runningState.distance - 5)
      let em := { em with runningState.distance := distance }
      let gameState := em.gameState.addSuspicion 4
      { em with gameState := gameState }
    else
      let distance := min 100 (em.runningState.distance + 5 / 2)
      let em := { em with runningState.distance := distance }
      let em := { em with runningState.lastStepFoot := some foot }
      let stepCount := em.runningState.stepCount + 1
      { em with runningState.stepCount := stepCount }
  else em

/-- The method `handleJump`. -/
def EventManager.handleJump (em : EventManager) : EventManager :=
  if em.isEnding then em
  else if isEventOfType em.currentEvent .runningWoods && em.runningState.jumpPromptActive then
    ({ em with runningState.jumpPromptActive := false }).hideEventPopup
  else em

/-- The array access `options[option - 1]`: `none` when the index is out of
range. -/
def selectOption (options : List ConversationOption) (option : Int) :
    Option ConversationOption :=
  if 1 ≤ option then options.get? (option - 1).toNat else none

/-- The test `!!(selectedOption && selectedOption.correct)`. -/
def isCorrect (selectedOption : Option ConversationOption) : Bool :=
  match selectedOption with
  | some o => o.correct
  | none => false

/-- The method `handleConversationOption`.  With `conversationOptions` still
`null` the array access throws and the handler stops after clearing
`waitingForResponse`. -/
def EventManager.handleConversationOption (em : EventManager) (option : Int) :
    EventManager :=
  if em.isEnding then em
  else if isEventOfType em.currentEvent .orderCoffee
      && em.conversationState.waitingForResponse then
    let em := { em with conversationState.waitingForResponse := false }
    match em.conversationState.conversationOptions with
    | none => em
    | some options =>
      let selectedOption := selectOption options option
      let step :=
        if em.conversationState.conversationStep = 0 then 1
        else em.conversationState.conversationStep
      let correct := isCorrect selectedOption
      let em :=
        if !correct then
          let gameState := em.gameState.addSuspicion 15
          ({ em with gameState := gameState }).showEventPopup .awkward false
        else em.hideEventPopup
      if step = 1 then
        em.setTimeout .showSecondConversation (if correct then 400 else 3000)
      else em
  else em

/-! ### Deferred callbacks -/

/-- The body of a callback handed to `setTimeout`; `now`, `r1` and `r2` are
the values of `Date.now()` and `Math.random()` it reads. -/
def EventManager.runCallback (em : EventManager) (t : Timer) (now r1 r2 : ℚ) :
    EventManager :=
  match t with
  | .promptEyeContact => em.promptEyeContact
  | .promptSwallow => em.promptSwallow now
  | .startConversation => em.startConversation
  | .swallowTimeout => em.swallowTimeout
  | .showSecondConversation => em.hideEventPopup.showSecondConversation
  | .jumpPrompt => (em.promptJump r1).scheduleJumpPrompt r2
  | .jumpTimeout => em.jumpTimeout
  | .endCurrentEvent => em.endCurrentEvent
  | .showEndScreen endingType => em.hideEventPopup.showEndScreen endingType

/-- The pending callback at position `i` runs and leaves the list of pending
callbacks; nothing happens when there is no such callback. -/
def EventManager.fireTimer (em : EventManager) (i : Nat) (now r1 r2 : ℚ) :
    EventManager :=
  match em.timers.get? i with
  | none => em
  | some (_, t) =>
    let timers := em.timers.eraseIdx i
    ({ em with timers := timers }).runCallback t now r1 r2

/-! ## `InputHandler` and the frame loop -/

/-- The action names of `InputHandler.keyBindings`. -/
inductive InputAction
  | breathe | heartbeat | blink | eyeContact | swallow
  | stepLeft | stepRight | jump | option1 | option2 | option3 | option4
  deriving DecidableEq

/-- The method `InputHandler.executeAction`; `now` is the value of
`Date.now()`. -/
def InputHandler.executeAction (em : EventManager) (action : InputAction) (now : ℚ) :
    EventManager :=
  match action with
  | .breathe =>
    let gameState := em.gameState.breathe
    { em with gameState := gameState }
  | .heartbeat =>
    let gameState := em.gameState.heartbeat now
    { em with gameState := gameState }
  | .blink =>
    let gameState := em.gameState.blink now
    { em with gameState := gameState }
  | .eyeContact => em.handleEyeContact
  | .swallow => em.handleSwallow
  | .stepLeft => em.handleStep .left
  | .stepRight => em.handleStep .right
  | .jump => em.handleJump
  | .option1 => em.handleConversationOption 1
  | .option2 => em.handleConversationOption 2
  | .option3 => em.handleConversationOption 3
  | .option4 => em.handleConversationOption 4

/-- The state inside `update` once the stage check has run: the timer has
advanced and, with no event active, `checkForNextStage` has been called. -/
def EventManager.afterStageCheck (em : EventManager) (deltaTime r : ℚ) : EventManager :=
  let eventTimer := em.eventTimer + deltaTime
  let em := { em with eventTimer := eventTimer }
  if em.currentEvent.isNone then em.checkForNextStage r else em

/-- The state inside `update` just before the outcome check: after
`afterStageCheck`, with an event active, `updateCurrentEvent` has been
called. -/
def EventManager.beforeOutcomeCheck (em : EventManager) (deltaTime now r : ℚ) :
    EventManager :=
  let em := em.afterStageCheck deltaTime r
  if em.currentEvent.isSome then em.updateCurrentEvent deltaTime now else em

/-- One frame of `BodyControlGame.gameLoop` on the game state:
`gameState.update(deltaTime)` and then `eventManager.update(deltaTime)`.
The two display updates in between and after do not write to the state. -/
def gameFrame (em : EventManager) (deltaTime now r : ℚ) : EventManager :=
  let gameState := em.gameState.update deltaTime now
  ({ em with gameState := gameState }).update deltaTime now r

/-- The class `BodyControlGame`, reduced to the fields the loop uses. -/
structure BodyControlGame where
  eventManager : EventManager
  isRunning : Bool
  lastTime : ℚ
  deriving DecidableEq

/-- The constructor of `BodyControlGame`. -/
def BodyControlGame.new (now : ℚ) : BodyControlGame where
  eventManager := EventManager.new (GameState.new now)
  isRunning := false
  lastTime := 0

/-- The method `showMainInterface`, on the game state. -/
def showMainInterface (em : EventManager) : EventManager :=
  let gs := em.gameState
  let gs := if gs.vitals.oxygen.enabled then { gs with vitals.oxygen.current := 75 } else gs
  let gs := { gs with vitals.heartRate.current := 50 }
  let gs := if gs.vitals.eyes.enabled then { gs with vitals.eyes.moisture := 100 } else gs
  let gs := { gs with suspicion.current := 0 }
  let gs := gs.startGame
  { em with gameState := gs }

/-- The method `init`, from `showMainInterface` on: the interface is shown,
the game timer started and the loop switched on. -/
def BodyControlGame.init (g : BodyControlGame) : BodyControlGame :=
  let eventManager := showMainInterface g.eventManager
  let g := { g with eventManager := eventManager }
  { g with isRunning := true }

/-- The method `gameLoop`; `currentTime` is the frame timestamp. -/
def BodyControlGame.gameLoop (g : BodyControlGame) (currentTime now r : ℚ) :
    BodyControlGame :=
  if !g.isRunning then g
  else
    let deltaTime := currentTime - g.lastTime
    let g := { g with lastTime := currentTime }
    let eventManager := gameFrame g.eventManager deltaTime now r
    { g with eventManager := eventManager }

/-- The game state when the loop starts: constructed, interface shown, game
started. -/
def startedGame (now : ℚ) : EventManager :=
  (BodyControlGame.new now).init.eventManager

/-! ## Executions -/

/-- What can happen to a running game: a frame, a key press, a pending
callback of `EventManager`, the pending callback of `blink`. -/
inductive GameAction
  | frame (deltaTime now r : ℚ)
  | input (action : InputAction) (now : ℚ)
  | timer (i : Nat) (now r1 r2 : ℚ)
  | blinkTimeout
  deriving DecidableEq

/-- The effect of one action. -/
def EventManager.step (em : EventManager) : GameAction → EventManager
  | .frame deltaTime now r => gameFrame em deltaTime now r
  | .input action now => InputHandler.executeAction em action now
  | .timer i now r1 r2 => em.fireTimer i now r1 r2
  | .blinkTimeout =>
    if em.gameState.blinkTimers = 0 then em
    else
      let gameState := em.gameState.blinkTimeout
      { em with gameState := gameState }

/-- The effect of a sequence of actions, first to last. -/
def EventManager.run (em : EventManager) (actions : List GameAction) : EventManager :=
  actions.foldl EventManager.step em

/-- The calls of `triggerGameOver` recorded in a trace. -/
def gameOverCalls (trace : List Effect) : List EndingType :=
  trace.filterMap fun e =>
    match e with
    | .triggerGameOver type _ => some type
    | _ => none

/-! ## Scenarios

Concrete sessions, used to evaluate the code.  Wall-clock readings are
`1000000` plus the play time in milliseconds, presses of one key are at
least 100 ms apart (`InputHandler.keyRepeatDelay`), and a pending callback
runs when its delay has elapsed. -/

/-- Forty alternating steps, each of the two keys pressed every 100 ms
from `t` on. -/
def fortySteps (t : ℚ) : List GameAction :=
  (List.range 20).flatMap fun k =>
    [GameAction.input .stepLeft (t + 100 * k), GameAction.input .stepRight (t + 100 * k + 50)]

/-- Nine presses of the breathe key, 100 ms apart from `t` on. -/
def nineBreaths (t : ℚ) : List GameAction :=
  (List.range 9).map fun k => GameAction.input .breathe (t + 100 * k)

/-- The session up to the start of the first woods stage: frames at 30 s,
50 s and 51 s of play time. -/
def toFirstWoods : List GameAction :=
  [.frame 30000 1030000 0, .frame 20000 1050000 0, .frame 1000 1051000 (1 / 2)]

/-- The first woods stage has just started; the left-step key is pressed 22
times (one step, 21 missteps), and a frame runs at 53.4 s. -/
def woodsBeforeLastMisstep : EventManager :=
  (startedGame 1000000).run
    (toFirstWoods
      ++ (List.range 22).map (fun k => GameAction.input .stepLeft (1051050 + 100 * k))
      ++ [.frame 2400 1053400 0])

/-- The next press of the left-step key, at 53.45 s. -/
def woodsAfterLastMisstep : EventManager :=
  woodsBeforeLastMisstep.step (.input .stepLeft 1053450)

/-- The frame after that press, 66 ms after the previous frame. -/
def woodsNextFrame : EventManager :=
  woodsAfterLastMisstep.step (.frame 66 1053466 0)

/-- A session up to the first conversation prompt of the coffee stage, at
112 s.  The first woods stage is traversed in three seconds and ended by its
completion callback, the swallow prompt is answered, and the callback
`startConversation` has just run. -/
def toFirstPrompt : List GameAction :=
  toFirstWoods
    ++ fortySteps 1051050
    ++ [.frame 3000 1054000 0, .timer 1 1056000 0 0, .timer 0 1060000 0 0,
        .frame 46000 1100000 (1 / 2),
        .timer 0 1103000 0 0, .timer 0 1108000 0 0, .input .swallow 1109000,
        .timer 1 1111000 0 0, .timer 0 1112000 0 0]

/-- The state of that session: the coffee stage waits for the answer to its
first prompt. -/
def coffeeAtFirstPrompt : EventManager :=
  (startedGame 1000000).run toFirstPrompt

/-- A whole session up to 178 s of play time.  Both woods stages are
traversed in three seconds, the swallow prompt and both conversation
prompts are answered correctly, the heartbeat key is never pressed, and
from 175 s on the breathe key is pressed nine times a second. -/
def toFinishThreshold : List GameAction :=
  toFirstPrompt
    ++ [.input .option1 1113000, .timer 0 1113400 0 0, .input .option2 1115000,
        .frame 30000 1130000 0, .frame 2000 1132000 (1 / 2)]
    ++ fortySteps 1132050
    ++ [.frame 3000 1135000 0, .timer 1 1137000 0 0, .timer 0 1141000 0 0,
        .frame 40000 1175000 0]
    ++ nineBreaths 1175050 ++ [.frame 1000 1176000 0]
    ++ nineBreaths 1176050 ++ [.frame 1000 1177000 0]
    ++ nineBreaths 1177050 ++ [.frame 1000 1178000 0]
    ++ nineBreaths 1178050

/-- The state of that session at 178.85 s, before the frame at 179 s. -/
def atFinishThreshold : EventManager :=
  (startedGame 1000000).run toFinishThreshold

/-- The frame at 179 s has run `gameState.update`; the call of
`eventManager.update` is next. -/
def atFinishThresholdUpdated : EventManager :=
  { atFinishThreshold with gameState := atFinishThreshold.gameState.update 1000 1179000 }

/-- The session up to a frame in the first woods stage, with no key pressed
at all: frames at 30 s, 50 s, 51 s and 52 s. -/
def idleInFirstWoods : EventManager :=
  (startedGame 1000000).run (toFirstWoods ++ [.frame 1000 1052000 0])

/-- The first woods stage has just been started by the frame at 51 s. -/
def freshWoods : EventManager :=
  (startedGame 1000000).run toFirstWoods

/-- The first woods stage with suspicion at 93.6: eight steps and 21
missteps, a frame at 58 s, and at 60 s the pending callback of
`scheduleJumpPrompt` has opened a jump prompt. -/
def jumpPromptAtHighSuspicion : EventManager :=
  freshWoods.run
    ((List.range 4).flatMap (fun k =>
        [GameAction.input .stepLeft (1051050 + 100 * k),
         GameAction.input .stepRight (1051100 + 100 * k)])
      ++ (List.range 21).map (fun k => GameAction.input .stepRight (1051500 + 100 * k))
      ++ [.frame 7000 1058000 0, .timer 0 1060000 (1 / 2) (1 / 2)])

/-- A sequence of `handleStep` calls. -/
def EventManager.steps (em : EventManager) (feet : List Foot) : EventManager :=
  feet.foldl EventManager.handleStep em

/-- No `startConversation` callback is pending and none can be scheduled
again: the stage list is the constructor's and the cursor is either on the
coffee stage with an event active or beyond the coffee stage. -/
def EventManager.PastConversationStart (em : EventManager) : Prop :=
  (∀ p ∈ em.timers, p.2 ≠ Timer.startConversation)
    ∧ em.gameProgression.stages = defaultStages
    ∧ (3 ≤ em.gameProgression.currentStage
        ∨ (em.currentEvent.isSome = true ∧ em.gameProgression.currentStage = 2))

/-- From `em` to `em'` the conversation cannot have gone back to step 1:
the property `PastConversationStart` is kept and `conversationStep` is 1
afterwards only if it was 1 before. -/
def EventManager.KeepsConversation (em em' : EventManager) : Prop :=
  em.PastConversationStart →
    em'.PastConversationStart
      ∧ (em'.conversationState.conversationStep = 1 → em.conversationState.conversationStep = 1)

/-- The calls of `startEvent` recorded in a trace. -/
def startedEvents (trace : List Effect) : List EventType :=
  trace.filterMap fun e =>
    match e with
    | .startEvent eventType => some eventType
    | _ => none

/-- The fields of a session that steer the stage schedule, with the ending
calls and event starts recorded so far. -/
structure Control where
  gameStarted : Bool
  gameProgression : GameProgression
  currentEvent : Option GameEvent
  eventTimer : ℚ
  gameOverCalls : List EndingType
  startedEvents : List EventType

/-- The steering fields of a session. -/
def EventManager.control (em : EventManager) : Control where
  gameStarted := em.gameState.gameStarted
  gameProgression := em.gameProgression
  currentEvent := em.currentEvent
  eventTimer := em.eventTimer
  gameOverCalls := gameOverCalls em.trace
  startedEvents := startedEvents em.trace

/-- The conditions of the success path on an action taken in the state
`em`.  A frame has `deltaTime > 0` and, while the session is open, leaves
suspicion below the maximum.  The delayed `endCurrentEvent` of a completed
woods stage runs, while the session is open, only while that stage is still
active with its objective met. -/
def EventManager.onSuccessPath (em : EventManager) : GameAction → Bool
  | .frame deltaTime now r =>
    decide (0 < deltaTime)
      && (em.gameProgression.completed
        || decide ((gameFrame em deltaTime now r).gameState.suspicion.current
            < (gameFrame em deltaTime now r).gameState.suspicion.max))
  | .timer i _ _ _ =>
    match em.timers.get? i with
    | some (_, .endCurrentEvent) =>
      em.gameProgression.completed
        || (isEventOfType em.currentEvent .runningWoods && em.runningState.completed)
    | _ => true
  | _ => true

/-- The state after the first `n` actions of an unending schedule. -/
def EventManager.after (em : EventManager) (schedule : ℕ → GameAction) : ℕ → EventManager
  | 0 => em
  | n + 1 => (em.after schedule n).step (schedule n)

/-- The play time an action adds: the `deltaTime` of a frame. -/
def frameTime : GameAction → ℚ
  | .frame deltaTime _ _ => deltaTime
  | _ => 0

/-- The play time the first `n` actions of a schedule add up to. -/
def elapsed (schedule : ℕ → GameAction) : ℕ → ℚ
  | 0 => 0
  | n + 1 => elapsed schedule n + frameTime (schedule n)

/-- The schedule that runs the actions of a list and then repeats one
action for ever. -/
def scheduleOf (actions : List GameAction) (rest : GameAction) : ℕ → GameAction :=
  fun n => actions.getD n rest

/-- The conditions of the success path along a list of actions. -/
def EventManager.successPath (em : EventManager) : List GameAction → Bool
  | [] => true
  | a :: rest => em.onSuccessPath a && (em.step a).successPath rest

/-- The types of the stages in schedule order. -/
def stageOrder : List EventType :=
  defaultStages.map (·.type)

/-- How far a session has come: twice the stage cursor, plus one while the
stage's event runs, and 9 once the session is completed. -/
def Control.progress (c : Control) : ℕ :=
  if c.gameProgression.completed then 9
  else 2 * c.gameProgression.currentStage + (if c.currentEvent.isSome then 1 else 0)

/-- The timer value from which a frame moves the session on: the end of the
running event, or else the start of the stage under the cursor. -/
def Control.due (c : Control) : ℚ :=
  match c.currentEvent with
  | some ev => ev.startTime + ev.duration
  | none =>
    match c.gameProgression.stages.get? c.gameProgression.currentStage with
    | some stage => stage.startTime
    | none => 0

/-- The session is on schedule: started, with the stage list of the
constructor; while open, no ending call has been made and the events
started are the stages up to the cursor, in order; once completed, the one
ending call is `success` and every stage has been started, in order. -/
def Control.OnSchedule (c : Control) : Prop :=
  c.gameStarted = true ∧ c.gameProgression.stages = defaultStages ∧
    if c.gameProgression.completed then
      c.gameOverCalls = [.success] ∧ c.startedEvents = stageOrder
    else
      c.gameOverCalls = [] ∧
        match c.currentEvent with
        | none =>
          c.gameProgression.currentStage ≤ 4
            ∧ c.startedEvents = stageOrder.take c.gameProgression.currentStage
        | some _ =>
          c.gameProgression.currentStage ≤ 3
            ∧ c.startedEvents = stageOrder.take (c.gameProgression.currentStage + 1)

/-- A whole session on the success path.  Both woods stages are traversed
in three seconds and ended by their completion callbacks, the swallow prompt
and both conversation prompts are answered correctly, and the frame at
179 s of play time finds no event active. -/
def successRun : List GameAction :=
  toFirstPrompt
    ++ [.input .option1 1113000, .timer 0 1113400 0 0, .input .option2 1115000,
        .frame 30000 1130000 0, .frame 2000 1132000 (1 / 2)]
    ++ fortySteps 1132050
    ++ [.frame 3000 1135000 0, .timer 1 1137000 0 0, .timer 0 1141000 0 0,
        .frame 40000 1175000 0, .frame 4000 1179000 0]

/-- That session, followed by a frame every second for ever. -/
def successSchedule : ℕ → GameAction :=
  scheduleOf successRun (.frame 1000 1180000 0)

/-- A session in which the first woods stage is traversed late.  The jump
prompts at 60 s, 69 s, 78 s and 87 s are answered; forty alternating steps
are taken from 92 s on; the frame at 95 s finds the distance at 100 and
schedules the completion callback for 97 s; the frame at 96 s ends the
stage, its 45 s being over; the pending jump prompt of 96 s runs. -/
def staleEndRun : List GameAction :=
  toFirstWoods
    ++ [.frame 9000 1060000 0, .timer 0 1060000 (1 / 2) (1 / 2), .input .jump 1061000,
        .timer 0 1062000 0 0,
        .frame 9000 1069000 0, .timer 0 1069000 (1 / 2) (1 / 2), .input .jump 1070000,
        .timer 0 1071000 0 0,
        .frame 9000 1078000 0, .timer 0 1078000 (1 / 2) (1 / 2), .input .jump 1079000,
        .timer 0 1080000 0 0,
        .frame 9000 1087000 0, .timer 0 1087000 (1 / 2) (1 / 2), .input .jump 1088000,
        .timer 0 1089000 0 0]
    ++ fortySteps 1092000
    ++ [.frame 8000 1095000 0, .frame 1000 1096000 0, .timer 0 1096000 (1 / 2) (1 / 2)]

/-- The state of that session at 96 s: no event is active and the
completion callback of the ended woods stage is still pending. -/
def afterStaleEndRun : EventManager :=
  (startedGame 1000000).run staleEndRun

/-- A session in which the first conversation prompt of the coffee stage
is answered late and wrongly, at 129 s; the frame at 130 s ends the stage,
its 30 s being over. -/
def lateAnswerRun : List GameAction :=
  toFirstPrompt ++ [.input .option2 1129000, .frame 30000 1130000 0]

/-- The state of that session at 130 s: no event is active and the delayed
`showSecondConversation` of the answer is still pending. -/
def afterLateAnswer : EventManager :=
  (startedGame 1000000).run lateAnswerRun

/-- The state at the end of the session `successRun`: the success ending
has been triggered. -/
def endedSession : EventManager :=
  (startedGame 1000000).run successRun

/-- Thirty-five presses of the breathe key, 100 ms apart from `t` on. -/
def thirtyFiveBreaths (t : ℚ) : List GameAction :=
  (List.range 35).map fun k => GameAction.input .breathe (t + 100 * k)

/-- A session up to the swallow prompt of the coffee stage, at 108 s.  The
first woods stage is traversed in three seconds; once the coffee stage has
started the breathe key is pressed 35 times, and the callbacks
`promptEyeContact` and `promptSwallow` run at 103 s and 108 s. -/
def toSwallowPromptAtHighSuspicion : List GameAction :=
  toFirstWoods
    ++ fortySteps 1051050
    ++ [.frame 3000 1054000 0, .timer 1 1056000 0 0, .timer 0 1060000 0 0,
        .frame 46000 1100000 (1 / 2)]
    ++ thirtyFiveBreaths 1100050
    ++ [.timer 0 1103000 0 0, .timer 0 1108000 0 0]

/-- The state of that session: the swallow prompt is open and suspicion is
at 95. -/
def swallowPromptAtHighSuspicion : EventManager :=
  (startedGame 1000000).run toSwallowPromptAtHighSuspicion

/-- The same session with the swallow prompt answered at 109 s, up to the
first conversation prompt at 112 s; suspicion is still at 95. -/
def conversationAtHighSuspicion : EventManager :=
  swallowPromptAtHighSuspicion.run
    [.input .swallow 1109000, .timer 1 1111000 0 0, .timer 0 1112000 0 0]

/-! ## `ASCIIVideo` -/

/-- The frame arrays a sequence can hold: the two generated patterns and the
five arrays imported from the data files, under their import names. -/
inductive Frames
  | generatedIdle | generatedLoading
  | walkingFrames | coffeeFrames | introFrames | successFrames | failureFrames
  deriving DecidableEq

/-- The class `ASCIIVideo`, reduced to the table of sequences and the
playback fields written by `playSequence`; a sequence is identified by its
frame array.  `warnings` records the names reported as not found. -/
structure ASCIIVideo where
  sequences : List (String × Frames)
  currentSequence : Option Frames
  frameIndex : Nat
  loop : Bool
  isPlaying : Bool
  warnings : List String
  deriving DecidableEq

/-- The call `sequences.set(name, ...)` on the `Map`: a key already present
keeps its place and gets the new value, a new key is added at the end. -/
def ASCIIVideo.setSequence (v : ASCIIVideo) (name : String) (frames : Frames) :
    ASCIIVideo :=
  let sequences :=
    if v.sequences.any (fun p => p.1 == name) then
      v.sequences.map fun p => if p.1 == name then (name, frames) else p
    else v.sequences ++ [(name, frames)]
  { v with sequences := sequences }

/-- The call `sequences.get(name)`. -/
def ASCIIVideo.getSequence (v : ASCIIVideo) (name : String) : Option Frames :=
  (v.sequences.find? fun p => p.1 == name).map fun p => p.2

/-- The method `loadSequence`. -/
def ASCIIVideo.loadSequence (v : ASCIIVideo) (name : String) (frames : Frames) :
    ASCIIVideo :=
  v.setSequence name frames

/-- The method `loadDefaultSequences`. -/
def ASCIIVideo.loadDefaultSequences (v : ASCIIVideo) : ASCIIVideo :=
  let v := v.setSequence "idle" .generatedIdle
  let v := v.setSequence "loading" .generatedLoading
  let v := v.loadSequence "walking" .walkingFrames
  let v := v.loadSequence "coffee" .coffeeFrames
  let v := v.loadSequence "idle" .introFrames
  let v := v.loadSequence "success" .successFrames
  v.loadSequence "failure" .failureFrames

/-- The constructor of `ASCIIVideo`: the fields are initialised and
`loadDefaultSequences` is called. -/
def ASCIIVideo.new : ASCIIVideo :=
  ASCIIVideo.loadDefaultSequences
    { sequences := [], currentSequence := none, frameIndex := 0, loop := true,
      isPlaying := false, warnings := [] }

/-- The method `playSequence`. -/
def ASCIIVideo.playSequence (v : ASCIIVideo) (name : String) (loop : Bool) : ASCIIVideo :=
  match v.getSequence name with
  | none =>
    let warnings := v.warnings ++ [name]
    { v with warnings := warnings }
  | some sequence =>
    let v := { v with currentSequence := some sequence }
    let v := { v with frameIndex := 0 }
    let v := { v with loop := loop }
    { v with isPlaying := true }

/-- The method `init` of `ASCIIVideo`. -/
def ASCIIVideo.init (v : ASCIIVideo) : ASCIIVideo :=
  v.playSequence "idle" true

/-- The calls of `asciiVideo.playSequence` recorded in a trace, made on the
player in order.  `EventManager` passes the name only, so `loop` has its
default `true`. -/
def ASCIIVideo.replay (v : ASCIIVideo) (trace : List Effect) : ASCIIVideo :=
  trace.foldl
    (fun v e =>
      match e with
      | .playSequence name => v.playSequence name true
      | _ => v)
    v

/-- The session up to the frame at 30 s of play time, which starts the
baseline stage. -/
def atBaselineStart : EventManager :=
  (startedGame 1000000).step (.frame 30000 1030000 0)

/-- The game state without the two values `EventManager` writes to: the
suspicion value and the current event. -/
def GameState.body (gs : GameState) : GameState :=
  let gs := { gs with suspicion.current := 0 }
  { gs with currentEvent := none }

/-- What a method of `EventManager` other than `handleStep`,
`handleEyeContact` and the jump timeout leaves of the state apart from the
event bookkeeping: the event timer and the body of the game state are kept;
the running distance is kept or reset to 0; the eye-contact level and target
are kept or reset, the level to 50 and the target to 50 or, by the start of a
coffee stage drawing `r`, to `40 + r * 20`. -/
def EventManager.Footprint (r : ℚ) (em em' : EventManager) : Prop :=
  em'.eventTimer = em.eventTimer
    ∧ em'.gameState.body = em.gameState.body
    ∧ (em'.runningState.distance = em.runningState.distance
        ∨ em'.runningState.distance = 0)
    ∧ ((em'.conversationState.eyeContactLevel = em.conversationState.eyeContactLevel
          ∧ em'.conversationState.eyeContactTarget = em.conversationState.eyeContactTarget)
        ∨ (em'.conversationState.eyeContactLevel = 50
          ∧ (em'.conversationState.eyeContactTarget = 50
            ∨ em'.conversationState.eyeContactTarget = 40 + r * 20)))

/-- The number of pending callbacks that end the current event. -/
def EventManager.pendingEnds (em : EventManager) : Nat :=
  em.timers.countP fun p => p.2 = Timer.endCurrentEvent

/-- The number of actions of a sequence that schedule a delayed end of the
event. -/
def EventManager.completionEdges (em : EventManager) : List GameAction → Nat
  | [] => 0
  | a :: rest =>
    (if em.pendingEnds < (em.step a).pendingEnds then 1 else 0)
      + (em.step a).completionEdges rest

/-- The event `ev` is the current event after every action of the
sequence. -/
def EventManager.StaysIn (em : EventManager) (ev : GameEvent) : List GameAction → Prop
  | [] => True
  | a :: rest => (em.step a).currentEvent = some ev ∧ (em.step a).StaysIn ev rest

/-- The action is a press of the eye-contact key. -/
def GameAction.isEyeContact : GameAction → Bool
  | .input .eyeContact _ => true
  | _ => false

/-- The number of presses of the eye-contact key in a sequence of
actions. -/
def eyeContactPresses (actions : List GameAction) : Nat :=
  actions.countP GameAction.isEyeContact

/-- The level `handleEyeContact` writes: `level < 50 ? 70 : 30`. -/
def eyeContactToggle (level : ℚ) : ℚ :=
  if level < 50 then 70 else 30

/-- The eye contact is as the start of a coffee stage or the end of an event
leaves it: the level at 50 and the target within 40 and 60. -/
def EventManager.EyeContactNeutral (em : EventManager) : Prop :=
  em.conversationState.eyeContactLevel = 50
    ∧ 40 ≤ em.conversationState.eyeContactTarget
    ∧ em.conversationState.eyeContactTarget < 60

/-- The action is a frame whose draw of `Math.random()` lies in `[0, 1)`, or
a press of the eye-contact key with no coffee stage active, or any other
key or callback. -/
def EventManager.KeepsNeutral (em : EventManager) : GameAction → Prop
  | .frame _ _ r => 0 ≤ r ∧ r < 1
  | .input .eyeContact _ => isEventOfType em.currentEvent .orderCoffee = false
  | _ => True

/-- Through a sequence of actions every draw of `Math.random()` in a frame
lies in `[0, 1)` and the eye-contact key is not pressed while a coffee stage
is active. -/
def EventManager.NoEyeContact (em : EventManager) : List GameAction → Prop
  | [] => True
  | a :: rest => em.KeepsNeutral a ∧ (em.step a).NoEyeContact rest

/-- The first woods stage traversed: forty steps in two seconds, then the
frame at 54 s, which finds the distance at 100. -/
def woodsCompleted : EventManager :=
  freshWoods.run (fortySteps 1051050 ++ [.frame 3000 1054000 0])

/-- The action is not a frame, or a frame with `deltaTime > 0`. -/
def GameAction.positiveFrame : GameAction → Bool
  | .frame deltaTime _ _ => decide (0 < deltaTime)
  | _ => true

/-- The highest suspicion value among the states a sequence of actions
passes through, the first and the last included. -/
def EventManager.peakSuspicion (em : EventManager) : List GameAction → ℚ
  | [] => em.gameState.suspicion.current
  | a :: rest => max em.gameState.suspicion.current ((em.step a).peakSuspicion rest)

/-- The session `staleEndRun` played to its end.  The completion callback
of the first woods stage runs at 97 s, with no event active; frames follow
at 100 s and 132 s; the second woods stage is traversed in three seconds and
ended by its completion callback; frames follow at 175 s and 179 s. -/
def skippedCoffeeRun : List GameAction :=
  staleEndRun
    ++ [.timer 0 1097000 0 0, .frame 4000 1100000 (1 / 2), .frame 32000 1132000 (1 / 2)]
    ++ fortySteps 1132050
    ++ [.frame 3000 1135000 0, .timer 1 1137000 0 0, .timer 0 1141000 0 0,
        .frame 40000 1175000 0, .frame 4000 1179000 0]

/-- A sequence of `addSuspicion` calls. -/
def GameState.addSuspicionAll (gs : GameState) (amounts : List ℚ) : GameState :=
  amounts.foldl GameState.addSuspicion gs

/-- The number of `triggerGameOver('failure')` calls recorded in a trace. -/
def failureCalls (trace : List Effect) : Nat :=
  (gameOverCalls trace).count .failure

/-! # Theorems -/

/-! ## Lemmas on the trace and on a completed session -/

theorem gameOverCalls_append (t₁ t₂ : List Effect) :
    gameOverCalls (t₁ ++ t₂) = gameOverCalls t₁ ++ gameOverCalls t₂ := by
  simp [gameOverCalls, List.filterMap_append]

/-- An update of a completed session does nothing. -/
theorem EventManager.update_of_completed (em : EventManager) (deltaTime now r : ℚ)
    (h : em.gameProgression.completed = true) : em.update deltaTime now r = em := by
  simp [EventManager.update, h]


@[simp] theorem gameOverCalls_nil : gameOverCalls [] = [] := rfl

@[simp] theorem gameOverCalls_playSequence (name : String) (t : List Effect) :
    gameOverCalls (.playSequence name :: t) = gameOverCalls t := rfl

@[simp] theorem gameOverCalls_showEventDisplay (content : Popup) (urgent force : Bool)
    (t : List Effect) :
    gameOverCalls (.showEventDisplay content urgent force :: t) = gameOverCalls t := rfl

@[simp] theorem gameOverCalls_updateEventPopup (content : Popup) (t : List Effect) :
    gameOverCalls (.updateEventPopup content :: t) = gameOverCalls t := rfl

@[simp] theorem gameOverCalls_hideEventPopup (t : List Effect) :
    gameOverCalls (.hideEventPopup :: t) = gameOverCalls t := rfl

@[simp] theorem gameOverCalls_fadeOutColumns (t : List Effect) :
    gameOverCalls (.fadeOutColumns :: t) = gameOverCalls t := rfl

@[simp] theorem gameOverCalls_showEndScreen (endingType : EndingType) (t : List Effect) :
    gameOverCalls (.showEndScreen endingType :: t) = gameOverCalls t := rfl

@[simp] theorem gameOverCalls_startEvent (eventType : EventType) (t : List Effect) :
    gameOverCalls (.startEvent eventType :: t) = gameOverCalls t := rfl

@[simp] theorem gameOverCalls_triggerGameOver (type : EndingType) (reason : String)
    (t : List Effect) :
    gameOverCalls (.triggerGameOver type reason :: t) = type :: gameOverCalls t := rfl

theorem EventManager.endCurrentEvent_gameOverCalls (em : EventManager) :
    gameOverCalls em.endCurrentEvent.trace = gameOverCalls em.trace := by
  unfold EventManager.endCurrentEvent
  dsimp only
  (repeat' split) <;>
    simp [gameOverCalls_append, EventManager.playSequence,
      EventManager.hideEventPopup, EventManager.emit]

theorem EventManager.endCurrentEvent_suspicion (em : EventManager) :
    em.endCurrentEvent.gameState.suspicion = em.gameState.suspicion := by
  unfold EventManager.endCurrentEvent
  dsimp only
  (repeat' split) <;> rfl

theorem EventManager.endCurrentEvent_completed (em : EventManager) :
    em.endCurrentEvent.gameProgression.completed = em.gameProgression.completed := by
  unfold EventManager.endCurrentEvent
  dsimp only
  (repeat' split) <;> rfl

theorem EventManager.startFinishEvent_gameOverCalls (em : EventManager)
    (endingType : EndingType) (reason : String) :
    gameOverCalls (em.startFinishEvent endingType reason).trace = gameOverCalls em.trace := by
  unfold EventManager.startFinishEvent
  dsimp only
  (repeat' split) <;>
    simp [gameOverCalls_append, EventManager.playSequence,
      EventManager.hideEventPopup, EventManager.emit, EventManager.setTimeout,
      EventManager.muteUIForEnd, EventManager.fadeOutColumns,
      EventManager.showFailureCaption, EventManager.showEventDisplay]

theorem EventManager.startEvent_gameOverCalls (em : EventManager) (eventType : EventType)
    (options : Option (EndingType × String)) (r : ℚ) :
    gameOverCalls (em.startEvent eventType options r).trace = gameOverCalls em.trace := by
  unfold EventManager.startEvent
  dsimp only
  (repeat' split) <;>
    simp [EventManager.startFinishEvent_gameOverCalls, gameOverCalls_append,
      EventManager.startBaselineEvent, EventManager.startOrderCoffeeEvent,
      EventManager.startRunningWoodsEvent, EventManager.scheduleJumpPrompt,
      EventManager.playSequence, EventManager.showEventPopup,
      EventManager.showEventDisplay, EventManager.emit, EventManager.setTimeout] <;>
    (repeat' split) <;>
    simp [gameOverCalls_append]

theorem EventManager.startEvent_suspicion (em : EventManager) (eventType : EventType)
    (options : Option (EndingType × String)) (r : ℚ) :
    (em.startEvent eventType options r).gameState.suspicion = em.gameState.suspicion := by
  unfold EventManager.startEvent
  dsimp only
  (repeat' split) <;>
    simp [EventManager.startBaselineEvent, EventManager.startOrderCoffeeEvent,
      EventManager.startRunningWoodsEvent, EventManager.scheduleJumpPrompt,
      EventManager.startFinishEvent, EventManager.muteUIForEnd, EventManager.fadeOutColumns,
      EventManager.showFailureCaption, EventManager.hideEventPopup,
      EventManager.playSequence, EventManager.showEventPopup,
      EventManager.showEventDisplay, EventManager.emit, EventManager.setTimeout] <;>
    (repeat' split) <;> rfl

theorem EventManager.startEvent_completed (em : EventManager) (eventType : EventType)
    (options : Option (EndingType × String)) (r : ℚ) :
    (em.startEvent eventType options r).gameProgression.completed
      = em.gameProgression.completed := by
  unfold EventManager.startEvent
  dsimp only
  (repeat' split) <;>
    simp [EventManager.startBaselineEvent, EventManager.startOrderCoffeeEvent,
      EventManager.startRunningWoodsEvent, EventManager.scheduleJumpPrompt,
      EventManager.startFinishEvent, EventManager.muteUIForEnd, EventManager.fadeOutColumns,
      EventManager.showFailureCaption, EventManager.hideEventPopup,
      EventManager.playSequence, EventManager.showEventPopup,
      EventManager.showEventDisplay, EventManager.emit, EventManager.setTimeout] <;>
    (repeat' split) <;> rfl

theorem EventManager.triggerGameOver_gameOverCalls (em : EventManager) (type : EndingType)
    (reason : String) :
    gameOverCalls (em.triggerGameOver type reason).trace = gameOverCalls em.trace ++ [type] := by
  unfold EventManager.triggerGameOver
  dsimp only
  rw [EventManager.startEvent_gameOverCalls]
  split
  · rw [EventManager.endCurrentEvent_gameOverCalls]
    simp [EventManager.emit, gameOverCalls_append]
  · simp [EventManager.emit, gameOverCalls_append]

theorem EventManager.triggerGameOver_suspicion (em : EventManager) (type : EndingType)
    (reason : String) :
    (em.triggerGameOver type reason).gameState.suspicion = em.gameState.suspicion := by
  unfold EventManager.triggerGameOver
  dsimp only
  rw [EventManager.startEvent_suspicion]
  split
  · rw [EventManager.endCurrentEvent_suspicion]; rfl
  · rfl

theorem EventManager.triggerGameOver_completed (em : EventManager) (type : EndingType)
    (reason : String) :
    (em.triggerGameOver type reason).gameProgression.completed = true := by
  unfold EventManager.triggerGameOver
  dsimp only
  rw [EventManager.startEvent_completed]
  split
  · rw [EventManager.endCurrentEvent_completed]
  · rfl

theorem EventManager.checkForNextStage_suspicion (em : EventManager) (r : ℚ) :
    (em.checkForNextStage r).gameState.suspicion = em.gameState.suspicion := by
  unfold EventManager.checkForNextStage
  (repeat' split) <;>
    first
      | rfl
      | exact EventManager.triggerGameOver_suspicion _ _ _
      | exact EventManager.startEvent_suspicion _ _ _ _

theorem EventManager.checkForNextStage_failureCalls (em : EventManager) (r : ℚ) :
    failureCalls (em.checkForNextStage r).trace = failureCalls em.trace := by
  unfold EventManager.checkForNextStage failureCalls
  (repeat' split) <;>
    first
      | rfl
      | (rw [EventManager.triggerGameOver_gameOverCalls]; simp)
      | rw [EventManager.startEvent_gameOverCalls]

theorem EventManager.updateOrderCoffeeEvent_gameOverCalls (em : EventManager)
    (deltaTime now : ℚ) :
    gameOverCalls (em.updateOrderCoffeeEvent deltaTime now).trace = gameOverCalls em.trace := by
  unfold EventManager.updateOrderCoffeeEvent
  dsimp only [EventManager.updateEventPopup, EventManager.emit]
  split_ifs <;> simp [gameOverCalls_append]

theorem EventManager.updateOrderCoffeeEvent_gameState (em : EventManager)
    (deltaTime now : ℚ) :
    (em.updateOrderCoffeeEvent deltaTime now).gameState
      = if |em.conversationState.eyeContactLevel - em.conversationState.eyeContactTarget| > 15
        then em.gameState.addSuspicion (1 / 2 * (deltaTime / 1000))
        else em.gameState := by
  unfold EventManager.updateOrderCoffeeEvent
  dsimp only [EventManager.updateEventPopup, EventManager.emit]
  split_ifs <;> rfl

theorem EventManager.updateOrderCoffeeEvent_at_max (em : EventManager)
    (deltaTime now : ℚ) (hdt : 0 ≤ deltaTime)
    (h : em.gameState.suspicion.max ≤ em.gameState.suspicion.current) :
    (em.updateOrderCoffeeEvent deltaTime now).gameState.suspicion.max
        = em.gameState.suspicion.max
      ∧ em.gameState.suspicion.max
        ≤ (em.updateOrderCoffeeEvent deltaTime now).gameState.suspicion.current := by
  have hamount : (0 : ℚ) ≤ 1 / 2 * (deltaTime / 1000) := by positivity
  rw [EventManager.updateOrderCoffeeEvent_gameState]
  split_ifs
  · refine ⟨rfl, ?_⟩
    show _ ≤ min _ _
    exact le_min le_rfl (by linarith)
  · exact ⟨rfl, h⟩

theorem EventManager.updateRunningWoodsEvent_gameOverCalls (em : EventManager) :
    gameOverCalls em.updateRunningWoodsEvent.trace = gameOverCalls em.trace := by
  unfold EventManager.updateRunningWoodsEvent
  dsimp only [EventManager.showEventDisplay, EventManager.setTimeout, EventManager.emit]
  split_ifs <;> simp [gameOverCalls_append]

theorem EventManager.updateRunningWoodsEvent_gameState (em : EventManager) :
    em.updateRunningWoodsEvent.gameState = em.gameState := by
  unfold EventManager.updateRunningWoodsEvent
  dsimp only [EventManager.showEventDisplay, EventManager.setTimeout, EventManager.emit]
  split_ifs <;> rfl

theorem EventManager.updateCurrentEvent_gameOverCalls (em : EventManager)
    (deltaTime now : ℚ) :
    gameOverCalls (em.updateCurrentEvent deltaTime now).trace = gameOverCalls em.trace := by
  unfold EventManager.updateCurrentEvent
  split
  · rfl
  · dsimp only
    split
    · exact EventManager.endCurrentEvent_gameOverCalls _
    · split
      · exact EventManager.updateOrderCoffeeEvent_gameOverCalls _ _ _
      · exact EventManager.updateRunningWoodsEvent_gameOverCalls _
      · rfl

theorem EventManager.updateCurrentEvent_at_max (em : EventManager)
    (deltaTime now : ℚ) (hdt : 0 ≤ deltaTime)
    (h : em.gameState.suspicion.max ≤ em.gameState.suspicion.current) :
    (em.updateCurrentEvent deltaTime now).gameState.suspicion.max
      ≤ (em.updateCurrentEvent deltaTime now).gameState.suspicion.current := by
  unfold EventManager.updateCurrentEvent
  split
  · exact h
  · dsimp only
    split
    · rw [EventManager.endCurrentEvent_suspicion]; exact h
    · split
      · obtain ⟨h1, h2⟩ := EventManager.updateOrderCoffeeEvent_at_max em deltaTime now hdt h
        rw [h1]; exact h2
      · rw [EventManager.updateRunningWoodsEvent_gameState]; exact h
      · exact h

theorem EventManager.checkGameOverConditions_at_max (em : EventManager)
    (h : em.gameState.suspicion.max ≤ em.gameState.suspicion.current) :
    em.checkGameOverConditions = em.triggerGameOver .failure "Suspicion reached maximum" := by
  unfold EventManager.checkGameOverConditions
  rw [if_pos h]

/-- The method `update` in terms of its intermediate states. -/
theorem EventManager.update_eq (em : EventManager) (deltaTime now r : ℚ) :
    em.update deltaTime now r =
      if em.gameState.gameStarted && !em.gameProgression.completed then
        (em.beforeOutcomeCheck deltaTime now r).checkGameOverConditions
      else em := rfl

theorem EventManager.afterStageCheck_suspicion (em : EventManager) (deltaTime r : ℚ) :
    (em.afterStageCheck deltaTime r).gameState.suspicion = em.gameState.suspicion := by
  unfold EventManager.afterStageCheck
  dsimp only
  split
  · rw [EventManager.checkForNextStage_suspicion]
  · rfl

theorem EventManager.afterStageCheck_failureCalls (em : EventManager) (deltaTime r : ℚ) :
    failureCalls (em.afterStageCheck deltaTime r).trace = failureCalls em.trace := by
  unfold EventManager.afterStageCheck
  dsimp only
  split
  · rw [EventManager.checkForNextStage_failureCalls]
  · rfl

theorem EventManager.beforeOutcomeCheck_failureCalls (em : EventManager)
    (deltaTime now r : ℚ) :
    failureCalls (em.beforeOutcomeCheck deltaTime now r).trace = failureCalls em.trace := by
  unfold EventManager.beforeOutcomeCheck
  dsimp only
  split
  · unfold failureCalls
    rw [EventManager.updateCurrentEvent_gameOverCalls]
    exact EventManager.afterStageCheck_failureCalls em deltaTime r
  · exact EventManager.afterStageCheck_failureCalls em deltaTime r

theorem EventManager.beforeOutcomeCheck_at_max (em : EventManager) (deltaTime now r : ℚ)
    (hdt : 0 ≤ deltaTime)
    (hMax : em.gameState.suspicion.max ≤ em.gameState.suspicion.current) :
    (em.beforeOutcomeCheck deltaTime now r).gameState.suspicion.max
      ≤ (em.beforeOutcomeCheck deltaTime now r).gameState.suspicion.current := by
  have h2 : (em.afterStageCheck deltaTime r).gameState.suspicion.max
      ≤ (em.afterStageCheck deltaTime r).gameState.suspicion.current := by
    rw [EventManager.afterStageCheck_suspicion]; exact hMax
  unfold EventManager.beforeOutcomeCheck
  dsimp only
  split
  · exact EventManager.updateCurrentEvent_at_max _ deltaTime now hdt h2
  · exact h2

/-- A call of `update` on a started, uncompleted session whose suspicion is
at the maximum makes exactly one `triggerGameOver('failure')` call and
completes the session. -/
theorem EventManager.update_at_max (em : EventManager) (deltaTime now r : ℚ)
    (hStarted : em.gameState.gameStarted = true)
    (hOpen : em.gameProgression.completed = false)
    (hdt : 0 ≤ deltaTime)
    (hMax : em.gameState.suspicion.max ≤ em.gameState.suspicion.current) :
    failureCalls (em.update deltaTime now r).trace = failureCalls em.trace + 1
      ∧ (em.update deltaTime now r).gameProgression.completed = true := by
  rw [EventManager.update_eq, if_pos (by simp [hStarted, hOpen]),
    EventManager.checkGameOverConditions_at_max _
      (EventManager.beforeOutcomeCheck_at_max em deltaTime now r hdt hMax)]
  refine ⟨?_, EventManager.triggerGameOver_completed _ _ _⟩
  have h := EventManager.beforeOutcomeCheck_failureCalls em deltaTime now r
  unfold failureCalls at h ⊢
  rw [EventManager.triggerGameOver_gameOverCalls, List.count_append, h]
  simp

theorem EventManager.checkForNextStage_gameOverCalls (em : EventManager) (r : ℚ) :
    gameOverCalls (em.checkForNextStage r).trace = gameOverCalls em.trace
      ∨ gameOverCalls (em.checkForNextStage r).trace = gameOverCalls em.trace ++ [.success] := by
  unfold EventManager.checkForNextStage
  (repeat' split) <;>
    first
      | exact Or.inl rfl
      | exact Or.inr (EventManager.triggerGameOver_gameOverCalls _ _ _)
      | exact Or.inl (EventManager.startEvent_gameOverCalls _ _ _ _)

theorem EventManager.beforeOutcomeCheck_gameOverCalls (em : EventManager)
    (deltaTime now r : ℚ) :
    gameOverCalls (em.beforeOutcomeCheck deltaTime now r).trace = gameOverCalls em.trace
      ∨ gameOverCalls (em.beforeOutcomeCheck deltaTime now r).trace
        = gameOverCalls em.trace ++ [.success] := by
  have h : gameOverCalls (em.afterStageCheck deltaTime r).trace = gameOverCalls em.trace
      ∨ gameOverCalls (em.afterStageCheck deltaTime r).trace
        = gameOverCalls em.trace ++ [.success] := by
    unfold EventManager.afterStageCheck
    dsimp only
    split
    · exact EventManager.checkForNextStage_gameOverCalls _ r
    · exact Or.inl rfl
  unfold EventManager.beforeOutcomeCheck
  dsimp only
  split
  · rw [EventManager.updateCurrentEvent_gameOverCalls]; exact h
  · exact h

/-! ## Actions on a completed session -/

set_option maxHeartbeats 1000000 in
/-- No action on a completed session reopens it or calls `triggerGameOver`. -/
theorem EventManager.step_of_completed (em : EventManager) (a : GameAction)
    (h : em.gameProgression.completed = true) :
    (em.step a).gameProgression.completed = true
      ∧ gameOverCalls (em.step a).trace = gameOverCalls em.trace := by
  cases a with
  | frame deltaTime now r =>
    simp [EventManager.step, gameFrame, EventManager.update, h]
  | input action now =>
    cases action <;>
      simp only [EventManager.step, InputHandler.executeAction, EventManager.handleEyeContact,
        EventManager.handleSwallow, EventManager.handleStep, EventManager.handleJump,
        EventManager.handleConversationOption, EventManager.hideEventPopup,
        EventManager.showEventPopup, EventManager.showEventDisplay, EventManager.emit,
        EventManager.setTimeout] <;>
      (repeat' split) <;> simp_all [gameOverCalls_append]
  | timer i now r1 r2 =>
    simp only [EventManager.step, EventManager.fireTimer]
    split
    · exact ⟨h, rfl⟩
    · rename_i d t _
      cases t <;>
        simp only [EventManager.runCallback, EventManager.promptEyeContact,
          EventManager.promptSwallow, EventManager.startConversation,
          EventManager.showFirstConversation, EventManager.swallowTimeout,
          EventManager.showSecondConversation, EventManager.promptJump,
          EventManager.scheduleJumpPrompt, EventManager.jumpTimeout,
          EventManager.endCurrentEvent, EventManager.showEndScreen,
          EventManager.playSequence, EventManager.hideEventPopup,
          EventManager.showEventPopup, EventManager.showEventDisplay, EventManager.emit,
          EventManager.setTimeout] <;>
        (repeat' split) <;> simp_all [gameOverCalls_append]
  | blinkTimeout =>
    simp only [EventManager.step]
    split <;> simp_all

/-- No sequence of actions on a completed session reopens it or calls
`triggerGameOver`. -/
theorem EventManager.run_of_completed (actions : List GameAction) :
    ∀ em : EventManager, em.gameProgression.completed = true →
      (em.run actions).gameProgression.completed = true
        ∧ gameOverCalls (em.run actions).trace = gameOverCalls em.trace := by
  induction actions with
  | nil => intro em h; exact ⟨h, rfl⟩
  | cons a rest ih =>
    intro em h
    obtain ⟨h1, h2⟩ := EventManager.step_of_completed em a h
    obtain ⟨h3, h4⟩ := ih (em.step a) h1
    exact ⟨h3, h4.trans h2⟩

/-! ## C1 -/

/-- C1, evaluated on the code.  In the first woods stage a misstep's
`addSuspicion(4)` brings suspicion from 97.28 to the maximum 100 while the
game is started and no ending has been triggered.  The next frame, 66 ms
later, decays suspicion to 99.9472 in `GameState.update` before
`EventManager.update` compares it with the maximum: no `triggerGameOver`
call is made and the session goes on. -/
theorem misstep_to_max_suspicion_next_frame_no_failure :
    woodsBeforeLastMisstep.gameState.gameStarted = true
      ∧ woodsBeforeLastMisstep.gameProgression.completed = false
      ∧ woodsBeforeLastMisstep.isEnding = false
      ∧ isEventOfType woodsBeforeLastMisstep.currentEvent .runningWoods = true
      ∧ woodsBeforeLastMisstep.gameState.suspicion.current = 2432 / 25
      ∧ woodsAfterLastMisstep = woodsBeforeLastMisstep.handleStep .left
      ∧ woodsAfterLastMisstep.gameState.suspicion.current = 100
      ∧ woodsAfterLastMisstep.gameState.suspicion.max = 100
      ∧ woodsNextFrame = gameFrame woodsAfterLastMisstep 66 1053466 0
      ∧ woodsNextFrame.gameState.suspicion.current = 62467 / 625
      ∧ gameOverCalls woodsNextFrame.trace = []
      ∧ woodsNextFrame.gameProgression.completed = false
      ∧ woodsNextFrame.isEnding = false := by
  decide!

/-! ## C2 -/

/-- C2, evaluated on the code.  In the session `toFinishThreshold` no event
is active at 178.85 s, the cursor is on the finish stage and suspicion has
been raised to 100 by `breathe`.  In the frame at 179 s `GameState.update`
decays suspicion to 99.2 and the hyperventilation alert of
`checkExtremeVitals` brings it back to 100; the single call of
`EventManager.update` that follows then makes both calls,
`triggerGameOver('success')` from `checkForNextStage` and
`triggerGameOver('failure')` from `checkGameOverConditions`, and leaves two
end screens pending. -/
theorem finish_stage_and_max_suspicion_start_both_endings :
    atFinishThreshold.gameState.gameStarted = true
      ∧ atFinishThreshold.gameProgression.completed = false
      ∧ atFinishThreshold.isEnding = false
      ∧ atFinishThreshold.currentEvent = none
      ∧ atFinishThreshold.gameProgression.currentStage = 4
      ∧ atFinishThreshold.eventTimer = 178000
      ∧ atFinishThreshold.timers = []
      ∧ gameOverCalls atFinishThreshold.trace = []
      ∧ atFinishThresholdUpdated.gameState.suspicion.current = 100
      ∧ gameFrame atFinishThreshold 1000 1179000 0
          = atFinishThresholdUpdated.update 1000 1179000 0
      ∧ gameOverCalls (atFinishThresholdUpdated.update 1000 1179000 0).trace
          = [.success, .failure]
      ∧ (atFinishThresholdUpdated.update 1000 1179000 0).timers
          = [(8000, .showEndScreen .success), (8000, .showEndScreen .failure)] := by
  decide!

/-! ## C3 -/

/-- The failure ending at maximum suspicion.  Take a started session with
no ending triggered whose suspicion is at the maximum, and a call of
`EventManager.update` with `deltaTime ≥ 0`.  That call makes exactly one
`triggerGameOver('failure')` call and completes the session; it makes no
other ending call, except that `checkForNextStage` may have made the
`triggerGameOver('success')` call of the finish stage just before in the
same call.  From then on every call of `EventManager.update`, for any
arguments, returns the state unchanged, and no sequence of frames, key
presses and callbacks adds an ending call. -/
theorem failure_ending_is_one_shot (em : EventManager) (deltaTime now r : ℚ)
    (later : List GameAction)
    (hStarted : em.gameState.gameStarted = true)
    (hOpen : em.gameProgression.completed = false)
    (hdt : 0 ≤ deltaTime)
    (hMax : em.gameState.suspicion.max ≤ em.gameState.suspicion.current) :
    failureCalls (em.update deltaTime now r).trace = failureCalls em.trace + 1
      ∧ (gameOverCalls (em.update deltaTime now r).trace = gameOverCalls em.trace ++ [.failure]
        ∨ gameOverCalls (em.update deltaTime now r).trace
          = gameOverCalls em.trace ++ [.success, .failure])
      ∧ (∀ deltaTime' now' r' : ℚ,
          (em.update deltaTime now r).update deltaTime' now' r' = em.update deltaTime now r)
      ∧ gameOverCalls ((em.update deltaTime now r).run later).trace
          = gameOverCalls (em.update deltaTime now r).trace
      ∧ failureCalls ((em.update deltaTime now r).run later).trace
          = failureCalls em.trace + 1 := by
  obtain ⟨hCount, hDone⟩ := EventManager.update_at_max em deltaTime now r hStarted hOpen hdt hMax
  obtain ⟨-, hLater⟩ := EventManager.run_of_completed later _ hDone
  refine ⟨hCount, ?_, fun _ _ _ => EventManager.update_of_completed _ _ _ _ hDone, hLater, ?_⟩
  · rw [EventManager.update_eq, if_pos (by simp [hStarted, hOpen]),
      EventManager.checkGameOverConditions_at_max _
        (EventManager.beforeOutcomeCheck_at_max em deltaTime now r hdt hMax),
      EventManager.triggerGameOver_gameOverCalls]
    rcases EventManager.beforeOutcomeCheck_gameOverCalls em deltaTime now r with h | h
    · exact Or.inl (by rw [h])
    · exact Or.inr (by rw [h]; simp)
  · unfold failureCalls at hCount ⊢
    rw [hLater, hCount]

/-- The failure ending at a concrete state: the session
`woodsAfterLastMisstep`, whose suspicion a misstep has just brought to the
maximum, updated with no time elapsed and followed by three more frames. -/
theorem failure_ending_is_one_shot_witness :
    failureCalls (woodsAfterLastMisstep.update 0 1053450 0).trace = 0 + 1
      ∧ gameOverCalls (((woodsAfterLastMisstep.update 0 1053450 0).run
          [.frame 16 1053466 0, .frame 16 1053482 0, .frame 16 1053498 0]).trace)
        = [.failure] := by
  have h := failure_ending_is_one_shot woodsAfterLastMisstep 0 1053450 0
    [.frame 16 1053466 0, .frame 16 1053482 0, .frame 16 1053498 0]
    (by decide!) (by decide!) (le_refl 0) (by decide!)
  have h0 : failureCalls woodsAfterLastMisstep.trace = 0 := by decide!
  have h1 : gameOverCalls (woodsAfterLastMisstep.update 0 1053450 0).trace = [.failure] := by
    decide!
  rw [h0] at h
  exact ⟨h.1, h.2.2.2.1.trans h1⟩

/-- C3, evaluated on the code.  In the session `toFinishThreshold` suspicion
has been driven to the maximum by the `addSuspicion` calls of `breathe`, the
game is started and no ending has been triggered.  The frame at 179 s
triggers the failure ending, but in the same call of `EventManager.update`
the stage check has just triggered the success ending: the run counts two
`triggerGameOver` calls, success and failure, not one.  The session is
completed by that call, and the later frames and the two end-screen
callbacks add no further call.  What holds in general is the count of
failure calls: an update of a started, open session at maximum suspicion
makes exactly one `triggerGameOver('failure')` call, preceded in that same
update by at most the success call of the finish stage, and no later action
adds an ending call. -/
theorem failure_ending_follows_success_ending_in_one_update :
    atFinishThresholdUpdated.gameState.gameStarted = true
      ∧ atFinishThresholdUpdated.gameProgression.completed = false
      ∧ atFinishThresholdUpdated.gameState.suspicion.current = 100
      ∧ atFinishThresholdUpdated.gameState.suspicion.max = 100
      ∧ gameOverCalls atFinishThresholdUpdated.trace = []
      ∧ gameOverCalls (atFinishThresholdUpdated.update 1000 1179000 0).trace
        = [.success, .failure]
      ∧ (gameOverCalls (atFinishThresholdUpdated.update 1000 1179000 0).trace).length = 2
      ∧ failureCalls (atFinishThresholdUpdated.update 1000 1179000 0).trace = 1
      ∧ (atFinishThresholdUpdated.update 1000 1179000 0).gameProgression.completed = true
      ∧ gameOverCalls ((atFinishThresholdUpdated.update 1000 1179000 0).run
          [.frame 16 1179016 0, .frame 16 1179032 0, .timer 0 1187000 0 0,
            .timer 0 1187000 0 0]).trace
        = [.success, .failure]
      ∧ ∀ (em : EventManager) (deltaTime now r : ℚ) (later : List GameAction),
          em.gameState.gameStarted = true → em.gameProgression.completed = false →
          0 ≤ deltaTime → em.gameState.suspicion.max ≤ em.gameState.suspicion.current →
          failureCalls (em.update deltaTime now r).trace = failureCalls em.trace + 1
            ∧ (gameOverCalls (em.update deltaTime now r).trace
                = gameOverCalls em.trace ++ [.failure]
              ∨ gameOverCalls (em.update deltaTime now r).trace
                = gameOverCalls em.trace ++ [.success, .failure])
            ∧ gameOverCalls ((em.update deltaTime now r).run later).trace
              = gameOverCalls (em.update deltaTime now r).trace :=
  ⟨by decide!, by decide!, by decide!, by decide!, by decide!, by decide!, by decide!,
    by decide!, by decide!, by decide!,
    fun em deltaTime now r later hStarted hOpen hdt hMax =>
      have h := failure_ending_is_one_shot em deltaTime now r later hStarted hOpen hdt hMax
      ⟨h.1, h.2.1, h.2.2.2.1⟩⟩

/-! ## C4 -/

theorem GameState.addSuspicion_le_max (gs : GameState) (amount : ℚ) :
    (gs.addSuspicion amount).suspicion.current ≤ (gs.addSuspicion amount).suspicion.max :=
  min_le_left _ _

theorem GameState.addSuspicion_nonneg (gs : GameState) (amount : ℚ)
    (hmax : 0 ≤ gs.suspicion.max) (hcur : 0 ≤ gs.suspicion.current) (hamount : 0 ≤ amount) :
    0 ≤ (gs.addSuspicion amount).suspicion.current :=
  le_min hmax (add_nonneg hcur hamount)

/-- The invariant of a sequence of `addSuspicion` calls with non-negative
amounts. -/
theorem GameState.addSuspicionAll_bounds (amounts : List ℚ) :
    ∀ gs : GameState, 0 ≤ gs.suspicion.current → gs.suspicion.current ≤ gs.suspicion.max →
      (∀ a ∈ amounts, 0 ≤ a) →
      0 ≤ (gs.addSuspicionAll amounts).suspicion.current
        ∧ (gs.addSuspicionAll amounts).suspicion.current
          ≤ (gs.addSuspicionAll amounts).suspicion.max
        ∧ (gs.addSuspicionAll amounts).suspicion.max = gs.suspicion.max := by
  induction amounts with
  | nil => intro gs h0 h1 _; exact ⟨h0, h1, rfl⟩
  | cons a rest ih =>
    intro gs h0 h1 ha
    have hmax : 0 ≤ gs.suspicion.max := le_trans h0 h1
    have hstep := ih (gs.addSuspicion a)
      (GameState.addSuspicion_nonneg gs a hmax h0 (ha a (List.mem_cons_self a rest)))
      (GameState.addSuspicion_le_max gs a)
      (fun b hb => ha b (List.mem_cons_of_mem a hb))
    exact hstep

/-- C4, the claim as stated fails: `addSuspicion` has no lower clamp, so on
the constructed state the call `addSuspicion(-1)` leaves suspicion at -1. -/
theorem addSuspicion_negative_amount_below_zero :
    ((GameState.new 1000000).addSuspicionAll [-1]).suspicion.current = -1
      ∧ ((GameState.new 1000000).addSuspicionAll [-1]).suspicion.current < 0 := by
  decide!

/-- C4, amended.  For every finite sequence of `addSuspicion` calls with
non-negative amounts, starting from the constructed state, suspicion stays
within `[0, max]` after every call, that is after every prefix of the
sequence. -/
theorem addSuspicion_sequence_clamped (now : ℚ) (amounts : List ℚ) (k : ℕ)
    (h : ∀ a ∈ amounts, 0 ≤ a) :
    0 ≤ ((GameState.new now).addSuspicionAll (amounts.take k)).suspicion.current
      ∧ ((GameState.new now).addSuspicionAll (amounts.take k)).suspicion.current
        ≤ ((GameState.new now).addSuspicionAll (amounts.take k)).suspicion.max := by
  have hb := GameState.addSuspicionAll_bounds (amounts.take k) (GameState.new now)
    (le_refl 0) (by show (0 : ℚ) ≤ 100; norm_num)
    (fun a ha => h a (List.mem_of_mem_take ha))
  exact ⟨hb.1, hb.2.1⟩

/-- C4, amended, at a concrete sequence: the amounts 3, 97.5 and 15, after
the second call. -/
theorem addSuspicion_sequence_clamped_witness :
    0 ≤ ((GameState.new 1000000).addSuspicionAll
          (([3, 195 / 2, 15] : List ℚ).take 2)).suspicion.current
      ∧ ((GameState.new 1000000).addSuspicionAll
          (([3, 195 / 2, 15] : List ℚ).take 2)).suspicion.current
        ≤ ((GameState.new 1000000).addSuspicionAll
          (([3, 195 / 2, 15] : List ℚ).take 2)).suspicion.max :=
  addSuspicion_sequence_clamped 1000000 [3, 195 / 2, 15] 2 (by decide!)

/-! ## C5 -/

/-- C5, evaluated on the code.  With no key pressed, the frames at 30 s,
50 s, 51 s and 52 s of play time lead into the first woods stage with
oxygen enabled.  In the frame at 52 s `updateVitals` clamps oxygen to 0 and
then subtracts the running drain without clamping again: `oxygen.current`
is -73/75, below `oxygen.min = 0`. -/
theorem oxygen_below_min_during_woods :
    idleInFirstWoods.gameState.vitals.oxygen.enabled = true
      ∧ isEventOfType idleInFirstWoods.gameState.currentEvent .runningWoods = true
      ∧ idleInFirstWoods.gameState.vitals.oxygen.min = 0
      ∧ idleInFirstWoods.gameState.vitals.oxygen.current = -73 / 75
      ∧ idleInFirstWoods.gameState.vitals.oxygen.current
        < idleInFirstWoods.gameState.vitals.oxygen.min := by
  decide!

/-! ## Lemmas on the woods stage -/

/-- A step with the other foot. -/
theorem EventManager.handleStep_alternating (em : EventManager) (foot : Foot)
    (hEnding : em.isEnding = false)
    (hWoods : isEventOfType em.currentEvent .runningWoods = true)
    (hFoot : em.runningState.lastStepFoot ≠ some foot) :
    em.handleStep foot =
      { em with
        runningState :=
          { em.runningState with
            distance := min 100 (em.runningState.distance + 5 / 2)
            lastStepFoot := some foot
            stepCount := em.runningState.stepCount + 1 } } := by
  unfold EventManager.handleStep
  rw [if_neg (by simp [hEnding]), if_pos hWoods, if_neg hFoot]

/-- A step with the same foot as the last one. -/
theorem EventManager.handleStep_repeated (em : EventManager) (foot : Foot)
    (hEnding : em.isEnding = false)
    (hWoods : isEventOfType em.currentEvent .runningWoods = true)
    (hFoot : em.runningState.lastStepFoot = some foot) :
    em.handleStep foot =
      { em with
        runningState := { em.runningState with distance := max 0 (em.runningState.distance - 5) }
        gameState := em.gameState.addSuspicion 4 } := by
  unfold EventManager.handleStep
  rw [if_neg (by simp [hEnding]), if_pos hWoods, if_pos hFoot]

theorem EventManager.startRunningWoodsEvent_runningState (em : EventManager) (r : ℚ) :
    (em.startRunningWoodsEvent r).runningState
      = { em.runningState with
          distance := 0
          lastStepFoot := none
          stepCount := 0
          completed := false } := by
  unfold EventManager.startRunningWoodsEvent EventManager.scheduleJumpPrompt
  dsimp only [EventManager.showEventPopup, EventManager.showEventDisplay,
    EventManager.playSequence, EventManager.setTimeout, EventManager.emit]
  split_ifs <;> rfl

theorem EventManager.startRunningWoodsEvent_isEnding (em : EventManager) (r : ℚ) :
    (em.startRunningWoodsEvent r).isEnding = em.isEnding := by
  unfold EventManager.startRunningWoodsEvent EventManager.scheduleJumpPrompt
  dsimp only [EventManager.showEventPopup, EventManager.showEventDisplay,
    EventManager.playSequence, EventManager.setTimeout, EventManager.emit]
  split_ifs <;> rfl

theorem EventManager.startRunningWoodsEvent_currentEvent (em : EventManager) (r : ℚ) :
    (em.startRunningWoodsEvent r).currentEvent = em.currentEvent := by
  unfold EventManager.startRunningWoodsEvent EventManager.scheduleJumpPrompt
  dsimp only [EventManager.showEventPopup, EventManager.showEventDisplay,
    EventManager.playSequence, EventManager.setTimeout, EventManager.emit]
  split_ifs <;> rfl

theorem EventManager.startRunningWoodsEvent_gameState (em : EventManager) (r : ℚ) :
    (em.startRunningWoodsEvent r).gameState = em.gameState := by
  unfold EventManager.startRunningWoodsEvent EventManager.scheduleJumpPrompt
  dsimp only [EventManager.showEventPopup, EventManager.showEventDisplay,
    EventManager.playSequence, EventManager.setTimeout, EventManager.emit]
  split_ifs <;> rfl

/-- The state in which `startEvent('runningWoods')` leaves the woods stage. -/
theorem EventManager.startEvent_runningWoods (em : EventManager) (r : ℚ) :
    (em.startEvent .runningWoods none r).isEnding = em.isEnding
      ∧ isEventOfType (em.startEvent .runningWoods none r).currentEvent .runningWoods = true
      ∧ (em.startEvent .runningWoods none r).runningState.distance = 0
      ∧ (em.startEvent .runningWoods none r).runningState.lastStepFoot = none
      ∧ (em.startEvent .runningWoods none r).runningState.stepCount = 0
      ∧ (em.startEvent .runningWoods none r).gameState.suspicion = em.gameState.suspicion := by
  refine ⟨?_, ?_, ?_, ?_, ?_, EventManager.startEvent_suspicion _ _ _ _⟩ <;>
    unfold EventManager.startEvent <;> dsimp only
  · rw [EventManager.startRunningWoodsEvent_isEnding]; rfl
  · rw [EventManager.startRunningWoodsEvent_currentEvent]; rfl
  all_goals (rw [EventManager.startRunningWoodsEvent_runningState])

/-! ## C7 -/

/-- C7.  Alternation rule, correct steps.  In a woods stage freshly started
by `startEvent('runningWoods')` on a manager that is not ending, distance
is 0, no foot has stepped and the step count is 0; the steps left, right,
left, right bring distance to 2.5, 5, 7.5 and 10, leave the step count at 4
and add no suspicion (the game state is untouched).  In general, while a
woods event is active and the manager is not ending, a step with a foot
other than `lastStepFoot` sets distance to `min(100, distance + 2.5)`,
records the foot and increments the step count by one. -/
theorem alternating_steps_advance (em : EventManager) (r : ℚ)
    (hEnding : em.isEnding = false) :
    (em.startEvent .runningWoods none r).runningState.distance = 0
      ∧ (em.startEvent .runningWoods none r).runningState.lastStepFoot = none
      ∧ (em.startEvent .runningWoods none r).runningState.stepCount = 0
      ∧ ((em.startEvent .runningWoods none r).steps [.left]).runningState.distance = 5 / 2
      ∧ ((em.startEvent .runningWoods none r).steps [.left, .right]).runningState.distance = 5
      ∧ ((em.startEvent .runningWoods none r).steps
          [.left, .right, .left]).runningState.distance = 15 / 2
      ∧ ((em.startEvent .runningWoods none r).steps
          [.left, .right, .left, .right]).runningState.distance = 10
      ∧ ((em.startEvent .runningWoods none r).steps
          [.left, .right, .left, .right]).runningState.stepCount = 4
      ∧ ((em.startEvent .runningWoods none r).steps
          [.left, .right, .left, .right]).gameState
        = (em.startEvent .runningWoods none r).gameState
      ∧ ∀ (s : EventManager) (foot : Foot), s.isEnding = false →
          isEventOfType s.currentEvent .runningWoods = true →
          s.runningState.lastStepFoot ≠ some foot →
          (s.handleStep foot).runningState.distance = min 100 (s.runningState.distance + 5 / 2)
            ∧ (s.handleStep foot).runningState.stepCount = s.runningState.stepCount + 1
            ∧ (s.handleStep foot).runningState.lastStepFoot = some foot
            ∧ (s.handleStep foot).gameState = s.gameState := by
  obtain ⟨h0e, h0w, h0d, h0f, h0c, -⟩ := EventManager.startEvent_runningWoods em r
  rw [hEnding] at h0e
  generalize em.startEvent .runningWoods none r = s0 at *
  have e1 := EventManager.handleStep_alternating s0 .left h0e h0w (by rw [h0f]; simp)
  have e2 := EventManager.handleStep_alternating (s0.handleStep .left) .right
    (by rw [e1]; exact h0e) (by rw [e1]; exact h0w) (by rw [e1]; simp)
  have e3 := EventManager.handleStep_alternating ((s0.handleStep .left).handleStep .right) .left
    (by rw [e2, e1]; exact h0e) (by rw [e2, e1]; exact h0w) (by rw [e2]; simp)
  have e4 := EventManager.handleStep_alternating
    (((s0.handleStep .left).handleStep .right).handleStep .left) .right
    (by rw [e3, e2, e1]; exact h0e) (by rw [e3, e2, e1]; exact h0w) (by rw [e3]; simp)
  have d1 : (s0.handleStep .left).runningState.distance = 5 / 2 := by
    rw [e1]; simp only [h0d]; norm_num
  have d2 : ((s0.handleStep .left).handleStep .right).runningState.distance = 5 := by
    rw [e2]; simp only [d1]; norm_num
  have d3 : (((s0.handleStep .left).handleStep .right).handleStep .left).runningState.distance
      = 15 / 2 := by
    rw [e3]; simp only [d2]; norm_num
  have d4 : ((((s0.handleStep .left).handleStep .right).handleStep .left).handleStep
      .right).runningState.distance = 10 := by
    rw [e4]; simp only [d3]; norm_num
  refine ⟨h0d, h0f, h0c, d1, d2, d3, d4, ?_, ?_, ?_⟩
  · show ((((s0.handleStep .left).handleStep .right).handleStep .left).handleStep
      .right).runningState.stepCount = 4
    rw [e4, e3, e2, e1]; simp only [h0c]
  · show ((((s0.handleStep .left).handleStep .right).handleStep .left).handleStep
      .right).gameState = s0.gameState
    rw [e4, e3, e2, e1]
  · intro s foot hE hW hF
    rw [EventManager.handleStep_alternating s foot hE hW hF]
    exact ⟨rfl, rfl, rfl, rfl⟩

/-- C7 at a concrete state: the session after the frames at 30 s and 50 s,
in which the woods stage is then started. -/
theorem alternating_steps_advance_witness :
    ((((startedGame 1000000).run [.frame 30000 1030000 0, .frame 20000 1050000 0]).startEvent
        .runningWoods none (1 / 2)).steps [.left, .right, .left, .right]).runningState.distance
      = 10
    ∧ ((((startedGame 1000000).run [.frame 30000 1030000 0, .frame 20000 1050000 0]).startEvent
        .runningWoods none (1 / 2)).steps [.left, .right, .left, .right]).runningState.stepCount
      = 4 :=
  have h := alternating_steps_advance
    ((startedGame 1000000).run [.frame 30000 1030000 0, .frame 20000 1050000 0]) (1 / 2)
    (by decide!)
  ⟨h.2.2.2.2.2.2.1, h.2.2.2.2.2.2.2.1⟩

/-! ## C8 -/

/-- C8, the claim as stated fails.  In the freshly started first woods
stage the step left brings distance to 2.5 and the second step left brings
it to 0: it decreases by 2.5, not by 5. -/
theorem repeated_foot_distance_floored_at_zero :
    freshWoods.runningState.distance = 0
      ∧ (freshWoods.steps [.left]).runningState.distance = 5 / 2
      ∧ (freshWoods.steps [.left, .left]).runningState.distance = 0
      ∧ (freshWoods.steps [.left]).runningState.distance
          - (freshWoods.steps [.left, .left]).runningState.distance = 5 / 2 := by
  decide!

/-- C8, amended.  In a woods stage freshly started on a manager that is not
ending, after the steps left, left the distance is 0 (the first step
brought it to 2.5 and the second floors `2.5 - 5` at 0), suspicion is
`min(max, current + 4)`, the step count is 1 and `lastStepFoot` is still
left.  In general a step with the foot of `lastStepFoot` sets distance to
`max(0, distance - 5)`, which is a decrease by 5 when distance is at least
5, sets suspicion to `min(max, current + 4)`, which is an increase by 4
when that does not exceed the maximum, and leaves the step count and
`lastStepFoot` unchanged. -/
theorem repeated_foot_penalty (em : EventManager) (r : ℚ)
    (hEnding : em.isEnding = false) :
    ((em.startEvent .runningWoods none r).steps [.left, .left]).runningState.distance = 0
      ∧ ((em.startEvent .runningWoods none r).steps [.left, .left]).gameState.suspicion.current
        = min em.gameState.suspicion.max (em.gameState.suspicion.current + 4)
      ∧ ((em.startEvent .runningWoods none r).steps [.left, .left]).runningState.stepCount = 1
      ∧ ((em.startEvent .runningWoods none r).steps [.left, .left]).runningState.lastStepFoot
        = some .left
      ∧ ∀ (s : EventManager) (foot : Foot), s.isEnding = false →
          isEventOfType s.currentEvent .runningWoods = true →
          s.runningState.lastStepFoot = some foot →
          (s.handleStep foot).runningState.distance = max 0 (s.runningState.distance - 5)
            ∧ (5 ≤ s.runningState.distance →
                (s.handleStep foot).runningState.distance = s.runningState.distance - 5)
            ∧ (s.handleStep foot).gameState.suspicion.current
              = min s.gameState.suspicion.max (s.gameState.suspicion.current + 4)
            ∧ (s.gameState.suspicion.current + 4 ≤ s.gameState.suspicion.max →
                (s.handleStep foot).gameState.suspicion.current
                  = s.gameState.suspicion.current + 4)
            ∧ (s.handleStep foot).runningState.stepCount = s.runningState.stepCount
            ∧ (s.handleStep foot).runningState.lastStepFoot = s.runningState.lastStepFoot := by
  obtain ⟨h0e, h0w, h0d, h0f, h0c, h0s⟩ := EventManager.startEvent_runningWoods em r
  rw [hEnding] at h0e
  generalize em.startEvent .runningWoods none r = s0 at *
  have e1 := EventManager.handleStep_alternating s0 .left h0e h0w (by rw [h0f]; simp)
  have e2 := EventManager.handleStep_repeated (s0.handleStep .left) .left
    (by rw [e1]; exact h0e) (by rw [e1]; exact h0w) (by rw [e1])
  have d1 : (s0.handleStep .left).runningState.distance = 5 / 2 := by
    rw [e1]; simp only [h0d]; norm_num
  refine ⟨?_, ?_, ?_, ?_, ?_⟩
  · show ((s0.handleStep .left).handleStep .left).runningState.distance = 0
    rw [e2]; simp only [d1]; norm_num
  · show ((s0.handleStep .left).handleStep .left).gameState.suspicion.current = _
    rw [e2, e1, ← h0s]; rfl
  · show ((s0.handleStep .left).handleStep .left).runningState.stepCount = 1
    rw [e2, e1]; simp only [h0c]
  · show ((s0.handleStep .left).handleStep .left).runningState.lastStepFoot = _
    rw [e2, e1]
  · intro s foot hE hW hF
    rw [EventManager.handleStep_repeated s foot hE hW hF]
    refine ⟨rfl, fun h => max_eq_right (by linarith), rfl, fun h => min_eq_right h, rfl, rfl⟩

/-- C8, amended, at a concrete state: the session after the frames at 30 s
and 50 s, in which the woods stage is then started. -/
theorem repeated_foot_penalty_witness :
    ((((startedGame 1000000).run [.frame 30000 1030000 0, .frame 20000 1050000 0]).startEvent
        .runningWoods none (1 / 2)).steps [.left, .left]).runningState.distance = 0
    ∧ ((((startedGame 1000000).run [.frame 30000 1030000 0, .frame 20000 1050000 0]).startEvent
        .runningWoods none (1 / 2)).steps [.left, .left]).runningState.stepCount = 1 :=
  have h := repeated_foot_penalty
    ((startedGame 1000000).run [.frame 30000 1030000 0, .frame 20000 1050000 0]) (1 / 2)
    (by decide!)
  ⟨h.1, h.2.2.1⟩

/-! ## C9 -/

theorem EventManager.promptJump_of_woods (em : EventManager) (r : ℚ)
    (hWoods : isEventOfType em.currentEvent .runningWoods = true) :
    (em.promptJump r).runningState = { em.runningState with jumpPromptActive := true }
      ∧ (em.promptJump r).timers = em.timers ++ [(2000, .jumpTimeout)]
      ∧ (em.promptJump r).gameState = em.gameState
      ∧ (em.promptJump r).currentEvent = em.currentEvent
      ∧ (em.promptJump r).isEnding = em.isEnding := by
  unfold EventManager.promptJump
  rw [if_pos hWoods]
  dsimp only [EventManager.showEventPopup, EventManager.showEventDisplay,
    EventManager.setTimeout, EventManager.emit]
  split_ifs <;> exact ⟨rfl, rfl, rfl, rfl, rfl⟩

/-- The callback of `promptJump` with the prompt still open. -/
theorem EventManager.jumpTimeout_of_active (em : EventManager)
    (h : em.runningState.jumpPromptActive = true) :
    em.jumpTimeout =
      { em with
        runningState :=
          { em.runningState with
            jumpPromptActive := false
            distance := max 0 (em.runningState.distance - 10) }
        gameState := em.gameState.addSuspicion 10
        trace := em.trace ++ [.hideEventPopup] } := by
  unfold EventManager.jumpTimeout
  rw [if_pos h]
  rfl

/-- The callback of `promptJump` with the prompt closed. -/
theorem EventManager.jumpTimeout_of_inactive (em : EventManager)
    (h : em.runningState.jumpPromptActive = false) : em.jumpTimeout = em := by
  unfold EventManager.jumpTimeout
  rw [if_neg (by simp [h])]

/-- C9, the claim as stated fails.  In the first woods stage, with suspicion
at 93.6 and a jump prompt open, the timeout callback raises suspicion to the
maximum 100, an increase of 6.4 and not of 10. -/
theorem jump_timeout_suspicion_clamped :
    isEventOfType jumpPromptAtHighSuspicion.currentEvent .runningWoods = true
      ∧ jumpPromptAtHighSuspicion.runningState.jumpPromptActive = true
      ∧ jumpPromptAtHighSuspicion.timers = [(2000, .jumpTimeout), (9000, .jumpPrompt)]
      ∧ jumpPromptAtHighSuspicion.gameState.suspicion.current = 468 / 5
      ∧ (jumpPromptAtHighSuspicion.fireTimer 0 1062000 0 0).gameState.suspicion.current = 100
      ∧ (jumpPromptAtHighSuspicion.fireTimer 0 1062000 0 0).gameState.suspicion.current
          - jumpPromptAtHighSuspicion.gameState.suspicion.current = 32 / 5
      ∧ (jumpPromptAtHighSuspicion.fireTimer 0 1062000 0 0).runningState.jumpPromptActive
          = false := by
  decide!

/-- C9, amended.  In an active woods stage on a manager that is not ending,
`promptJump` opens the prompt and schedules the 2000 ms callback.  With no
`handleJump` in between, the callback sets suspicion to
`min(max, current + 10)`, an increase of exactly 10 when that does not
exceed the maximum, sets distance to `max(0, distance - 10)` and closes the
prompt.  When `handleJump` was called first, the callback changes
nothing. -/
theorem jump_timeout_penalty (em : EventManager) (r : ℚ)
    (hEnding : em.isEnding = false)
    (hWoods : isEventOfType em.currentEvent .runningWoods = true) :
    (em.promptJump r).runningState.jumpPromptActive = true
      ∧ (em.promptJump r).timers = em.timers ++ [(2000, .jumpTimeout)]
      ∧ (em.promptJump r).jumpTimeout.gameState.suspicion.current
        = min em.gameState.suspicion.max (em.gameState.suspicion.current + 10)
      ∧ (em.gameState.suspicion.current + 10 ≤ em.gameState.suspicion.max →
          (em.promptJump r).jumpTimeout.gameState.suspicion.current
            = em.gameState.suspicion.current + 10)
      ∧ (em.promptJump r).jumpTimeout.runningState.distance
        = max 0 (em.runningState.distance - 10)
      ∧ (em.promptJump r).jumpTimeout.runningState.jumpPromptActive = false
      ∧ (em.promptJump r).handleJump.runningState.jumpPromptActive = false
      ∧ (em.promptJump r).handleJump.jumpTimeout = (em.promptJump r).handleJump := by
  obtain ⟨hr, ht, hg, hc, he⟩ := EventManager.promptJump_of_woods em r hWoods
  have hActive : (em.promptJump r).runningState.jumpPromptActive = true := by rw [hr]
  have hTimeout := EventManager.jumpTimeout_of_active (em.promptJump r) hActive
  have hJump : (em.promptJump r).handleJump.runningState.jumpPromptActive = false := by
    unfold EventManager.handleJump
    rw [if_neg (by rw [he]; simp [hEnding]), if_pos (by rw [hc, hWoods, hActive]; rfl)]
    rfl
  refine ⟨hActive, ht, ?_, ?_, ?_, ?_, hJump, EventManager.jumpTimeout_of_inactive _ hJump⟩
  · rw [hTimeout]; show (( em.promptJump r).gameState.addSuspicion 10).suspicion.current = _
    rw [hg]; rfl
  · intro hle
    rw [hTimeout]; show (( em.promptJump r).gameState.addSuspicion 10).suspicion.current = _
    rw [hg]; exact min_eq_right hle
  · rw [hTimeout]; show max 0 ((em.promptJump r).runningState.distance - 10) = _
    rw [hr]
  · rw [hTimeout]

/-- C9, amended, at a concrete state: the freshly started first woods
stage. -/
theorem jump_timeout_penalty_witness :
    ((freshWoods.promptJump (1 / 2)).jumpTimeout.gameState.suspicion.current
        = min freshWoods.gameState.suspicion.max (freshWoods.gameState.suspicion.current + 10))
      ∧ (freshWoods.promptJump (1 / 2)).handleJump.jumpTimeout
        = (freshWoods.promptJump (1 / 2)).handleJump :=
  have h := jump_timeout_penalty freshWoods (1 / 2) (by decide!) (by decide!)
  ⟨h.2.2.1, h.2.2.2.2.2.2.2⟩

/-! ## Lemmas on the conversation -/

theorem EventManager.KeepsConversation.refl (em : EventManager) : em.KeepsConversation em :=
  fun h => ⟨h, id⟩

theorem EventManager.KeepsConversation.trans {em₁ em₂ em₃ : EventManager}
    (h₁ : em₁.KeepsConversation em₂) (h₂ : em₂.KeepsConversation em₃) :
    em₁.KeepsConversation em₃ := fun h =>
  ⟨(h₂ (h₁ h).1).1, fun h3 => (h₁ h).2 ((h₂ (h₁ h).1).2 h3)⟩

/-- A change that leaves the pending callbacks, the progression, the
current event and the conversation step alone keeps the conversation. -/
theorem EventManager.KeepsConversation.of_same {em em' : EventManager}
    (ht : em'.timers = em.timers) (hp : em'.gameProgression = em.gameProgression)
    (hc : em'.currentEvent = em.currentEvent)
    (hs : em'.conversationState.conversationStep = em.conversationState.conversationStep) :
    em.KeepsConversation em' := by
  intro h
  unfold EventManager.PastConversationStart at h ⊢
  rw [ht, hp, hc, hs]
  exact ⟨h, id⟩

/-- Scheduling a callback other than `startConversation` keeps the
conversation. -/
theorem EventManager.KeepsConversation.setTimeout (em : EventManager) (t : Timer) (d : ℚ)
    (ht : t ≠ .startConversation) : em.KeepsConversation (em.setTimeout t d) := by
  intro h
  unfold EventManager.PastConversationStart at h ⊢
  refine ⟨⟨?_, h.2⟩, id⟩
  intro p hp
  rcases List.mem_append.1 hp with hp | hp
  · exact h.1 p hp
  · rw [List.mem_singleton.1 hp]; exact ht

theorem EventManager.endCurrentEvent_timers (em : EventManager) :
    em.endCurrentEvent.timers = em.timers := by
  unfold EventManager.endCurrentEvent
  dsimp only [EventManager.hideEventPopup, EventManager.playSequence, EventManager.emit]
  split_ifs <;> rfl

theorem EventManager.endCurrentEvent_stages (em : EventManager) :
    em.endCurrentEvent.gameProgression.stages = em.gameProgression.stages := by
  unfold EventManager.endCurrentEvent
  dsimp only [EventManager.hideEventPopup, EventManager.playSequence, EventManager.emit]
  split_ifs <;> rfl

theorem EventManager.endCurrentEvent_currentStage (em : EventManager) :
    em.endCurrentEvent.gameProgression.currentStage
      = if em.gameProgression.currentStage + 1 < em.gameProgression.stages.length
        then em.gameProgression.currentStage + 1 else em.gameProgression.currentStage := by
  unfold EventManager.endCurrentEvent
  dsimp only [EventManager.hideEventPopup, EventManager.playSequence, EventManager.emit]
  split_ifs <;> rfl

theorem EventManager.endCurrentEvent_currentEvent (em : EventManager) :
    em.endCurrentEvent.currentEvent = none := by
  unfold EventManager.endCurrentEvent
  dsimp only [EventManager.hideEventPopup, EventManager.playSequence, EventManager.emit]
  split_ifs <;> rfl

theorem EventManager.endCurrentEvent_conversationState (em : EventManager) :
    em.endCurrentEvent.conversationState = defaultConversationState := by
  unfold EventManager.endCurrentEvent
  dsimp only [EventManager.hideEventPopup, EventManager.playSequence, EventManager.emit]
  split_ifs <;> rfl

theorem EventManager.endCurrentEvent_runningState (em : EventManager) :
    em.endCurrentEvent.runningState = defaultRunningState := by
  unfold EventManager.endCurrentEvent
  dsimp only [EventManager.hideEventPopup, EventManager.playSequence, EventManager.emit]
  split_ifs <;> rfl

theorem EventManager.endCurrentEvent_isEnding (em : EventManager) :
    em.endCurrentEvent.isEnding = em.isEnding := by
  unfold EventManager.endCurrentEvent
  dsimp only [EventManager.hideEventPopup, EventManager.playSequence, EventManager.emit]
  split_ifs <;> rfl

theorem EventManager.endCurrentEvent_eventTimer (em : EventManager) :
    em.endCurrentEvent.eventTimer = em.eventTimer := by
  unfold EventManager.endCurrentEvent
  dsimp only [EventManager.hideEventPopup, EventManager.playSequence, EventManager.emit]
  split_ifs <;> rfl

theorem EventManager.KeepsConversation.endCurrentEvent (em : EventManager) :
    em.KeepsConversation em.endCurrentEvent := by
  intro h
  obtain ⟨h1, h2, h3⟩ := h
  have hlen : em.gameProgression.stages.length = 5 := by rw [h2]; rfl
  unfold EventManager.PastConversationStart
  rw [EventManager.endCurrentEvent_timers, EventManager.endCurrentEvent_stages,
    EventManager.endCurrentEvent_currentStage, EventManager.endCurrentEvent_currentEvent,
    EventManager.endCurrentEvent_conversationState, hlen]
  refine ⟨⟨h1, h2, Or.inl ?_⟩, fun h => absurd h (by decide)⟩
  split_ifs <;> omega

/-- A change that leaves the pending callbacks and the progression alone,
leaves an event active and does not bring the conversation to step 1 keeps
the conversation. -/
theorem EventManager.KeepsConversation.of_active {em em' : EventManager}
    (ht : em'.timers = em.timers) (hp : em'.gameProgression = em.gameProgression)
    (hc : em'.currentEvent.isSome = true)
    (hs : em'.conversationState.conversationStep = em.conversationState.conversationStep) :
    em.KeepsConversation em' := by
  intro h
  unfold EventManager.PastConversationStart at h ⊢
  rw [ht, hp, hc, hs]
  refine ⟨⟨h.1, h.2.1, ?_⟩, id⟩
  rcases h.2.2 with h3 | h3
  · exact Or.inl h3
  · exact Or.inr ⟨rfl, h3.2⟩

theorem EventManager.KeepsConversation.startBaselineEvent (em : EventManager) :
    em.KeepsConversation em.startBaselineEvent := by
  unfold EventManager.startBaselineEvent
  dsimp only [EventManager.showEventPopup, EventManager.showEventDisplay,
    EventManager.playSequence, EventManager.emit]
  split_ifs <;> exact .of_same rfl rfl rfl rfl

theorem EventManager.KeepsConversation.startRunningWoodsEvent (em : EventManager) (r : ℚ) :
    em.KeepsConversation (em.startRunningWoodsEvent r) := by
  unfold EventManager.startRunningWoodsEvent EventManager.scheduleJumpPrompt
  dsimp only [EventManager.showEventPopup, EventManager.showEventDisplay,
    EventManager.playSequence, EventManager.emit]
  split_ifs <;>
    first
      | exact .of_same rfl rfl rfl rfl
      | (refine .trans ?_ (.setTimeout _ _ _ (by decide))
         exact .of_same rfl rfl rfl rfl)

theorem EventManager.KeepsConversation.startFinishEvent (em : EventManager)
    (endingType : EndingType) (reason : String) :
    em.KeepsConversation (em.startFinishEvent endingType reason) := by
  unfold EventManager.startFinishEvent
  dsimp only [EventManager.muteUIForEnd, EventManager.fadeOutColumns,
    EventManager.showFailureCaption, EventManager.hideEventPopup,
    EventManager.showEventDisplay, EventManager.playSequence, EventManager.emit]
  split_ifs <;>
    (refine .trans ?_ (.setTimeout _ _ _ (by simp))
     exact .of_same rfl rfl rfl rfl)

/-- Starting an event other than the coffee stage keeps the conversation. -/
theorem EventManager.KeepsConversation.startEvent (em : EventManager) (eventType : EventType)
    (options : Option (EndingType × String)) (r : ℚ) (h : eventType ≠ .orderCoffee) :
    em.KeepsConversation (em.startEvent eventType options r) := by
  unfold EventManager.startEvent
  dsimp only
  split
  · refine .trans ?_ (.startBaselineEvent _)
    exact .of_active rfl rfl rfl rfl
  · exact absurd rfl h
  · refine .trans ?_ (.startRunningWoodsEvent _ _)
    exact .of_active rfl rfl rfl rfl
  · split <;>
      (refine .trans ?_ (.startFinishEvent _ _ _)
       exact .of_active rfl rfl rfl rfl)

theorem EventManager.KeepsConversation.triggerGameOver (em : EventManager)
    (type : EndingType) (reason : String) :
    em.KeepsConversation (em.triggerGameOver type reason) := by
  unfold EventManager.triggerGameOver
  dsimp only
  refine .trans ?_ (.startEvent _ _ _ _ (by decide))
  split
  · refine .trans ?_ (.endCurrentEvent _)
    intro h
    exact ⟨h, id⟩
  · intro h
    exact ⟨h, id⟩

/-- Beyond the coffee stage the stage list holds no coffee stage. -/
theorem defaultStages_type_of_three_le (cursor : Nat) (h : 3 ≤ cursor) (stage : Stage)
    (hs : defaultStages.get? cursor = some stage) : stage.type ≠ .orderCoffee := by
  match cursor, h with
  | 3, _ => cases hs; decide
  | 4, _ => cases hs; decide
  | n + 5, _ => cases hs

theorem EventManager.KeepsConversation.checkForNextStage (em : EventManager) (r : ℚ)
    (hnone : em.currentEvent = none) : em.KeepsConversation (em.checkForNextStage r) := by
  intro h
  have h3 : 3 ≤ em.gameProgression.currentStage := by
    rcases h.2.2 with h3 | h3
    · exact h3
    · rw [hnone] at h3; exact absurd h3.1 (by simp)
  have hstages : em.gameProgression.stages = defaultStages := h.2.1
  refine (?_ : em.KeepsConversation (em.checkForNextStage r)) h
  unfold EventManager.checkForNextStage
  split
  · exact .refl em
  · rename_i stage hstage
    rw [hstages] at hstage
    split_ifs
    · exact .triggerGameOver em _ _
    · exact .refl em
    · exact .startEvent em _ _ _ (defaultStages_type_of_three_le _ h3 _ hstage)
    · exact .refl em

theorem EventManager.KeepsConversation.updateOrderCoffeeEvent (em : EventManager)
    (deltaTime now : ℚ) : em.KeepsConversation (em.updateOrderCoffeeEvent deltaTime now) := by
  unfold EventManager.updateOrderCoffeeEvent
  dsimp only [EventManager.updateEventPopup, EventManager.emit]
  split_ifs <;> exact .of_same rfl rfl rfl rfl

theorem EventManager.KeepsConversation.updateRunningWoodsEvent (em : EventManager) :
    em.KeepsConversation em.updateRunningWoodsEvent := by
  unfold EventManager.updateRunningWoodsEvent
  dsimp only [EventManager.showEventDisplay, EventManager.emit]
  split_ifs <;>
    first
      | exact .refl em
      | (refine .trans ?_ (.setTimeout _ _ _ (by decide))
         exact .of_same rfl rfl rfl rfl)

theorem EventManager.KeepsConversation.updateCurrentEvent (em : EventManager)
    (deltaTime now : ℚ) : em.KeepsConversation (em.updateCurrentEvent deltaTime now) := by
  unfold EventManager.updateCurrentEvent
  split
  · exact .refl em
  · dsimp only
    split
    · exact .endCurrentEvent em
    · split
      · exact .updateOrderCoffeeEvent em _ _
      · exact .updateRunningWoodsEvent em
      · exact .refl em

theorem EventManager.KeepsConversation.checkGameOverConditions (em : EventManager) :
    em.KeepsConversation em.checkGameOverConditions := by
  unfold EventManager.checkGameOverConditions
  split
  · exact .triggerGameOver em _ _
  · exact .refl em

theorem EventManager.KeepsConversation.update (em : EventManager) (deltaTime now r : ℚ) :
    em.KeepsConversation (em.update deltaTime now r) := by
  rw [EventManager.update_eq]
  split
  · refine .trans
      (@EventManager.KeepsConversation.trans _ (em.afterStageCheck deltaTime r) _ ?_ ?_)
      (.checkGameOverConditions _)
    · unfold EventManager.afterStageCheck
      dsimp only
      split
      · rename_i hnone
        refine .trans ?_ (.checkForNextStage _ r (by simpa using hnone))
        exact .of_same rfl rfl rfl rfl
      · exact .of_same rfl rfl rfl rfl
    · unfold EventManager.beforeOutcomeCheck
      dsimp only
      split
      · exact .updateCurrentEvent _ _ _
      · exact .refl _
  · exact .refl em

theorem EventManager.KeepsConversation.frame (em : EventManager) (deltaTime now r : ℚ) :
    em.KeepsConversation (gameFrame em deltaTime now r) := by
  unfold gameFrame
  dsimp only
  refine .trans ?_ (.update _ _ _ _)
  exact .of_same rfl rfl rfl rfl

theorem EventManager.KeepsConversation.handleConversationOption (em : EventManager)
    (option : Int) : em.KeepsConversation (em.handleConversationOption option) := by
  unfold EventManager.handleConversationOption
  dsimp only [EventManager.showEventPopup, EventManager.showEventDisplay,
    EventManager.hideEventPopup, EventManager.emit]
  split_ifs <;>
    first
      | exact .refl em
      | (split <;>
          first
            | exact .of_same rfl rfl rfl rfl
            | (split_ifs <;>
                first
                  | exact .of_same rfl rfl rfl rfl
                  | (refine .trans ?_ (.setTimeout _ _ _ (by decide))
                     exact .of_same rfl rfl rfl rfl)))

theorem EventManager.KeepsConversation.executeAction (em : EventManager)
    (action : InputAction) (now : ℚ) :
    em.KeepsConversation (InputHandler.executeAction em action now) := by
  cases action <;> unfold InputHandler.executeAction <;> dsimp only
  · exact .of_same rfl rfl rfl rfl
  · exact .of_same rfl rfl rfl rfl
  · exact .of_same rfl rfl rfl rfl
  · unfold EventManager.handleEyeContact
    split_ifs <;> exact .of_same rfl rfl rfl rfl
  · unfold EventManager.handleSwallow
    dsimp only [EventManager.hideEventPopup, EventManager.emit]
    split_ifs <;> exact .of_same rfl rfl rfl rfl
  · unfold EventManager.handleStep
    split_ifs <;> exact .of_same rfl rfl rfl rfl
  · unfold EventManager.handleStep
    split_ifs <;> exact .of_same rfl rfl rfl rfl
  · unfold EventManager.handleJump
    dsimp only [EventManager.hideEventPopup, EventManager.emit]
    split_ifs <;> exact .of_same rfl rfl rfl rfl
  all_goals exact .handleConversationOption em _

/-- A callback other than `startConversation` keeps the conversation. -/
theorem EventManager.KeepsConversation.runCallback (em : EventManager) (t : Timer)
    (now r1 r2 : ℚ) (ht : t ≠ .startConversation) :
    em.KeepsConversation (em.runCallback t now r1 r2) := by
  cases t <;> unfold EventManager.runCallback <;> dsimp only
  · exact .refl em
  · unfold EventManager.promptSwallow
    dsimp only [EventManager.showEventPopup, EventManager.showEventDisplay, EventManager.emit]
    split_ifs <;>
      first
        | exact .refl em
        | (refine .trans ?_ (.setTimeout _ _ _ (by decide))
           exact .of_same rfl rfl rfl rfl)
  · exact absurd rfl ht
  · unfold EventManager.swallowTimeout
    dsimp only [EventManager.hideEventPopup, EventManager.emit]
    split_ifs <;> exact .of_same rfl rfl rfl rfl
  · unfold EventManager.showSecondConversation
    dsimp only [EventManager.showEventPopup, EventManager.showEventDisplay,
      EventManager.hideEventPopup, EventManager.emit]
    split_ifs <;>
      (intro h
       exact ⟨h, fun h2 => absurd (show (2 : Nat) = 1 from h2) (by decide)⟩)
  · refine @EventManager.KeepsConversation.trans _ (em.promptJump r1) _ ?_ ?_
    · unfold EventManager.promptJump
      dsimp only [EventManager.showEventPopup, EventManager.showEventDisplay, EventManager.emit]
      split_ifs <;>
        first
          | exact .refl em
          | (refine .trans ?_ (.setTimeout _ _ _ (by decide))
             exact .of_same rfl rfl rfl rfl)
    · unfold EventManager.scheduleJumpPrompt
      split_ifs
      · exact .setTimeout _ _ _ (by decide)
      · exact .refl _
  · unfold EventManager.jumpTimeout
    dsimp only [EventManager.hideEventPopup, EventManager.emit]
    split_ifs <;> exact .of_same rfl rfl rfl rfl
  · exact .endCurrentEvent em
  · exact .of_same rfl rfl rfl rfl

theorem EventManager.KeepsConversation.fireTimer (em : EventManager) (i : Nat)
    (now r1 r2 : ℚ) : em.KeepsConversation (em.fireTimer i now r1 r2) := by
  unfold EventManager.fireTimer
  split
  · exact .refl em
  · rename_i d t hget
    intro h
    have hmem : (d, t) ∈ em.timers := List.get?_mem hget
    have ht : t ≠ .startConversation := h.1 _ hmem
    refine (?_ : em.KeepsConversation _) h
    dsimp only
    refine .trans ?_ (.runCallback _ t now r1 r2 ht)
    intro h'
    refine ⟨⟨fun p hp => h'.1 p (List.mem_of_mem_eraseIdx hp), h'.2⟩, id⟩

/-- No action brings the conversation back to step 1 once the
`startConversation` callback has run. -/
theorem EventManager.KeepsConversation.step (em : EventManager) (a : GameAction) :
    em.KeepsConversation (em.step a) := by
  cases a <;> unfold EventManager.step <;> dsimp only
  · exact .frame em _ _ _
  · exact .executeAction em _ _
  · exact .fireTimer em _ _ _ _
  · split
    · exact .refl em
    · exact .of_same rfl rfl rfl rfl

theorem EventManager.KeepsConversation.run (actions : List GameAction) :
    ∀ em : EventManager, em.KeepsConversation (em.run actions) := by
  induction actions with
  | nil => intro em; exact .refl em
  | cons a rest ih => intro em; exact .trans (.step em a) (ih (em.step a))

/-! ## C6 -/

/-- Of the options of the first prompt, only number 1 is correct; a number
out of range selects nothing. -/
theorem firstConversationOptions_correct (option : Int) :
    isCorrect (selectOption firstConversationOptions option) = decide (option = 1) := by
  unfold selectOption
  by_cases h1 : 1 ≤ option
  · rw [if_pos h1]
    obtain ⟨n, hn⟩ : ∃ n : Nat, option = n + 1 := ⟨(option - 1).toNat, by omega⟩
    subst hn
    have : ((n : Int) + 1 - 1).toNat = n := by omega
    rw [this]
    match n with
    | 0 => rfl
    | 1 => rfl
    | 2 => rfl
    | 3 => rfl
    | n + 4 =>
      have hne : ¬ (((n + 4 : Nat) : Int) + 1 = 1) := by omega
      simp [firstConversationOptions, isCorrect]
      omega
  · rw [if_neg h1]
    have hne : ¬ (option = 1) := by omega
    simp [hne, isCorrect]

/-- The answer to the first prompt, whatever the option number. -/
theorem EventManager.handleConversationOption_first (em : EventManager) (option : Int)
    (hEnding : em.isEnding = false)
    (hCoffee : isEventOfType em.currentEvent .orderCoffee = true)
    (hStep : em.conversationState.conversationStep = 1)
    (hWaiting : em.conversationState.waitingForResponse = true)
    (hOptions : em.conversationState.conversationOptions = some firstConversationOptions) :
    (em.handleConversationOption option).conversationState
        = { em.conversationState with waitingForResponse := false }
      ∧ (em.handleConversationOption option).timers
        = em.timers ++ [(if option = 1 then 400 else 3000, .showSecondConversation)]
      ∧ (em.handleConversationOption option).isEnding = false
      ∧ (em.handleConversationOption option).currentEvent = em.currentEvent := by
  have hc := firstConversationOptions_correct option
  unfold EventManager.handleConversationOption
  rw [if_neg (by simp [hEnding]), if_pos (by simp [hCoffee, hWaiting])]
  dsimp only
  rw [hOptions]
  dsimp only
  rw [hc, hStep]
  by_cases h1 : option = 1
  · simp [h1, EventManager.hideEventPopup, EventManager.emit, EventManager.setTimeout, hEnding]
  · simp [h1, EventManager.showEventPopup, EventManager.showEventDisplay, EventManager.emit,
      EventManager.setTimeout, hEnding]

/-- An option input while no answer is awaited is ignored. -/
theorem EventManager.handleConversationOption_not_waiting (em : EventManager) (option : Int)
    (h : em.conversationState.waitingForResponse = false) :
    em.handleConversationOption option = em := by
  unfold EventManager.handleConversationOption
  split_ifs with h1 h2
  · rfl
  · simp [h] at h2
  · rfl

/-- The state in which `showSecondConversation` leaves the conversation. -/
theorem EventManager.showSecondConversation_conversationState (em : EventManager) :
    em.showSecondConversation.conversationState
      = { em.conversationState with
          conversationStep := 2
          conversationOptions := some secondConversationOptions
          waitingForResponse := true } := by
  unfold EventManager.showSecondConversation
  dsimp only [EventManager.showEventPopup, EventManager.showEventDisplay, EventManager.emit]
  split_ifs <;> rfl

theorem EventManager.showSecondConversation_timers (em : EventManager) :
    em.showSecondConversation.timers = em.timers := by
  unfold EventManager.showSecondConversation
  dsimp only [EventManager.showEventPopup, EventManager.showEventDisplay, EventManager.emit]
  split_ifs <;> rfl

/-- No answer changes the conversation step. -/
theorem EventManager.handleConversationOption_conversationStep (em : EventManager)
    (option : Int) :
    (em.handleConversationOption option).conversationState.conversationStep
      = em.conversationState.conversationStep := by
  unfold EventManager.handleConversationOption
  dsimp only [EventManager.showEventPopup, EventManager.showEventDisplay,
    EventManager.hideEventPopup, EventManager.emit, EventManager.setTimeout]
  split_ifs <;>
    first
      | rfl
      | (split <;> first | rfl | (split_ifs <;> rfl))

/-- An answer at step 2 schedules nothing. -/
theorem EventManager.handleConversationOption_timers_of_second (em : EventManager)
    (option : Int) (hStep : em.conversationState.conversationStep = 2) :
    (em.handleConversationOption option).timers = em.timers := by
  have hstep : ¬ (if em.conversationState.conversationStep = 0 then 1
      else em.conversationState.conversationStep) = 1 := by
    rw [hStep]; decide
  unfold EventManager.handleConversationOption
  dsimp only [EventManager.showEventPopup, EventManager.showEventDisplay,
    EventManager.hideEventPopup, EventManager.emit]
  split_ifs <;>
    first
      | rfl
      | exact absurd (by assumption) hstep
      | (split <;>
          first
            | rfl
            | exact absurd (by assumption) hstep
            | (split_ifs <;> rfl))

/-- C6.  Coffee progression.  Take a coffee stage, on a manager that is not
ending, that waits for the answer to its first prompt (step 1, the four
options of `showFirstConversation`), with the `startConversation` callback
no longer pending and the cursor on the coffee stage.  For every option
number, in range or not:
* the answer leaves the step at 1, clears `waitingForResponse` and
  schedules exactly one `showSecondConversation` callback (after 400 ms for
  the correct option 1, after 3000 ms otherwise);
* until that callback runs every further option input is ignored;
* when the callback runs it leaves the list of pending callbacks, and the
  step is 2 with the three options of `showSecondConversation` awaited;
* an answer at step 2 leaves the step at 2 and schedules nothing;
* whatever frames, key presses and callbacks follow, the step is never 1
  again. -/
theorem coffee_step_one_to_two_once (em : EventManager) (option : Int) (now r1 r2 : ℚ)
    (hEnding : em.isEnding = false)
    (hCoffee : isEventOfType em.currentEvent .orderCoffee = true)
    (hStep : em.conversationState.conversationStep = 1)
    (hWaiting : em.conversationState.waitingForResponse = true)
    (hOptions : em.conversationState.conversationOptions = some firstConversationOptions)
    (hPast : em.PastConversationStart) :
    (em.handleConversationOption option).conversationState.conversationStep = 1
      ∧ (em.handleConversationOption option).conversationState.waitingForResponse = false
      ∧ (em.handleConversationOption option).timers
        = em.timers ++ [(if option = 1 then 400 else 3000, .showSecondConversation)]
      ∧ (∀ option' : Int,
          (em.handleConversationOption option).handleConversationOption option'
            = em.handleConversationOption option)
      ∧ ((em.handleConversationOption option).fireTimer em.timers.length now r1 r2).timers
        = em.timers
      ∧ ((em.handleConversationOption option).fireTimer em.timers.length
          now r1 r2).conversationState.conversationStep = 2
      ∧ ((em.handleConversationOption option).fireTimer em.timers.length
          now r1 r2).conversationState.waitingForResponse = true
      ∧ ((em.handleConversationOption option).fireTimer em.timers.length
          now r1 r2).conversationState.conversationOptions = some secondConversationOptions
      ∧ (∀ option' : Int,
          (((em.handleConversationOption option).fireTimer em.timers.length
              now r1 r2).handleConversationOption option').conversationState.conversationStep = 2
            ∧ (((em.handleConversationOption option).fireTimer em.timers.length
              now r1 r2).handleConversationOption option').timers = em.timers)
      ∧ ∀ later : List GameAction,
          ((((em.handleConversationOption option).fireTimer em.timers.length
              now r1 r2).run later).conversationState.conversationStep ≠ 1) := by
  obtain ⟨hcs, htimers, -, -⟩ :=
    EventManager.handleConversationOption_first em option hEnding hCoffee hStep hWaiting hOptions
  have hstep1 : (em.handleConversationOption option).conversationState.conversationStep = 1 := by
    rw [hcs]; exact hStep
  have hwait1 : (em.handleConversationOption option).conversationState.waitingForResponse
      = false := by rw [hcs]
  have hget : (em.handleConversationOption option).timers.get? em.timers.length
      = some (if option = 1 then 400 else 3000, Timer.showSecondConversation) := by
    rw [htimers]; simp
  have herase : (em.handleConversationOption option).timers.eraseIdx em.timers.length
      = em.timers := by
    rw [htimers]; simp [List.eraseIdx_append_of_length_le]
  have hfire : (em.handleConversationOption option).fireTimer em.timers.length now r1 r2
      = (({ em.handleConversationOption option with timers := em.timers } :
          EventManager).hideEventPopup).showSecondConversation := by
    unfold EventManager.fireTimer
    rw [hget]
    dsimp only
    rw [herase]
    rfl
  have hshown : ((em.handleConversationOption option).fireTimer em.timers.length
      now r1 r2).conversationState.conversationStep = 2 := by
    rw [hfire, EventManager.showSecondConversation_conversationState]
  have hshownTimers : ((em.handleConversationOption option).fireTimer em.timers.length
      now r1 r2).timers = em.timers := by
    rw [hfire, EventManager.showSecondConversation_timers]; rfl
  have hkeep : em.KeepsConversation
      ((em.handleConversationOption option).fireTimer em.timers.length now r1 r2) :=
    .trans (.handleConversationOption em option) (.fireTimer _ _ _ _ _)
  refine ⟨hstep1, hwait1, htimers,
    fun o => EventManager.handleConversationOption_not_waiting _ o hwait1,
    hshownTimers, hshown, ?_, ?_, ?_, ?_⟩
  · rw [hfire, EventManager.showSecondConversation_conversationState]
  · rw [hfire, EventManager.showSecondConversation_conversationState]
  · intro o
    refine ⟨?_, ?_⟩
    · rw [EventManager.handleConversationOption_conversationStep]; exact hshown
    · rw [EventManager.handleConversationOption_timers_of_second _ o hshown]; exact hshownTimers
  · intro later hone
    have h2 := ((EventManager.KeepsConversation.run later _) (hkeep hPast).1).2 hone
    rw [hshown] at h2
    exact absurd h2 (by decide)

/-- C6 at a concrete state: the coffee stage of the session `toFirstPrompt`,
answered with the out-of-range option number 7. -/
theorem coffee_step_one_to_two_once_witness :
    (coffeeAtFirstPrompt.handleConversationOption 7).timers
        = coffeeAtFirstPrompt.timers ++ [(3000, .showSecondConversation)]
      ∧ ((coffeeAtFirstPrompt.handleConversationOption 7).fireTimer
          coffeeAtFirstPrompt.timers.length 1116000 0 0).conversationState.conversationStep
        = 2 :=
  have h := coffee_step_one_to_two_once coffeeAtFirstPrompt 7 1116000 0 0
    (by decide!) (by decide!) (by decide!) (by decide!) (by decide!)
    (by unfold EventManager.PastConversationStart; decide!)
  ⟨h.2.2.1, h.2.2.2.2.2.1⟩

/-! ## Lemmas on the stage schedule -/

theorem startedEvents_append (t₁ t₂ : List Effect) :
    startedEvents (t₁ ++ t₂) = startedEvents t₁ ++ startedEvents t₂ := by
  simp [startedEvents, List.filterMap_append]

@[simp] theorem startedEvents_nil : startedEvents [] = [] := rfl

@[simp] theorem startedEvents_playSequence (name : String) (t : List Effect) :
    startedEvents (.playSequence name :: t) = startedEvents t := rfl

@[simp] theorem startedEvents_showEventDisplay (content : Popup) (urgent force : Bool)
    (t : List Effect) :
    startedEvents (.showEventDisplay content urgent force :: t) = startedEvents t := rfl

@[simp] theorem startedEvents_updateEventPopup (content : Popup) (t : List Effect) :
    startedEvents (.updateEventPopup content :: t) = startedEvents t := rfl

@[simp] theorem startedEvents_hideEventPopup (t : List Effect) :
    startedEvents (.hideEventPopup :: t) = startedEvents t := rfl

@[simp] theorem startedEvents_fadeOutColumns (t : List Effect) :
    startedEvents (.fadeOutColumns :: t) = startedEvents t := rfl

@[simp] theorem startedEvents_showEndScreen (endingType : EndingType) (t : List Effect) :
    startedEvents (.showEndScreen endingType :: t) = startedEvents t := rfl

@[simp] theorem startedEvents_startEvent (eventType : EventType) (t : List Effect) :
    startedEvents (.startEvent eventType :: t) = eventType :: startedEvents t := rfl

@[simp] theorem startedEvents_triggerGameOver (type : EndingType) (reason : String)
    (t : List Effect) :
    startedEvents (.triggerGameOver type reason :: t) = startedEvents t := rfl

/-- A change that leaves the steering fields alone and records neither an
ending call nor an event start leaves the control alone. -/
theorem EventManager.control_of_same {em em' : EventManager}
    (hg : em'.gameState.gameStarted = em.gameState.gameStarted)
    (hp : em'.gameProgression = em.gameProgression)
    (hc : em'.currentEvent = em.currentEvent)
    (ht : em'.eventTimer = em.eventTimer)
    (ho : gameOverCalls em'.trace = gameOverCalls em.trace)
    (hs : startedEvents em'.trace = startedEvents em.trace) :
    em'.control = em.control := by
  unfold EventManager.control
  rw [hg, hp, hc, ht, ho, hs]

theorem EventManager.setTimeout_control (em : EventManager) (t : Timer) (d : ℚ) :
    (em.setTimeout t d).control = em.control := rfl

theorem EventManager.startBaselineEvent_control (em : EventManager) :
    em.startBaselineEvent.control = em.control := by
  unfold EventManager.startBaselineEvent
  dsimp only [EventManager.showEventPopup, EventManager.showEventDisplay,
    EventManager.playSequence, EventManager.emit]
  split_ifs <;>
    exact control_of_same rfl rfl rfl rfl (by simp [gameOverCalls_append])
      (by simp [startedEvents_append])

theorem EventManager.startOrderCoffeeEvent_control (em : EventManager) (r : ℚ) :
    (em.startOrderCoffeeEvent r).control = em.control := by
  unfold EventManager.startOrderCoffeeEvent
  dsimp only [EventManager.showEventPopup, EventManager.showEventDisplay,
    EventManager.playSequence, EventManager.emit, EventManager.setTimeout]
  split_ifs <;>
    exact control_of_same rfl rfl rfl rfl (by simp [gameOverCalls_append])
      (by simp [startedEvents_append])

theorem EventManager.startRunningWoodsEvent_control (em : EventManager) (r : ℚ) :
    (em.startRunningWoodsEvent r).control = em.control := by
  unfold EventManager.startRunningWoodsEvent EventManager.scheduleJumpPrompt
  dsimp only [EventManager.showEventPopup, EventManager.showEventDisplay,
    EventManager.playSequence, EventManager.emit, EventManager.setTimeout]
  split_ifs <;>
    exact control_of_same rfl rfl rfl rfl (by simp [gameOverCalls_append])
      (by simp [startedEvents_append])

theorem EventManager.startFinishEvent_control (em : EventManager)
    (endingType : EndingType) (reason : String) :
    (em.startFinishEvent endingType reason).control = em.control := by
  unfold EventManager.startFinishEvent
  dsimp only [EventManager.muteUIForEnd, EventManager.fadeOutColumns,
    EventManager.showFailureCaption, EventManager.hideEventPopup,
    EventManager.showEventDisplay, EventManager.playSequence, EventManager.emit,
    EventManager.setTimeout]
  split_ifs <;>
    exact control_of_same rfl rfl rfl rfl (by simp [gameOverCalls_append])
      (by simp [startedEvents_append])

/-- Ending the event moves the cursor on, short of the last stage, and
clears the event; nothing else of the control changes. -/
theorem EventManager.endCurrentEvent_control (em : EventManager) :
    em.endCurrentEvent.control
      = { em.control with
          gameProgression :=
            { em.gameProgression with
              currentStage :=
                if em.gameProgression.currentStage + 1 < em.gameProgression.stages.length
                then em.gameProgression.currentStage + 1
                else em.gameProgression.currentStage }
          currentEvent := none } := by
  unfold EventManager.endCurrentEvent
  dsimp only [EventManager.hideEventPopup, EventManager.playSequence, EventManager.emit]
  split_ifs <;>
    simp [EventManager.control, gameOverCalls_append, startedEvents_append, *]

/-- Starting an event sets the current event, with the duration of the
stage under the cursor when its type is the event's, and records the start;
nothing else of the control changes. -/
theorem EventManager.startEvent_control (em : EventManager) (eventType : EventType)
    (options : Option (EndingType × String)) (r : ℚ) :
    (em.startEvent eventType options r).control
      = { em.control with
          currentEvent := some
            { type := eventType
              name := getEventName eventType
              startTime := em.eventTimer
              duration :=
                match em.gameProgression.stages.get? em.gameProgression.currentStage with
                | some currentStage =>
                  if currentStage.type = eventType then currentStage.duration
                  else getEventDuration eventType
                | none => getEventDuration eventType
              options := options }
          startedEvents := startedEvents em.trace ++ [eventType] } := by
  unfold EventManager.startEvent
  dsimp only
  split
  · rw [EventManager.startBaselineEvent_control]
    simp [EventManager.control, EventManager.emit, gameOverCalls_append, startedEvents_append]
    all_goals (cases em.gameProgression.stages[em.gameProgression.currentStage]? <;> rfl)
  · rw [EventManager.startOrderCoffeeEvent_control]
    simp [EventManager.control, EventManager.emit, gameOverCalls_append, startedEvents_append]
    all_goals (cases em.gameProgression.stages[em.gameProgression.currentStage]? <;> rfl)
  · rw [EventManager.startRunningWoodsEvent_control]
    simp [EventManager.control, EventManager.emit, gameOverCalls_append, startedEvents_append]
    all_goals (cases em.gameProgression.stages[em.gameProgression.currentStage]? <;> rfl)
  · split <;>
      (rw [EventManager.startFinishEvent_control]
       simp [EventManager.control, EventManager.emit, gameOverCalls_append,
         startedEvents_append]
       all_goals (cases em.gameProgression.stages[em.gameProgression.currentStage]? <;> rfl))

/-- With no event active, `triggerGameOver` closes the session, starts the
finish event and records the call and the start. -/
theorem EventManager.triggerGameOver_control (em : EventManager) (type : EndingType)
    (reason : String) (hnone : em.currentEvent = none) :
    (em.triggerGameOver type reason).control
      = { em.control with
          gameProgression := { em.gameProgression with completed := true }
          currentEvent := some
            { type := .finish
              name := getEventName .finish
              startTime := em.eventTimer
              duration :=
                match em.gameProgression.stages.get? em.gameProgression.currentStage with
                | some currentStage =>
                  if currentStage.type = .finish then currentStage.duration
                  else getEventDuration .finish
                | none => getEventDuration .finish
              options := some (type, reason) }
          gameOverCalls := gameOverCalls em.trace ++ [type]
          startedEvents := startedEvents em.trace ++ [.finish] } := by
  unfold EventManager.triggerGameOver
  dsimp only [EventManager.emit]
  rw [if_neg (by simp [hnone]), EventManager.startEvent_control]
  simp [EventManager.control, gameOverCalls_append, startedEvents_append]

theorem EventManager.updateOrderCoffeeEvent_control (em : EventManager) (deltaTime now : ℚ) :
    (em.updateOrderCoffeeEvent deltaTime now).control = em.control := by
  unfold EventManager.updateOrderCoffeeEvent
  dsimp only [EventManager.updateEventPopup, EventManager.emit, GameState.addSuspicion]
  split_ifs <;>
    exact control_of_same rfl rfl rfl rfl (by simp [gameOverCalls_append])
      (by simp [startedEvents_append])

theorem EventManager.updateRunningWoodsEvent_control (em : EventManager) :
    em.updateRunningWoodsEvent.control = em.control := by
  unfold EventManager.updateRunningWoodsEvent
  dsimp only [EventManager.showEventDisplay, EventManager.emit, EventManager.setTimeout]
  split_ifs <;>
    exact control_of_same rfl rfl rfl rfl (by simp [gameOverCalls_append])
      (by simp [startedEvents_append])

/-- With an event active, `updateCurrentEvent` ends it when its age has
reached its duration and leaves the control alone otherwise. -/
theorem EventManager.updateCurrentEvent_control (em : EventManager) (deltaTime now : ℚ)
    (ev : GameEvent) (hev : em.currentEvent = some ev) :
    (em.updateCurrentEvent deltaTime now).control
      = if em.eventTimer - ev.startTime ≥ ev.duration then em.endCurrentEvent.control
        else em.control := by
  unfold EventManager.updateCurrentEvent
  rw [hev]
  dsimp only
  split_ifs
  · rfl
  · split
    · exact EventManager.updateOrderCoffeeEvent_control _ _ _
    · exact EventManager.updateRunningWoodsEvent_control _
    · rfl

theorem GameState.ite_gameStarted (c : Prop) [Decidable c] (a b : GameState) (s : Bool)
    (ha : a.gameStarted = s) (hb : b.gameStarted = s) :
    (if c then a else b).gameStarted = s := by
  split_ifs <;> assumption

theorem GameState.updateVitalIntroduction_gameStarted (gs : GameState) :
    gs.updateVitalIntroduction.gameStarted = gs.gameStarted := by
  unfold GameState.updateVitalIntroduction
  dsimp only [GameState.showVitalAlert]
  repeat' (first | rfl | refine GameState.ite_gameStarted _ _ _ _ ?_ ?_)

theorem GameState.updateVitals_gameStarted (gs : GameState) (deltaTime : ℚ) :
    (gs.updateVitals deltaTime).gameStarted = gs.gameStarted := by
  unfold GameState.updateVitals GameState.updateVitalStatuses
  dsimp only
  repeat' (first | rfl | refine GameState.ite_gameStarted _ _ _ _ ?_ ?_)

theorem GameState.checkExtremeVitals_gameStarted (gs : GameState) (now : ℚ) :
    (gs.checkExtremeVitals now).gameStarted = gs.gameStarted := by
  unfold GameState.checkExtremeVitals
  dsimp only [GameState.showVitalAlert, GameState.addSuspicion]
  repeat' (first | rfl | refine GameState.ite_gameStarted _ _ _ _ ?_ ?_)

theorem GameState.update_gameStarted (gs : GameState) (deltaTime now : ℚ) :
    (gs.update deltaTime now).gameStarted = gs.gameStarted := by
  unfold GameState.update GameState.updateVisualEffects
  dsimp only
  rw [GameState.checkExtremeVitals_gameStarted]
  refine GameState.ite_gameStarted _ _ _ _ ?_ rfl
  unfold GameState.updateSuspicion
  dsimp only
  rw [GameState.updateVitals_gameStarted]
  dsimp only
  rw [GameState.updateVitalIntroduction_gameStarted]

theorem EventManager.checkForNextStage_of_stage (em : EventManager) (r : ℚ) (stage : Stage)
    (hstage : em.gameProgression.stages.get? em.gameProgression.currentStage = some stage) :
    em.checkForNextStage r
      = if em.eventTimer ≥ stage.startTime then
          if stage.type = .finish then
            if !em.gameProgression.completed then em.triggerGameOver .success "" else em
          else em.startEvent stage.type none r
        else em := by
  unfold EventManager.checkForNextStage
  rw [hstage]

/-- With an event active the stage check only advances the timer. -/
theorem EventManager.afterStageCheck_active (em : EventManager) (deltaTime r : ℚ)
    (ev : GameEvent) (hev : em.currentEvent = some ev) :
    em.afterStageCheck deltaTime r = { em with eventTimer := em.eventTimer + deltaTime } := by
  unfold EventManager.afterStageCheck
  dsimp only
  rw [if_neg (by simp [hev])]

/-- With no event active and the stage under the cursor not yet due the
stage check only advances the timer. -/
theorem EventManager.afterStageCheck_wait (em : EventManager) (deltaTime r : ℚ)
    (stage : Stage) (hnone : em.currentEvent = none)
    (hstage : em.gameProgression.stages.get? em.gameProgression.currentStage = some stage)
    (hlt : em.eventTimer + deltaTime < stage.startTime) :
    em.afterStageCheck deltaTime r = { em with eventTimer := em.eventTimer + deltaTime } := by
  unfold EventManager.afterStageCheck
  dsimp only
  rw [if_pos (by simp [hnone]), EventManager.checkForNextStage_of_stage
      { em with eventTimer := em.eventTimer + deltaTime } r stage hstage,
    if_neg (not_le.2 hlt)]

/-- With no event active and a stage other than the finish due, the stage
check starts the stage's event. -/
theorem EventManager.afterStageCheck_start (em : EventManager) (deltaTime r : ℚ)
    (stage : Stage) (hnone : em.currentEvent = none)
    (hstage : em.gameProgression.stages.get? em.gameProgression.currentStage = some stage)
    (hge : stage.startTime ≤ em.eventTimer + deltaTime) (hty : stage.type ≠ .finish) :
    em.afterStageCheck deltaTime r
      = ({ em with eventTimer := em.eventTimer + deltaTime }).startEvent stage.type none r := by
  unfold EventManager.afterStageCheck
  dsimp only
  rw [if_pos (by simp [hnone]), EventManager.checkForNextStage_of_stage
      { em with eventTimer := em.eventTimer + deltaTime } r stage hstage,
    if_pos hge, if_neg hty]

/-- With no event active and the finish stage due, the stage check of an
open session calls `triggerGameOver('success')`. -/
theorem EventManager.afterStageCheck_finish (em : EventManager) (deltaTime r : ℚ)
    (stage : Stage) (hnone : em.currentEvent = none)
    (hstage : em.gameProgression.stages.get? em.gameProgression.currentStage = some stage)
    (hge : stage.startTime ≤ em.eventTimer + deltaTime) (hty : stage.type = .finish)
    (hOpen : em.gameProgression.completed = false) :
    em.afterStageCheck deltaTime r
      = ({ em with eventTimer := em.eventTimer + deltaTime }).triggerGameOver .success "" := by
  unfold EventManager.afterStageCheck
  dsimp only
  rw [if_pos (by simp [hnone]), EventManager.checkForNextStage_of_stage
      { em with eventTimer := em.eventTimer + deltaTime } r stage hstage,
    if_pos hge, if_pos hty, if_pos (by simp [hOpen])]

/-- The control before the outcome check, no event active and the stage
under the cursor not yet due: the timer has advanced. -/
theorem EventManager.beforeOutcomeCheck_wait (em : EventManager) (deltaTime now r : ℚ)
    (stage : Stage) (hnone : em.currentEvent = none)
    (hstage : em.gameProgression.stages.get? em.gameProgression.currentStage = some stage)
    (hlt : em.eventTimer + deltaTime < stage.startTime) :
    (em.beforeOutcomeCheck deltaTime now r).control
      = { em.control with eventTimer := em.eventTimer + deltaTime } := by
  unfold EventManager.beforeOutcomeCheck
  dsimp only
  rw [EventManager.afterStageCheck_wait em deltaTime r stage hnone hstage hlt]
  dsimp only
  rw [if_neg (by simp [hnone])]
  rfl

/-- The control before the outcome check, no event active and a stage other
than the finish due: the stage's event has started at the advanced timer. -/
theorem EventManager.beforeOutcomeCheck_start (em : EventManager) (deltaTime now r : ℚ)
    (stage : Stage) (hnone : em.currentEvent = none)
    (hstage : em.gameProgression.stages.get? em.gameProgression.currentStage = some stage)
    (hge : stage.startTime ≤ em.eventTimer + deltaTime) (hty : stage.type ≠ .finish)
    (hdur : 0 < stage.duration) :
    (em.beforeOutcomeCheck deltaTime now r).control
      = { em.control with
          eventTimer := em.eventTimer + deltaTime
          currentEvent := some
            { type := stage.type
              name := getEventName stage.type
              startTime := em.eventTimer + deltaTime
              duration := stage.duration
              options := none }
          startedEvents := startedEvents em.trace ++ [stage.type] } := by
  have hc := EventManager.startEvent_control
    { em with eventTimer := em.eventTimer + deltaTime } stage.type none r
  dsimp only at hc
  rw [hstage] at hc
  dsimp only at hc
  rw [if_pos rfl] at hc
  unfold EventManager.beforeOutcomeCheck
  dsimp only
  rw [EventManager.afterStageCheck_start em deltaTime r stage hnone hstage hge hty]
  have hev := congrArg Control.currentEvent hc
  have htm := congrArg Control.eventTimer hc
  dsimp only [EventManager.control] at hev htm
  rw [if_pos (by rw [hev]; rfl), EventManager.updateCurrentEvent_control _ _ _ _ hev, htm]
  dsimp only
  rw [if_neg (by rw [sub_self]; exact not_le.2 hdur), hc]
  rfl

/-- The control before the outcome check, no event active and the finish
stage due in an open session: the session is closed by
`triggerGameOver('success')`. -/
theorem EventManager.beforeOutcomeCheck_finish (em : EventManager) (deltaTime now r : ℚ)
    (stage : Stage) (hnone : em.currentEvent = none)
    (hstage : em.gameProgression.stages.get? em.gameProgression.currentStage = some stage)
    (hge : stage.startTime ≤ em.eventTimer + deltaTime) (hty : stage.type = .finish)
    (hdur : 0 < stage.duration) (hOpen : em.gameProgression.completed = false) :
    (em.beforeOutcomeCheck deltaTime now r).control
      = { em.control with
          eventTimer := em.eventTimer + deltaTime
          gameProgression := { em.gameProgression with completed := true }
          currentEvent := some
            { type := .finish
              name := getEventName .finish
              startTime := em.eventTimer + deltaTime
              duration := stage.duration
              options := some (.success, "") }
          gameOverCalls := gameOverCalls em.trace ++ [.success]
          startedEvents := startedEvents em.trace ++ [.finish] } := by
  have hc := EventManager.triggerGameOver_control
    { em with eventTimer := em.eventTimer + deltaTime } .success "" hnone
  dsimp only at hc
  rw [hstage] at hc
  dsimp only at hc
  rw [if_pos hty] at hc
  unfold EventManager.beforeOutcomeCheck
  dsimp only
  rw [EventManager.afterStageCheck_finish em deltaTime r stage hnone hstage hge hty hOpen]
  have hev := congrArg Control.currentEvent hc
  have htm := congrArg Control.eventTimer hc
  dsimp only [EventManager.control] at hev htm
  rw [if_pos (by rw [hev]; rfl), EventManager.updateCurrentEvent_control _ _ _ _ hev, htm]
  dsimp only
  rw [if_neg (by rw [sub_self]; exact not_le.2 hdur), hc]
  rfl

/-- The control before the outcome check with an event active: the timer
has advanced, and the event has ended when its age has reached its
duration. -/
theorem EventManager.beforeOutcomeCheck_active (em : EventManager) (deltaTime now r : ℚ)
    (ev : GameEvent) (hev : em.currentEvent = some ev) :
    (em.beforeOutcomeCheck deltaTime now r).control
      = if em.eventTimer + deltaTime - ev.startTime ≥ ev.duration then
          { em.control with
            eventTimer := em.eventTimer + deltaTime
            gameProgression :=
              { em.gameProgression with
                currentStage :=
                  if em.gameProgression.currentStage + 1 < em.gameProgression.stages.length
                  then em.gameProgression.currentStage + 1
                  else em.gameProgression.currentStage }
            currentEvent := none }
        else { em.control with eventTimer := em.eventTimer + deltaTime } := by
  unfold EventManager.beforeOutcomeCheck
  dsimp only
  rw [EventManager.afterStageCheck_active em deltaTime r ev hev]
  dsimp only
  rw [if_pos (by rw [hev]; rfl),
    EventManager.updateCurrentEvent_control
      { em with eventTimer := em.eventTimer + deltaTime } deltaTime now ev hev,
    EventManager.endCurrentEvent_control]
  rfl

theorem InputHandler.executeAction_control (em : EventManager) (action : InputAction)
    (now : ℚ) : (InputHandler.executeAction em action now).control = em.control := by
  cases action <;>
    (unfold InputHandler.executeAction
     dsimp only [EventManager.handleEyeContact, EventManager.handleSwallow,
       EventManager.handleStep, EventManager.handleJump,
       EventManager.handleConversationOption, EventManager.hideEventPopup,
       EventManager.showEventPopup, EventManager.showEventDisplay, EventManager.emit,
       EventManager.setTimeout, GameState.addSuspicion, GameState.breathe,
       GameState.heartbeat, GameState.blink]
     repeat' split
     all_goals
       exact EventManager.control_of_same rfl rfl rfl rfl
         (by simp [gameOverCalls_append]) (by simp [startedEvents_append]))

/-- A callback other than `endCurrentEvent` leaves the control alone. -/
theorem EventManager.runCallback_control (em : EventManager) (t : Timer) (now r1 r2 : ℚ)
    (ht : t ≠ .endCurrentEvent) : (em.runCallback t now r1 r2).control = em.control := by
  cases t <;>
    first
      | exact absurd rfl ht
      | (unfold EventManager.runCallback
         dsimp only [EventManager.promptEyeContact, EventManager.promptSwallow,
           EventManager.startConversation, EventManager.showFirstConversation,
           EventManager.swallowTimeout, EventManager.showSecondConversation,
           EventManager.promptJump, EventManager.scheduleJumpPrompt,
           EventManager.jumpTimeout, EventManager.showEndScreen,
           EventManager.hideEventPopup, EventManager.showEventPopup,
           EventManager.showEventDisplay, EventManager.emit, EventManager.setTimeout,
           GameState.addSuspicion]
         repeat' split
         all_goals
           exact EventManager.control_of_same rfl rfl rfl rfl
             (by simp [gameOverCalls_append]) (by simp [startedEvents_append]))

/-- A pending callback that runs leaves the control alone, unless it is an
`endCurrentEvent`, which acts on the control as the method does. -/
theorem EventManager.fireTimer_control (em : EventManager) (i : Nat) (now r1 r2 : ℚ) :
    (em.fireTimer i now r1 r2).control
      = match em.timers.get? i with
        | some (_, .endCurrentEvent) => em.endCurrentEvent.control
        | _ => em.control := by
  unfold EventManager.fireTimer
  rcases hget : em.timers.get? i with _ | ⟨d, t⟩
  · rfl
  · dsimp only
    by_cases ht : t = .endCurrentEvent
    · subst ht
      dsimp only [EventManager.runCallback]
      rw [EventManager.endCurrentEvent_control, EventManager.endCurrentEvent_control]
      rfl
    · rw [EventManager.runCallback_control _ _ _ _ _ ht]
      cases t <;> first | rfl | exact absurd rfl ht

theorem EventManager.step_blinkTimeout_control (em : EventManager) :
    (em.step .blinkTimeout).control = em.control := by
  unfold EventManager.step
  dsimp only
  split <;> rfl

/-- A frame on a completed session leaves the control alone. -/
theorem gameFrame_control_of_completed (em : EventManager) (deltaTime now r : ℚ)
    (h : em.gameProgression.completed = true) :
    (gameFrame em deltaTime now r).control = em.control := by
  unfold gameFrame
  dsimp only
  rw [EventManager.update_of_completed
    { em with gameState := em.gameState.update deltaTime now } _ _ _ h]
  exact EventManager.control_of_same (GameState.update_gameStarted _ _ _) rfl rfl rfl rfl rfl

/-- A frame of a started, open session that leaves suspicion below the
maximum has not called `triggerGameOver('failure')`: it ends before the
outcome check acts. -/
theorem gameFrame_of_below (em : EventManager) (deltaTime now r : ℚ)
    (hStarted : em.gameState.gameStarted = true)
    (hOpen : em.gameProgression.completed = false)
    (hBelow : (gameFrame em deltaTime now r).gameState.suspicion.current
      < (gameFrame em deltaTime now r).gameState.suspicion.max) :
    gameFrame em deltaTime now r
      = ({ em with gameState := em.gameState.update deltaTime now }).beforeOutcomeCheck
          deltaTime now r := by
  have hs : (em.gameState.update deltaTime now).gameStarted = true := by
    rw [GameState.update_gameStarted]; exact hStarted
  unfold gameFrame at hBelow ⊢
  dsimp only at hBelow ⊢
  rw [EventManager.update_eq, if_pos (by simp [hs, hOpen])] at hBelow ⊢
  unfold EventManager.checkGameOverConditions at hBelow ⊢
  split_ifs at hBelow ⊢ with h
  · rw [EventManager.triggerGameOver_suspicion] at hBelow
    exact absurd h (not_le.2 hBelow)
  · rfl

/-- The stages of the constructor: each has a positive duration, the finish
is the fifth, and the stage types up to a stage are those before it and its
own. -/
theorem defaultStages_get (cursor : Nat) (h : cursor ≤ 4) :
    ∃ stage, defaultStages.get? cursor = some stage ∧ 0 < stage.duration
      ∧ (stage.type = .finish ↔ cursor = 4)
      ∧ stageOrder.take (cursor + 1) = stageOrder.take cursor ++ [stage.type] := by
  interval_cases cursor <;>
    exact ⟨_, rfl, by norm_num [defaultStages], by decide, by decide⟩

/-- The digest of a frame of an open session on schedule that leaves
suspicion below the maximum.  Before the due time only the timer advances;
from the due time on the session moves on and stays on schedule. -/
theorem gameFrame_onSchedule (em : EventManager) (deltaTime now r : ℚ)
    (hOn : em.control.OnSchedule) (hOpen : em.gameProgression.completed = false)
    (hBelow : (gameFrame em deltaTime now r).gameState.suspicion.current
      < (gameFrame em deltaTime now r).gameState.suspicion.max) :
    (em.eventTimer + deltaTime < em.control.due
        ∧ (gameFrame em deltaTime now r).control
          = { em.control with eventTimer := em.eventTimer + deltaTime })
      ∨ (em.control.due ≤ em.eventTimer + deltaTime
        ∧ em.control.progress < (gameFrame em deltaTime now r).control.progress
        ∧ (gameFrame em deltaTime now r).control.OnSchedule
        ∧ (gameFrame em deltaTime now r).control.eventTimer = em.eventTimer + deltaTime) := by
  obtain ⟨hStarted, hStages, hRest⟩ := hOn
  have hOpen' : em.control.gameProgression.completed = false := hOpen
  rw [hOpen'] at hRest
  obtain ⟨hCalls, hRest⟩ := hRest
  change em.gameState.gameStarted = true at hStarted
  change em.gameProgression.stages = defaultStages at hStages
  change gameOverCalls em.trace = [] at hCalls
  rw [gameFrame_of_below em deltaTime now r hStarted hOpen hBelow]
  have h0 : ({ em with gameState := em.gameState.update deltaTime now } : EventManager).control
      = em.control :=
    EventManager.control_of_same (GameState.update_gameStarted _ _ _) rfl rfl rfl rfl rfl
  obtain hce | ⟨ev, hce⟩ : em.currentEvent = none ∨ ∃ ev, em.currentEvent = some ev := by
    cases em.currentEvent
    · exact Or.inl rfl
    · exact Or.inr ⟨_, rfl⟩
  · have hce' : em.control.currentEvent = none := hce
    rw [hce'] at hRest
    obtain ⟨hCursor, hEvents⟩ := hRest
    change em.gameProgression.currentStage ≤ 4 at hCursor
    change startedEvents em.trace = stageOrder.take em.gameProgression.currentStage at hEvents
    obtain ⟨stage, hstage, hdur, hfin, htake⟩ :=
      defaultStages_get em.gameProgression.currentStage hCursor
    rw [← hStages] at hstage
    have hdue : em.control.due = stage.startTime := by
      unfold Control.due
      rw [hce']
      dsimp only
      rw [show em.control.gameProgression = em.gameProgression from rfl, hstage]
    rw [hdue]
    by_cases hlt : em.eventTimer + deltaTime < stage.startTime
    · left
      refine ⟨hlt, ?_⟩
      rw [EventManager.beforeOutcomeCheck_wait
        { em with gameState := em.gameState.update deltaTime now } deltaTime now r stage hce hstage hlt, h0]
    · right
      have hge := not_lt.1 hlt
      refine ⟨hge, ?_⟩
      by_cases hty : stage.type = .finish
      · have h4 := hfin.1 hty
        rw [EventManager.beforeOutcomeCheck_finish
          { em with gameState := em.gameState.update deltaTime now } deltaTime now r stage hce hstage hge hty
          hdur hOpen, h0]
        refine ⟨?_, ⟨hStarted, hStages, ?_⟩, rfl⟩
        · simp [Control.progress, EventManager.control, hOpen, hce, h4]
        · dsimp only [EventManager.control]
          rw [if_pos rfl, hCalls, hEvents, h4]
          exact ⟨rfl, rfl⟩
      · have h3 : em.gameProgression.currentStage ≤ 3 := by
          rcases Nat.lt_or_ge em.gameProgression.currentStage 4 with h | h
          · omega
          · exact absurd (hfin.2 (le_antisymm hCursor h)) hty
        rw [EventManager.beforeOutcomeCheck_start
          { em with gameState := em.gameState.update deltaTime now } deltaTime now r stage hce hstage hge hty
          hdur, h0]
        refine ⟨?_, ⟨hStarted, hStages, ?_⟩, rfl⟩
        · simp [Control.progress, EventManager.control, hOpen, hce]
        · dsimp only [EventManager.control]
          rw [hOpen, if_neg (by decide), hCalls, hEvents, htake]
          exact ⟨rfl, h3, rfl⟩
  · have hce' : em.control.currentEvent = some ev := hce
    rw [hce'] at hRest
    obtain ⟨hCursor, hEvents⟩ := hRest
    change em.gameProgression.currentStage ≤ 3 at hCursor
    change startedEvents em.trace
      = stageOrder.take (em.gameProgression.currentStage + 1) at hEvents
    have hdue : em.control.due = ev.startTime + ev.duration := by
      unfold Control.due
      rw [hce']
    have hlen : em.gameProgression.stages.length = 5 := by rw [hStages]; rfl
    rw [hdue, EventManager.beforeOutcomeCheck_active
      { em with gameState := em.gameState.update deltaTime now } deltaTime now r ev hce, h0]
    by_cases hlt : em.eventTimer + deltaTime < ev.startTime + ev.duration
    · left
      refine ⟨hlt, ?_⟩
      rw [if_neg (by simp only [ge_iff_le, not_le]; linarith)]
    · right
      have hge := not_lt.1 hlt
      refine ⟨hge, ?_⟩
      rw [if_pos (by simp only [ge_iff_le]; linarith)]
      dsimp only
      rw [hlen, if_pos (by omega)]
      refine ⟨?_, ⟨hStarted, hStages, ?_⟩, rfl⟩
      · simp [Control.progress, EventManager.control, hOpen, hce]
        omega
      · dsimp only [EventManager.control]
        rw [hOpen, if_neg (by decide), hCalls, hEvents]
        exact ⟨rfl, by omega, rfl⟩

/-- An action on a completed session on schedule leaves it completed and on
schedule. -/
theorem EventManager.step_onSchedule_of_completed (em : EventManager) (a : GameAction)
    (hOn : em.control.OnSchedule) (hDone : em.gameProgression.completed = true) :
    (em.step a).control.OnSchedule ∧ (em.step a).gameProgression.completed = true := by
  have hEnd : em.endCurrentEvent.control.OnSchedule
      ∧ em.endCurrentEvent.gameProgression.completed = true := by
    obtain ⟨h1, h2, h3⟩ := hOn
    rw [show em.control.gameProgression.completed = true from hDone, if_pos rfl] at h3
    refine ⟨?_, by rw [EventManager.endCurrentEvent_completed]; exact hDone⟩
    rw [EventManager.endCurrentEvent_control]
    refine ⟨h1, h2, ?_⟩
    dsimp only
    rw [hDone, if_pos rfl]
    exact h3
  have hSame : ∀ em' : EventManager, em'.control = em.control →
      em'.control.OnSchedule ∧ em'.gameProgression.completed = true := by
    intro em' h
    rw [h]
    refine ⟨hOn, ?_⟩
    have h2 := congrArg (fun c => c.gameProgression.completed) h
    exact h2.trans hDone
  cases a with
  | frame deltaTime now r => exact hSame _ (gameFrame_control_of_completed em _ _ _ hDone)
  | input action now => exact hSame _ (InputHandler.executeAction_control em action now)
  | timer i now r1 r2 =>
    have h := EventManager.fireTimer_control em i now r1 r2
    unfold EventManager.step
    split at h
    · rw [h]
      exact ⟨hEnd.1, (congrArg (fun c => c.gameProgression.completed) h).trans hEnd.2⟩
    · exact hSame _ h
  | blinkTimeout => exact hSame _ (EventManager.step_blinkTimeout_control em)

/-- The digest of an action on the success path taken in an open session on
schedule.  Either only the timer advances, by the frame's `deltaTime`, a
frame doing so only before the due time; or the session moves on and stays
on schedule. -/
theorem EventManager.step_onSchedule_of_open (em : EventManager) (a : GameAction)
    (hOn : em.control.OnSchedule) (hOpen : em.gameProgression.completed = false)
    (hPath : em.onSuccessPath a = true) :
    ((em.step a).control = { em.control with eventTimer := em.eventTimer + frameTime a }
        ∧ ∀ deltaTime now r, a = .frame deltaTime now r →
          em.eventTimer + deltaTime < em.control.due)
      ∨ (em.control.progress < (em.step a).control.progress
        ∧ (em.step a).control.OnSchedule
        ∧ (em.step a).control.eventTimer = em.eventTimer + frameTime a) := by
  have hSame : ∀ em' : EventManager, em'.control = em.control →
      em'.control = { em.control with eventTimer := em.eventTimer + 0 } := by
    intro em' h
    rw [h, add_zero]
    rfl
  cases a with
  | frame deltaTime now r =>
    unfold EventManager.onSuccessPath at hPath
    rw [hOpen] at hPath
    simp only [Bool.false_or, Bool.and_eq_true, decide_eq_true_eq] at hPath
    rcases gameFrame_onSchedule em deltaTime now r hOn hOpen hPath.2 with h | h
    · left
      refine ⟨h.2, ?_⟩
      intro d n r' heq
      cases heq
      exact h.1
    · right
      exact h.2
  | input action now =>
    left
    exact ⟨hSame _ (InputHandler.executeAction_control em action now),
      fun _ _ _ h => by cases h⟩
  | timer i now r1 r2 =>
    have h := EventManager.fireTimer_control em i now r1 r2
    unfold EventManager.onSuccessPath at hPath
    dsimp only at hPath
    unfold EventManager.step
    dsimp only
    split at h
    · rename_i d hget
      right
      rw [hget, hOpen] at hPath
      simp only [Bool.false_or, Bool.and_eq_true] at hPath
      obtain ⟨ev, hev⟩ : ∃ ev, em.currentEvent = some ev := by
        rcases hce : em.currentEvent with _ | ev
        · rw [hce] at hPath
          exact absurd hPath.1 (by simp [isEventOfType])
        · exact ⟨ev, rfl⟩
      obtain ⟨hStarted, hStages, hRest⟩ := hOn
      rw [show em.control.gameProgression.completed = false from hOpen,
        show em.control.currentEvent = some ev from hev] at hRest
      obtain ⟨hCalls, hCursor, hEvents⟩ := hRest
      change em.gameProgression.currentStage ≤ 3 at hCursor
      have hlen : em.gameProgression.stages.length = 5 := by
        rw [show em.gameProgression.stages = defaultStages from hStages]; rfl
      rw [h, EventManager.endCurrentEvent_control]
      dsimp only
      rw [hlen, if_pos (by omega)]
      refine ⟨?_, ⟨hStarted, hStages, ?_⟩, ?_⟩
      · simp [Control.progress, EventManager.control, hOpen, hev]
        omega
      · dsimp only [EventManager.control]
        rw [hOpen, if_neg (by decide)]
        exact ⟨hCalls, by omega, hEvents⟩
      · simp [EventManager.control, frameTime]
    · left
      exact ⟨hSame _ h, fun _ _ _ h => by cases h⟩
  | blinkTimeout =>
    left
    exact ⟨hSame _ (EventManager.step_blinkTimeout_control em), fun _ _ _ h => by cases h⟩

/-- On schedule, the progress is at most 9, and 9 exactly for a completed
session. -/
theorem Control.OnSchedule.progress_le {c : Control} (h : c.OnSchedule) :
    c.progress ≤ 9 ∧ (c.progress = 9 ↔ c.gameProgression.completed = true) := by
  obtain ⟨_, _, h3⟩ := h
  unfold Control.progress
  rcases hc : c.gameProgression.completed with _ | _
  · rw [hc] at h3
    simp only [Bool.false_eq_true, if_false] at h3 ⊢
    rcases he : c.currentEvent with _ | ev
    · rw [he] at h3
      have := h3.2.1
      simp
      omega
    · rw [he] at h3
      have := h3.2.1
      simp
      omega
  · simp

/-- A frame on the success path has a positive `deltaTime`. -/
theorem EventManager.frameTime_pos_of_onSuccessPath (em : EventManager) (a : GameAction)
    (h : em.onSuccessPath a = true) : 0 ≤ frameTime a := by
  cases a with
  | frame deltaTime now r =>
    unfold EventManager.onSuccessPath at h
    simp only [Bool.and_eq_true, decide_eq_true_eq] at h
    exact le_of_lt h.1
  | input action now => exact le_refl _
  | timer i now r1 r2 => exact le_refl _
  | blinkTimeout => exact le_refl _

/-- Along a schedule on the success path the session stays on schedule. -/
theorem EventManager.after_onSchedule (em : EventManager) (schedule : ℕ → GameAction)
    (h0 : em.control.OnSchedule)
    (hPath : ∀ n, (em.after schedule n).onSuccessPath (schedule n) = true) (n : ℕ) :
    (em.after schedule n).control.OnSchedule := by
  induction n with
  | zero => exact h0
  | succ n ih =>
    change ((em.after schedule n).step (schedule n)).control.OnSchedule
    rcases hc : (em.after schedule n).gameProgression.completed with _ | _
    · rcases EventManager.step_onSchedule_of_open _ _ ih hc (hPath n) with h | h
      · rw [h.1]
        exact ih
      · exact h.2.1
    · exact (EventManager.step_onSchedule_of_completed _ _ ih hc).1

/-- A completed session stays completed along a schedule on the success
path. -/
theorem EventManager.after_completed (em : EventManager) (schedule : ℕ → GameAction)
    (h0 : em.control.OnSchedule)
    (hPath : ∀ n, (em.after schedule n).onSuccessPath (schedule n) = true) (n : ℕ)
    (hc : (em.after schedule n).gameProgression.completed = true) (m : ℕ) (hm : n ≤ m) :
    (em.after schedule m).gameProgression.completed = true := by
  induction m, hm using Nat.le_induction with
  | base => exact hc
  | succ m _ ih =>
    exact (EventManager.step_onSchedule_of_completed _ (schedule m)
      (EventManager.after_onSchedule em schedule h0 hPath m) ih).2

/-- Along a schedule on the success path the progress never falls. -/
theorem EventManager.after_progress_mono (em : EventManager) (schedule : ℕ → GameAction)
    (h0 : em.control.OnSchedule)
    (hPath : ∀ n, (em.after schedule n).onSuccessPath (schedule n) = true) (n : ℕ) :
    (em.after schedule n).control.progress ≤ (em.after schedule (n + 1)).control.progress := by
  have ih := EventManager.after_onSchedule em schedule h0 hPath n
  change _ ≤ ((em.after schedule n).step (schedule n)).control.progress
  rcases hc : (em.after schedule n).gameProgression.completed with _ | _
  · rcases EventManager.step_onSchedule_of_open _ _ ih hc (hPath n) with h | h
    · rw [h.1]
      exact le_refl _
    · exact le_of_lt h.1
  · have h := EventManager.step_onSchedule_of_completed _ (schedule n) ih hc
    rw [(h.1.progress_le.2).2 h.2]
    exact ih.progress_le.1

theorem EventManager.after_progress_le (em : EventManager) (schedule : ℕ → GameAction)
    (h0 : em.control.OnSchedule)
    (hPath : ∀ n, (em.after schedule n).onSuccessPath (schedule n) = true) (n m : ℕ)
    (hm : n ≤ m) :
    (em.after schedule n).control.progress ≤ (em.after schedule m).control.progress := by
  induction m, hm using Nat.le_induction with
  | base => exact le_refl _
  | succ m _ ih => exact le_trans ih (EventManager.after_progress_mono em schedule h0 hPath m)

/-- While the session is open its event timer is the play time of the
frames so far. -/
theorem EventManager.after_eventTimer (em : EventManager) (schedule : ℕ → GameAction)
    (h0 : em.control.OnSchedule)
    (hPath : ∀ n, (em.after schedule n).onSuccessPath (schedule n) = true) (n : ℕ)
    (hOpen : (em.after schedule n).gameProgression.completed = false) :
    (em.after schedule n).eventTimer = em.eventTimer + elapsed schedule n := by
  induction n with
  | zero => exact (add_zero _).symm
  | succ n ih =>
    have hOn := EventManager.after_onSchedule em schedule h0 hPath n
    rcases hc : (em.after schedule n).gameProgression.completed with _ | _
    · have ih := ih hc
      change ((em.after schedule n).step (schedule n)).eventTimer
        = em.eventTimer + (elapsed schedule n + frameTime (schedule n))
      rw [← add_assoc, ← ih]
      rcases EventManager.step_onSchedule_of_open _ _ hOn hc (hPath n) with h | h
      · exact congrArg Control.eventTimer h.1
      · exact h.2.2
    · have h := EventManager.after_completed em schedule h0 hPath n hc (n + 1) (Nat.le_succ n)
      rw [h] at hOpen
      exact absurd hOpen (by decide)

/-- An action that does not raise the progress of an open session leaves
the due time alone. -/
theorem EventManager.after_due_of_progress_eq (em : EventManager)
    (schedule : ℕ → GameAction) (h0 : em.control.OnSchedule)
    (hPath : ∀ n, (em.after schedule n).onSuccessPath (schedule n) = true) (n : ℕ)
    (hOpen : (em.after schedule n).gameProgression.completed = false)
    (hEq : (em.after schedule (n + 1)).control.progress
      ≤ (em.after schedule n).control.progress) :
    (em.after schedule (n + 1)).control.due = (em.after schedule n).control.due := by
  have hOn := EventManager.after_onSchedule em schedule h0 hPath n
  change ((em.after schedule n).step (schedule n)).control.progress ≤ _ at hEq
  change ((em.after schedule n).step (schedule n)).control.due = _
  rcases EventManager.step_onSchedule_of_open _ _ hOn hOpen (hPath n) with h | h
  · rw [h.1]
    rfl
  · exact absurd h.1 (not_lt.2 hEq)

/-- A frame of an open session at or after the due time raises the
progress. -/
theorem EventManager.after_progress_of_due (em : EventManager)
    (schedule : ℕ → GameAction) (h0 : em.control.OnSchedule)
    (hPath : ∀ n, (em.after schedule n).onSuccessPath (schedule n) = true) (n : ℕ)
    (hOpen : (em.after schedule n).gameProgression.completed = false)
    (deltaTime now r : ℚ) (hFrame : schedule n = .frame deltaTime now r)
    (hDue : (em.after schedule n).control.due
      ≤ (em.after schedule n).eventTimer + deltaTime) :
    (em.after schedule n).control.progress
      < (em.after schedule (n + 1)).control.progress := by
  have hOn := EventManager.after_onSchedule em schedule h0 hPath n
  change _ < ((em.after schedule n).step (schedule n)).control.progress
  rcases EventManager.step_onSchedule_of_open _ _ hOn hOpen (hPath n) with h | h
  · exact absurd (h.2 deltaTime now r hFrame) (not_lt.2 hDue)
  · exact h.1

/-- The play time of a schedule on the success path never falls. -/
theorem EventManager.elapsed_mono (em : EventManager) (schedule : ℕ → GameAction)
    (hPath : ∀ n, (em.after schedule n).onSuccessPath (schedule n) = true) (n m : ℕ)
    (hm : n ≤ m) : elapsed schedule n ≤ elapsed schedule m := by
  induction m, hm using Nat.le_induction with
  | base => exact le_refl _
  | succ m _ ih =>
    have h := EventManager.frameTime_pos_of_onSuccessPath _ _ (hPath m)
    change _ ≤ elapsed schedule m + frameTime (schedule m)
    linarith

/-- When the play time has grown between two points of a schedule, a frame
in between brings it to its later value. -/
theorem EventManager.exists_frame (em : EventManager) (schedule : ℕ → GameAction)
    (hPath : ∀ n, (em.after schedule n).onSuccessPath (schedule n) = true) (n : ℕ) :
    ∀ m, elapsed schedule n < elapsed schedule m →
      ∃ j, n ≤ j ∧ elapsed schedule (j + 1) = elapsed schedule m
        ∧ ∃ deltaTime now r, schedule j = .frame deltaTime now r := by
  intro m
  induction m with
  | zero =>
    intro h
    exact absurd (EventManager.elapsed_mono em schedule hPath 0 n (Nat.zero_le n)) (not_le.2 h)
  | succ m ih =>
    intro h
    have hnm : n ≤ m := by
      by_contra hlt
      exact absurd (EventManager.elapsed_mono em schedule hPath (m + 1) n (by omega))
        (not_le.2 h)
    rcases hs : schedule m with ⟨deltaTime, now, r⟩ | ⟨action, now⟩ | ⟨i, now, r1, r2⟩ | _
    · exact ⟨m, hnm, rfl, deltaTime, now, r, hs⟩
    all_goals
      have he : elapsed schedule (m + 1) = elapsed schedule m := by
        change elapsed schedule m + frameTime (schedule m) = _
        rw [hs]
        exact add_zero _
      rw [he] at h ⊢
      exact ih h

/-- With play time growing without bound, an open session on the success
path moves on. -/
theorem EventManager.exists_progress (em : EventManager) (schedule : ℕ → GameAction)
    (h0 : em.control.OnSchedule)
    (hPath : ∀ n, (em.after schedule n).onSuccessPath (schedule n) = true)
    (hTime : ∀ bound : ℚ, ∃ n, bound ≤ elapsed schedule n) (n : ℕ)
    (hOpen : (em.after schedule n).gameProgression.completed = false) :
    ∃ m, (em.after schedule n).control.progress < (em.after schedule m).control.progress := by
  by_contra hno
  have hle : ∀ m, (em.after schedule m).control.progress
      ≤ (em.after schedule n).control.progress := fun m => not_lt.1 fun h => hno ⟨m, h⟩
  have hOpenAll : ∀ m, (em.after schedule m).gameProgression.completed = false := by
    intro m
    rcases hc : (em.after schedule m).gameProgression.completed with _ | _
    · rfl
    · have h9 := ((EventManager.after_onSchedule em schedule h0 hPath m).progress_le.2).2 hc
      have hn := (EventManager.after_onSchedule em schedule h0 hPath n).progress_le
      have h9n : (em.after schedule n).control.progress = 9 :=
        le_antisymm hn.1 (h9 ▸ hle m)
      have h1 : (em.after schedule n).gameProgression.completed = true := hn.2.1 h9n
      rw [h1] at hOpen
      exact absurd hOpen (by decide)
  have hDue : ∀ k, (em.after schedule (n + k)).control.due
      = (em.after schedule n).control.due := by
    intro k
    induction k with
    | zero => rfl
    | succ k ih =>
      rw [← ih]
      exact EventManager.after_due_of_progress_eq em schedule h0 hPath (n + k)
        (hOpenAll _)
        (le_trans (hle _)
          (EventManager.after_progress_le em schedule h0 hPath n (n + k) (Nat.le_add_right n k)))
  obtain ⟨N, hN⟩ := hTime
    (max ((em.after schedule n).control.due - em.eventTimer) (elapsed schedule n) + 1)
  have hN1 : (em.after schedule n).control.due - em.eventTimer ≤ elapsed schedule N :=
    le_trans (le_trans (le_max_left _ _) (by linarith)) hN
  have hN2 : elapsed schedule n < elapsed schedule N :=
    lt_of_lt_of_le (lt_of_le_of_lt (le_max_right _ _) (by linarith)) hN
  obtain ⟨j, hnj, hj, deltaTime, now, r, hFrame⟩ :=
    EventManager.exists_frame em schedule hPath n N hN2
  obtain ⟨k, rfl⟩ : ∃ k, j = n + k := ⟨j - n, by omega⟩
  have hTimer := EventManager.after_eventTimer em schedule h0 hPath (n + k) (hOpenAll _)
  have hStep : elapsed schedule (n + k + 1) = elapsed schedule (n + k) + deltaTime := by
    change elapsed schedule (n + k) + frameTime (schedule (n + k)) = _
    rw [hFrame]
    rfl
  have hlt := EventManager.after_progress_of_due em schedule h0 hPath (n + k) (hOpenAll _)
    deltaTime now r hFrame (by rw [hDue k, hTimer]; linarith)
  exact absurd (lt_of_lt_of_le hlt (hle _))
    (not_lt.2 (EventManager.after_progress_le em schedule h0 hPath n (n + k)
      (Nat.le_add_right n k)))

/-- With play time growing without bound, a session on the success path is
completed in the end. -/
theorem EventManager.exists_completed (em : EventManager) (schedule : ℕ → GameAction)
    (h0 : em.control.OnSchedule)
    (hPath : ∀ n, (em.after schedule n).onSuccessPath (schedule n) = true)
    (hTime : ∀ bound : ℚ, ∃ n, bound ≤ elapsed schedule n) :
    ∃ n, (em.after schedule n).gameProgression.completed = true := by
  have key : ∀ k n, 9 - (em.after schedule n).control.progress ≤ k →
      ∃ m, (em.after schedule m).gameProgression.completed = true := by
    intro k
    induction k with
    | zero =>
      intro n hn
      have h := (EventManager.after_onSchedule em schedule h0 hPath n).progress_le
      exact ⟨n, h.2.1 (by omega)⟩
    | succ k ih =>
      intro n hn
      rcases hc : (em.after schedule n).gameProgression.completed with _ | _
      · obtain ⟨m, hm⟩ := EventManager.exists_progress em schedule h0 hPath hTime n hc
        exact ih m (by omega)
      · exact ⟨n, hc⟩
  exact key 9 0 (by omega)

theorem startedGame_onSchedule (now : ℚ) : (startedGame now).control.OnSchedule :=
  ⟨rfl, rfl, rfl, Nat.zero_le _, rfl⟩

/-- Past its first action, a schedule built from a list runs the rest of
the list from the state after that action. -/
theorem EventManager.after_scheduleOf_cons (em : EventManager) (a : GameAction)
    (actions : List GameAction) (rest : GameAction) (n : ℕ) :
    em.after (scheduleOf (a :: actions) rest) (n + 1)
      = (em.step a).after (scheduleOf actions rest) n := by
  induction n with
  | zero => rfl
  | succ n ih =>
    change (em.after (scheduleOf (a :: actions) rest) (n + 1)).step
      (scheduleOf (a :: actions) rest (n + 1)) = _
    rw [ih]
    rfl

theorem elapsed_scheduleOf_cons (a : GameAction) (actions : List GameAction)
    (rest : GameAction) (n : ℕ) :
    elapsed (scheduleOf (a :: actions) rest) (n + 1)
      = frameTime a + elapsed (scheduleOf actions rest) n := by
  induction n with
  | zero =>
    change (0 : ℚ) + frameTime a = frameTime a + 0
    ring
  | succ n ih =>
    change elapsed (scheduleOf (a :: actions) rest) (n + 1)
      + frameTime (scheduleOf (a :: actions) rest (n + 1)) = _
    rw [ih]
    change _ = frameTime a
      + (elapsed (scheduleOf actions rest) n + frameTime (scheduleOf actions rest n))
    rw [add_assoc]
    rfl

/-- A list of actions on the success path that completes the session,
followed by frames of positive length for ever, is a schedule on the
success path. -/
theorem EventManager.onSuccessPath_scheduleOf (actions : List GameAction)
    (deltaTime now r : ℚ) (hdt : 0 < deltaTime) :
    ∀ em : EventManager, em.successPath actions = true →
      (em.run actions).gameProgression.completed = true →
      ∀ n, (em.after (scheduleOf actions (.frame deltaTime now r)) n).onSuccessPath
        (scheduleOf actions (.frame deltaTime now r) n) = true := by
  induction actions with
  | nil =>
    intro em _ hDone n
    have hc : (em.after (scheduleOf [] (.frame deltaTime now r)) n).gameProgression.completed
        = true := by
      induction n with
      | zero => exact hDone
      | succ n ih => exact (EventManager.step_of_completed _ _ ih).1
    change EventManager.onSuccessPath _ (.frame deltaTime now r) = true
    unfold EventManager.onSuccessPath
    rw [hc]
    simp [hdt]
  | cons a actions ih =>
    intro em hPath hDone n
    unfold EventManager.successPath at hPath
    rw [Bool.and_eq_true] at hPath
    cases n with
    | zero => exact hPath.1
    | succ n =>
      rw [EventManager.after_scheduleOf_cons]
      exact ih (em.step a) hPath.2 hDone n

/-- A list of actions followed by frames of positive length for ever has
play time growing without bound. -/
theorem elapsed_scheduleOf_unbounded (actions : List GameAction)
    (deltaTime now r : ℚ) (hdt : 0 < deltaTime) :
    ∀ bound : ℚ, ∃ n, bound ≤ elapsed (scheduleOf actions (.frame deltaTime now r)) n := by
  induction actions with
  | nil =>
    intro bound
    have hn : ∀ n : ℕ, elapsed (scheduleOf [] (.frame deltaTime now r)) n = n * deltaTime := by
      intro n
      induction n with
      | zero => simp [elapsed]
      | succ n ih =>
        change elapsed (scheduleOf [] (.frame deltaTime now r)) n + deltaTime = _
        rw [ih]
        push_cast
        ring
    obtain ⟨n, hn'⟩ := exists_nat_ge (bound / deltaTime)
    refine ⟨n, ?_⟩
    rw [hn n]
    exact (div_le_iff₀ hdt).1 hn'
  | cons a actions ih =>
    intro bound
    obtain ⟨n, hn⟩ := ih (bound - frameTime a)
    refine ⟨n + 1, ?_⟩
    rw [elapsed_scheduleOf_cons]
    linarith

/-! ## C10 -/

/-- The success path under a discipline on the callbacks.  From the
constructed state with `startGame()` called, take any unending schedule of
frames, key presses and callbacks in which every frame has `deltaTime > 0`
and, while the session is open, leaves suspicion below the maximum, the
delayed `endCurrentEvent` of a completed woods stage runs while that stage
is still active, and play time grows without bound.  Then at every point no
`triggerGameOver('failure')` call has been made, the events started so far
are an initial part of baseline, runningWoods, orderCoffee, runningWoods,
finish, the event timer of the open session is the play time so far, and a
frame that finds no event active, the cursor on the finish stage and the
timer at 179000 or more makes the one ending call
`triggerGameOver('success')`.  And that point is reached: from some point on
the session is completed, all five events have been started in order, and
the only ending call made is `success`. -/
theorem success_path_ends_in_success (now₀ : ℚ) (schedule : ℕ → GameAction)
    (hPath : ∀ n, ((startedGame now₀).after schedule n).onSuccessPath (schedule n) = true)
    (hTime : ∀ bound : ℚ, ∃ n, bound ≤ elapsed schedule n) :
    (∀ n,
        failureCalls ((startedGame now₀).after schedule n).trace = 0
        ∧ startedEvents ((startedGame now₀).after schedule n).trace
          <+: [.baseline, .runningWoods, .orderCoffee, .runningWoods, .finish]
        ∧ (((startedGame now₀).after schedule n).gameProgression.completed = false →
          ((startedGame now₀).after schedule n).eventTimer = elapsed schedule n)
        ∧ ∀ deltaTime now r, schedule n = .frame deltaTime now r →
          ((startedGame now₀).after schedule n).gameProgression.completed = false →
          ((startedGame now₀).after schedule n).currentEvent = none →
          ((startedGame now₀).after schedule n).gameProgression.currentStage = 4 →
          179000 ≤ ((startedGame now₀).after schedule n).eventTimer + deltaTime →
          gameOverCalls ((startedGame now₀).after schedule (n + 1)).trace = [.success])
      ∧ ∃ n,
        startedEvents ((startedGame now₀).after schedule n).trace
          = [.baseline, .runningWoods, .orderCoffee, .runningWoods, .finish]
        ∧ ∀ m, n ≤ m →
          ((startedGame now₀).after schedule m).gameProgression.completed = true
          ∧ gameOverCalls ((startedGame now₀).after schedule m).trace = [.success] := by
  have h0 := startedGame_onSchedule now₀
  have hOn := EventManager.after_onSchedule (startedGame now₀) schedule h0 hPath
  have hDone : ∀ n, ((startedGame now₀).after schedule n).gameProgression.completed = true →
      gameOverCalls ((startedGame now₀).after schedule n).trace = [.success]
        ∧ startedEvents ((startedGame now₀).after schedule n).trace = stageOrder := by
    intro n hc
    obtain ⟨_, _, h3⟩ := hOn n
    rw [show ((startedGame now₀).after schedule n).control.gameProgression.completed = true
      from hc, if_pos rfl] at h3
    exact h3
  refine ⟨fun n => ⟨?_, ?_, ?_, ?_⟩, ?_⟩
  · obtain ⟨_, _, h3⟩ := hOn n
    unfold failureCalls
    split_ifs at h3 with hc
    · rw [show gameOverCalls ((startedGame now₀).after schedule n).trace = _ from h3.1]
      rfl
    · rw [show gameOverCalls ((startedGame now₀).after schedule n).trace = _ from h3.1]
      rfl
  · obtain ⟨_, _, h3⟩ := hOn n
    change _ <+: stageOrder
    split_ifs at h3 with hc
    · rw [show startedEvents ((startedGame now₀).after schedule n).trace = _ from h3.2]
    · rcases he : ((startedGame now₀).after schedule n).control.currentEvent with _ | ev
      · rw [he] at h3
        rw [show startedEvents ((startedGame now₀).after schedule n).trace = _ from h3.2.2]
        exact List.take_prefix _ _
      · rw [he] at h3
        rw [show startedEvents ((startedGame now₀).after schedule n).trace = _ from h3.2.2]
        exact List.take_prefix _ _
  · intro hOpen
    rw [EventManager.after_eventTimer (startedGame now₀) schedule h0 hPath n hOpen]
    exact zero_add _
  · intro deltaTime now r hFrame hOpen hNone hCursor hTimer
    have hdue : ((startedGame now₀).after schedule n).control.due = 179000 := by
      unfold Control.due
      rw [show ((startedGame now₀).after schedule n).control.currentEvent = none from hNone]
      dsimp only
      rw [show ((startedGame now₀).after schedule n).control.gameProgression.stages
          = defaultStages from (hOn n).2.1,
        show ((startedGame now₀).after schedule n).control.gameProgression.currentStage = 4
          from hCursor]
      rfl
    have hlt := EventManager.after_progress_of_due (startedGame now₀) schedule h0 hPath n
      hOpen deltaTime now r hFrame (by rw [hdue]; exact hTimer)
    have h8 : ((startedGame now₀).after schedule n).control.progress = 8 := by
      unfold Control.progress
      rw [show ((startedGame now₀).after schedule n).control.gameProgression.completed = false
          from hOpen,
        show ((startedGame now₀).after schedule n).control.currentEvent = none from hNone,
        show ((startedGame now₀).after schedule n).control.gameProgression.currentStage = 4
          from hCursor]
      rfl
    have h9 := (hOn (n + 1)).progress_le
    exact (hDone (n + 1) (h9.2.1 (by omega))).1
  · obtain ⟨n, hn⟩ := EventManager.exists_completed (startedGame now₀) schedule h0 hPath hTime
    refine ⟨n, (hDone n hn).2, fun m hm => ?_⟩
    have hc := EventManager.after_completed (startedGame now₀) schedule h0 hPath n hn m hm
    exact ⟨hc, (hDone m hc).1⟩

/-- The success path at a concrete schedule: the session `successRun`
followed by a frame every second. -/
theorem success_path_ends_in_success_witness :
    (∀ n, ((startedGame 1000000).after successSchedule n).onSuccessPath (successSchedule n)
        = true)
      ∧ (∀ bound : ℚ, ∃ n, bound ≤ elapsed successSchedule n)
      ∧ (∀ n,
          failureCalls ((startedGame 1000000).after successSchedule n).trace = 0
          ∧ startedEvents ((startedGame 1000000).after successSchedule n).trace
            <+: [.baseline, .runningWoods, .orderCoffee, .runningWoods, .finish]
          ∧ (((startedGame 1000000).after successSchedule n).gameProgression.completed = false →
            ((startedGame 1000000).after successSchedule n).eventTimer
              = elapsed successSchedule n)
          ∧ ∀ deltaTime now r, successSchedule n = .frame deltaTime now r →
            ((startedGame 1000000).after successSchedule n).gameProgression.completed = false →
            ((startedGame 1000000).after successSchedule n).currentEvent = none →
            ((startedGame 1000000).after successSchedule n).gameProgression.currentStage = 4 →
            179000 ≤ ((startedGame 1000000).after successSchedule n).eventTimer + deltaTime →
            gameOverCalls ((startedGame 1000000).after successSchedule (n + 1)).trace
              = [.success])
        ∧ ∃ n,
          startedEvents ((startedGame 1000000).after successSchedule n).trace
            = [.baseline, .runningWoods, .orderCoffee, .runningWoods, .finish]
          ∧ ∀ m, n ≤ m →
            ((startedGame 1000000).after successSchedule m).gameProgression.completed = true
            ∧ gameOverCalls ((startedGame 1000000).after successSchedule m).trace
              = [.success] :=
  have hPath := EventManager.onSuccessPath_scheduleOf successRun 1000 1180000 0 (by norm_num)
    (startedGame 1000000) (by decide!) (by decide!)
  have hTime := elapsed_scheduleOf_unbounded successRun 1000 1180000 0 (by norm_num)
  ⟨hPath, hTime, success_path_ends_in_success 1000000 successSchedule hPath hTime⟩

/-- C10, evaluated on the code.  In the session `skippedCoffeeRun` every
frame has `deltaTime > 0`, suspicion never exceeds 16, and every stage meets
its objective before its duration is over: the first woods stage, started at
51 s with 45 s to run, is at distance 100 and marked completed by the frame
at 95 s, and the second is marked completed at 135 s.  The completion
callback of the first woods stage is still pending when the frame at 96 s
ends the stage on its duration; run at 97 s with no event active, it moves
the cursor past the coffee stage.  The session ends with the one call
`triggerGameOver('success')` at 179 s, but the events started are baseline,
runningWoods, runningWoods, finish: the coffee stage never runs. -/
theorem late_woods_completion_skips_coffee_on_success_path :
    skippedCoffeeRun.all GameAction.positiveFrame = true
      ∧ (startedGame 1000000).peakSuspicion skippedCoffeeRun = 16
      ∧ ((startedGame 1000000).run staleEndRun.dropLast.dropLast).eventTimer = 95000
      ∧ (((startedGame 1000000).run staleEndRun.dropLast.dropLast).currentEvent.map
          fun ev => (ev.type, ev.startTime, ev.duration))
        = some (.runningWoods, 51000, 45000)
      ∧ ((startedGame 1000000).run staleEndRun.dropLast.dropLast).runningState.distance = 100
      ∧ ((startedGame 1000000).run staleEndRun.dropLast.dropLast).runningState.completed
        = true
      ∧ afterStaleEndRun.eventTimer = 96000
      ∧ afterStaleEndRun.currentEvent = none
      ∧ afterStaleEndRun.gameProgression.currentStage = 2
      ∧ (afterStaleEndRun.step (.timer 0 1097000 0 0)).gameProgression.currentStage = 3
      ∧ ((startedGame 1000000).run
          skippedCoffeeRun.dropLast.dropLast.dropLast.dropLast).eventTimer = 135000
      ∧ ((startedGame 1000000).run
          skippedCoffeeRun.dropLast.dropLast.dropLast.dropLast).runningState.completed = true
      ∧ startedEvents ((startedGame 1000000).run skippedCoffeeRun).trace
        = [.baseline, .runningWoods, .runningWoods, .finish]
      ∧ gameOverCalls ((startedGame 1000000).run skippedCoffeeRun).trace = [.success]
      ∧ ((startedGame 1000000).run skippedCoffeeRun).gameProgression.completed = true
      ∧ ((startedGame 1000000).run skippedCoffeeRun).eventTimer = 179000 := by
  refine ⟨by decide!, by decide!, by decide!, by decide!, by decide!, by decide!, by decide!,
    by decide!, by decide!, by decide!, by decide!, by decide!, by decide!, by decide!,
    by decide!, by decide!⟩

/-! ## Lemmas on `GameState.update` -/

/-- A function of a conditional state, both branches agreeing on it. -/
theorem GameState.ite_congr {α : Type} (f : GameState → α) (c : Prop) [Decidable c]
    (a b : GameState) (s : α) (ha : f a = s) (hb : f b = s) :
    f (if c then a else b) = s := by
  split_ifs <;> assumption

/-- The extreme-vitals check writes to suspicion, the alert times and the
alerts only: whatever does not read these is left alone. -/
theorem GameState.checkExtremeVitals_congr {α : Type} (f : GameState → α)
    (hf : ∀ (g : GameState) (s : Suspicion) (l : LastAlertTimes)
      (a : List (AlertMessage × AlertType)),
      f { g with suspicion := s, lastAlertTimes := l, alerts := a } = f g)
    (gs : GameState) (now : ℚ) : f (gs.checkExtremeVitals now) = f gs := by
  unfold GameState.checkExtremeVitals
  dsimp only [GameState.showVitalAlert, GameState.addSuspicion]
  repeat' (first
    | rfl
    | refine GameState.ite_congr f _ _ _ _ ?_ ?_
    | refine (hf _ _ _ _).trans ?_)

theorem GameState.checkExtremeVitals_vitals (gs : GameState) (now : ℚ) :
    (gs.checkExtremeVitals now).vitals = gs.vitals :=
  GameState.checkExtremeVitals_congr (fun g => g.vitals) (fun _ _ _ _ => rfl) gs now

/-- The staged introduction writes to the vitals, the unlock flags and the
alerts only. -/
theorem GameState.updateVitalIntroduction_congr {α : Type} (f : GameState → α)
    (hf : ∀ (g : GameState) (v : Vitals) (i : VitalIntroduction)
      (a : List (AlertMessage × AlertType)),
      f { g with vitals := v, vitalIntroduction := i, alerts := a } = f g)
    (gs : GameState) : f gs.updateVitalIntroduction = f gs := by
  unfold GameState.updateVitalIntroduction
  dsimp only [GameState.showVitalAlert]
  repeat' (first
    | rfl
    | refine GameState.ite_congr f _ _ _ _ ?_ ?_
    | refine (hf _ _ _ _).trans ?_)

/-- The method `updateVitals` writes to the vitals only. -/
theorem GameState.updateVitals_congr {α : Type} (f : GameState → α)
    (hf : ∀ (g : GameState) (v : Vitals), f { g with vitals := v } = f g)
    (gs : GameState) (deltaTime : ℚ) : f (gs.updateVitals deltaTime) = f gs := by
  unfold GameState.updateVitals GameState.updateVitalStatuses
  dsimp only
  repeat' (first
    | rfl
    | refine GameState.ite_congr f _ _ _ _ ?_ ?_
    | refine (hf _ _).trans ?_)

/-- The method `update` on a started game, step by step. -/
theorem GameState.update_of_started (gs : GameState) (deltaTime now : ℚ)
    (h : gs.gameStarted = true) :
    gs.update deltaTime now
      = (GameState.updateSuspicion
          (GameState.updateVitals
            { ({ gs with gameTime := gs.gameTime + deltaTime }).updateVitalIntroduction with
              difficulty :=
                1 + ({ gs with gameTime := gs.gameTime + deltaTime }).updateVitalIntroduction.gameTime
                  / 120000 * (1 / 2) }
            deltaTime)
          deltaTime).checkExtremeVitals now := by
  unfold GameState.update GameState.updateVisualEffects
  rw [if_pos h]

/-- The method `update` on a game not yet started: only the extreme-vitals
check of `updateVisualEffects` runs. -/
theorem GameState.update_of_not_started (gs : GameState) (deltaTime now : ℚ)
    (h : gs.gameStarted = false) :
    gs.update deltaTime now = gs.checkExtremeVitals now := by
  unfold GameState.update GameState.updateVisualEffects
  rw [if_neg (by simp [h])]

theorem GameState.update_gameTime (gs : GameState) (deltaTime now : ℚ)
    (h : gs.gameStarted = true) :
    (gs.update deltaTime now).gameTime = gs.gameTime + deltaTime := by
  rw [GameState.update_of_started gs deltaTime now h,
    GameState.checkExtremeVitals_congr (fun g => g.gameTime) (fun _ _ _ _ => rfl)]
  unfold GameState.updateSuspicion
  dsimp only
  rw [GameState.updateVitals_congr (fun g => g.gameTime) (fun _ _ => rfl)]
  dsimp only
  rw [GameState.updateVitalIntroduction_congr (fun g => g.gameTime) (fun _ _ _ _ => rfl)]

/-- The difficulty a started update sets: `1.0 + (gameTime / 120000) * 0.5`
at the updated game time. -/
theorem GameState.update_difficulty (gs : GameState) (deltaTime now : ℚ)
    (h : gs.gameStarted = true) :
    (gs.update deltaTime now).difficulty
      = 1 + (gs.gameTime + deltaTime) / 120000 * (1 / 2) := by
  rw [GameState.update_of_started gs deltaTime now h,
    GameState.checkExtremeVitals_congr (fun g => g.difficulty) (fun _ _ _ _ => rfl)]
  unfold GameState.updateSuspicion
  dsimp only
  rw [GameState.updateVitals_congr (fun g => g.difficulty) (fun _ _ => rfl)]
  dsimp only
  rw [GameState.updateVitalIntroduction_congr (fun g => g.gameTime) (fun _ _ _ _ => rfl)]

/-! ## C11 -/

/-- C11. Vital gating.  In every state whose oxygen system is disabled
`breathe()` changes nothing at all, and so does the breathe key; in every
state whose eye system is disabled `blink()` changes nothing at all (neither
`eyes.moisture` nor `isBlinking`, and no callback is scheduled), and so does
the blink key. -/
theorem disabled_vital_action_changes_nothing (em : EventManager) (gs : GameState)
    (now : ℚ) :
    (gs.vitals.oxygen.enabled = false → gs.breathe = gs)
      ∧ (gs.vitals.eyes.enabled = false → gs.blink now = gs)
      ∧ (em.gameState.vitals.oxygen.enabled = false →
        InputHandler.executeAction em .breathe now = em)
      ∧ (em.gameState.vitals.eyes.enabled = false →
        InputHandler.executeAction em .blink now = em) := by
  have hb : gs.vitals.oxygen.enabled = false → gs.breathe = gs := by
    intro h
    unfold GameState.breathe
    rw [if_pos (by simp [h])]
  have hk : gs.vitals.eyes.enabled = false → gs.blink now = gs := by
    intro h
    unfold GameState.blink
    rw [if_pos (by simp [h])]
  refine ⟨hb, hk, ?_, ?_⟩
  · intro h
    unfold InputHandler.executeAction GameState.breathe
    dsimp only
    rw [if_pos (by simp [h])]
  · intro h
    unfold InputHandler.executeAction GameState.blink
    dsimp only
    rw [if_pos (by simp [h])]

/-! ## C12 -/

/-- C12. Difficulty monotonicity.  The difficulty that `GameState.update`
computes on a started game is `1.0 + (elapsed / 120000) * 0.5` at the
updated game time `elapsed`; for updated game times
`elapsed2 > elapsed1 >= 0` the second difficulty is at least the first, the
difficulty is at least 1 for `elapsed >= 0`, and it is 1.5 at
`elapsed = 120000`. -/
theorem difficulty_monotone (gs₁ gs₂ : GameState) (dt₁ dt₂ now₁ now₂ : ℚ)
    (h₁ : gs₁.gameStarted = true) (h₂ : gs₂.gameStarted = true)
    (h0 : 0 ≤ gs₁.gameTime + dt₁) (hlt : gs₁.gameTime + dt₁ < gs₂.gameTime + dt₂) :
    (gs₁.update dt₁ now₁).difficulty = 1 + (gs₁.update dt₁ now₁).gameTime / 120000 * (1 / 2)
      ∧ (gs₁.update dt₁ now₁).difficulty ≤ (gs₂.update dt₂ now₂).difficulty
      ∧ 1 ≤ (gs₁.update dt₁ now₁).difficulty
      ∧ ((gs₂.update dt₂ now₂).gameTime = 120000 →
        (gs₂.update dt₂ now₂).difficulty = 3 / 2) := by
  rw [GameState.update_difficulty gs₁ dt₁ now₁ h₁, GameState.update_difficulty gs₂ dt₂ now₂ h₂,
    GameState.update_gameTime gs₁ dt₁ now₁ h₁, GameState.update_gameTime gs₂ dt₂ now₂ h₂]
  refine ⟨rfl, by linarith, by linarith, ?_⟩
  intro h
  rw [h]
  norm_num

theorem difficulty_monotone_witness :
    (startedGame 1000000).gameState.gameStarted = true
      ∧ (0 : ℚ) ≤ (startedGame 1000000).gameState.gameTime + 60000
      ∧ (startedGame 1000000).gameState.gameTime + 60000
        < (startedGame 1000000).gameState.gameTime + 120000
      ∧ ((startedGame 1000000).gameState.update 60000 1060000).difficulty = 5 / 4
      ∧ ((startedGame 1000000).gameState.update 120000 1120000).difficulty = 3 / 2
      ∧ ((startedGame 1000000).gameState.update 60000 1060000).difficulty
        ≤ ((startedGame 1000000).gameState.update 120000 1120000).difficulty :=
  ⟨rfl, by decide!, by decide!, by decide!, by decide!,
    (difficulty_monotone (startedGame 1000000).gameState (startedGame 1000000).gameState
      60000 120000 1060000 1120000 rfl rfl (by decide!) (by decide!)).2.1⟩

/-! ## Lemmas on the vitals under `update` -/

/-- The vitals after a started update are those `updateVitals` leaves. -/
theorem GameState.update_vitals (gs : GameState) (deltaTime now : ℚ)
    (h : gs.gameStarted = true) :
    (gs.update deltaTime now).vitals
      = (GameState.updateVitals
          { ({ gs with gameTime := gs.gameTime + deltaTime }).updateVitalIntroduction with
            difficulty :=
              1 + ({ gs with gameTime := gs.gameTime + deltaTime }).updateVitalIntroduction.gameTime
                / 120000 * (1 / 2) }
          deltaTime).vitals := by
  rw [GameState.update_of_started gs deltaTime now h, GameState.checkExtremeVitals_vitals]
  rfl

/-- After `updateVitals` a disabled vital has the status `offline`. -/
theorem GameState.updateVitals_offline (gs : GameState) (deltaTime : ℚ) :
    ((gs.updateVitals deltaTime).vitals.oxygen.enabled = false →
        (gs.updateVitals deltaTime).vitals.oxygen.status = .offline)
      ∧ ((gs.updateVitals deltaTime).vitals.heartRate.enabled = false →
        (gs.updateVitals deltaTime).vitals.heartRate.status = .offline)
      ∧ ((gs.updateVitals deltaTime).vitals.eyes.enabled = false →
        (gs.updateVitals deltaTime).vitals.eyes.status = .offline) := by
  have key : ∀ g : GameState,
      (g.updateVitalStatuses.vitals.oxygen.enabled = false →
          g.updateVitalStatuses.vitals.oxygen.status = .offline)
        ∧ (g.updateVitalStatuses.vitals.heartRate.enabled = false →
          g.updateVitalStatuses.vitals.heartRate.status = .offline)
        ∧ (g.updateVitalStatuses.vitals.eyes.enabled = false →
          g.updateVitalStatuses.vitals.eyes.status = .offline) := by
    intro g
    unfold GameState.updateVitalStatuses
    dsimp only
    refine ⟨fun h => ?_, fun h => ?_, fun h => ?_⟩ <;> rw [if_neg (by simp [h])]
  exact key _

theorem GameState.updateVitals_enabled (gs : GameState) (deltaTime : ℚ) :
    (gs.updateVitals deltaTime).vitals.oxygen.enabled = gs.vitals.oxygen.enabled
      ∧ (gs.updateVitals deltaTime).vitals.heartRate.enabled = gs.vitals.heartRate.enabled
      ∧ (gs.updateVitals deltaTime).vitals.eyes.enabled = gs.vitals.eyes.enabled := by
  unfold GameState.updateVitals GameState.updateVitalStatuses
  refine ⟨?_, ?_, ?_⟩
  · repeat' (first
      | rfl
      | (dsimp only
         refine GameState.ite_congr (fun g => g.vitals.oxygen.enabled) _ _ _ _ ?_ ?_))
  · repeat' (first
      | rfl
      | (dsimp only
         refine GameState.ite_congr (fun g => g.vitals.heartRate.enabled) _ _ _ _ ?_ ?_))
  · repeat' (first
      | rfl
      | (dsimp only
         refine GameState.ite_congr (fun g => g.vitals.eyes.enabled) _ _ _ _ ?_ ?_))

/-- Outside a woods event `updateVitals` leaves the oxygen of a disabled
oxygen system alone; it leaves the moisture of a disabled eye system
alone. -/
theorem GameState.updateVitals_frozen (gs : GameState) (deltaTime : ℚ) :
    (gs.vitals.oxygen.enabled = false → isEventOfType gs.currentEvent .runningWoods = false →
        (gs.updateVitals deltaTime).vitals.oxygen.current = gs.vitals.oxygen.current)
      ∧ (gs.vitals.eyes.enabled = false →
        (gs.updateVitals deltaTime).vitals.eyes.moisture = gs.vitals.eyes.moisture) := by
  constructor
  · intro h hw
    simp only [GameState.updateVitals, GameState.updateVitalStatuses,
      apply_ite GameState.vitals, apply_ite GameState.currentEvent,
      apply_ite GameState.difficulty, apply_ite Vitals.oxygen, apply_ite Vitals.heartRate,
      apply_ite Vitals.eyes, apply_ite Oxygen.current, apply_ite Oxygen.enabled,
      apply_ite HeartRate.enabled, apply_ite Eyes.enabled, ite_self, h, hw,
      Bool.false_eq_true, if_false]
  · intro h
    simp only [GameState.updateVitals, GameState.updateVitalStatuses,
      apply_ite GameState.vitals, apply_ite GameState.currentEvent,
      apply_ite GameState.difficulty, apply_ite Vitals.oxygen, apply_ite Vitals.heartRate,
      apply_ite Vitals.eyes, apply_ite Eyes.moisture, apply_ite Oxygen.enabled,
      apply_ite HeartRate.enabled, apply_ite Eyes.enabled, ite_self, h,
      Bool.false_eq_true, if_false]

/-- A vital still disabled after the staged introduction was not touched
by it. -/
theorem GameState.updateVitalIntroduction_disabled (gs : GameState) :
    (gs.updateVitalIntroduction.vitals.oxygen.enabled = false →
        gs.updateVitalIntroduction.vitals.oxygen = gs.vitals.oxygen)
      ∧ (gs.updateVitalIntroduction.vitals.eyes.enabled = false →
        gs.updateVitalIntroduction.vitals.eyes = gs.vitals.eyes) := by
  unfold GameState.updateVitalIntroduction
  dsimp only [GameState.showVitalAlert]
  constructor <;> intro h <;> split_ifs at h ⊢ <;> simp_all

/-! ## C13 -/

/-- C13. Disabled vitals are offline and frozen.  The constructor gives the
disabled oxygen and eye systems the status `normal`, not `offline`, and they
keep it through an update before the start, through `startGame` and
through key presses: only the first update of the started game sets
`offline`.  From then on the claim holds: after every update of a started
game a disabled vital has the status `offline`, the oxygen of a still
disabled oxygen system is unchanged outside a woods event, and the moisture
of a still disabled eye system is unchanged. -/
theorem disabled_vital_status_normal_until_first_update :
    (GameState.new 1000000).vitals.oxygen.enabled = false
      ∧ (GameState.new 1000000).vitals.oxygen.status = .normal
      ∧ (GameState.new 1000000).vitals.eyes.enabled = false
      ∧ (GameState.new 1000000).vitals.eyes.status = .normal
      ∧ ((GameState.new 1000000).update 16 1000016).vitals.oxygen.status = .normal
      ∧ (startedGame 1000000).gameState.vitals.oxygen.enabled = false
      ∧ (startedGame 1000000).gameState.vitals.oxygen.status = .normal
      ∧ (InputHandler.executeAction (startedGame 1000000) .heartbeat
          1000005).gameState.vitals.oxygen.status = .normal
      ∧ ((startedGame 1000000).gameState.update 16 1000016).vitals.oxygen.enabled = false
      ∧ ((startedGame 1000000).gameState.update 16 1000016).vitals.oxygen.status = .offline
      ∧ ∀ (gs : GameState) (deltaTime now : ℚ), gs.gameStarted = true →
          ((gs.update deltaTime now).vitals.oxygen.enabled = false →
            (gs.update deltaTime now).vitals.oxygen.status = .offline)
          ∧ ((gs.update deltaTime now).vitals.heartRate.enabled = false →
            (gs.update deltaTime now).vitals.heartRate.status = .offline)
          ∧ ((gs.update deltaTime now).vitals.eyes.enabled = false →
            (gs.update deltaTime now).vitals.eyes.status = .offline)
          ∧ ((gs.update deltaTime now).vitals.oxygen.enabled = false →
            isEventOfType gs.currentEvent .runningWoods = false →
            (gs.update deltaTime now).vitals.oxygen.current = gs.vitals.oxygen.current)
          ∧ ((gs.update deltaTime now).vitals.eyes.enabled = false →
            (gs.update deltaTime now).vitals.eyes.moisture = gs.vitals.eyes.moisture) := by
  refine ⟨rfl, rfl, rfl, rfl, by decide!, rfl, rfl, rfl, by decide!, by decide!, ?_⟩
  intro gs deltaTime now hStarted
  rw [GameState.update_vitals gs deltaTime now hStarted]
  obtain ⟨ho, hh, he⟩ := GameState.updateVitals_offline
    { ({ gs with gameTime := gs.gameTime + deltaTime }).updateVitalIntroduction with
      difficulty :=
        1 + ({ gs with gameTime := gs.gameTime + deltaTime }).updateVitalIntroduction.gameTime
          / 120000 * (1 / 2) } deltaTime
  obtain ⟨eo, _, ee⟩ := GameState.updateVitals_enabled
    { ({ gs with gameTime := gs.gameTime + deltaTime }).updateVitalIntroduction with
      difficulty :=
        1 + ({ gs with gameTime := gs.gameTime + deltaTime }).updateVitalIntroduction.gameTime
          / 120000 * (1 / 2) } deltaTime
  obtain ⟨fo, fe⟩ := GameState.updateVitals_frozen
    { ({ gs with gameTime := gs.gameTime + deltaTime }).updateVitalIntroduction with
      difficulty :=
        1 + ({ gs with gameTime := gs.gameTime + deltaTime }).updateVitalIntroduction.gameTime
          / 120000 * (1 / 2) } deltaTime
  obtain ⟨io, ie⟩ := GameState.updateVitalIntroduction_disabled
    { gs with gameTime := gs.gameTime + deltaTime }
  have hce : ({ gs with gameTime := gs.gameTime + deltaTime } :
      GameState).updateVitalIntroduction.currentEvent = gs.currentEvent :=
    GameState.updateVitalIntroduction_congr (fun g => g.currentEvent) (fun _ _ _ _ => rfl) _
  refine ⟨ho, hh, he, ?_, ?_⟩
  · intro h hw
    rw [eo] at h
    rw [fo h (by rw [← hw]; exact congrArg (fun c => isEventOfType c .runningWoods) hce)]
    exact congrArg Oxygen.current (io h)
  · intro h
    rw [ee] at h
    rw [fe h]
    exact congrArg Eyes.moisture (ie h)

/-! ## C14 -/

/-- What `triggerGameOver` does to the progression: the session is
completed, and the cursor moves on by one when an event was active and the
cursor was short of the last stage. -/
theorem EventManager.triggerGameOver_progression (em : EventManager) (type : EndingType)
    (reason : String) :
    (em.triggerGameOver type reason).gameProgression
      = { em.gameProgression with
          completed := true
          currentStage :=
            if em.currentEvent.isSome = true
                ∧ em.gameProgression.currentStage + 1 < em.gameProgression.stages.length
            then em.gameProgression.currentStage + 1
            else em.gameProgression.currentStage } := by
  unfold EventManager.triggerGameOver
  dsimp only [EventManager.emit]
  have key : ∀ X : EventManager,
      (X.startEvent .finish (some (type, reason)) 0).gameProgression = X.gameProgression :=
    fun X => congrArg Control.gameProgression
      (EventManager.startEvent_control X .finish (some (type, reason)) 0)
  rw [key]
  split
  · rename_i h
    have h2 := congrArg Control.gameProgression (EventManager.endCurrentEvent_control
      { em with
        trace := em.trace ++ [.triggerGameOver type reason]
        gameProgression := { em.gameProgression with completed := true } })
    dsimp only [EventManager.control] at h2
    rw [h2]
    simp only [h, true_and]
  · rename_i h
    simp only [h, false_and, if_false, Bool.false_eq_true]

theorem EventManager.afterStageCheck_progression (em : EventManager) (deltaTime r : ℚ) :
    (em.afterStageCheck deltaTime r).gameProgression.stages = em.gameProgression.stages
      ∧ (em.afterStageCheck deltaTime r).gameProgression.currentStage
        = em.gameProgression.currentStage := by
  have key : ∀ (X : EventManager) (t : EventType) (o : Option (EndingType × String)),
      (X.startEvent t o r).gameProgression = X.gameProgression :=
    fun X t o => congrArg Control.gameProgression (EventManager.startEvent_control X t o r)
  unfold EventManager.afterStageCheck
  dsimp only
  split
  · rename_i hnone
    unfold EventManager.checkForNextStage
    split
    · exact ⟨rfl, rfl⟩
    · split_ifs
      · rw [EventManager.triggerGameOver_progression]
        dsimp only
        rw [if_neg (by
          intro h
          rw [Option.isNone_iff_eq_none] at hnone
          rw [hnone] at h
          exact absurd h.1 (by decide))]
        exact ⟨rfl, rfl⟩
      · exact ⟨rfl, rfl⟩
      · rw [key]
        exact ⟨rfl, rfl⟩
      · exact ⟨rfl, rfl⟩
  · exact ⟨rfl, rfl⟩

/-- Up to the outcome check an update moves the cursor by at most one stage,
and only by ending the active event. -/
theorem EventManager.beforeOutcomeCheck_progression (em : EventManager)
    (deltaTime now r : ℚ) :
    (em.beforeOutcomeCheck deltaTime now r).gameProgression.stages = em.gameProgression.stages
      ∧ ((em.beforeOutcomeCheck deltaTime now r).gameProgression.currentStage
          = em.gameProgression.currentStage
        ∨ ((em.beforeOutcomeCheck deltaTime now r).gameProgression.currentStage
            = em.gameProgression.currentStage + 1
          ∧ em.gameProgression.currentStage + 1 < em.gameProgression.stages.length
          ∧ (em.beforeOutcomeCheck deltaTime now r).currentEvent = none)) := by
  obtain ⟨hs, hc⟩ := EventManager.afterStageCheck_progression em deltaTime r
  unfold EventManager.beforeOutcomeCheck
  dsimp only
  split
  · rename_i hsome
    obtain ⟨ev, hev⟩ := Option.isSome_iff_exists.1 hsome
    have h := EventManager.updateCurrentEvent_control (em.afterStageCheck deltaTime r)
      deltaTime now ev hev
    split_ifs at h with hended
    · rw [EventManager.endCurrentEvent_control] at h
      have hp := congrArg Control.gameProgression h
      have he := congrArg Control.currentEvent h
      dsimp only [EventManager.control] at hp he
      rw [hp, he]
      dsimp only
      rw [hs, hc]
      refine ⟨rfl, ?_⟩
      split_ifs with hlt
      · exact Or.inr ⟨rfl, hlt, rfl⟩
      · exact Or.inl rfl
    · have hp := congrArg Control.gameProgression h
      dsimp only [EventManager.control] at hp
      rw [hp, hs, hc]
      exact ⟨rfl, Or.inl rfl⟩
  · rw [hs, hc]
    exact ⟨rfl, Or.inl rfl⟩

/-- An update moves the cursor by at most one stage, never back and never
beyond the last stage, and leaves the stage list alone. -/
theorem EventManager.update_progression (em : EventManager) (deltaTime now r : ℚ) :
    (em.update deltaTime now r).gameProgression.stages = em.gameProgression.stages
      ∧ ((em.update deltaTime now r).gameProgression.currentStage
          = em.gameProgression.currentStage
        ∨ ((em.update deltaTime now r).gameProgression.currentStage
            = em.gameProgression.currentStage + 1
          ∧ em.gameProgression.currentStage + 1 < em.gameProgression.stages.length)) := by
  rw [EventManager.update_eq]
  split
  · obtain ⟨hs, hc⟩ := EventManager.beforeOutcomeCheck_progression em deltaTime now r
    unfold EventManager.checkGameOverConditions
    split
    · rw [EventManager.triggerGameOver_progression]
      dsimp only
      refine ⟨hs, ?_⟩
      rcases hc with hc | ⟨hc, hlt, hnone⟩
      · rw [hc, hs]
        split_ifs with h
        · exact Or.inr ⟨rfl, h.2⟩
        · exact Or.inl rfl
      · rw [if_neg (by rw [hnone]; exact fun h => absurd h.1 (by decide)), hc]
        exact Or.inr ⟨rfl, hlt⟩
    · refine ⟨hs, ?_⟩
      rcases hc with hc | ⟨hc, hlt, _⟩
      · exact Or.inl hc
      · exact Or.inr ⟨hc, hlt⟩
  · exact ⟨rfl, Or.inl rfl⟩

/-- Every action moves the cursor by at most one stage, never back and
never beyond the last stage, and leaves the stage list alone. -/
theorem EventManager.step_progression (em : EventManager) (a : GameAction) :
    (em.step a).gameProgression.stages = em.gameProgression.stages
      ∧ ((em.step a).gameProgression.currentStage = em.gameProgression.currentStage
        ∨ ((em.step a).gameProgression.currentStage = em.gameProgression.currentStage + 1
          ∧ em.gameProgression.currentStage + 1 < em.gameProgression.stages.length)) := by
  have hSame : ∀ em' : EventManager, em'.control = em.control →
      em'.gameProgression.stages = em.gameProgression.stages
        ∧ (em'.gameProgression.currentStage = em.gameProgression.currentStage
          ∨ (em'.gameProgression.currentStage = em.gameProgression.currentStage + 1
            ∧ em.gameProgression.currentStage + 1 < em.gameProgression.stages.length)) := by
    intro em' h
    have hp : em'.gameProgression = em.gameProgression := congrArg Control.gameProgression h
    rw [hp]
    exact ⟨rfl, Or.inl rfl⟩
  cases a with
  | frame deltaTime now r =>
    exact EventManager.update_progression
      { em with gameState := em.gameState.update deltaTime now } deltaTime now r
  | input action now => exact hSame _ (InputHandler.executeAction_control em action now)
  | timer i now r1 r2 =>
    have h := EventManager.fireTimer_control em i now r1 r2
    unfold EventManager.step
    dsimp only
    split at h
    · rw [EventManager.endCurrentEvent_control] at h
      have hp : (em.fireTimer i now r1 r2).gameProgression = _ :=
        congrArg Control.gameProgression h
      rw [hp]
      dsimp only
      refine ⟨rfl, ?_⟩
      split_ifs with hlt
      · exact Or.inr ⟨rfl, hlt⟩
      · exact Or.inl rfl
    · exact hSame _ h
  | blinkTimeout => exact hSame _ (EventManager.step_blinkTimeout_control em)

/-- C14. The progression cursor.  Every action (frame, key press, deferred
callback) leaves the stage list alone and either leaves the cursor alone or
moves it on by exactly one stage, never beyond the last one: the cursor is
forward-only and never wraps.  But it does skip.  In the session
`staleEndRun` the first woods stage is traversed at 95 s, so its 2000 ms
completion callback is still pending when the frame at 96 s ends the stage
on its duration (cursor 2, the coffee stage, no event active); the callback
then calls `endCurrentEvent` with no event active and moves the cursor to 3.
The coffee stage is never started: the next event started is the second
woods stage. -/
theorem stale_end_callback_skips_stage :
    afterStaleEndRun.currentEvent = none
      ∧ afterStaleEndRun.gameProgression.currentStage = 2
      ∧ afterStaleEndRun.timers = [(2000, .endCurrentEvent)]
      ∧ startedEvents afterStaleEndRun.trace = [.baseline, .runningWoods]
      ∧ (afterStaleEndRun.step (.timer 0 1097000 0 0)).currentEvent = none
      ∧ (afterStaleEndRun.step (.timer 0 1097000 0 0)).gameProgression.currentStage = 3
      ∧ startedEvents ((afterStaleEndRun.step (.timer 0 1097000 0 0)).run
          [.frame 4000 1100000 (1 / 2), .frame 32000 1132000 (1 / 2)]).trace
        = [.baseline, .runningWoods, .runningWoods]
      ∧ ∀ (em : EventManager) (a : GameAction),
          (em.step a).gameProgression.stages = em.gameProgression.stages
          ∧ ((em.step a).gameProgression.currentStage = em.gameProgression.currentStage
            ∨ ((em.step a).gameProgression.currentStage = em.gameProgression.currentStage + 1
              ∧ em.gameProgression.currentStage + 1 < em.gameProgression.stages.length)) :=
  ⟨by decide!, by decide!, by decide!, by decide!, by decide!, by decide!, by decide!,
    EventManager.step_progression⟩

/-! ## C15 -/

/-- With no event active the callbacks that test the event type do
nothing, and the two timeout callbacks do nothing once their prompt flag is
cleared. -/
theorem EventManager.runCallback_of_idle (em : EventManager) (now r1 r2 : ℚ)
    (hnone : em.currentEvent = none) :
    em.runCallback .promptEyeContact now r1 r2 = em
      ∧ em.runCallback .promptSwallow now r1 r2 = em
      ∧ em.runCallback .startConversation now r1 r2 = em
      ∧ em.runCallback .jumpPrompt now r1 r2 = em
      ∧ (em.conversationState.swallowPromptActive = false →
        em.runCallback .swallowTimeout now r1 r2 = em)
      ∧ (em.runningState.jumpPromptActive = false →
        em.runCallback .jumpTimeout now r1 r2 = em) := by
  refine ⟨rfl, ?_, ?_, ?_, ?_, ?_⟩
  · unfold EventManager.runCallback EventManager.promptSwallow
    dsimp only
    rw [hnone]
    rfl
  · unfold EventManager.runCallback EventManager.startConversation
    dsimp only
    rw [hnone]
    rfl
  · have h1 : em.promptJump r1 = em := by
      unfold EventManager.promptJump
      rw [hnone]
      rfl
    unfold EventManager.runCallback
    dsimp only
    rw [h1]
    unfold EventManager.scheduleJumpPrompt
    rw [hnone]
    rfl
  · intro h
    unfold EventManager.runCallback EventManager.swallowTimeout
    dsimp only
    rw [if_neg (by simp [h])]
  · intro h
    unfold EventManager.runCallback EventManager.jumpTimeout
    dsimp only
    rw [if_neg (by simp [h])]

/-- C15. Stale-timer guards.  Four callbacks test the event type and do
nothing with no event active, and the swallow and jump timeouts test their
prompt flag, which `endCurrentEvent` clears.  The delayed
`showSecondConversation` and the woods-completion `endCurrentEvent` test
nothing.  In the session `lateAnswerRun` the first prompt is answered at
129 s, the coffee stage ends at 130 s, and the pending callback then sets
the conversation to step 2, waiting for a response, and shows the second
prompt with no event active.  A stale `endCurrentEvent` moves the cursor on
whenever it is short of the last stage. -/
theorem stale_callbacks_act_after_event_end :
    afterLateAnswer.currentEvent = none
      ∧ afterLateAnswer.conversationState = defaultConversationState
      ∧ afterLateAnswer.timers = [(3000, .showSecondConversation)]
      ∧ (afterLateAnswer.step (.timer 0 1132000 0 0)).conversationState
        = { defaultConversationState with
            conversationStep := 2
            conversationOptions := some secondConversationOptions
            waitingForResponse := true }
      ∧ (afterLateAnswer.step (.timer 0 1132000 0 0)).trace
        = afterLateAnswer.trace ++ [.hideEventPopup, .showEventDisplay .conversation2 false false]
      ∧ (∀ (em : EventManager) (now r1 r2 : ℚ), em.currentEvent = none →
          em.runCallback .promptEyeContact now r1 r2 = em
          ∧ em.runCallback .promptSwallow now r1 r2 = em
          ∧ em.runCallback .startConversation now r1 r2 = em
          ∧ em.runCallback .jumpPrompt now r1 r2 = em
          ∧ (em.conversationState.swallowPromptActive = false →
            em.runCallback .swallowTimeout now r1 r2 = em)
          ∧ (em.runningState.jumpPromptActive = false →
            em.runCallback .jumpTimeout now r1 r2 = em))
      ∧ (∀ (em : EventManager) (now r1 r2 : ℚ), em.currentEvent = none →
          em.gameProgression.currentStage + 1 < em.gameProgression.stages.length →
          (em.runCallback .endCurrentEvent now r1 r2).gameProgression.currentStage
            = em.gameProgression.currentStage + 1)
      ∧ ∀ (em : EventManager) (now r1 r2 : ℚ),
          (em.runCallback .showSecondConversation now r1 r2).conversationState.conversationStep
              = 2
            ∧ (em.runCallback .showSecondConversation now r1
              r2).conversationState.waitingForResponse = true := by
  refine ⟨by decide!, by decide!, by decide!, by decide!, by decide!,
    EventManager.runCallback_of_idle, ?_, ?_⟩
  · intro em now r1 r2 _ hlt
    unfold EventManager.runCallback
    dsimp only
    rw [EventManager.endCurrentEvent_currentStage, if_pos hlt]
  · intro em now r1 r2
    unfold EventManager.runCallback EventManager.showSecondConversation
    dsimp only [EventManager.hideEventPopup, EventManager.showEventPopup,
      EventManager.showEventDisplay, EventManager.emit]
    split_ifs <;> exact ⟨rfl, rfl⟩

/-! ## C16 -/

theorem EventManager.startEvent_isEnding (em : EventManager) (eventType : EventType)
    (options : Option (EndingType × String)) (r : ℚ) (h : em.isEnding = true) :
    (em.startEvent eventType options r).isEnding = true := by
  unfold EventManager.startEvent
  dsimp only
  split
  · unfold EventManager.startBaselineEvent
    dsimp only [EventManager.showEventPopup, EventManager.showEventDisplay,
      EventManager.playSequence, EventManager.emit]
    split_ifs <;> exact h
  · unfold EventManager.startOrderCoffeeEvent
    dsimp only [EventManager.showEventPopup, EventManager.showEventDisplay,
      EventManager.playSequence, EventManager.emit, EventManager.setTimeout]
    split_ifs <;> exact h
  · rw [EventManager.startRunningWoodsEvent_isEnding]
    exact h
  · split <;>
      (unfold EventManager.startFinishEvent
       dsimp only [EventManager.muteUIForEnd, EventManager.fadeOutColumns,
         EventManager.showFailureCaption, EventManager.hideEventPopup,
         EventManager.showEventDisplay, EventManager.playSequence, EventManager.emit,
         EventManager.setTimeout]
       split_ifs <;> rfl)

theorem EventManager.triggerGameOver_isEnding (em : EventManager) (type : EndingType)
    (reason : String) : (em.triggerGameOver type reason).isEnding = true := by
  unfold EventManager.triggerGameOver EventManager.startEvent
  dsimp only
  unfold EventManager.startFinishEvent
  dsimp only [EventManager.muteUIForEnd, EventManager.fadeOutColumns,
    EventManager.showFailureCaption, EventManager.hideEventPopup,
    EventManager.showEventDisplay, EventManager.playSequence, EventManager.emit,
    EventManager.setTimeout]
  split_ifs <;> rfl

/-- The ending flag, once set, stays set through an update. -/
theorem EventManager.update_isEnding (em : EventManager) (deltaTime now r : ℚ)
    (h : em.isEnding = true) : (em.update deltaTime now r).isEnding = true := by
  have hA : (em.afterStageCheck deltaTime r).isEnding = true := by
    unfold EventManager.afterStageCheck EventManager.checkForNextStage
    dsimp only
    split
    · split
      · exact h
      · split_ifs
        · exact EventManager.triggerGameOver_isEnding _ _ _
        · exact h
        · exact EventManager.startEvent_isEnding _ _ _ _ h
        · exact h
    · exact h
  have hB : (em.beforeOutcomeCheck deltaTime now r).isEnding = true := by
    unfold EventManager.beforeOutcomeCheck
    dsimp only
    split
    · unfold EventManager.updateCurrentEvent
      split
      · exact hA
      · dsimp only
        split_ifs
        · rw [EventManager.endCurrentEvent_isEnding]
          exact hA
        · split
          · unfold EventManager.updateOrderCoffeeEvent
            dsimp only [EventManager.updateEventPopup, EventManager.emit]
            split_ifs <;> exact hA
          · unfold EventManager.updateRunningWoodsEvent
            dsimp only [EventManager.showEventDisplay, EventManager.emit,
              EventManager.setTimeout]
            split_ifs <;> exact hA
          · exact hA
    · exact hA
  rw [EventManager.update_eq]
  split
  · unfold EventManager.checkGameOverConditions
    split
    · exact EventManager.triggerGameOver_isEnding _ _ _
    · exact hB
  · exact h

/-- The ending flag, once set, stays set through every action. -/
theorem EventManager.step_isEnding (em : EventManager) (a : GameAction)
    (h : em.isEnding = true) : (em.step a).isEnding = true := by
  cases a with
  | frame deltaTime now r =>
    exact EventManager.update_isEnding
      { em with gameState := em.gameState.update deltaTime now } deltaTime now r h
  | input action now =>
    cases action <;>
      (unfold EventManager.step InputHandler.executeAction
       dsimp only [EventManager.handleEyeContact, EventManager.handleSwallow,
         EventManager.handleStep, EventManager.handleJump,
         EventManager.handleConversationOption]
       first
         | exact h
         | (rw [if_pos h]
            exact h))
  | timer i now r1 r2 =>
    unfold EventManager.step EventManager.fireTimer
    dsimp only
    split
    · exact h
    · rename_i d t _
      cases t <;>
        (unfold EventManager.runCallback
         dsimp only [EventManager.promptEyeContact, EventManager.promptSwallow,
           EventManager.startConversation, EventManager.showFirstConversation,
           EventManager.swallowTimeout, EventManager.showSecondConversation,
           EventManager.promptJump, EventManager.scheduleJumpPrompt,
           EventManager.jumpTimeout, EventManager.showEndScreen,
           EventManager.hideEventPopup, EventManager.showEventPopup,
           EventManager.showEventDisplay, EventManager.emit, EventManager.setTimeout]
         first
           | exact h
           | (rw [EventManager.endCurrentEvent_isEnding]
              exact h)
           | (split_ifs <;> exact h))
  | blinkTimeout =>
    unfold EventManager.step
    dsimp only
    split <;> exact h

/-- C16. Ending gates.  The ending flag, once set, stays set through every
action, and with it set the keys handled by `EventManager` (eye contact,
swallow, both steps, jump, the four options) change nothing.  The three
vital keys are not gated.  In the session ended by the success ending the
heartbeat key raises the heart rate from 0 to 30, the breathe key raises
oxygen from 0 to 15, seven breaths raise suspicion by 3, the blink key
sets `isBlinking` and restores the moisture; and a later frame still shows
alerts and raises suspicion. -/
theorem vital_keys_act_after_ending :
    endedSession.isEnding = true
      ∧ endedSession.gameState.vitals.heartRate.current = 0
      ∧ (endedSession.step (.input .heartbeat 1180000)).gameState.vitals.heartRate.current = 30
      ∧ endedSession.gameState.vitals.oxygen.current = 0
      ∧ (endedSession.step (.input .breathe 1180000)).gameState.vitals.oxygen.current = 15
      ∧ endedSession.gameState.suspicion.current = 64 / 5
      ∧ (endedSession.run ((List.range 7).map fun k =>
          GameAction.input .breathe (1180000 + 100 * k))).gameState.suspicion.current = 79 / 5
      ∧ endedSession.gameState.isBlinking = false
      ∧ endedSession.gameState.vitals.eyes.moisture = 0
      ∧ (endedSession.step (.input .blink 1180000)).gameState.isBlinking = true
      ∧ (endedSession.step (.input .blink 1180000)).gameState.vitals.eyes.moisture = 100
      ∧ endedSession.gameState.alerts.length = 26
      ∧ (endedSession.step (.frame 3000 1182000 0)).gameState.alerts.length = 29
      ∧ (endedSession.step (.frame 3000 1182000 0)).gameState.suspicion.current = 92 / 5
      ∧ (∀ (em : EventManager) (a : GameAction), em.isEnding = true →
          (em.step a).isEnding = true)
      ∧ ∀ (em : EventManager) (now : ℚ), em.isEnding = true →
          InputHandler.executeAction em .eyeContact now = em
          ∧ InputHandler.executeAction em .swallow now = em
          ∧ InputHandler.executeAction em .stepLeft now = em
          ∧ InputHandler.executeAction em .stepRight now = em
          ∧ InputHandler.executeAction em .jump now = em
          ∧ InputHandler.executeAction em .option1 now = em
          ∧ InputHandler.executeAction em .option2 now = em
          ∧ InputHandler.executeAction em .option3 now = em
          ∧ InputHandler.executeAction em .option4 now = em := by
  refine ⟨by decide!, by decide!, by decide!, by decide!, by decide!, by decide!, by decide!,
    by decide!, by decide!, by decide!, by decide!, by decide!, by decide!, by decide!,
    EventManager.step_isEnding, ?_⟩
  intro em now h
  refine ⟨?_, ?_, ?_, ?_, ?_, ?_, ?_, ?_, ?_⟩ <;>
    (unfold InputHandler.executeAction
     dsimp only [EventManager.handleEyeContact, EventManager.handleSwallow,
       EventManager.handleStep, EventManager.handleJump,
       EventManager.handleConversationOption]
     rw [if_pos h])

/-! ## C17 -/

/-- C17, as stated, fails.  The constructed state after two `heartbeat()`
calls is not started and has the heart rate at 100; its `update(16)` runs
the extreme-vitals check of `updateVisualEffects`, which shows an alert and
raises `suspicion.current` from 0 to 2. -/
theorem unstarted_update_raises_suspicion :
    (((GameState.new 1000000).heartbeat 1000100).heartbeat 1000200).gameStarted = false
      ∧ (((GameState.new 1000000).heartbeat 1000100).heartbeat 1000200).suspicion.current = 0
      ∧ ((((GameState.new 1000000).heartbeat 1000100).heartbeat 1000200).update 16
          1000300).suspicion.current = 2
      ∧ ((((GameState.new 1000000).heartbeat 1000100).heartbeat 1000200).update 16
          1000300).alerts = [(.heartRacing, .warning)] := by
  refine ⟨rfl, rfl, by decide!, by decide!⟩

/-- C17, amended.  Before the start `GameState.update(dt)` runs the
extreme-vitals check and nothing else: game time, difficulty, the vitals
with their statuses and the unlock flags are unchanged and suspicion is not
decayed; with no enabled vital at an extreme the whole state is unchanged.
`EventManager.update(dt)` changes nothing.  `startGame()` sets `gameStarted`
and zeroes the game time. -/
theorem unstarted_update_inert (em : EventManager) (deltaTime now r : ℚ)
    (h : em.gameState.gameStarted = false) :
    em.gameState.update deltaTime now = em.gameState.checkExtremeVitals now
      ∧ (em.gameState.update deltaTime now).gameTime = em.gameState.gameTime
      ∧ (em.gameState.update deltaTime now).difficulty = em.gameState.difficulty
      ∧ (em.gameState.update deltaTime now).vitals = em.gameState.vitals
      ∧ (em.gameState.update deltaTime now).vitalIntroduction = em.gameState.vitalIntroduction
      ∧ (em.gameState.update deltaTime now).gameStarted = false
      ∧ ((em.gameState.vitals.oxygen.enabled = true →
            5 < em.gameState.vitals.oxygen.current ∧ em.gameState.vitals.oxygen.current < 90) →
          (em.gameState.vitals.heartRate.enabled = true →
            5 < em.gameState.vitals.heartRate.current
              ∧ em.gameState.vitals.heartRate.current < 95) →
          (em.gameState.vitals.eyes.enabled = true → 10 < em.gameState.vitals.eyes.moisture) →
          em.gameState.update deltaTime now = em.gameState)
      ∧ em.update deltaTime now r = em
      ∧ em.gameState.startGame.gameStarted = true
      ∧ em.gameState.startGame.gameTime = 0 := by
  have h1 := GameState.update_of_not_started em.gameState deltaTime now h
  rw [h1]
  refine ⟨rfl,
    GameState.checkExtremeVitals_congr (fun g => g.gameTime) (fun _ _ _ _ => rfl) _ _,
    GameState.checkExtremeVitals_congr (fun g => g.difficulty) (fun _ _ _ _ => rfl) _ _,
    GameState.checkExtremeVitals_vitals _ _,
    GameState.checkExtremeVitals_congr (fun g => g.vitalIntroduction) (fun _ _ _ _ => rfl) _ _,
    (GameState.checkExtremeVitals_congr (fun g => g.gameStarted) (fun _ _ _ _ => rfl) _ _).trans
      h,
    ?_, ?_, rfl, rfl⟩
  · intro ho hh he
    have o1 : em.gameState.vitals.oxygen.enabled = true →
        ¬ em.gameState.vitals.oxygen.current ≤ 5 := fun hb => not_le.2 (ho hb).1
    have o2 : em.gameState.vitals.oxygen.enabled = true →
        ¬ 90 ≤ em.gameState.vitals.oxygen.current := fun hb => not_le.2 (ho hb).2
    have b1 : em.gameState.vitals.heartRate.enabled = true →
        ¬ em.gameState.vitals.heartRate.current ≤ 5 := fun hb => not_le.2 (hh hb).1
    have b2 : em.gameState.vitals.heartRate.enabled = true →
        ¬ 95 ≤ em.gameState.vitals.heartRate.current := fun hb => not_le.2 (hh hb).2
    have e1 : em.gameState.vitals.eyes.enabled = true →
        ¬ em.gameState.vitals.eyes.moisture ≤ 10 := fun hb => not_le.2 (he hb)
    unfold GameState.checkExtremeVitals
    rcases hb1 : em.gameState.vitals.oxygen.enabled with _ | _ <;>
      rcases hb2 : em.gameState.vitals.heartRate.enabled with _ | _ <;>
      rcases hb3 : em.gameState.vitals.eyes.enabled with _ | _ <;>
      simp [hb1, hb2, hb3, o1, o2, b1, b2, e1]
  · unfold EventManager.update
    rw [if_neg (by simp [h])]

theorem unstarted_update_inert_witness :
    (BodyControlGame.new 1000000).eventManager.gameState.gameStarted = false
      ∧ (BodyControlGame.new 1000000).eventManager.gameState.update 16 1000016
        = (BodyControlGame.new 1000000).eventManager.gameState
      ∧ (BodyControlGame.new 1000000).eventManager.update 16 1000016 0
        = (BodyControlGame.new 1000000).eventManager :=
  have h := unstarted_update_inert (BodyControlGame.new 1000000).eventManager 16 1000016 0 rfl
  ⟨rfl,
    h.2.2.2.2.2.2.1 (fun hb => absurd hb (by decide)) (fun _ => ⟨by decide!, by decide!⟩)
      (fun hb => absurd hb (by decide)),
    h.2.2.2.2.2.2.2.1⟩

/-! ## C18 -/

/-- C18. Frame delta.  `gameLoop` passes `currentTime - lastTime` to the
updates, unclamped, and `lastTime` starts at 0: the first frame after
`init`, at the timestamp 5000, runs the updates with `deltaTime = 5000`
(game time and event timer are 5000 after it, not 0), and a frame whose
timestamp is 1000 below the previous one runs them with
`deltaTime = -1000` (game time and event timer fall to 4000). -/
theorem first_frame_delta_is_timestamp :
    (BodyControlGame.new 1000000).init.lastTime = 0
      ∧ ((BodyControlGame.new 1000000).init.gameLoop 5000 1005000 0).eventManager
        = gameFrame (BodyControlGame.new 1000000).init.eventManager 5000 1005000 0
      ∧ ((BodyControlGame.new 1000000).init.gameLoop 5000 1005000
          0).eventManager.gameState.gameTime = 5000
      ∧ ((BodyControlGame.new 1000000).init.gameLoop 5000 1005000 0).eventManager.eventTimer
        = 5000
      ∧ (((BodyControlGame.new 1000000).init.gameLoop 5000 1005000 0).gameLoop 4000 1005016
          0).eventManager.gameState.gameTime = 4000
      ∧ (((BodyControlGame.new 1000000).init.gameLoop 5000 1005000 0).gameLoop 4000 1005016
          0).eventManager.eventTimer = 4000
      ∧ ∀ (g : BodyControlGame) (currentTime now r : ℚ), g.isRunning = true →
          (g.gameLoop currentTime now r).eventManager
            = gameFrame g.eventManager (currentTime - g.lastTime) now r
          ∧ (g.gameLoop currentTime now r).lastTime = currentTime := by
  refine ⟨rfl, by decide!, by decide!, by decide!, by decide!, by decide!, ?_⟩
  intro g currentTime now r h
  unfold BodyControlGame.gameLoop
  rw [if_neg (by simp [h])]
  exact ⟨rfl, rfl⟩

/-! ## C19 -/

/-- What `triggerGameOver` records: the one ending call and the start of
the finish event. -/
theorem EventManager.triggerGameOver_traces (em : EventManager) (type : EndingType)
    (reason : String) :
    startedEvents (em.triggerGameOver type reason).trace = startedEvents em.trace ++ [.finish]
      ∧ gameOverCalls (em.triggerGameOver type reason).trace
        = gameOverCalls em.trace ++ [type] := by
  refine ⟨?_, EventManager.triggerGameOver_gameOverCalls em type reason⟩
  unfold EventManager.triggerGameOver
  dsimp only [EventManager.emit]
  have key : ∀ X : EventManager,
      startedEvents (X.startEvent .finish (some (type, reason)) 0).trace
        = startedEvents X.trace ++ [.finish] :=
    fun X => congrArg Control.startedEvents
      (EventManager.startEvent_control X .finish (some (type, reason)) 0)
  rw [key]
  split
  · have h2 := congrArg Control.startedEvents (EventManager.endCurrentEvent_control
      { em with
        trace := em.trace ++ [.triggerGameOver type reason]
        gameProgression := { em.gameProgression with completed := true } })
    dsimp only [EventManager.control] at h2
    rw [h2]
    simp [startedEvents_append]
  · simp [startedEvents_append]

/-- What the outcome check adds to the records of an update: nothing, or
the failure call with the start of the finish event. -/
theorem EventManager.checkGameOverConditions_traces (em : EventManager) :
    (startedEvents em.checkGameOverConditions.trace = startedEvents em.trace
        ∧ gameOverCalls em.checkGameOverConditions.trace = gameOverCalls em.trace)
      ∨ (startedEvents em.checkGameOverConditions.trace = startedEvents em.trace ++ [.finish]
        ∧ gameOverCalls em.checkGameOverConditions.trace
          = gameOverCalls em.trace ++ [.failure]) := by
  unfold EventManager.checkGameOverConditions
  split
  · exact Or.inr (EventManager.triggerGameOver_traces em _ _)
  · exact Or.inl ⟨rfl, rfl⟩

/-- The records of the state before the outcome check, by the state of the
stage check: `true` for the standard start of the cursor stage, the success
call for a finish stage. -/
theorem EventManager.beforeOutcomeCheck_traces (em : EventManager) (deltaTime now r : ℚ)
    (stage : Stage)
    (hstage : em.gameProgression.stages.get? em.gameProgression.currentStage = some stage)
    (hdur : 0 < stage.duration) (hOpen : em.gameProgression.completed = false) :
    if em.currentEvent = none ∧ stage.startTime ≤ em.eventTimer + deltaTime then
      if stage.type = .finish then
        startedEvents (em.beforeOutcomeCheck deltaTime now r).trace
            = startedEvents em.trace ++ [.finish]
          ∧ gameOverCalls (em.beforeOutcomeCheck deltaTime now r).trace
            = gameOverCalls em.trace ++ [.success]
          ∧ (em.beforeOutcomeCheck deltaTime now r).currentEvent = some
            { type := .finish
              name := getEventName .finish
              startTime := em.eventTimer + deltaTime
              duration := stage.duration
              options := some (.success, "") }
      else
        startedEvents (em.beforeOutcomeCheck deltaTime now r).trace
            = startedEvents em.trace ++ [stage.type]
          ∧ gameOverCalls (em.beforeOutcomeCheck deltaTime now r).trace = gameOverCalls em.trace
          ∧ (em.beforeOutcomeCheck deltaTime now r).currentEvent = some
            { type := stage.type
              name := getEventName stage.type
              startTime := em.eventTimer + deltaTime
              duration := stage.duration
              options := none }
    else
      startedEvents (em.beforeOutcomeCheck deltaTime now r).trace = startedEvents em.trace
        ∧ gameOverCalls (em.beforeOutcomeCheck deltaTime now r).trace
          = gameOverCalls em.trace := by
  have proj : ∀ c : Control, (em.beforeOutcomeCheck deltaTime now r).control = c →
      startedEvents (em.beforeOutcomeCheck deltaTime now r).trace = c.startedEvents
        ∧ gameOverCalls (em.beforeOutcomeCheck deltaTime now r).trace = c.gameOverCalls
        ∧ (em.beforeOutcomeCheck deltaTime now r).currentEvent = c.currentEvent :=
    fun c h => ⟨congrArg Control.startedEvents h, congrArg Control.gameOverCalls h,
      congrArg Control.currentEvent h⟩
  obtain hnone | ⟨ev, hev⟩ : em.currentEvent = none ∨ ∃ ev, em.currentEvent = some ev := by
    cases em.currentEvent
    · exact Or.inl rfl
    · exact Or.inr ⟨_, rfl⟩
  · by_cases hge : stage.startTime ≤ em.eventTimer + deltaTime
    · rw [if_pos ⟨hnone, hge⟩]
      by_cases hty : stage.type = .finish
      · rw [if_pos hty]
        exact proj _ (EventManager.beforeOutcomeCheck_finish em deltaTime now r stage hnone
          hstage hge hty hdur hOpen)
      · rw [if_neg hty]
        exact proj _ (EventManager.beforeOutcomeCheck_start em deltaTime now r stage hnone
          hstage hge hty hdur)
    · rw [if_neg (fun h => hge h.2)]
      have h := proj _ (EventManager.beforeOutcomeCheck_wait em deltaTime now r stage hnone
        hstage (not_le.1 hge))
      exact ⟨h.1, h.2.1⟩
  · rw [if_neg (fun h => by rw [hev] at h; exact absurd h.1 (by simp))]
    have h := EventManager.beforeOutcomeCheck_active em deltaTime now r ev hev
    split_ifs at h <;>
      exact ⟨(proj _ h).1, (proj _ h).2.1⟩

/-- C19. Stage triggering.  The stage list of the constructor is
baseline@30000 (20000), runningWoods@50000 (45000), orderCoffee@100000
(30000), runningWoods@132000 (45000), finish@179000 (8000).  For a stage
under the cursor that is not the finish, `EventManager.update` calls
`startEvent` with the stage's type if and only if the game is started, the
session is not completed, no event is active and the event timer with
`deltaTime` added is at or above the stage's `startTime`; the event then
set has the stage's type and duration and starts at that timer value.  For
a finish stage under the cursor the same condition is equivalent to the call
`triggerGameOver('success')`, which starts the finish event with the success
ending as its options. -/
theorem stage_start_follows_schedule (em : EventManager) (deltaTime now r : ℚ)
    (stage : Stage)
    (hstage : em.gameProgression.stages.get? em.gameProgression.currentStage = some stage)
    (hdur : 0 < stage.duration) :
    defaultStages
        = [{ type := .baseline, duration := 20000, startTime := 30000 },
           { type := .runningWoods, duration := 45000, startTime := 50000 },
           { type := .orderCoffee, duration := 30000, startTime := 100000 },
           { type := .runningWoods, duration := 45000, startTime := 132000 },
           { type := .finish, duration := 8000, startTime := 179000 }]
      ∧ (∀ gs : GameState, (EventManager.new gs).gameProgression.stages = defaultStages)
      ∧ (stage.type ≠ .finish →
        ((∃ rest, startedEvents (em.update deltaTime now r).trace
              = startedEvents em.trace ++ stage.type :: rest)
            ↔ (em.gameState.gameStarted = true ∧ em.gameProgression.completed = false
              ∧ em.currentEvent = none ∧ stage.startTime ≤ em.eventTimer + deltaTime))
          ∧ (em.gameState.gameStarted = true → em.gameProgression.completed = false →
            em.currentEvent = none → stage.startTime ≤ em.eventTimer + deltaTime →
            (em.beforeOutcomeCheck deltaTime now r).currentEvent = some
              { type := stage.type
                name := getEventName stage.type
                startTime := em.eventTimer + deltaTime
                duration := stage.duration
                options := none }))
      ∧ (stage.type = .finish →
        ((∃ rest, gameOverCalls (em.update deltaTime now r).trace
              = gameOverCalls em.trace ++ .success :: rest)
            ↔ (em.gameState.gameStarted = true ∧ em.gameProgression.completed = false
              ∧ em.currentEvent = none ∧ stage.startTime ≤ em.eventTimer + deltaTime))
          ∧ (em.gameState.gameStarted = true → em.gameProgression.completed = false →
            em.currentEvent = none → stage.startTime ≤ em.eventTimer + deltaTime →
            (em.beforeOutcomeCheck deltaTime now r).currentEvent = some
              { type := .finish
                name := getEventName .finish
                startTime := em.eventTimer + deltaTime
                duration := stage.duration
                options := some (.success, "") })) := by
  have hnil : ∀ (α : Type) (l rest : List α) (a : α), l ≠ l ++ a :: rest := by
    intro α l rest a h
    have := congrArg List.length h
    simp at this
  have hsingle : ∀ (α : Type) (l rest : List α) (a b : α), l ++ [b] = l ++ a :: rest → b = a := by
    intro α l rest a b h
    have h2 := List.append_cancel_left h
    exact (List.cons.inj h2).1
  refine ⟨rfl, fun _ => rfl, ?_, ?_⟩
  · intro hty
    constructor
    · rw [EventManager.update_eq]
      constructor
      · rintro ⟨rest, hrest⟩
        split at hrest
        · rename_i hguard
          simp only [Bool.and_eq_true, Bool.not_eq_true', ] at hguard
          have hB := EventManager.beforeOutcomeCheck_traces em deltaTime now r stage hstage hdur
            hguard.2
          by_cases hc : em.currentEvent = none ∧ stage.startTime ≤ em.eventTimer + deltaTime
          · exact ⟨hguard.1, hguard.2, hc.1, hc.2⟩
          · rw [if_neg hc] at hB
            rcases EventManager.checkGameOverConditions_traces
              (em.beforeOutcomeCheck deltaTime now r) with h | h
            · rw [h.1, hB.1] at hrest
              exact absurd hrest (hnil _ _ _ _)
            · rw [h.1, hB.1] at hrest
              exact absurd (hsingle _ _ _ _ _ hrest).symm hty
        · exact absurd hrest (hnil _ _ _ _)
      · rintro ⟨hs, ho, hn, hge⟩
        rw [if_pos (by simp [hs, ho])]
        have hB := EventManager.beforeOutcomeCheck_traces em deltaTime now r stage hstage hdur ho
        rw [if_pos ⟨hn, hge⟩, if_neg hty] at hB
        rcases EventManager.checkGameOverConditions_traces
          (em.beforeOutcomeCheck deltaTime now r) with h | h
        · exact ⟨[], by rw [h.1, hB.1]⟩
        · exact ⟨[.finish], by rw [h.1, hB.1, List.append_assoc]; rfl⟩
    · intro _ ho hn hge
      have hB := EventManager.beforeOutcomeCheck_traces em deltaTime now r stage hstage hdur ho
      rw [if_pos ⟨hn, hge⟩, if_neg hty] at hB
      exact hB.2.2
  · intro hty
    constructor
    · rw [EventManager.update_eq]
      constructor
      · rintro ⟨rest, hrest⟩
        split at hrest
        · rename_i hguard
          simp only [Bool.and_eq_true, Bool.not_eq_true', ] at hguard
          have hB := EventManager.beforeOutcomeCheck_traces em deltaTime now r stage hstage hdur
            hguard.2
          by_cases hc : em.currentEvent = none ∧ stage.startTime ≤ em.eventTimer + deltaTime
          · exact ⟨hguard.1, hguard.2, hc.1, hc.2⟩
          · rw [if_neg hc] at hB
            rcases EventManager.checkGameOverConditions_traces
              (em.beforeOutcomeCheck deltaTime now r) with h | h
            · rw [h.2, hB.2] at hrest
              exact absurd hrest (hnil _ _ _ _)
            · rw [h.2, hB.2] at hrest
              exact absurd (hsingle _ _ _ _ _ hrest) (by decide)
        · exact absurd hrest (hnil _ _ _ _)
      · rintro ⟨hs, ho, hn, hge⟩
        rw [if_pos (by simp [hs, ho])]
        have hB := EventManager.beforeOutcomeCheck_traces em deltaTime now r stage hstage hdur ho
        rw [if_pos ⟨hn, hge⟩, if_pos hty] at hB
        rcases EventManager.checkGameOverConditions_traces
          (em.beforeOutcomeCheck deltaTime now r) with h | h
        · exact ⟨[], by rw [h.2, hB.2.1]⟩
        · exact ⟨[.failure], by rw [h.2, hB.2.1, List.append_assoc]; rfl⟩
    · intro _ ho hn hge
      have hB := EventManager.beforeOutcomeCheck_traces em deltaTime now r stage hstage hdur ho
      rw [if_pos ⟨hn, hge⟩, if_pos hty] at hB
      exact hB.2.2

theorem stage_start_follows_schedule_witness :
    (startedGame 1000000).gameProgression.stages.get?
        (startedGame 1000000).gameProgression.currentStage
        = some { type := .baseline, duration := 20000, startTime := 30000 }
      ∧ startedEvents (startedGame 1000000).trace = []
      ∧ startedEvents ((startedGame 1000000).update 30000 1030000 0).trace = [.baseline]
      ∧ ((startedGame 1000000).beforeOutcomeCheck 30000 1030000 0).currentEvent = some
        { type := .baseline
          name := getEventName .baseline
          startTime := (startedGame 1000000).eventTimer + 30000
          duration := 20000
          options := none } :=
  ⟨rfl, rfl, by decide!,
    ((stage_start_follows_schedule (startedGame 1000000) 30000 1030000 0
      { type := .baseline, duration := 20000, startTime := 30000 } rfl (by decide!)).2.2.1
      (by decide)).2 rfl rfl rfl (by decide!)⟩

/-! ## C20 -/

/-- The values `updateVitals` leaves in the enabled vitals. -/
theorem GameState.updateVitals_values (gs : GameState) (deltaTime : ℚ) :
    (gs.vitals.heartRate.enabled = true →
        (gs.updateVitals deltaTime).vitals.heartRate.current
          = max 0 (min gs.vitals.heartRate.max
              (if isEventOfType gs.currentEvent .runningWoods then
                gs.vitals.heartRate.current
                  - gs.vitals.heartRate.decayRate * (deltaTime / 1000) * gs.difficulty
                  - 3 * (deltaTime / 1000) * gs.difficulty
              else
                gs.vitals.heartRate.current
                  - gs.vitals.heartRate.decayRate * (deltaTime / 1000) * gs.difficulty)))
      ∧ (gs.vitals.oxygen.enabled = true →
        (gs.updateVitals deltaTime).vitals.oxygen.current
          = if isEventOfType gs.currentEvent .runningWoods then
              max 0 (min gs.vitals.oxygen.max
                  (gs.vitals.oxygen.current
                    - gs.vitals.oxygen.decayRate * (deltaTime / 1000) * gs.difficulty))
                - 4 / 5 * (deltaTime / 1000) * gs.difficulty
            else
              max 0 (min gs.vitals.oxygen.max
                (gs.vitals.oxygen.current
                  - gs.vitals.oxygen.decayRate * (deltaTime / 1000) * gs.difficulty)))
      ∧ (gs.vitals.eyes.enabled = true →
        (gs.updateVitals deltaTime).vitals.eyes.moisture
          = max 0 (min gs.vitals.eyes.max
              (gs.vitals.eyes.moisture
                - gs.vitals.eyes.dryRate * (deltaTime / 1000) * gs.difficulty))) := by
  refine ⟨fun h => ?_, fun h => ?_, fun h => ?_⟩
  · simp only [GameState.updateVitals, GameState.updateVitalStatuses,
      apply_ite GameState.vitals, apply_ite GameState.currentEvent,
      apply_ite GameState.difficulty, apply_ite Vitals.oxygen, apply_ite Vitals.heartRate,
      apply_ite Vitals.eyes, apply_ite HeartRate.current, apply_ite HeartRate.max,
      apply_ite HeartRate.decayRate, apply_ite Oxygen.enabled,
      apply_ite HeartRate.enabled, apply_ite Eyes.enabled, ite_self, h, if_true]
  · simp only [GameState.updateVitals, GameState.updateVitalStatuses,
      apply_ite GameState.vitals, apply_ite GameState.currentEvent,
      apply_ite GameState.difficulty, apply_ite Vitals.oxygen, apply_ite Vitals.heartRate,
      apply_ite Vitals.eyes, apply_ite Oxygen.current, apply_ite Oxygen.max,
      apply_ite Oxygen.decayRate, apply_ite Oxygen.enabled,
      apply_ite HeartRate.enabled, apply_ite Eyes.enabled, ite_self, h, if_true]
  · simp only [GameState.updateVitals, GameState.updateVitalStatuses,
      apply_ite GameState.vitals, apply_ite GameState.currentEvent,
      apply_ite GameState.difficulty, apply_ite Vitals.oxygen, apply_ite Vitals.heartRate,
      apply_ite Vitals.eyes, apply_ite Eyes.moisture, apply_ite Eyes.max,
      apply_ite Eyes.dryRate, apply_ite Oxygen.enabled,
      apply_ite HeartRate.enabled, apply_ite Eyes.enabled, ite_self, h, if_true]

/-- The staged introduction leaves the heart rate alone, the oxygen system
alone once breathing is unlocked, and the eye system alone once blinking is
unlocked. -/
theorem GameState.updateVitalIntroduction_unlocked (gs : GameState) :
    gs.updateVitalIntroduction.vitals.heartRate = gs.vitals.heartRate
      ∧ (gs.vitalIntroduction.breathingUnlocked = true →
        gs.updateVitalIntroduction.vitals.oxygen = gs.vitals.oxygen)
      ∧ (gs.vitalIntroduction.blinkingUnlocked = true →
        gs.updateVitalIntroduction.vitals.eyes = gs.vitals.eyes) := by
  refine ⟨?_, fun h => ?_, fun h => ?_⟩
  · simp only [GameState.updateVitalIntroduction, GameState.showVitalAlert,
      apply_ite GameState.vitals, apply_ite Vitals.heartRate, ite_self]
  · simp only [GameState.updateVitalIntroduction, GameState.showVitalAlert,
      apply_ite GameState.vitals, apply_ite Vitals.oxygen, ite_self, h, Bool.not_true,
      Bool.false_and, Bool.false_eq_true, if_false]
  · simp only [GameState.updateVitalIntroduction, GameState.showVitalAlert,
      apply_ite GameState.vitals, apply_ite Vitals.eyes,
      apply_ite GameState.vitalIntroduction, apply_ite VitalIntroduction.blinkingUnlocked,
      ite_self, h, Bool.not_true, Bool.false_and, Bool.false_eq_true, if_false]

/-- C20, as stated, fails.  Suspicion decays at its rate of 0.8 per second
without the difficulty factor: at the first coffee prompt, with suspicion 8
and difficulty 341/240 after the update, `update(1000)` leaves suspicion
at 8 - 0.8 = 7.2, above the 2059/300 that the factor would give.  And
during a woods event the heart rate falls by 3 per second more than its
decay rate: from 30, `update(500)` at difficulty 583/480 leaves 3187/320,
below the 377/32 of the formula. -/
theorem suspicion_decay_without_difficulty :
    coffeeAtFirstPrompt.gameState.gameStarted = true
      ∧ coffeeAtFirstPrompt.gameState.suspicion.current = 8
      ∧ coffeeAtFirstPrompt.gameState.suspicion.decayRate = 4 / 5
      ∧ (coffeeAtFirstPrompt.gameState.update 1000 1101000).difficulty = 341 / 240
      ∧ (coffeeAtFirstPrompt.gameState.update 1000 1101000).suspicion.current = 36 / 5
      ∧ max (0 : ℚ) (min 100 (8 - 4 / 5 * (1000 / 1000) * (341 / 240))) = 2059 / 300
      ∧ (freshWoods.step (.input .heartbeat 1051100)).gameState.vitals.heartRate.current = 30
      ∧ (freshWoods.step (.input .heartbeat 1051100)).gameState.vitals.heartRate.enabled = true
      ∧ ((freshWoods.step (.input .heartbeat 1051100)).gameState.update 500
          1051500).difficulty = 583 / 480
      ∧ ((freshWoods.step (.input .heartbeat 1051100)).gameState.update 500
          1051500).vitals.heartRate.current = 3187 / 320
      ∧ max (0 : ℚ) (min 100 (30 - 30 * (500 / 1000) * (583 / 480))) = 377 / 32 := by
  refine ⟨by decide!, by decide!, by decide!, by decide!, by decide!, by decide!, by decide!,
    by decide!, by decide!, by decide!, by decide!⟩

/-- C20, amended.  On a started game `update(dt)` sets the difficulty to
`1.0 + (gameTime / 120000) * 0.5` at the updated game time and, with that
difficulty: the heart rate, when enabled, to
`clamp(current - decayRate * (dt/1000) * difficulty)`, with a further
`3 * (dt/1000) * difficulty` subtracted during a woods event; the oxygen,
when enabled and unlocked before the update, to the same clamp with its own
rate outside a woods event, and during one to that clamp less the running
drain `0.8 * (dt/1000) * difficulty`, whenever the drained value lies within
`[0, max]`; the eye moisture, when enabled and unlocked before the update,
to the same clamp with `dryRate`.  The clamp is to `[0, max]`.  The
suspicion decay step subtracts `decayRate * (dt/1000)` with no difficulty
factor.  The rates of the constructor are 3, 30, 3 and 0.8. -/
theorem vital_decay_formula (gs : GameState) (deltaTime now : ℚ)
    (hStarted : gs.gameStarted = true) :
    (gs.update deltaTime now).difficulty = 1 + (gs.gameTime + deltaTime) / 120000 * (1 / 2)
      ∧ (gs.vitals.heartRate.enabled = true →
        (gs.update deltaTime now).vitals.heartRate.current
          = max 0 (min gs.vitals.heartRate.max
              (if isEventOfType gs.currentEvent .runningWoods then
                gs.vitals.heartRate.current
                  - gs.vitals.heartRate.decayRate * (deltaTime / 1000)
                    * (gs.update deltaTime now).difficulty
                  - 3 * (deltaTime / 1000) * (gs.update deltaTime now).difficulty
              else
                gs.vitals.heartRate.current
                  - gs.vitals.heartRate.decayRate * (deltaTime / 1000)
                    * (gs.update deltaTime now).difficulty)))
      ∧ (gs.vitals.oxygen.enabled = true → gs.vitalIntroduction.breathingUnlocked = true →
        isEventOfType gs.currentEvent .runningWoods = false →
        (gs.update deltaTime now).vitals.oxygen.current
          = max 0 (min gs.vitals.oxygen.max
              (gs.vitals.oxygen.current
                - gs.vitals.oxygen.decayRate * (deltaTime / 1000)
                  * (gs.update deltaTime now).difficulty)))
      ∧ (gs.vitals.oxygen.enabled = true → gs.vitalIntroduction.breathingUnlocked = true →
        isEventOfType gs.currentEvent .runningWoods = true →
        0 ≤ max 0 (min gs.vitals.oxygen.max
              (gs.vitals.oxygen.current
                - gs.vitals.oxygen.decayRate * (deltaTime / 1000)
                  * (gs.update deltaTime now).difficulty))
            - 4 / 5 * (deltaTime / 1000) * (gs.update deltaTime now).difficulty →
        max 0 (min gs.vitals.oxygen.max
              (gs.vitals.oxygen.current
                - gs.vitals.oxygen.decayRate * (deltaTime / 1000)
                  * (gs.update deltaTime now).difficulty))
            - 4 / 5 * (deltaTime / 1000) * (gs.update deltaTime now).difficulty
          ≤ gs.vitals.oxygen.max →
        (gs.update deltaTime now).vitals.oxygen.current
          = max 0 (min gs.vitals.oxygen.max
              (max 0 (min gs.vitals.oxygen.max
                  (gs.vitals.oxygen.current
                    - gs.vitals.oxygen.decayRate * (deltaTime / 1000)
                      * (gs.update deltaTime now).difficulty))
                - 4 / 5 * (deltaTime / 1000) * (gs.update deltaTime now).difficulty)))
      ∧ (gs.vitals.eyes.enabled = true → gs.vitalIntroduction.blinkingUnlocked = true →
        (gs.update deltaTime now).vitals.eyes.moisture
          = max 0 (min gs.vitals.eyes.max
              (gs.vitals.eyes.moisture
                - gs.vitals.eyes.dryRate * (deltaTime / 1000)
                  * (gs.update deltaTime now).difficulty)))
      ∧ (gs.updateSuspicion deltaTime).suspicion.current
        = max 0 (min gs.suspicion.max
            (gs.suspicion.current - gs.suspicion.decayRate * (deltaTime / 1000)))
      ∧ (GameState.new now).vitals.oxygen.decayRate = 3
      ∧ (GameState.new now).vitals.heartRate.decayRate = 30
      ∧ (GameState.new now).vitals.eyes.dryRate = 3
      ∧ (GameState.new now).suspicion.decayRate = 4 / 5 := by
  have hd := GameState.update_difficulty gs deltaTime now hStarted
  have hg : ({ gs with gameTime := gs.gameTime + deltaTime } :
      GameState).updateVitalIntroduction.gameTime = gs.gameTime + deltaTime :=
    GameState.updateVitalIntroduction_congr (fun g => g.gameTime) (fun _ _ _ _ => rfl) _
  have he : ({ gs with gameTime := gs.gameTime + deltaTime } :
      GameState).updateVitalIntroduction.currentEvent = gs.currentEvent :=
    GameState.updateVitalIntroduction_congr (fun g => g.currentEvent) (fun _ _ _ _ => rfl) _
  obtain ⟨uh, uo, ue⟩ := GameState.updateVitalIntroduction_unlocked
    { gs with gameTime := gs.gameTime + deltaTime }
  obtain ⟨M, hM⟩ : ∃ M : GameState, M =
      { ({ gs with gameTime := gs.gameTime + deltaTime }).updateVitalIntroduction with
        difficulty :=
          1 + ({ gs with gameTime := gs.gameTime + deltaTime }).updateVitalIntroduction.gameTime
            / 120000 * (1 / 2) } := ⟨_, rfl⟩
  have hv : (gs.update deltaTime now).vitals = (M.updateVitals deltaTime).vitals := by
    rw [hM]
    exact GameState.update_vitals gs deltaTime now hStarted
  have hMv : M.vitals
      = ({ gs with gameTime := gs.gameTime + deltaTime } :
        GameState).updateVitalIntroduction.vitals := by
    rw [hM]
  have hMd : M.difficulty = (gs.update deltaTime now).difficulty := by
    rw [hM, hd]
    dsimp only
    rw [hg]
  have hMe : M.currentEvent = gs.currentEvent := by
    rw [hM]
    exact he
  obtain ⟨vh, vo, ve⟩ := GameState.updateVitals_values M deltaTime
  rw [hMv, hMd, hMe] at vh vo
  rw [hMv, hMd] at ve
  rw [hv]
  refine ⟨hd, ?_, ?_, ?_, ?_, rfl, rfl, rfl, rfl, rfl⟩
  · intro h
    rw [uh] at vh
    exact vh h
  · intro h hu hw
    rw [uo hu] at vo
    rw [vo h, hw]
    rfl
  · intro h hu hw h0 h1
    rw [uo hu] at vo
    rw [vo h, hw, if_pos rfl, min_eq_right h1, max_eq_right h0]
  · intro h hu
    rw [ue hu] at ve
    exact ve h

theorem vital_decay_formula_witness :
    coffeeAtFirstPrompt.gameState.gameStarted = true
      ∧ (coffeeAtFirstPrompt.gameState.update 1000 1101000).difficulty
        = 1 + (coffeeAtFirstPrompt.gameState.gameTime + 1000) / 120000 * (1 / 2)
      ∧ (coffeeAtFirstPrompt.gameState.update 1000 1101000).difficulty = 341 / 240
      ∧ (freshWoods.step (.input .breathe 1051100)).gameState.vitals.oxygen.current = 15
      ∧ ((freshWoods.step (.input .breathe 1051100)).gameState.update 500
          1051500).vitals.oxygen.current = 60923 / 4800 :=
  ⟨by decide!, (vital_decay_formula coffeeAtFirstPrompt.gameState 1000 1101000 (by decide!)).1,
    by decide!, by decide!,
    ((vital_decay_formula (freshWoods.step (.input .breathe 1051100)).gameState 500 1051500
      (by decide!)).2.2.2.1 (by decide!) (by decide!) (by decide!) (by decide!)
      (by decide!)).trans (by decide!)⟩

/-! ## C21 -/

/-- C21. The method `breathe` with oxygen enabled: oxygen becomes
`min(max, current + 15)`; suspicion becomes `min(suspicion.max, current + 3)`
when the resulting oxygen value exceeds 90 and stays as it is otherwise; the
other fields of oxygen, the heart rate, the eyes and every other field of the
state are unchanged. -/
theorem breathe_postcondition (gs : GameState) (h : gs.vitals.oxygen.enabled = true) :
    gs.breathe.vitals.oxygen.current
        = min gs.vitals.oxygen.max (gs.vitals.oxygen.current + 15)
      ∧ gs.breathe.suspicion.current
        = (if min gs.vitals.oxygen.max (gs.vitals.oxygen.current + 15) > 90 then
            min gs.suspicion.max (gs.suspicion.current + 3)
          else gs.suspicion.current)
      ∧ gs.breathe.vitals.oxygen
        = { gs.vitals.oxygen with
            current := min gs.vitals.oxygen.max (gs.vitals.oxygen.current + 15) }
      ∧ gs.breathe.vitals.heartRate = gs.vitals.heartRate
      ∧ gs.breathe.vitals.eyes = gs.vitals.eyes
      ∧ gs.breathe
        = { gs with
            vitals := gs.breathe.vitals
            suspicion := { gs.suspicion with current := gs.breathe.suspicion.current } } := by
  unfold GameState.breathe
  rw [if_neg (by simp [h])]
  dsimp only [GameState.addSuspicion]
  split_ifs <;> exact ⟨rfl, rfl, rfl, rfl, rfl, rfl⟩

/-- C21 at a concrete state: the first conversation prompt of the coffee
stage, where oxygen is enabled and at 0. -/
theorem breathe_postcondition_witness :
    coffeeAtFirstPrompt.gameState.vitals.oxygen.enabled = true
      ∧ coffeeAtFirstPrompt.gameState.breathe.vitals.oxygen.current
        = min coffeeAtFirstPrompt.gameState.vitals.oxygen.max
            (coffeeAtFirstPrompt.gameState.vitals.oxygen.current + 15) :=
  ⟨by decide!, (breathe_postcondition coffeeAtFirstPrompt.gameState (by decide!)).1⟩

/-! ## C22 -/

theorem secondConversationOptions_correct (option : Int) :
    isCorrect (selectOption secondConversationOptions option) = decide (option = 2) := by
  unfold selectOption
  by_cases h1 : 1 ≤ option
  · rw [if_pos h1]
    obtain ⟨n, hn⟩ : ∃ n : Nat, option = n + 1 := ⟨(option - 1).toNat, by omega⟩
    subst hn
    have : ((n : Int) + 1 - 1).toNat = n := by omega
    rw [this]
    match n with
    | 0 => rfl
    | 1 => rfl
    | 2 => rfl
    | n + 3 =>
      have hne : ¬ (((n + 3 : Nat) : Int) + 1 = 2) := by omega
      simp [secondConversationOptions, isCorrect]
      omega
  · rw [if_neg h1]
    have hne : ¬ (option = 2) := by omega
    simp [hne, isCorrect]

/-- The answer to a prompt, whatever the options and the option number. -/
theorem EventManager.handleConversationOption_scoring (em : EventManager) (option : Int)
    (options : List ConversationOption)
    (hEnding : em.isEnding = false)
    (hCoffee : isEventOfType em.currentEvent .orderCoffee = true)
    (hWaiting : em.conversationState.waitingForResponse = true)
    (hOptions : em.conversationState.conversationOptions = some options) :
    (em.handleConversationOption option).conversationState.waitingForResponse = false
      ∧ (em.handleConversationOption option).gameState
        = (if isCorrect (selectOption options option) then em.gameState
          else em.gameState.addSuspicion 15) := by
  unfold EventManager.handleConversationOption
  rw [if_neg (by simp [hEnding]), if_pos (by simp [hCoffee, hWaiting])]
  dsimp only
  rw [hOptions]
  dsimp only [EventManager.showEventPopup, EventManager.showEventDisplay,
    EventManager.hideEventPopup, EventManager.emit, EventManager.setTimeout]
  cases isCorrect (selectOption options option) <;> simp [hEnding] <;>
    split_ifs <;> exact ⟨rfl, rfl⟩

/-- C22, the claim as stated fails.  At the first conversation prompt of the
coffee stage with suspicion at 95, the wrong option 2 raises suspicion to
the maximum 100, an increase of 5 and not of 15. -/
theorem wrong_option_suspicion_clamped :
    conversationAtHighSuspicion.isEnding = false
      ∧ isEventOfType conversationAtHighSuspicion.currentEvent .orderCoffee = true
      ∧ conversationAtHighSuspicion.conversationState.waitingForResponse = true
      ∧ conversationAtHighSuspicion.conversationState.conversationStep = 1
      ∧ conversationAtHighSuspicion.conversationState.conversationOptions
        = some firstConversationOptions
      ∧ conversationAtHighSuspicion.gameState.suspicion.current = 95
      ∧ (conversationAtHighSuspicion.handleConversationOption 2).gameState.suspicion.current
        = 100
      ∧ (conversationAtHighSuspicion.handleConversationOption 2).gameState.suspicion.current
          - conversationAtHighSuspicion.gameState.suspicion.current = 5
      ∧ (InputHandler.executeAction conversationAtHighSuspicion .option2
          1113000).gameState.suspicion.current = 100 := by
  decide!

/-- C22, amended.  The first prompt offers four options of which exactly
option 1 is correct, the second three of which exactly option 2 is correct;
an option number outside the list counts as not correct.  At a prompt that
waits for a response in an active coffee stage, on a manager that is not
ending, `handleConversationOption` clears `waitingForResponse` for every
option number; a correct option leaves suspicion as it is, and any other
sets it to `min(max, current + 15)`, an increase of exactly 15 when that
does not exceed the maximum. -/
theorem conversation_scoring (em : EventManager) (option : Int)
    (options : List ConversationOption)
    (hEnding : em.isEnding = false)
    (hCoffee : isEventOfType em.currentEvent .orderCoffee = true)
    (hWaiting : em.conversationState.waitingForResponse = true)
    (hOptions : em.conversationState.conversationOptions = some options) :
    (firstConversationOptions.length = 4
        ∧ em.showFirstConversation.conversationState.conversationOptions
          = some firstConversationOptions
        ∧ ∀ k : Int, isCorrect (selectOption firstConversationOptions k) = decide (k = 1))
      ∧ (secondConversationOptions.length = 3
        ∧ em.showSecondConversation.conversationState.conversationOptions
          = some secondConversationOptions
        ∧ ∀ k : Int, isCorrect (selectOption secondConversationOptions k) = decide (k = 2))
      ∧ (em.handleConversationOption option).conversationState.waitingForResponse = false
      ∧ (isCorrect (selectOption options option) = true →
          (em.handleConversationOption option).gameState.suspicion.current
            = em.gameState.suspicion.current)
      ∧ (isCorrect (selectOption options option) = false →
          (em.handleConversationOption option).gameState.suspicion.current
            = min em.gameState.suspicion.max (em.gameState.suspicion.current + 15))
      ∧ (isCorrect (selectOption options option) = false →
          em.gameState.suspicion.current + 15 ≤ em.gameState.suspicion.max →
          (em.handleConversationOption option).gameState.suspicion.current
            = em.gameState.suspicion.current + 15) := by
  obtain ⟨hw, hg⟩ :=
    EventManager.handleConversationOption_scoring em option options hEnding hCoffee hWaiting
      hOptions
  refine ⟨⟨rfl, ?_, firstConversationOptions_correct⟩,
    ⟨rfl, ?_, secondConversationOptions_correct⟩, hw, ?_, ?_, ?_⟩
  · unfold EventManager.showFirstConversation
    dsimp only [EventManager.showEventPopup, EventManager.showEventDisplay, EventManager.emit]
    split_ifs <;> rfl
  · rw [EventManager.showSecondConversation_conversationState]
  · intro hc
    rw [hg, if_pos hc]
  · intro hc
    rw [hg, if_neg (by simp [hc])]
    rfl
  · intro hc hle
    rw [hg, if_neg (by simp [hc])]
    exact min_eq_right hle

/-- C22, amended, at a concrete state: the first conversation prompt of the
coffee stage with suspicion at 8, answered with the wrong option 3. -/
theorem conversation_scoring_witness :
    (coffeeAtFirstPrompt.handleConversationOption 3).conversationState.waitingForResponse
        = false
      ∧ (coffeeAtFirstPrompt.handleConversationOption 3).gameState.suspicion.current
        = coffeeAtFirstPrompt.gameState.suspicion.current + 15 :=
  have h := conversation_scoring coffeeAtFirstPrompt 3 firstConversationOptions
    (by decide!) (by decide!) (by decide!) (by decide!)
  ⟨h.2.2.1, h.2.2.2.2.2 (by decide!) (by decide!)⟩

/-! ## C23 -/

theorem EventManager.promptSwallow_of_coffee (em : EventManager) (now : ℚ)
    (hCoffee : isEventOfType em.currentEvent .orderCoffee = true) :
    (em.promptSwallow now).conversationState
        = { em.conversationState with swallowPromptActive := true, lastSwallowTime := now }
      ∧ (em.promptSwallow now).timers = em.timers ++ [(3000, .swallowTimeout)]
      ∧ (em.promptSwallow now).gameState = em.gameState
      ∧ (em.promptSwallow now).currentEvent = em.currentEvent
      ∧ (em.promptSwallow now).isEnding = em.isEnding := by
  unfold EventManager.promptSwallow
  rw [if_pos hCoffee]
  dsimp only [EventManager.showEventPopup, EventManager.showEventDisplay,
    EventManager.setTimeout, EventManager.emit]
  split_ifs <;> exact ⟨rfl, rfl, rfl, rfl, rfl⟩

/-- The callback of `promptSwallow` with the prompt still open. -/
theorem EventManager.swallowTimeout_of_active (em : EventManager)
    (h : em.conversationState.swallowPromptActive = true) :
    em.swallowTimeout =
      { em with
        conversationState := { em.conversationState with swallowPromptActive := false }
        gameState := em.gameState.addSuspicion 8
        trace := em.trace ++ [.hideEventPopup] } := by
  unfold EventManager.swallowTimeout
  rw [if_pos h]
  rfl

/-- The callback of `promptSwallow` with the prompt closed. -/
theorem EventManager.swallowTimeout_of_inactive (em : EventManager)
    (h : em.conversationState.swallowPromptActive = false) : em.swallowTimeout = em := by
  unfold EventManager.swallowTimeout
  rw [if_neg (by simp [h])]

/-- C23, the claim as stated fails.  In the coffee stage, with suspicion at
95 and the swallow prompt open, the timeout callback raises suspicion to the
maximum 100, an increase of 5 and not of 8. -/
theorem swallow_timeout_suspicion_clamped :
    isEventOfType swallowPromptAtHighSuspicion.currentEvent .orderCoffee = true
      ∧ swallowPromptAtHighSuspicion.conversationState.swallowPromptActive = true
      ∧ swallowPromptAtHighSuspicion.timers
        = [(12000, .startConversation), (3000, .swallowTimeout)]
      ∧ swallowPromptAtHighSuspicion.gameState.suspicion.current = 95
      ∧ (swallowPromptAtHighSuspicion.fireTimer 1 1111000 0 0).gameState.suspicion.current
        = 100
      ∧ (swallowPromptAtHighSuspicion.fireTimer 1 1111000 0 0).gameState.suspicion.current
          - swallowPromptAtHighSuspicion.gameState.suspicion.current = 5
      ∧ (swallowPromptAtHighSuspicion.fireTimer 1 1111000 0
          0).conversationState.swallowPromptActive = false := by
  decide!

/-- C23, amended.  In an active coffee stage on a manager that is not
ending, `promptSwallow` opens the prompt and schedules the 3000 ms callback.
With no `handleSwallow` in between, the callback sets suspicion to
`min(max, current + 8)`, an increase of exactly 8 when that does not exceed
the maximum, and closes the prompt.  When `handleSwallow` was called first,
the prompt is closed and the callback changes nothing. -/
theorem swallow_timeout_penalty (em : EventManager) (now : ℚ)
    (hEnding : em.isEnding = false)
    (hCoffee : isEventOfType em.currentEvent .orderCoffee = true) :
    (em.promptSwallow now).conversationState.swallowPromptActive = true
      ∧ (em.promptSwallow now).timers = em.timers ++ [(3000, .swallowTimeout)]
      ∧ (em.promptSwallow now).swallowTimeout.gameState.suspicion.current
        = min em.gameState.suspicion.max (em.gameState.suspicion.current + 8)
      ∧ (em.gameState.suspicion.current + 8 ≤ em.gameState.suspicion.max →
          (em.promptSwallow now).swallowTimeout.gameState.suspicion.current
            = em.gameState.suspicion.current + 8)
      ∧ (em.promptSwallow now).swallowTimeout.conversationState.swallowPromptActive = false
      ∧ (em.promptSwallow now).handleSwallow.conversationState.swallowPromptActive = false
      ∧ (em.promptSwallow now).handleSwallow.gameState = em.gameState
      ∧ (em.promptSwallow now).handleSwallow.swallowTimeout
        = (em.promptSwallow now).handleSwallow := by
  obtain ⟨hs, ht, hg, hc, he⟩ := EventManager.promptSwallow_of_coffee em now hCoffee
  have hActive : (em.promptSwallow now).conversationState.swallowPromptActive = true := by
    rw [hs]
  have hTimeout := EventManager.swallowTimeout_of_active (em.promptSwallow now) hActive
  have hSwallow :
      (em.promptSwallow now).handleSwallow.conversationState.swallowPromptActive = false
        ∧ (em.promptSwallow now).handleSwallow.gameState = em.gameState := by
    unfold EventManager.handleSwallow
    rw [if_neg (by rw [he]; simp [hEnding]), if_pos (by rw [hc, hCoffee, hActive]; rfl)]
    exact ⟨rfl, hg⟩
  refine ⟨hActive, ht, ?_, ?_, ?_, hSwallow.1, hSwallow.2,
    EventManager.swallowTimeout_of_inactive _ hSwallow.1⟩
  · rw [hTimeout]; show (( em.promptSwallow now).gameState.addSuspicion 8).suspicion.current = _
    rw [hg]; rfl
  · intro hle
    rw [hTimeout]; show (( em.promptSwallow now).gameState.addSuspicion 8).suspicion.current = _
    rw [hg]; exact min_eq_right hle
  · rw [hTimeout]

/-- C23, amended, at a concrete state: the coffee stage at its first
conversation prompt, suspicion at 8. -/
theorem swallow_timeout_penalty_witness :
    ((coffeeAtFirstPrompt.promptSwallow 1113000).swallowTimeout.gameState.suspicion.current
        = coffeeAtFirstPrompt.gameState.suspicion.current + 8)
      ∧ (coffeeAtFirstPrompt.promptSwallow 1113000).handleSwallow.swallowTimeout
        = (coffeeAtFirstPrompt.promptSwallow 1113000).handleSwallow :=
  have h := swallow_timeout_penalty coffeeAtFirstPrompt 1113000 (by decide!) (by decide!)
  ⟨h.2.2.2.1 (by decide!), h.2.2.2.2.2.2.2⟩

/-! ## C24 -/

/-- C24. The method `endCurrentEvent`, on every state: no event is active
afterwards, in the manager and in the game state; `conversationState` and
`runningState` hold their default values; suspicion and the vitals are
unchanged; the popup is hidden unless the manager is ending; and the
sequence `idle` is played exactly when the type of the ended event is not
`finish`. -/
theorem endCurrentEvent_postcondition (em : EventManager) :
    em.endCurrentEvent.currentEvent = none
      ∧ em.endCurrentEvent.gameState.currentEvent = none
      ∧ em.endCurrentEvent.conversationState
        = { eyeContactLevel := 50, eyeContactTarget := 50, lastSwallowTime := 0,
            swallowPromptActive := false, conversationOptions := none,
            waitingForResponse := false, conversationStep := 0 }
      ∧ em.endCurrentEvent.runningState
        = { distance := 0, lastStepFoot := none, stepCount := 0, jumpPromptActive := false,
            obstacleTimer := 0, completed := false }
      ∧ em.endCurrentEvent.gameState.suspicion = em.gameState.suspicion
      ∧ em.endCurrentEvent.gameState.vitals = em.gameState.vitals
      ∧ em.endCurrentEvent.trace
        = em.trace ++ (if em.isEnding then [] else [Effect.hideEventPopup])
            ++ (if em.currentEvent.map (·.type) ≠ some .finish then
                [Effect.playSequence "idle"]
              else [])
      ∧ (Effect.playSequence "idle" ∈ em.endCurrentEvent.trace.drop em.trace.length
          ↔ em.currentEvent.map (·.type) ≠ some .finish) := by
  have key : em.endCurrentEvent.trace
        = em.trace ++ (if em.isEnding then [] else [Effect.hideEventPopup])
            ++ (if em.currentEvent.map (·.type) ≠ some .finish then
                [Effect.playSequence "idle"]
              else []) := by
    unfold EventManager.endCurrentEvent
    dsimp only [EventManager.hideEventPopup, EventManager.playSequence, EventManager.emit]
    split_ifs <;> simp_all
  refine ⟨?_, ?_, ?_, ?_, ?_, ?_, key, ?_⟩
  · exact EventManager.endCurrentEvent_currentEvent em
  · unfold EventManager.endCurrentEvent
    dsimp only [EventManager.hideEventPopup, EventManager.playSequence, EventManager.emit]
    split_ifs <;> rfl
  · exact EventManager.endCurrentEvent_conversationState em
  · exact EventManager.endCurrentEvent_runningState em
  · unfold EventManager.endCurrentEvent
    dsimp only [EventManager.hideEventPopup, EventManager.playSequence, EventManager.emit]
    split_ifs <;> rfl
  · unfold EventManager.endCurrentEvent
    dsimp only [EventManager.hideEventPopup, EventManager.playSequence, EventManager.emit]
    split_ifs <;> rfl
  · rw [key, List.append_assoc, List.drop_left]
    split_ifs <;> simp_all

/-! ## C26 -/

/-- The ways through a test of the form
`if (enabled) if (low) ... else if (high) ...`. -/
theorem Bool.enabled_low_high_cases (enabled low high : Bool) :
    (enabled = true ∧ low = true) ∨ (enabled = true ∧ low = false ∧ high = true)
      ∨ (enabled = true ∧ low = false ∧ high = false) ∨ enabled = false := by
  cases enabled <;> cases low <;> cases high <;> simp

/-- A stored alert time other than 0 re-arms the alert only after more than
2000 ms. -/
theorem alertDue_of_stored (t now : ℚ) (h : alertDue (some t) now = true) (ht : t ≠ 0) :
    now - t > 2000 := by
  unfold alertDue at h
  simpa [ht] using h

/-- C26, the claim as stated fails.  At the swallow prompt of the coffee
stage with suspicion at 95, the frame of 16 ms applies three penalties
(hyperventilating, heart low, eyes dry: 2 + 3 + 2) and suspicion ends at the
maximum 100, the last penalty adding 0.0128 only.  And with a clock reading
of 0 stored by a penalty, the next check, 1 ms later, applies the penalty for
the same condition again. -/
theorem extreme_vitals_penalty_clamped_or_repeated :
    swallowPromptAtHighSuspicion.gameState.suspicion.current = 95
      ∧ (swallowPromptAtHighSuspicion.gameState.updateSuspicion 16).suspicion.current
        = 59367 / 625
      ∧ (swallowPromptAtHighSuspicion.gameState.update 16 1108016).alerts.drop
          swallowPromptAtHighSuspicion.gameState.alerts.length
        = [(.gasping, .warning), (.heartCritical, .danger), (.eyesDry, .warning)]
      ∧ (swallowPromptAtHighSuspicion.gameState.update 16 1108016).suspicion.current = 100
      ∧ (((GameState.new 0).heartbeat 0).heartbeat 0).vitals.heartRate.current = 100
      ∧ ((((GameState.new 0).heartbeat 0).heartbeat 0).checkExtremeVitals 0).alerts
        = [(.heartRacing, .warning)]
      ∧ ((((GameState.new 0).heartbeat 0).heartbeat 0).checkExtremeVitals 0).lastAlertTimes.heartHigh
        = some 0
      ∧ (((((GameState.new 0).heartbeat 0).heartbeat 0).checkExtremeVitals 0).checkExtremeVitals
          1).alerts = [(.heartRacing, .warning), (.heartRacing, .warning)]
      ∧ (((((GameState.new 0).heartbeat 0).heartbeat 0).checkExtremeVitals 0).checkExtremeVitals
          1).suspicion.current = 4 := by
  decide!

/-- C26, amended.  One call of `checkExtremeVitals` at the clock reading
`now`.  A penalty for a condition (oxygen low, hyperventilating, heart low,
heart high, eyes dry) is applied only when its vital is enabled and at the
extreme and the condition's alert is due, and it stores `now` as the
condition's alert time; without a penalty the stored time is kept.  An alert
with a stored time other than 0 is due only when more than 2000 ms have
passed, so two successive penalties for one condition are more than 2000 ms
apart unless the earlier one was stored at the clock reading 0.  Suspicion
is raised through `addSuspicion` by 3 for oxygen low and heart low and by 2
otherwise, one call per penalty, each clamped at the maximum. -/
theorem extreme_vitals_cooldown (gs : GameState) (now : ℚ) :
    (∀ t : ℚ, alertDue (some t) now = true → t ≠ 0 → now - t > 2000)
      ∧ (((AlertMessage.turningBlue, AlertType.danger)
            ∈ (gs.checkExtremeVitals now).alerts.drop gs.alerts.length →
          gs.vitals.oxygen.enabled = true ∧ gs.vitals.oxygen.current ≤ 5
            ∧ alertDue gs.lastAlertTimes.oxygen now = true
            ∧ (gs.checkExtremeVitals now).lastAlertTimes.oxygen = some now)
        ∧ ((AlertMessage.turningBlue, AlertType.danger)
            ∉ (gs.checkExtremeVitals now).alerts.drop gs.alerts.length →
          (gs.checkExtremeVitals now).lastAlertTimes.oxygen = gs.lastAlertTimes.oxygen))
      ∧ (((AlertMessage.gasping, AlertType.warning)
            ∈ (gs.checkExtremeVitals now).alerts.drop gs.alerts.length →
          gs.vitals.oxygen.enabled = true ∧ gs.vitals.oxygen.current ≥ 90
            ∧ alertDue gs.lastAlertTimes.hyperventilating now = true
            ∧ (gs.checkExtremeVitals now).lastAlertTimes.hyperventilating = some now)
        ∧ ((AlertMessage.gasping, AlertType.warning)
            ∉ (gs.checkExtremeVitals now).alerts.drop gs.alerts.length →
          (gs.checkExtremeVitals now).lastAlertTimes.hyperventilating
            = gs.lastAlertTimes.hyperventilating))
      ∧ (((AlertMessage.heartCritical, AlertType.danger)
            ∈ (gs.checkExtremeVitals now).alerts.drop gs.alerts.length →
          gs.vitals.heartRate.enabled = true ∧ gs.vitals.heartRate.current ≤ 5
            ∧ alertDue gs.lastAlertTimes.heartLow now = true
            ∧ (gs.checkExtremeVitals now).lastAlertTimes.heartLow = some now)
        ∧ ((AlertMessage.heartCritical, AlertType.danger)
            ∉ (gs.checkExtremeVitals now).alerts.drop gs.alerts.length →
          (gs.checkExtremeVitals now).lastAlertTimes.heartLow = gs.lastAlertTimes.heartLow))
      ∧ (((AlertMessage.heartRacing, AlertType.warning)
            ∈ (gs.checkExtremeVitals now).alerts.drop gs.alerts.length →
          gs.vitals.heartRate.enabled = true ∧ gs.vitals.heartRate.current ≥ 95
            ∧ alertDue gs.lastAlertTimes.heartHigh now = true
            ∧ (gs.checkExtremeVitals now).lastAlertTimes.heartHigh = some now)
        ∧ ((AlertMessage.heartRacing, AlertType.warning)
            ∉ (gs.checkExtremeVitals now).alerts.drop gs.alerts.length →
          (gs.checkExtremeVitals now).lastAlertTimes.heartHigh = gs.lastAlertTimes.heartHigh))
      ∧ (((AlertMessage.eyesDry, AlertType.warning)
            ∈ (gs.checkExtremeVitals now).alerts.drop gs.alerts.length →
          gs.vitals.eyes.enabled = true ∧ gs.vitals.eyes.moisture ≤ 10
            ∧ alertDue gs.lastAlertTimes.eyes now = true
            ∧ (gs.checkExtremeVitals now).lastAlertTimes.eyes = some now)
        ∧ ((AlertMessage.eyesDry, AlertType.warning)
            ∉ (gs.checkExtremeVitals now).alerts.drop gs.alerts.length →
          (gs.checkExtremeVitals now).lastAlertTimes.eyes = gs.lastAlertTimes.eyes))
      ∧ (gs.checkExtremeVitals now).suspicion
        = (gs.addSuspicionAll
            (((gs.checkExtremeVitals now).alerts.drop gs.alerts.length).map fun a =>
              if a.1 = .turningBlue ∨ a.1 = .heartCritical then 3 else 2)).suspicion := by
  refine ⟨fun t h ht => alertDue_of_stored t now h ht, ?_⟩
  unfold GameState.checkExtremeVitals
  dsimp only [GameState.showVitalAlert, GameState.addSuspicion]
  have hHeart := Bool.enabled_low_high_cases gs.vitals.heartRate.enabled
    (decide (gs.vitals.heartRate.current ≤ 5) && alertDue gs.lastAlertTimes.heartLow now)
    (decide (gs.vitals.heartRate.current ≥ 95) && alertDue gs.lastAlertTimes.heartHigh now)
  rcases Bool.enabled_low_high_cases gs.vitals.oxygen.enabled
      (decide (gs.vitals.oxygen.current ≤ 5) && alertDue gs.lastAlertTimes.oxygen now)
      (decide (gs.vitals.oxygen.current ≥ 90)
        && alertDue gs.lastAlertTimes.hyperventilating now)
    with ⟨hO, hO1⟩ | ⟨hO, hO1, hO2⟩ | ⟨hO, hO1, hO2⟩ | hO
  all_goals simp only [hO, if_true, if_false, Bool.false_eq_true]
  all_goals try simp only [hO1, if_true, if_false, Bool.false_eq_true]
  all_goals try simp only [hO2, if_true, if_false, Bool.false_eq_true]
  all_goals rcases hHeart with ⟨hH, hH1⟩ | ⟨hH, hH1, hH2⟩ | ⟨hH, hH1, hH2⟩ | hH
  all_goals simp only [hH, if_true, if_false, Bool.false_eq_true]
  all_goals try simp only [hH1, if_true, if_false, Bool.false_eq_true]
  all_goals try simp only [hH2, if_true, if_false, Bool.false_eq_true]
  all_goals by_cases hE :
    (gs.vitals.eyes.enabled && decide (gs.vitals.eyes.moisture ≤ 10)
      && alertDue gs.lastAlertTimes.eyes now) = true
  all_goals simp only [hE, if_true, if_false, Bool.false_eq_true]
  all_goals
    simp only [Bool.and_eq_true, decide_eq_true_eq, Bool.not_eq_true, Bool.and_eq_false_imp]
      at *
  all_goals simp [GameState.addSuspicionAll, GameState.addSuspicion, *]
/-! ## C29 -/

/-- C29. Animation names.  `loadDefaultSequences` registers the keys `idle`,
`loading`, `walking`, `coffee`, `success` and `failure`; the frames imported
from the baseline data file are registered under `idle`, and no key
`baseline` exists.  The five names `idle`, `coffee`, `walking`, `success`
and `failure` are found by `playSequence`, which switches `currentSequence`
to their clip.  `startBaselineEvent` passes `baseline`: `playSequence` takes
its not-found branch, records the warning and leaves the player as it is.
In the session at 30 s the start of the baseline stage leaves the player on
the clip of `idle`. -/
theorem baseline_sequence_not_registered :
    ASCIIVideo.new.sequences.map Prod.fst
        = ["idle", "loading", "walking", "coffee", "success", "failure"]
      ∧ ASCIIVideo.new.getSequence "idle" = some .introFrames
      ∧ ASCIIVideo.new.getSequence "baseline" = none
      ∧ (∀ name ∈ ["idle", "coffee", "walking", "success", "failure"],
          (ASCIIVideo.new.getSequence name).isSome = true
            ∧ (ASCIIVideo.new.init.playSequence name true).currentSequence
              = ASCIIVideo.new.getSequence name
            ∧ (ASCIIVideo.new.init.playSequence name true).warnings = [])
      ∧ (∀ em : EventManager,
          em.startBaselineEvent.trace.take (em.trace.length + 1)
            = em.trace ++ [.playSequence "baseline"])
      ∧ ASCIIVideo.new.init.currentSequence = some .introFrames
      ∧ ASCIIVideo.new.init.playSequence "baseline" true
        = { ASCIIVideo.new.init with warnings := ["baseline"] }
      ∧ atBaselineStart.trace
        = [.startEvent .baseline, .playSequence "baseline",
            .showEventDisplay .baselineIntro false false]
      ∧ (atBaselineStart.currentEvent.map fun ev => ev.type) = some .baseline
      ∧ (ASCIIVideo.new.init.replay atBaselineStart.trace).currentSequence
        = some .introFrames
      ∧ (ASCIIVideo.new.init.replay atBaselineStart.trace).warnings = ["baseline"] := by
  refine ⟨by decide!, by decide!, by decide!, by decide!, ?_, by decide!, by decide!,
    by decide!, by decide!, by decide!, by decide!⟩
  intro em
  unfold EventManager.startBaselineEvent
  dsimp only [EventManager.showEventPopup, EventManager.showEventDisplay,
    EventManager.playSequence, EventManager.emit]
  split_ifs <;> simp [List.take_append_eq_append_take]

/-! ## Lemmas on what the methods of `EventManager` leave alone -/

theorem EventManager.footprint_refl (r : ℚ) (em : EventManager) :
    EventManager.Footprint r em em :=
  ⟨rfl, rfl, Or.inl rfl, Or.inl ⟨rfl, rfl⟩⟩

theorem EventManager.footprint_trans {r : ℚ} {a b c : EventManager}
    (h1 : EventManager.Footprint r a b) (h2 : EventManager.Footprint r b c) :
    EventManager.Footprint r a c := by
  obtain ⟨t1, g1, d1, e1⟩ := h1
  obtain ⟨t2, g2, d2, e2⟩ := h2
  refine ⟨t2.trans t1, g2.trans g1, ?_, ?_⟩
  · rcases d2 with d2 | d2
    · rcases d1 with d1 | d1
      · exact Or.inl (d2.trans d1)
      · exact Or.inr (d2.trans d1)
    · exact Or.inr d2
  · rcases e2 with ⟨l2, t2⟩ | e2
    · rcases e1 with ⟨l1, t1⟩ | ⟨l1, t1⟩
      · exact Or.inl ⟨l2.trans l1, t2.trans t1⟩
      · exact Or.inr ⟨l2.trans l1, by rw [t2]; exact t1⟩
    · exact Or.inr e2

/-- A method that writes to the event bookkeeping, the pending callbacks and
the recorded calls only. -/
theorem EventManager.footprint_of_same (r : ℚ) (em em' : EventManager)
    (h1 : em'.eventTimer = em.eventTimer) (h2 : em'.gameState.body = em.gameState.body)
    (h3 : em'.runningState.distance = em.runningState.distance)
    (h4 : em'.conversationState.eyeContactLevel = em.conversationState.eyeContactLevel)
    (h5 : em'.conversationState.eyeContactTarget = em.conversationState.eyeContactTarget) :
    EventManager.Footprint r em em' :=
  ⟨h1, h2, Or.inl h3, Or.inl ⟨h4, h5⟩⟩

theorem EventManager.footprint_endCurrentEvent (r : ℚ) (em : EventManager) :
    EventManager.Footprint r em em.endCurrentEvent := by
  unfold EventManager.endCurrentEvent
  dsimp only [EventManager.hideEventPopup, EventManager.playSequence, EventManager.emit]
  split_ifs <;> exact ⟨rfl, rfl, Or.inr rfl, Or.inr ⟨rfl, Or.inl rfl⟩⟩

theorem EventManager.footprint_startBaselineEvent (r : ℚ) (em : EventManager) :
    EventManager.Footprint r em em.startBaselineEvent := by
  unfold EventManager.startBaselineEvent
  dsimp only [EventManager.showEventPopup, EventManager.showEventDisplay,
    EventManager.playSequence, EventManager.emit]
  split_ifs <;> exact EventManager.footprint_refl r em

theorem EventManager.footprint_startOrderCoffeeEvent (r : ℚ) (em : EventManager) :
    EventManager.Footprint r em (em.startOrderCoffeeEvent r) := by
  unfold EventManager.startOrderCoffeeEvent
  dsimp only [EventManager.showEventPopup, EventManager.showEventDisplay,
    EventManager.playSequence, EventManager.emit, EventManager.setTimeout]
  split_ifs <;> exact ⟨rfl, rfl, Or.inl rfl, Or.inr ⟨rfl, Or.inr rfl⟩⟩

theorem EventManager.footprint_startRunningWoodsEvent (r r1 : ℚ) (em : EventManager) :
    EventManager.Footprint r em (em.startRunningWoodsEvent r1) := by
  unfold EventManager.startRunningWoodsEvent
  dsimp only [EventManager.showEventPopup, EventManager.showEventDisplay,
    EventManager.playSequence, EventManager.emit, EventManager.scheduleJumpPrompt,
    EventManager.setTimeout]
  split_ifs <;> exact ⟨rfl, rfl, Or.inr rfl, Or.inl ⟨rfl, rfl⟩⟩

theorem EventManager.footprint_startFinishEvent (r : ℚ) (em : EventManager)
    (endingType : EndingType) (reason : String) :
    EventManager.Footprint r em (em.startFinishEvent endingType reason) := by
  unfold EventManager.startFinishEvent
  dsimp only [EventManager.muteUIForEnd, EventManager.fadeOutColumns,
    EventManager.showFailureCaption, EventManager.hideEventPopup,
    EventManager.showEventDisplay, EventManager.playSequence, EventManager.emit,
    EventManager.setTimeout]
  split_ifs <;> exact ⟨rfl, rfl, Or.inl rfl, Or.inr ⟨rfl, Or.inl rfl⟩⟩

/-- The state `startEvent` hands to the setup of the event. -/
theorem EventManager.footprint_setEvent (r : ℚ) (em : EventManager) (e : Effect)
    (ev : GameEvent) :
    EventManager.Footprint r em
      { em with
        trace := em.trace ++ [e]
        currentEvent := some ev
        gameState := { em.gameState with currentEvent := some ev } } :=
  ⟨rfl, rfl, Or.inl rfl, Or.inl ⟨rfl, rfl⟩⟩

theorem EventManager.footprint_startEvent (r r1 : ℚ) (em : EventManager)
    (eventType : EventType) (options : Option (EndingType × String))
    (h : eventType = .orderCoffee → r1 = r) :
    EventManager.Footprint r em (em.startEvent eventType options r1) := by
  unfold EventManager.startEvent
  dsimp only [EventManager.emit]
  cases eventType
  · exact EventManager.footprint_trans (EventManager.footprint_setEvent r em _ _)
      (EventManager.footprint_startBaselineEvent r _)
  · rw [h rfl]
    exact EventManager.footprint_trans (EventManager.footprint_setEvent r em _ _)
      (EventManager.footprint_startOrderCoffeeEvent r _)
  · exact EventManager.footprint_trans (EventManager.footprint_setEvent r em _ _)
      (EventManager.footprint_startRunningWoodsEvent r r1 _)
  · cases options with
    | none =>
      exact EventManager.footprint_trans (EventManager.footprint_setEvent r em _ _)
        (EventManager.footprint_startFinishEvent r _ _ _)
    | some p =>
      exact EventManager.footprint_trans (EventManager.footprint_setEvent r em _ _)
        (EventManager.footprint_startFinishEvent r _ _ _)

theorem EventManager.footprint_triggerGameOver (r : ℚ) (em : EventManager)
    (type : EndingType) (reason : String) :
    EventManager.Footprint r em (em.triggerGameOver type reason) := by
  unfold EventManager.triggerGameOver
  dsimp only [EventManager.emit]
  have h0 : EventManager.Footprint r em
      { em with
        trace := em.trace ++ [.triggerGameOver type reason]
        gameProgression := { em.gameProgression with completed := true } } :=
    ⟨rfl, rfl, Or.inl rfl, Or.inl ⟨rfl, rfl⟩⟩
  refine EventManager.footprint_trans ?_
    (EventManager.footprint_startEvent r 0 _ .finish _ (fun h => by cases h))
  split_ifs
  · exact EventManager.footprint_trans h0 (EventManager.footprint_endCurrentEvent r _)
  · exact h0

theorem EventManager.footprint_checkForNextStage (r : ℚ) (em : EventManager) :
    EventManager.Footprint r em (em.checkForNextStage r) := by
  unfold EventManager.checkForNextStage
  split
  · exact EventManager.footprint_refl r em
  · split_ifs
    · exact EventManager.footprint_triggerGameOver r em _ _
    · exact EventManager.footprint_refl r em
    · exact EventManager.footprint_startEvent r r em _ _ (fun _ => rfl)
    · exact EventManager.footprint_refl r em

theorem EventManager.footprint_updateOrderCoffeeEvent (r : ℚ) (em : EventManager)
    (deltaTime now : ℚ) :
    EventManager.Footprint r em (em.updateOrderCoffeeEvent deltaTime now) := by
  unfold EventManager.updateOrderCoffeeEvent
  dsimp only [EventManager.updateEventPopup, EventManager.emit]
  split_ifs <;> exact ⟨rfl, rfl, Or.inl rfl, Or.inl ⟨rfl, rfl⟩⟩

theorem EventManager.footprint_updateRunningWoodsEvent (r : ℚ) (em : EventManager) :
    EventManager.Footprint r em em.updateRunningWoodsEvent := by
  unfold EventManager.updateRunningWoodsEvent
  dsimp only [EventManager.showEventDisplay, EventManager.emit, EventManager.setTimeout]
  split_ifs <;> exact ⟨rfl, rfl, Or.inl rfl, Or.inl ⟨rfl, rfl⟩⟩

theorem EventManager.footprint_updateCurrentEvent (r : ℚ) (em : EventManager)
    (deltaTime now : ℚ) :
    EventManager.Footprint r em (em.updateCurrentEvent deltaTime now) := by
  unfold EventManager.updateCurrentEvent
  split
  · exact EventManager.footprint_refl r em
  · dsimp only
    split_ifs
    · exact EventManager.footprint_endCurrentEvent r em
    · split
      · exact EventManager.footprint_updateOrderCoffeeEvent r em _ _
      · exact EventManager.footprint_updateRunningWoodsEvent r em
      · exact EventManager.footprint_refl r em

theorem EventManager.footprint_checkGameOverConditions (r : ℚ) (em : EventManager) :
    EventManager.Footprint r em em.checkGameOverConditions := by
  unfold EventManager.checkGameOverConditions
  split_ifs
  · exact EventManager.footprint_triggerGameOver r em _ _
  · exact EventManager.footprint_refl r em

theorem EventManager.footprint_afterStageCheck (r : ℚ) (em : EventManager)
    (deltaTime : ℚ) :
    EventManager.Footprint r { em with eventTimer := em.eventTimer + deltaTime }
      (em.afterStageCheck deltaTime r) := by
  unfold EventManager.afterStageCheck
  dsimp only
  split_ifs
  · exact EventManager.footprint_checkForNextStage r _
  · exact EventManager.footprint_refl r _

theorem EventManager.footprint_beforeOutcomeCheck (r : ℚ) (em : EventManager)
    (deltaTime now : ℚ) :
    EventManager.Footprint r { em with eventTimer := em.eventTimer + deltaTime }
      (em.beforeOutcomeCheck deltaTime now r) := by
  unfold EventManager.beforeOutcomeCheck
  dsimp only
  split_ifs
  · exact EventManager.footprint_trans (EventManager.footprint_afterStageCheck r em deltaTime)
      (EventManager.footprint_updateCurrentEvent r _ _ _)
  · exact EventManager.footprint_afterStageCheck r em deltaTime

/-- The method `update` of a started, open session, after the timer has
advanced. -/
theorem EventManager.footprint_update (r : ℚ) (em : EventManager) (deltaTime now : ℚ)
    (h : (em.gameState.gameStarted && !em.gameProgression.completed) = true) :
    EventManager.Footprint r { em with eventTimer := em.eventTimer + deltaTime }
      (em.update deltaTime now r) := by
  rw [EventManager.update_eq, if_pos h]
  exact EventManager.footprint_trans
    (EventManager.footprint_beforeOutcomeCheck r em deltaTime now)
    (EventManager.footprint_checkGameOverConditions r _)

/-- The method `update` before the start and after the outcome. -/
theorem EventManager.update_of_idle (em : EventManager) (deltaTime now r : ℚ)
    (h : (em.gameState.gameStarted && !em.gameProgression.completed) = false) :
    em.update deltaTime now r = em := by
  rw [EventManager.update_eq, if_neg (by simp [h])]

/-- The deferred callbacks other than the jump timeout. -/
theorem EventManager.footprint_runCallback (r : ℚ) (em : EventManager) (t : Timer)
    (now r1 r2 : ℚ) (ht : t ≠ .jumpTimeout) :
    EventManager.Footprint r em (em.runCallback t now r1 r2) := by
  cases t <;>
    (unfold EventManager.runCallback
     dsimp only [EventManager.promptEyeContact, EventManager.promptSwallow,
       EventManager.startConversation, EventManager.showFirstConversation,
       EventManager.swallowTimeout, EventManager.showSecondConversation,
       EventManager.promptJump, EventManager.scheduleJumpPrompt,
       EventManager.showEndScreen,
       EventManager.hideEventPopup, EventManager.showEventPopup,
       EventManager.showEventDisplay, EventManager.emit, EventManager.setTimeout]
     first
       | exact absurd rfl ht
       | exact EventManager.footprint_endCurrentEvent r em
       | exact ⟨rfl, rfl, Or.inl rfl, Or.inl ⟨rfl, rfl⟩⟩
       | (split_ifs <;> exact ⟨rfl, rfl, Or.inl rfl, Or.inl ⟨rfl, rfl⟩⟩))

/-- The jump timeout keeps the timer, the body of the game state and the
eye contact. -/
theorem EventManager.jumpTimeout_keeps (em : EventManager) :
    em.jumpTimeout.eventTimer = em.eventTimer
      ∧ em.jumpTimeout.gameState.body = em.gameState.body
      ∧ em.jumpTimeout.conversationState = em.conversationState
      ∧ em.jumpTimeout.currentEvent = em.currentEvent
      ∧ em.jumpTimeout.gameProgression = em.gameProgression
      ∧ em.jumpTimeout.runningState.completed = em.runningState.completed
      ∧ (em.jumpTimeout.runningState.distance = em.runningState.distance
        ∨ em.jumpTimeout.runningState.distance = max 0 (em.runningState.distance - 10)) := by
  unfold EventManager.jumpTimeout
  dsimp only [EventManager.hideEventPopup, EventManager.emit]
  split_ifs
  · exact ⟨rfl, rfl, rfl, rfl, rfl, rfl, Or.inr rfl⟩
  · exact ⟨rfl, rfl, rfl, rfl, rfl, rfl, Or.inl rfl⟩

/-- The keys handled by `EventManager` other than the step and eye-contact
keys. -/
theorem EventManager.footprint_handlers (r : ℚ) (em : EventManager) (option : Int) :
    EventManager.Footprint r em em.handleSwallow
      ∧ EventManager.Footprint r em em.handleJump
      ∧ EventManager.Footprint r em (em.handleConversationOption option) := by
  refine ⟨?_, ?_, ?_⟩
  · unfold EventManager.handleSwallow
    dsimp only [EventManager.hideEventPopup, EventManager.emit]
    split_ifs <;> exact ⟨rfl, rfl, Or.inl rfl, Or.inl ⟨rfl, rfl⟩⟩
  · unfold EventManager.handleJump
    dsimp only [EventManager.hideEventPopup, EventManager.emit]
    split_ifs <;> exact ⟨rfl, rfl, Or.inl rfl, Or.inl ⟨rfl, rfl⟩⟩
  · unfold EventManager.handleConversationOption
    by_cases hE : em.isEnding = true
    · rw [if_pos hE]
      exact EventManager.footprint_refl r em
    · rw [if_neg hE]
      by_cases hW : (isEventOfType em.currentEvent .orderCoffee
          && em.conversationState.waitingForResponse) = true
      · rw [if_pos hW]
        dsimp only [EventManager.hideEventPopup, EventManager.showEventPopup,
          EventManager.showEventDisplay, EventManager.emit, EventManager.setTimeout]
        split
        · exact ⟨rfl, rfl, Or.inl rfl, Or.inl ⟨rfl, rfl⟩⟩
        · split_ifs <;> exact ⟨rfl, rfl, Or.inl rfl, Or.inl ⟨rfl, rfl⟩⟩
      · rw [if_neg hW]
        exact EventManager.footprint_refl r em

/-- The step keys keep the timer, the body of the game state and the eye
contact; the distance stays within 0 and 100 when it was. -/
theorem EventManager.handleStep_keeps (em : EventManager) (foot : Foot) :
    (em.handleStep foot).eventTimer = em.eventTimer
      ∧ (em.handleStep foot).gameState.body = em.gameState.body
      ∧ (em.handleStep foot).conversationState = em.conversationState
      ∧ (em.handleStep foot).currentEvent = em.currentEvent
      ∧ (em.handleStep foot).gameProgression = em.gameProgression
      ∧ (em.handleStep foot).timers = em.timers
      ∧ (em.handleStep foot).runningState.completed = em.runningState.completed
      ∧ ((em.handleStep foot).runningState.distance = em.runningState.distance
        ∨ (em.handleStep foot).runningState.distance = max 0 (em.runningState.distance - 5)
        ∨ (em.handleStep foot).runningState.distance
          = min 100 (em.runningState.distance + 5 / 2)) := by
  unfold EventManager.handleStep
  dsimp only
  split_ifs
  · exact ⟨rfl, rfl, rfl, rfl, rfl, rfl, rfl, Or.inl rfl⟩
  · exact ⟨rfl, rfl, rfl, rfl, rfl, rfl, rfl, Or.inr (Or.inl rfl)⟩
  · exact ⟨rfl, rfl, rfl, rfl, rfl, rfl, rfl, Or.inr (Or.inr rfl)⟩
  · exact ⟨rfl, rfl, rfl, rfl, rfl, rfl, rfl, Or.inl rfl⟩

/-- The eye-contact key writes to the eye-contact level only. -/
theorem EventManager.handleEyeContact_keeps (em : EventManager) :
    em.handleEyeContact.eventTimer = em.eventTimer
      ∧ em.handleEyeContact.gameState = em.gameState
      ∧ em.handleEyeContact.runningState = em.runningState
      ∧ em.handleEyeContact.currentEvent = em.currentEvent
      ∧ em.handleEyeContact.gameProgression = em.gameProgression
      ∧ em.handleEyeContact.timers = em.timers
      ∧ em.handleEyeContact.conversationState.eyeContactTarget
        = em.conversationState.eyeContactTarget := by
  unfold EventManager.handleEyeContact
  dsimp only
  split_ifs <;> exact ⟨rfl, rfl, rfl, rfl, rfl, rfl, rfl⟩

theorem GameState.gameTime_of_body (a b : GameState) (h : a.body = b.body) :
    a.gameTime = b.gameTime := by
  have h' := congrArg GameState.gameTime h
  exact h'

theorem GameState.gameStarted_of_body (a b : GameState) (h : a.body = b.body) :
    a.gameStarted = b.gameStarted := by
  have h' := congrArg GameState.gameStarted h
  exact h'

theorem GameState.vitals_of_body (a b : GameState) (h : a.body = b.body) :
    a.vitals = b.vitals := by
  have h' := congrArg GameState.vitals h
  exact h'

theorem GameState.vitalIntroduction_of_body (a b : GameState) (h : a.body = b.body) :
    a.vitalIntroduction = b.vitalIntroduction := by
  have h' := congrArg GameState.vitalIntroduction h
  exact h'

/-- The three vital keys and the callback of `blink` keep the body of the
game state up to the vitals and the blink fields. -/
theorem GameState.keys_keep (gs : GameState) (now : ℚ) :
    (gs.breathe.gameTime = gs.gameTime ∧ gs.breathe.gameStarted = gs.gameStarted
        ∧ gs.breathe.vitalIntroduction = gs.vitalIntroduction)
      ∧ ((gs.heartbeat now).gameTime = gs.gameTime
        ∧ (gs.heartbeat now).gameStarted = gs.gameStarted
        ∧ (gs.heartbeat now).vitalIntroduction = gs.vitalIntroduction)
      ∧ ((gs.blink now).gameTime = gs.gameTime ∧ (gs.blink now).gameStarted = gs.gameStarted
        ∧ (gs.blink now).vitalIntroduction = gs.vitalIntroduction)
      ∧ (gs.blinkTimeout.gameTime = gs.gameTime
        ∧ gs.blinkTimeout.gameStarted = gs.gameStarted
        ∧ gs.blinkTimeout.vitalIntroduction = gs.vitalIntroduction) := by
  refine ⟨?_, ⟨rfl, rfl, rfl⟩, ?_, ⟨rfl, rfl, rfl⟩⟩
  · unfold GameState.breathe
    dsimp only [GameState.addSuspicion]
    split_ifs <;> exact ⟨rfl, rfl, rfl⟩
  · unfold GameState.blink
    dsimp only
    split_ifs <;> exact ⟨rfl, rfl, rfl⟩

/-- Every key keeps the event timer and the body of the game state up to
the vitals and the blink fields. -/
theorem InputHandler.executeAction_keeps (em : EventManager) (action : InputAction)
    (now : ℚ) :
    (InputHandler.executeAction em action now).eventTimer = em.eventTimer
      ∧ (InputHandler.executeAction em action now).gameState.gameTime = em.gameState.gameTime
      ∧ (InputHandler.executeAction em action now).gameState.gameStarted
        = em.gameState.gameStarted
      ∧ (InputHandler.executeAction em action now).gameState.vitalIntroduction
        = em.gameState.vitalIntroduction := by
  have hFoot : ∀ em' : EventManager, EventManager.Footprint 0 em em' →
      em'.eventTimer = em.eventTimer ∧ em'.gameState.gameTime = em.gameState.gameTime
        ∧ em'.gameState.gameStarted = em.gameState.gameStarted
        ∧ em'.gameState.vitalIntroduction = em.gameState.vitalIntroduction :=
    fun em' h => ⟨h.1, GameState.gameTime_of_body _ _ h.2.1,
      GameState.gameStarted_of_body _ _ h.2.1, GameState.vitalIntroduction_of_body _ _ h.2.1⟩
  have hStep : ∀ foot : Foot,
      (em.handleStep foot).eventTimer = em.eventTimer
        ∧ (em.handleStep foot).gameState.gameTime = em.gameState.gameTime
        ∧ (em.handleStep foot).gameState.gameStarted = em.gameState.gameStarted
        ∧ (em.handleStep foot).gameState.vitalIntroduction
          = em.gameState.vitalIntroduction :=
    fun foot =>
      have h := EventManager.handleStep_keeps em foot
      ⟨h.1, GameState.gameTime_of_body _ _ h.2.1, GameState.gameStarted_of_body _ _ h.2.1,
        GameState.vitalIntroduction_of_body _ _ h.2.1⟩
  obtain ⟨hb, hh, hk, -⟩ := GameState.keys_keep em.gameState now
  cases action
  · exact ⟨rfl, hb.1, hb.2.1, hb.2.2⟩
  · exact ⟨rfl, hh.1, hh.2.1, hh.2.2⟩
  · exact ⟨rfl, hk.1, hk.2.1, hk.2.2⟩
  · have h := EventManager.handleEyeContact_keeps em
    exact ⟨h.1, congrArg GameState.gameTime h.2.1, congrArg GameState.gameStarted h.2.1,
      congrArg GameState.vitalIntroduction h.2.1⟩
  · exact hFoot _ (EventManager.footprint_handlers 0 em 0).1
  · exact hStep .left
  · exact hStep .right
  · exact hFoot _ (EventManager.footprint_handlers 0 em 0).2.1
  · exact hFoot _ (EventManager.footprint_handlers 0 em 1).2.2
  · exact hFoot _ (EventManager.footprint_handlers 0 em 2).2.2
  · exact hFoot _ (EventManager.footprint_handlers 0 em 3).2.2
  · exact hFoot _ (EventManager.footprint_handlers 0 em 4).2.2

/-- Every pending callback keeps the event timer and the body of the game
state. -/
theorem EventManager.fireTimer_keeps (em : EventManager) (i : Nat) (now r1 r2 : ℚ) :
    (em.fireTimer i now r1 r2).eventTimer = em.eventTimer
      ∧ (em.fireTimer i now r1 r2).gameState.body = em.gameState.body := by
  unfold EventManager.fireTimer
  split
  · exact ⟨rfl, rfl⟩
  · rename_i d t _
    dsimp only
    by_cases ht : t = .jumpTimeout
    · subst ht
      have h := EventManager.jumpTimeout_keeps { em with timers := em.timers.eraseIdx i }
      exact ⟨h.1, h.2.1⟩
    · have h := EventManager.footprint_runCallback 0
        { em with timers := em.timers.eraseIdx i } t now r1 r2 ht
      exact ⟨h.1, h.2.1⟩

/-- The game time a frame leaves. -/
theorem GameState.update_gameTime_eq (gs : GameState) (deltaTime now : ℚ) :
    (gs.update deltaTime now).gameTime
      = gs.gameTime + (if gs.gameStarted then deltaTime else 0) := by
  by_cases h : gs.gameStarted = true
  · rw [GameState.update_gameTime gs deltaTime now h, if_pos h]
  · have h' : gs.gameStarted = false := by simpa using h
    rw [GameState.update_of_not_started gs deltaTime now h',
      GameState.checkExtremeVitals_congr (fun g => g.gameTime) (fun _ _ _ _ => rfl), if_neg h,
      add_zero]

/-- A frame, on the event timer and the body of the game state. -/
theorem gameFrame_keeps (em : EventManager) (deltaTime now r : ℚ) :
    (gameFrame em deltaTime now r).eventTimer
        = em.eventTimer
          + (if em.gameState.gameStarted && !em.gameProgression.completed then deltaTime
            else 0)
      ∧ (gameFrame em deltaTime now r).gameState.body
        = (em.gameState.update deltaTime now).body := by
  unfold gameFrame
  dsimp only
  by_cases h : (em.gameState.gameStarted && !em.gameProgression.completed) = true
  · have h1 : ((em.gameState.update deltaTime now).gameStarted
        && !em.gameProgression.completed) = true := by
      rw [GameState.update_gameStarted]
      exact h
    have hF := EventManager.footprint_update r
      { em with gameState := em.gameState.update deltaTime now } deltaTime now h1
    rw [if_pos h]
    exact ⟨hF.1, hF.2.1⟩
  · have h' : (em.gameState.gameStarted && !em.gameProgression.completed) = false := by
      simpa using h
    have h1 : ((em.gameState.update deltaTime now).gameStarted
        && !em.gameProgression.completed) = false := by
      rw [GameState.update_gameStarted]
      exact h'
    rw [EventManager.update_of_idle _ deltaTime now r h1, if_neg h, add_zero]
    exact ⟨rfl, rfl⟩

/-! ## C27 -/

/-- The method `updateVitalIntroduction`, on the unlock bookkeeping: a vital
is unlocked when it was not and the game time has reached its threshold; it
is then enabled and reset, oxygen to 50 and the eye moisture to 100, and it
is left alone otherwise. -/
theorem GameState.updateVitalIntroduction_unlock (gs : GameState) :
    (gs.updateVitalIntroduction.vitalIntroduction.breathingUnlockedAt
          = gs.vitalIntroduction.breathingUnlockedAt
        ∧ gs.updateVitalIntroduction.vitalIntroduction.blinkingUnlockedAt
          = gs.vitalIntroduction.blinkingUnlockedAt
        ∧ gs.updateVitalIntroduction.vitalIntroduction.breathingUnlocked
          = (gs.vitalIntroduction.breathingUnlocked
            || decide (gs.gameTime ≥ gs.vitalIntroduction.breathingUnlockedAt))
        ∧ gs.updateVitalIntroduction.vitalIntroduction.blinkingUnlocked
          = (gs.vitalIntroduction.blinkingUnlocked
            || decide (gs.gameTime ≥ gs.vitalIntroduction.blinkingUnlockedAt)))
      ∧ gs.updateVitalIntroduction.vitals.oxygen
        = (if (!gs.vitalIntroduction.breathingUnlocked
              && decide (gs.gameTime ≥ gs.vitalIntroduction.breathingUnlockedAt)) = true then
            { gs.vitals.oxygen with enabled := true, current := 50 }
          else gs.vitals.oxygen)
      ∧ gs.updateVitalIntroduction.vitals.eyes
        = (if (!gs.vitalIntroduction.blinkingUnlocked
              && decide (gs.gameTime ≥ gs.vitalIntroduction.blinkingUnlockedAt)) = true then
            { gs.vitals.eyes with enabled := true, moisture := 100 }
          else gs.vitals.eyes) := by
  unfold GameState.updateVitalIntroduction
  dsimp only [GameState.showVitalAlert]
  by_cases h1 : (!gs.vitalIntroduction.breathingUnlocked
      && decide (gs.gameTime ≥ gs.vitalIntroduction.breathingUnlockedAt)) = true
  all_goals by_cases h2 : (!gs.vitalIntroduction.blinkingUnlocked
      && decide (gs.gameTime ≥ gs.vitalIntroduction.blinkingUnlockedAt)) = true
  all_goals simp only [h1, h2, if_true, if_false, Bool.false_eq_true]
  all_goals simp only [Bool.and_eq_true, Bool.not_eq_true', decide_eq_true_eq, not_and,
    Bool.not_eq_true] at h1 h2
  all_goals
    (cases hb : gs.vitalIntroduction.breathingUnlocked <;>
      cases hk : gs.vitalIntroduction.blinkingUnlocked <;> simp_all)

/-- The enabled flags and the unlock bookkeeping after `update`: a started
update unlocks a vital that was not unlocked when the advanced game time has
reached its threshold. -/
theorem GameState.update_unlock (gs : GameState) (deltaTime now : ℚ) :
    ((gs.update deltaTime now).vitalIntroduction.breathingUnlockedAt
          = gs.vitalIntroduction.breathingUnlockedAt
        ∧ (gs.update deltaTime now).vitalIntroduction.blinkingUnlockedAt
          = gs.vitalIntroduction.blinkingUnlockedAt
        ∧ (gs.update deltaTime now).vitalIntroduction.breathingUnlocked
          = (gs.vitalIntroduction.breathingUnlocked
            || (gs.gameStarted
              && decide (gs.gameTime + deltaTime ≥ gs.vitalIntroduction.breathingUnlockedAt)))
        ∧ (gs.update deltaTime now).vitalIntroduction.blinkingUnlocked
          = (gs.vitalIntroduction.blinkingUnlocked
            || (gs.gameStarted
              && decide (gs.gameTime + deltaTime ≥ gs.vitalIntroduction.blinkingUnlockedAt))))
      ∧ (gs.update deltaTime now).vitals.oxygen.enabled
        = (gs.vitals.oxygen.enabled
          || (gs.gameStarted && !gs.vitalIntroduction.breathingUnlocked
            && decide (gs.gameTime + deltaTime ≥ gs.vitalIntroduction.breathingUnlockedAt)))
      ∧ (gs.update deltaTime now).vitals.eyes.enabled
        = (gs.vitals.eyes.enabled
          || (gs.gameStarted && !gs.vitalIntroduction.blinkingUnlocked
            && decide (gs.gameTime + deltaTime ≥ gs.vitalIntroduction.blinkingUnlockedAt))) := by
  by_cases h : gs.gameStarted = true
  · obtain ⟨hi, ho, he⟩ :=
      GameState.updateVitalIntroduction_unlock { gs with gameTime := gs.gameTime + deltaTime }
    have key : (gs.update deltaTime now).vitalIntroduction
        = ({ gs with gameTime := gs.gameTime + deltaTime }).updateVitalIntroduction.vitalIntroduction := by
      rw [GameState.update_of_started gs deltaTime now h,
        GameState.checkExtremeVitals_congr (fun g => g.vitalIntroduction) (fun _ _ _ _ => rfl)]
      unfold GameState.updateSuspicion
      dsimp only
      rw [GameState.updateVitals_congr (fun g => g.vitalIntroduction) (fun _ _ => rfl)]
    refine ⟨?_, ?_, ?_⟩
    · rw [key, hi.1, hi.2.1, hi.2.2.1, hi.2.2.2, h]
      exact ⟨rfl, rfl, rfl, rfl⟩
    · rw [GameState.update_vitals gs deltaTime now h, (GameState.updateVitals_enabled _ _).1]
      dsimp only
      rw [ho, h]
      split_ifs with hc
      · simp [hc]
      · simp [hc]
    · rw [GameState.update_vitals gs deltaTime now h, (GameState.updateVitals_enabled _ _).2.2]
      dsimp only
      rw [he, h]
      split_ifs with hc
      · simp [hc]
      · simp [hc]
  · have h' : gs.gameStarted = false := by simpa using h
    rw [GameState.update_of_not_started gs deltaTime now h',
      GameState.checkExtremeVitals_congr (fun g => g.vitalIntroduction) (fun _ _ _ _ => rfl),
      GameState.checkExtremeVitals_vitals, h']
    simp

/-- The three vital keys and the callback of `blink` keep the enabled
flags. -/
theorem GameState.keys_keep_enabled (gs : GameState) (now : ℚ) :
    (gs.breathe.vitals.oxygen.enabled = gs.vitals.oxygen.enabled
        ∧ gs.breathe.vitals.eyes.enabled = gs.vitals.eyes.enabled)
      ∧ ((gs.heartbeat now).vitals.oxygen.enabled = gs.vitals.oxygen.enabled
        ∧ (gs.heartbeat now).vitals.eyes.enabled = gs.vitals.eyes.enabled)
      ∧ ((gs.blink now).vitals.oxygen.enabled = gs.vitals.oxygen.enabled
        ∧ (gs.blink now).vitals.eyes.enabled = gs.vitals.eyes.enabled)
      ∧ (gs.blinkTimeout.vitals.oxygen.enabled = gs.vitals.oxygen.enabled
        ∧ gs.blinkTimeout.vitals.eyes.enabled = gs.vitals.eyes.enabled) := by
  refine ⟨?_, ⟨rfl, rfl⟩, ?_, ⟨rfl, rfl⟩⟩
  · unfold GameState.breathe
    dsimp only [GameState.addSuspicion]
    split_ifs <;> exact ⟨rfl, rfl⟩
  · unfold GameState.blink
    dsimp only
    split_ifs <;> exact ⟨rfl, rfl⟩

/-- Every action other than a frame keeps the enabled flags and the unlock
bookkeeping; a frame changes them as `GameState.update` does. -/
theorem EventManager.step_unlock (em : EventManager) (a : GameAction) :
    (em.step a).gameState.vitalIntroduction
        = (match a with
          | .frame deltaTime now _ => (em.gameState.update deltaTime now).vitalIntroduction
          | _ => em.gameState.vitalIntroduction)
      ∧ (em.step a).gameState.vitals.oxygen.enabled
        = (match a with
          | .frame deltaTime now _ => (em.gameState.update deltaTime now).vitals.oxygen.enabled
          | _ => em.gameState.vitals.oxygen.enabled)
      ∧ (em.step a).gameState.vitals.eyes.enabled
        = (match a with
          | .frame deltaTime now _ => (em.gameState.update deltaTime now).vitals.eyes.enabled
          | _ => em.gameState.vitals.eyes.enabled) := by
  cases a with
  | frame deltaTime now r =>
    obtain ⟨-, hb⟩ := gameFrame_keeps em deltaTime now r
    exact ⟨GameState.vitalIntroduction_of_body _ _ hb,
      congrArg (fun v => v.oxygen.enabled) (GameState.vitals_of_body _ _ hb),
      congrArg (fun v => v.eyes.enabled) (GameState.vitals_of_body _ _ hb)⟩
  | input action now =>
    have hFoot : ∀ em' : EventManager, em'.gameState.body = em.gameState.body →
        em'.gameState.vitalIntroduction = em.gameState.vitalIntroduction
          ∧ em'.gameState.vitals.oxygen.enabled = em.gameState.vitals.oxygen.enabled
          ∧ em'.gameState.vitals.eyes.enabled = em.gameState.vitals.eyes.enabled :=
      fun em' h => ⟨GameState.vitalIntroduction_of_body _ _ h,
        congrArg (fun v => v.oxygen.enabled) (GameState.vitals_of_body _ _ h),
        congrArg (fun v => v.eyes.enabled) (GameState.vitals_of_body _ _ h)⟩
    obtain ⟨hb, hh, hk, -⟩ := GameState.keys_keep_enabled em.gameState now
    obtain ⟨hb', hh', hk', -⟩ := GameState.keys_keep em.gameState now
    cases action
    · exact ⟨hb'.2.2, hb.1, hb.2⟩
    · exact ⟨hh'.2.2, hh.1, hh.2⟩
    · exact ⟨hk'.2.2, hk.1, hk.2⟩
    · exact hFoot _ (congrArg GameState.body (EventManager.handleEyeContact_keeps em).2.1)
    · exact hFoot _ (EventManager.footprint_handlers 0 em 0).1.2.1
    · exact hFoot _ (EventManager.handleStep_keeps em .left).2.1
    · exact hFoot _ (EventManager.handleStep_keeps em .right).2.1
    · exact hFoot _ (EventManager.footprint_handlers 0 em 0).2.1.2.1
    · exact hFoot _ (EventManager.footprint_handlers 0 em 1).2.2.2.1
    · exact hFoot _ (EventManager.footprint_handlers 0 em 2).2.2.2.1
    · exact hFoot _ (EventManager.footprint_handlers 0 em 3).2.2.2.1
    · exact hFoot _ (EventManager.footprint_handlers 0 em 4).2.2.2.1
  | timer i now r1 r2 =>
    obtain ⟨-, h⟩ := EventManager.fireTimer_keeps em i now r1 r2
    exact ⟨GameState.vitalIntroduction_of_body _ _ h,
      congrArg (fun v => v.oxygen.enabled) (GameState.vitals_of_body _ _ h),
      congrArg (fun v => v.eyes.enabled) (GameState.vitals_of_body _ _ h)⟩
  | blinkTimeout =>
    unfold EventManager.step
    dsimp only
    split_ifs <;> exact ⟨rfl, rfl, rfl⟩

/-- C27. Staged unlock.  The constructor sets the thresholds to 20000 and
30000 ms of game time (its comments say 10 and 20 seconds).  In the session
oxygen is still disabled at 10 s and at 19.999 s of game time and is enabled
by the frame that reaches 20 s; the eyes are still disabled at 20 s and at
29.999 s and are enabled by the frame that reaches 30 s.  In general a
started update enables a vital exactly when it is enabled already or is not
yet unlocked and the advanced game time has reached its threshold; the
unlocking sets oxygen to 50 and the eye moisture to 100; no action changes
the thresholds, locks a vital again or disables it. -/
theorem vitals_unlock_at_twenty_and_thirty_seconds (em : EventManager) (a : GameAction)
    (gs : GameState) (deltaTime now : ℚ) :
    ((GameState.new now).vitalIntroduction.breathingUnlockedAt = 20000
        ∧ (GameState.new now).vitalIntroduction.blinkingUnlockedAt = 30000)
      ∧ (((startedGame 1000000).run [.frame 10000 1010000 0]).gameState.gameTime = 10000
        ∧ ((startedGame 1000000).run
            [.frame 10000 1010000 0]).gameState.vitals.oxygen.enabled = false
        ∧ ((startedGame 1000000).run
            [.frame 10000 1010000 0, .frame 9999 1019999 0]).gameState.gameTime = 19999
        ∧ ((startedGame 1000000).run
            [.frame 10000 1010000 0, .frame 9999 1019999 0]).gameState.vitals.oxygen.enabled
          = false
        ∧ ((startedGame 1000000).run
            [.frame 10000 1010000 0, .frame 9999 1019999 0,
              .frame 1 1020000 0]).gameState.gameTime = 20000
        ∧ ((startedGame 1000000).run
            [.frame 10000 1010000 0, .frame 9999 1019999 0,
              .frame 1 1020000 0]).gameState.vitals.oxygen.enabled = true
        ∧ ((startedGame 1000000).run
            [.frame 10000 1010000 0, .frame 9999 1019999 0,
              .frame 1 1020000 0]).gameState.vitals.eyes.enabled = false
        ∧ ((startedGame 1000000).run
            [.frame 10000 1010000 0, .frame 9999 1019999 0, .frame 1 1020000 0,
              .frame 9999 1029999 0]).gameState.vitals.eyes.enabled = false
        ∧ ((startedGame 1000000).run
            [.frame 10000 1010000 0, .frame 9999 1019999 0, .frame 1 1020000 0,
              .frame 9999 1029999 0, .frame 1 1030000 0]).gameState.gameTime = 30000
        ∧ ((startedGame 1000000).run
            [.frame 10000 1010000 0, .frame 9999 1019999 0, .frame 1 1020000 0,
              .frame 9999 1029999 0, .frame 1 1030000 0]).gameState.vitals.eyes.enabled
          = true)
      ∧ ((gs.update deltaTime now).vitals.oxygen.enabled
          = (gs.vitals.oxygen.enabled
            || (gs.gameStarted && !gs.vitalIntroduction.breathingUnlocked
              && decide (gs.gameTime + deltaTime ≥ gs.vitalIntroduction.breathingUnlockedAt)))
        ∧ (gs.update deltaTime now).vitals.eyes.enabled
          = (gs.vitals.eyes.enabled
            || (gs.gameStarted && !gs.vitalIntroduction.blinkingUnlocked
              && decide
                (gs.gameTime + deltaTime ≥ gs.vitalIntroduction.blinkingUnlockedAt))))
      ∧ (gs.updateVitalIntroduction.vitals.oxygen
          = (if (!gs.vitalIntroduction.breathingUnlocked
                && decide (gs.gameTime ≥ gs.vitalIntroduction.breathingUnlockedAt)) = true then
              { gs.vitals.oxygen with enabled := true, current := 50 }
            else gs.vitals.oxygen)
        ∧ gs.updateVitalIntroduction.vitals.eyes
          = (if (!gs.vitalIntroduction.blinkingUnlocked
                && decide (gs.gameTime ≥ gs.vitalIntroduction.blinkingUnlockedAt)) = true then
              { gs.vitals.eyes with enabled := true, moisture := 100 }
            else gs.vitals.eyes))
      ∧ ((em.step a).gameState.vitalIntroduction.breathingUnlockedAt
          = em.gameState.vitalIntroduction.breathingUnlockedAt
        ∧ (em.step a).gameState.vitalIntroduction.blinkingUnlockedAt
          = em.gameState.vitalIntroduction.blinkingUnlockedAt
        ∧ (em.gameState.vitalIntroduction.breathingUnlocked = true →
          (em.step a).gameState.vitalIntroduction.breathingUnlocked = true)
        ∧ (em.gameState.vitalIntroduction.blinkingUnlocked = true →
          (em.step a).gameState.vitalIntroduction.blinkingUnlocked = true)
        ∧ (em.gameState.vitals.oxygen.enabled = true →
          (em.step a).gameState.vitals.oxygen.enabled = true)
        ∧ (em.gameState.vitals.eyes.enabled = true →
          (em.step a).gameState.vitals.eyes.enabled = true)) := by
  obtain ⟨hi, ho, he⟩ := EventManager.step_unlock em a
  obtain ⟨-, hvo, hve⟩ := GameState.updateVitalIntroduction_unlock gs
  refine ⟨⟨rfl, rfl⟩, by decide!, ⟨(GameState.update_unlock gs deltaTime now).2.1,
    (GameState.update_unlock gs deltaTime now).2.2⟩, ⟨hvo, hve⟩, ?_⟩
  cases a with
  | frame dt t r =>
    obtain ⟨⟨u1, u2, u3, u4⟩, uo, ue⟩ := GameState.update_unlock em.gameState dt t
    dsimp only at hi ho he
    rw [hi, ho, he, u1, u2, u3, u4, uo, ue]
    refine ⟨rfl, rfl, fun h => ?_, fun h => ?_, fun h => ?_, fun h => ?_⟩ <;> simp [h]
  | input action t =>
    dsimp only at hi ho he
    rw [hi, ho, he]
    exact ⟨rfl, rfl, id, id, id, id⟩
  | timer i t r1 r2 =>
    dsimp only at hi ho he
    rw [hi, ho, he]
    exact ⟨rfl, rfl, id, id, id, id⟩
  | blinkTimeout =>
    dsimp only at hi ho he
    rw [hi, ho, he]
    exact ⟨rfl, rfl, id, id, id, id⟩

/-! ## C28 -/

/-- The two clocks through one action: only a frame moves them, the game
time once the game is started and the event timer while the session is
started and not completed. -/
theorem EventManager.step_clocks (em : EventManager) (a : GameAction) :
    (em.step a).gameState.gameStarted = em.gameState.gameStarted
      ∧ (em.step a).gameState.gameTime
        = em.gameState.gameTime + (if em.gameState.gameStarted then frameTime a else 0)
      ∧ (em.step a).eventTimer
        = em.eventTimer
          + (if em.gameState.gameStarted && !em.gameProgression.completed then frameTime a
            else 0) := by
  cases a with
  | frame deltaTime now r =>
    obtain ⟨ht, hb⟩ := gameFrame_keeps em deltaTime now r
    refine ⟨?_, ?_, ht⟩
    · exact (GameState.gameStarted_of_body _ _ hb).trans
        (GameState.update_gameStarted em.gameState deltaTime now)
    · exact (GameState.gameTime_of_body _ _ hb).trans
        (GameState.update_gameTime_eq em.gameState deltaTime now)
  | input action now =>
    obtain ⟨h1, h2, h3, -⟩ := InputHandler.executeAction_keeps em action now
    refine ⟨h3, ?_, ?_⟩
    · show (InputHandler.executeAction em action now).gameState.gameTime = _
      rw [h2]
      simp [frameTime]
    · show (InputHandler.executeAction em action now).eventTimer = _
      rw [h1]
      simp [frameTime]
  | timer i now r1 r2 =>
    obtain ⟨h1, h2⟩ := EventManager.fireTimer_keeps em i now r1 r2
    refine ⟨GameState.gameStarted_of_body _ _ h2, ?_, ?_⟩
    · show (em.fireTimer i now r1 r2).gameState.gameTime = _
      rw [GameState.gameTime_of_body _ _ h2]
      simp [frameTime]
    · show (em.fireTimer i now r1 r2).eventTimer = _
      rw [h1]
      simp [frameTime]
  | blinkTimeout =>
    unfold EventManager.step
    dsimp only
    split_ifs <;> simp [frameTime, GameState.blinkTimeout]

/-- The clocks of the session at its start and after any actions: the game
is started, and the event timer equals the game time while the session is
not completed. -/
theorem EventManager.run_clocks (actions : List GameAction) :
    ∀ em : EventManager, em.gameState.gameStarted = true →
      (em.gameProgression.completed = false → em.eventTimer = em.gameState.gameTime) →
      (em.run actions).gameState.gameStarted = true
        ∧ ((em.run actions).gameProgression.completed = false →
          (em.run actions).eventTimer = (em.run actions).gameState.gameTime) := by
  induction actions with
  | nil => intro em h1 h2; exact ⟨h1, h2⟩
  | cons a rest ih =>
    intro em h1 h2
    obtain ⟨hs, hg, ht⟩ := EventManager.step_clocks em a
    refine ih (em.step a) (hs.trans h1) (fun hOpen => ?_)
    have hOpen0 : em.gameProgression.completed = false := by
      by_contra hc
      have hc' : em.gameProgression.completed = true := by simpa using hc
      rw [(EventManager.step_of_completed em a hc').1] at hOpen
      cases hOpen
    rw [ht, hg, h2 hOpen0, h1, hOpen0]
    rfl

/-- C28. Clock agreement.  In the session started by `startGame()` the game
is started and both clocks are at 0.  After any frames, key presses and
callbacks, the event timer equals the game time as long as the session is
not completed.  Once it is completed it stays completed, and every further
action leaves the event timer where it is, while a frame still adds its
`deltaTime` to the game time. -/
theorem clocks_agree (now : ℚ) (actions : List GameAction) (a : GameAction) :
    (startedGame now).eventTimer = 0
      ∧ (startedGame now).gameState.gameTime = 0
      ∧ ((startedGame now).run actions).gameState.gameStarted = true
      ∧ (((startedGame now).run actions).gameProgression.completed = false →
        ((startedGame now).run actions).eventTimer
          = ((startedGame now).run actions).gameState.gameTime)
      ∧ (((startedGame now).run actions).gameProgression.completed = true →
        (((startedGame now).run actions).step a).gameProgression.completed = true
          ∧ (((startedGame now).run actions).step a).eventTimer
            = ((startedGame now).run actions).eventTimer
          ∧ (((startedGame now).run actions).step a).gameState.gameTime
            = ((startedGame now).run actions).gameState.gameTime + frameTime a) := by
  obtain ⟨h1, h2⟩ := EventManager.run_clocks actions (startedGame now) rfl (fun _ => rfl)
  refine ⟨rfl, rfl, h1, h2, fun hc => ?_⟩
  obtain ⟨-, hg, ht⟩ := EventManager.step_clocks ((startedGame now).run actions) a
  refine ⟨(EventManager.step_of_completed _ a hc).1, ?_, ?_⟩
  · rw [ht, h1, hc]
    simp
  · rw [hg, h1]
    simp

/-! ## Lemmas on the actions within one event -/

theorem EventManager.triggerGameOver_eventType (em : EventManager) (type : EndingType)
    (reason : String) :
    (em.triggerGameOver type reason).currentEvent.map (fun ev => ev.type) = some .finish := by
  unfold EventManager.triggerGameOver EventManager.startEvent
  dsimp only
  unfold EventManager.startFinishEvent
  dsimp only [EventManager.muteUIForEnd, EventManager.fadeOutColumns,
    EventManager.showFailureCaption, EventManager.hideEventPopup,
    EventManager.showEventDisplay, EventManager.playSequence, EventManager.emit,
    EventManager.setTimeout]
  split_ifs <;> rfl

/-- The outcome check, when an event other than the finish is active
afterwards, has done nothing. -/
theorem EventManager.checkGameOverConditions_of_stays (em : EventManager) (ev : GameEvent)
    (hty : ev.type ≠ .finish) (hstay : em.checkGameOverConditions.currentEvent = some ev) :
    em.checkGameOverConditions = em := by
  unfold EventManager.checkGameOverConditions at hstay ⊢
  split_ifs at hstay ⊢ with h
  · have h1 := EventManager.triggerGameOver_eventType em .failure "Suspicion reached maximum"
    rw [hstay] at h1
    exact absurd (Option.some.inj h1) hty
  · rfl

/-- A frame after which the event that was active before it, not the finish,
is still the current event: either the session is not running and only
`gameState.update` has acted, or the event timer has advanced and the update
method of the event's type has run. -/
theorem gameFrame_within_event (em : EventManager) (deltaTime now r : ℚ) (ev : GameEvent)
    (hev : em.currentEvent = some ev) (hty : ev.type ≠ .finish)
    (hstay : (gameFrame em deltaTime now r).currentEvent = some ev) :
    gameFrame em deltaTime now r = { em with gameState := em.gameState.update deltaTime now }
      ∨ ((ev.type = .orderCoffee →
            gameFrame em deltaTime now r
              = EventManager.updateOrderCoffeeEvent
                  { em with
                    gameState := em.gameState.update deltaTime now
                    eventTimer := em.eventTimer + deltaTime }
                  deltaTime now)
        ∧ (ev.type = .runningWoods →
            gameFrame em deltaTime now r
              = EventManager.updateRunningWoodsEvent
                  { em with
                    gameState := em.gameState.update deltaTime now
                    eventTimer := em.eventTimer + deltaTime })
        ∧ (ev.type = .baseline →
            gameFrame em deltaTime now r
              = { em with
                  gameState := em.gameState.update deltaTime now
                  eventTimer := em.eventTimer + deltaTime })) := by
  unfold gameFrame at hstay ⊢
  dsimp only at hstay ⊢
  by_cases hrun : ((em.gameState.update deltaTime now).gameStarted
      && !em.gameProgression.completed) = true
  · right
    have hB : EventManager.beforeOutcomeCheck
          { em with gameState := em.gameState.update deltaTime now } deltaTime now r
        = EventManager.updateCurrentEvent
            { em with
              gameState := em.gameState.update deltaTime now
              eventTimer := em.eventTimer + deltaTime }
            deltaTime now := by
      unfold EventManager.beforeOutcomeCheck
      dsimp only
      rw [EventManager.afterStageCheck_active
        { em with gameState := em.gameState.update deltaTime now } deltaTime r ev hev]
      dsimp only
      rw [if_pos (by rw [hev]; rfl)]
    rw [EventManager.update_eq, if_pos hrun, hB] at hstay ⊢
    have hck := EventManager.checkGameOverConditions_of_stays _ ev hty hstay
    rw [hck] at hstay ⊢
    unfold EventManager.updateCurrentEvent at hstay ⊢
    dsimp only at hstay ⊢
    rw [hev] at hstay ⊢
    dsimp only at hstay ⊢
    by_cases hage : em.eventTimer + deltaTime - ev.startTime ≥ ev.duration
    · rw [if_pos hage, EventManager.endCurrentEvent_currentEvent] at hstay
      cases hstay
    · rw [if_neg hage]
      refine ⟨fun h => ?_, fun h => ?_, fun h => ?_⟩ <;> rw [h]
  · left
    have hrun' : ((em.gameState.update deltaTime now).gameStarted
        && !em.gameProgression.completed) = false := by simpa using hrun
    exact EventManager.update_of_idle _ deltaTime now r hrun'

/-- A pending callback after which the event that was active before it is
still the current event: no callback has run, or one other than the delayed
end of the event. -/
theorem EventManager.fireTimer_within_event (em : EventManager) (i : Nat) (now r1 r2 : ℚ)
    (ev : GameEvent) (hstay : (em.fireTimer i now r1 r2).currentEvent = some ev) :
    em.fireTimer i now r1 r2 = em
      ∨ ∃ d t, em.timers.get? i = some (d, t) ∧ t ≠ .endCurrentEvent
          ∧ em.fireTimer i now r1 r2
            = EventManager.runCallback { em with timers := em.timers.eraseIdx i } t now r1 r2 := by
  unfold EventManager.fireTimer at hstay ⊢
  cases hget : em.timers.get? i with
  | none => exact Or.inl rfl
  | some p =>
    obtain ⟨d, t⟩ := p
    rw [hget] at hstay
    dsimp only at hstay ⊢
    right
    refine ⟨d, t, rfl, ?_, rfl⟩
    rintro rfl
    dsimp only [EventManager.runCallback] at hstay
    rw [EventManager.endCurrentEvent_currentEvent] at hstay
    cases hstay

/-- A pending callback: either there is none at the position and nothing
happens, or it leaves the list and runs. -/
theorem EventManager.fireTimer_eq (em : EventManager) (i : Nat) (now r1 r2 : ℚ) :
    em.fireTimer i now r1 r2 = em
      ∨ ∃ d t, em.timers.get? i = some (d, t)
          ∧ em.fireTimer i now r1 r2
            = EventManager.runCallback { em with timers := em.timers.eraseIdx i } t now r1 r2 := by
  unfold EventManager.fireTimer
  cases hget : em.timers.get? i with
  | none => exact Or.inl rfl
  | some p =>
    obtain ⟨d, t⟩ := p
    exact Or.inr ⟨d, t, rfl, rfl⟩

/-- A frame keeps the running distance or resets it to 0, and keeps the eye
contact or resets it. -/
theorem gameFrame_footprint (em : EventManager) (deltaTime now r : ℚ) :
    ((gameFrame em deltaTime now r).runningState.distance = em.runningState.distance
        ∨ (gameFrame em deltaTime now r).runningState.distance = 0)
      ∧ (((gameFrame em deltaTime now r).conversationState.eyeContactLevel
            = em.conversationState.eyeContactLevel
          ∧ (gameFrame em deltaTime now r).conversationState.eyeContactTarget
            = em.conversationState.eyeContactTarget)
        ∨ ((gameFrame em deltaTime now r).conversationState.eyeContactLevel = 50
          ∧ ((gameFrame em deltaTime now r).conversationState.eyeContactTarget = 50
            ∨ (gameFrame em deltaTime now r).conversationState.eyeContactTarget
              = 40 + r * 20))) := by
  unfold gameFrame
  dsimp only
  by_cases hrun : ((em.gameState.update deltaTime now).gameStarted
      && !em.gameProgression.completed) = true
  · have hF := EventManager.footprint_update r
      { em with gameState := em.gameState.update deltaTime now } deltaTime now hrun
    exact ⟨hF.2.2.1, hF.2.2.2⟩
  · have hrun' : ((em.gameState.update deltaTime now).gameStarted
        && !em.gameProgression.completed) = false := by simpa using hrun
    rw [EventManager.update_of_idle _ deltaTime now r hrun']
    exact ⟨Or.inl rfl, Or.inl ⟨rfl, rfl⟩⟩

/-! ## C25 -/

/-- Every action keeps the running distance within 0 and 100. -/
theorem EventManager.step_distance (em : EventManager) (a : GameAction)
    (h0 : 0 ≤ em.runningState.distance) (h1 : em.runningState.distance ≤ 100) :
    0 ≤ (em.step a).runningState.distance ∧ (em.step a).runningState.distance ≤ 100 := by
  have hReset : ∀ em' : EventManager,
      (em'.runningState.distance = em.runningState.distance
        ∨ em'.runningState.distance = 0) →
      0 ≤ em'.runningState.distance ∧ em'.runningState.distance ≤ 100 := by
    intro em' h
    rcases h with h | h <;> rw [h]
    · exact ⟨h0, h1⟩
    · exact ⟨le_refl 0, by norm_num⟩
  have hStep : ∀ foot : Foot,
      0 ≤ (em.handleStep foot).runningState.distance
        ∧ (em.handleStep foot).runningState.distance ≤ 100 := by
    intro foot
    rcases (EventManager.handleStep_keeps em foot).2.2.2.2.2.2.2 with h | h | h <;> rw [h]
    · exact ⟨h0, h1⟩
    · exact ⟨le_max_left _ _, max_le (by norm_num) (by linarith)⟩
    · exact ⟨le_min (by norm_num) (by linarith), min_le_left _ _⟩
  cases a with
  | frame deltaTime now r => exact hReset _ (gameFrame_footprint em deltaTime now r).1
  | input action now =>
    cases action
    · exact ⟨h0, h1⟩
    · exact ⟨h0, h1⟩
    · exact ⟨h0, h1⟩
    · exact hReset _ (Or.inl (congrArg RunningState.distance
        (EventManager.handleEyeContact_keeps em).2.2.1))
    · exact hReset _ (EventManager.footprint_handlers 0 em 0).1.2.2.1
    · exact hStep .left
    · exact hStep .right
    · exact hReset _ (EventManager.footprint_handlers 0 em 0).2.1.2.2.1
    · exact hReset _ (EventManager.footprint_handlers 0 em 1).2.2.2.2.1
    · exact hReset _ (EventManager.footprint_handlers 0 em 2).2.2.2.2.1
    · exact hReset _ (EventManager.footprint_handlers 0 em 3).2.2.2.2.1
    · exact hReset _ (EventManager.footprint_handlers 0 em 4).2.2.2.2.1
  | timer i now r1 r2 =>
    show 0 ≤ (em.fireTimer i now r1 r2).runningState.distance
      ∧ (em.fireTimer i now r1 r2).runningState.distance ≤ 100
    rcases EventManager.fireTimer_eq em i now r1 r2 with h | ⟨d, t, -, h⟩
    · rw [h]
      exact ⟨h0, h1⟩
    · rw [h]
      by_cases ht : t = .jumpTimeout
      · subst ht
        rcases (EventManager.jumpTimeout_keeps
          { em with timers := em.timers.eraseIdx i }).2.2.2.2.2.2 with h' | h'
        · exact hReset _ (Or.inl h')
        · show 0 ≤ (EventManager.jumpTimeout _).runningState.distance
            ∧ (EventManager.jumpTimeout _).runningState.distance ≤ 100
          rw [h']
          have h1' : em.runningState.distance - 10 ≤ 100 := by linarith
          exact ⟨le_max_left _ _, max_le (by norm_num) h1'⟩
      · exact hReset _ (EventManager.footprint_runCallback 0
          { em with timers := em.timers.eraseIdx i } t now r1 r2 ht).2.2.1
  | blinkTimeout =>
    show 0 ≤ (EventManager.step em .blinkTimeout).runningState.distance
      ∧ (EventManager.step em .blinkTimeout).runningState.distance ≤ 100
    unfold EventManager.step
    dsimp only
    split_ifs <;> exact ⟨h0, h1⟩

theorem EventManager.run_distance (actions : List GameAction) :
    ∀ em : EventManager, 0 ≤ em.runningState.distance → em.runningState.distance ≤ 100 →
      0 ≤ (em.run actions).runningState.distance
        ∧ (em.run actions).runningState.distance ≤ 100 := by
  induction actions with
  | nil => intro em h0 h1; exact ⟨h0, h1⟩
  | cons a rest ih =>
    intro em h0 h1
    obtain ⟨h2, h3⟩ := EventManager.step_distance em a h0 h1
    exact ih (em.step a) h2 h3

theorem EventManager.pendingEnds_setTimeout (em : EventManager) (t : Timer) (delay : ℚ) :
    (em.setTimeout t delay).pendingEnds
      = em.pendingEnds + (if t = .endCurrentEvent then 1 else 0) := by
  unfold EventManager.setTimeout EventManager.pendingEnds
  dsimp only
  rw [List.countP_append]
  by_cases h : t = .endCurrentEvent <;> simp [h]

theorem EventManager.pendingEnds_eraseIdx (em : EventManager) (i : Nat) :
    EventManager.pendingEnds { em with timers := em.timers.eraseIdx i } ≤ em.pendingEnds :=
  (List.eraseIdx_sublist em.timers i).countP_le _

/-- Every key keeps the completion flag of the woods stage and schedules no
end of the event. -/
theorem InputHandler.executeAction_completed (em : EventManager) (action : InputAction)
    (now : ℚ) :
    (InputHandler.executeAction em action now).runningState.completed
        = em.runningState.completed
      ∧ (InputHandler.executeAction em action now).pendingEnds = em.pendingEnds := by
  have hOption : ∀ option : Int,
      (em.handleConversationOption option).runningState.completed = em.runningState.completed
        ∧ (em.handleConversationOption option).pendingEnds = em.pendingEnds := by
    intro option
    unfold EventManager.handleConversationOption
    by_cases hE : em.isEnding = true
    · rw [if_pos hE]
      exact ⟨rfl, rfl⟩
    · rw [if_neg hE]
      by_cases hW : (isEventOfType em.currentEvent .orderCoffee
          && em.conversationState.waitingForResponse) = true
      · rw [if_pos hW]
        dsimp only [EventManager.hideEventPopup, EventManager.showEventPopup,
          EventManager.showEventDisplay, EventManager.emit]
        split
        · exact ⟨rfl, rfl⟩
        · split_ifs <;>
            first
              | exact ⟨rfl, rfl⟩
              | exact ⟨rfl, (EventManager.pendingEnds_setTimeout _ _ _).trans (by simp; rfl)⟩
      · rw [if_neg hW]
        exact ⟨rfl, rfl⟩
  cases action
  · exact ⟨rfl, rfl⟩
  · exact ⟨rfl, rfl⟩
  · exact ⟨rfl, rfl⟩
  · exact ⟨congrArg RunningState.completed (EventManager.handleEyeContact_keeps em).2.2.1,
      congrArg (fun l => l.countP fun p => p.2 = Timer.endCurrentEvent)
        (EventManager.handleEyeContact_keeps em).2.2.2.2.2.1⟩
  · unfold InputHandler.executeAction EventManager.handleSwallow
    dsimp only [EventManager.hideEventPopup, EventManager.emit]
    split_ifs <;> exact ⟨rfl, rfl⟩
  · exact ⟨(EventManager.handleStep_keeps em .left).2.2.2.2.2.2.1,
      congrArg (fun l => l.countP fun p => p.2 = Timer.endCurrentEvent)
        (EventManager.handleStep_keeps em .left).2.2.2.2.2.1⟩
  · exact ⟨(EventManager.handleStep_keeps em .right).2.2.2.2.2.2.1,
      congrArg (fun l => l.countP fun p => p.2 = Timer.endCurrentEvent)
        (EventManager.handleStep_keeps em .right).2.2.2.2.2.1⟩
  · unfold InputHandler.executeAction EventManager.handleJump
    dsimp only [EventManager.hideEventPopup, EventManager.emit]
    split_ifs <;> exact ⟨rfl, rfl⟩
  · exact hOption 1
  · exact hOption 2
  · exact hOption 3
  · exact hOption 4

/-- A deferred callback other than the delayed end of the event keeps the
completion flag of the woods stage and schedules no end of the event. -/
theorem EventManager.runCallback_completed (em : EventManager) (t : Timer) (now r1 r2 : ℚ)
    (ht : t ≠ .endCurrentEvent) :
    (em.runCallback t now r1 r2).runningState.completed = em.runningState.completed
      ∧ (em.runCallback t now r1 r2).pendingEnds = em.pendingEnds := by
  cases t <;>
    (unfold EventManager.runCallback
     dsimp only [EventManager.promptEyeContact, EventManager.promptSwallow,
       EventManager.startConversation, EventManager.showFirstConversation,
       EventManager.swallowTimeout, EventManager.showSecondConversation,
       EventManager.promptJump, EventManager.scheduleJumpPrompt, EventManager.jumpTimeout,
       EventManager.showEndScreen,
       EventManager.hideEventPopup, EventManager.showEventPopup,
       EventManager.showEventDisplay, EventManager.emit]
     first
       | exact absurd rfl ht
       | exact ⟨rfl, rfl⟩
       | (split_ifs <;>
           first
             | exact ⟨rfl, rfl⟩
             | exact ⟨rfl, (EventManager.pendingEnds_setTimeout _ _ _).trans (by simp; rfl)⟩
             | exact ⟨rfl, (EventManager.pendingEnds_setTimeout _ _ _).trans
                 ((congrArg (· + 0) (EventManager.pendingEnds_setTimeout _ _ _)).trans
                   (by simp; rfl))⟩))

/-- One action within a woods stage: once the stage is marked completed it
stays so and no further end of the event is scheduled; and an end of the
event is scheduled only together with the mark. -/
theorem EventManager.step_within_woods (em : EventManager) (a : GameAction) (ev : GameEvent)
    (hev : em.currentEvent = some ev) (hty : ev.type = .runningWoods)
    (hstay : (em.step a).currentEvent = some ev) :
    (em.runningState.completed = true →
        (em.step a).runningState.completed = true
          ∧ (em.step a).pendingEnds ≤ em.pendingEnds)
      ∧ (em.pendingEnds < (em.step a).pendingEnds →
        (em.step a).runningState.completed = true) := by
  have hSame : ∀ em' : EventManager,
      em'.runningState.completed = em.runningState.completed →
      em'.pendingEnds ≤ em.pendingEnds →
      (em.runningState.completed = true →
          em'.runningState.completed = true ∧ em'.pendingEnds ≤ em.pendingEnds)
        ∧ (em.pendingEnds < em'.pendingEnds → em'.runningState.completed = true) :=
    fun em' hc hp => ⟨fun h => ⟨hc.trans h, hp⟩, fun h => absurd h (not_lt.mpr hp)⟩
  cases a with
  | frame deltaTime now r =>
    have hne : ev.type ≠ .finish := by rw [hty]; decide
    rcases gameFrame_within_event em deltaTime now r ev hev hne hstay with h | ⟨-, h, -⟩
    · show (_ → (gameFrame em deltaTime now r).runningState.completed = true ∧ _) ∧ _
      rw [show em.step (.frame deltaTime now r) = gameFrame em deltaTime now r from rfl, h]
      exact hSame _ rfl (le_refl _)
    · rw [show em.step (.frame deltaTime now r) = gameFrame em deltaTime now r from rfl, h hty]
      unfold EventManager.updateRunningWoodsEvent
      dsimp only [EventManager.showEventDisplay, EventManager.emit]
      by_cases hc : (decide (em.runningState.distance ≥ 100)
          && !em.runningState.completed) = true
      · rw [if_pos hc]
        refine ⟨fun h => ?_, fun _ => ?_⟩
        · rw [h] at hc
          simp at hc
        · split_ifs <;> rfl
      · rw [if_neg hc]
        exact hSame _ rfl (le_refl _)
  | input action now =>
    obtain ⟨hc, hp⟩ := InputHandler.executeAction_completed em action now
    exact hSame _ hc (le_of_eq hp)
  | timer i now r1 r2 =>
    rcases EventManager.fireTimer_within_event em i now r1 r2 ev hstay with h | ⟨d, t, -, ht, h⟩
    · rw [show em.step (.timer i now r1 r2) = em.fireTimer i now r1 r2 from rfl, h]
      exact hSame _ rfl (le_refl _)
    · rw [show em.step (.timer i now r1 r2) = em.fireTimer i now r1 r2 from rfl, h]
      obtain ⟨hc, hp⟩ := EventManager.runCallback_completed
        { em with timers := em.timers.eraseIdx i } t now r1 r2 ht
      exact hSame _ hc (le_trans (le_of_eq hp) (EventManager.pendingEnds_eraseIdx em i))
  | blinkTimeout =>
    unfold EventManager.step
    dsimp only
    split_ifs <;> exact hSame _ rfl (le_refl _)

/-- Within one woods stage at most one action schedules the delayed end of
the event, and none does once the stage is marked completed. -/
theorem EventManager.completionEdges_le (actions : List GameAction) :
    ∀ (em : EventManager) (ev : GameEvent), em.currentEvent = some ev →
      ev.type = .runningWoods → em.StaysIn ev actions →
      em.completionEdges actions ≤ (if em.runningState.completed then 0 else 1) := by
  induction actions with
  | nil =>
    intro em ev _ _ _
    exact Nat.zero_le _
  | cons a rest ih =>
    intro em ev hev hty hstay
    obtain ⟨hs, hrest⟩ := hstay
    obtain ⟨h1, h2⟩ := EventManager.step_within_woods em a ev hev hty hs
    have hih := ih (em.step a) ev hs hty hrest
    unfold EventManager.completionEdges
    by_cases hc : em.runningState.completed = true
    · obtain ⟨hc', hp⟩ := h1 hc
      rw [hc'] at hih
      rw [hc, if_neg (not_lt.mpr hp)]
      simpa using hih
    · have hc0 : em.runningState.completed = false := by simpa using hc
      rw [hc0]
      by_cases hlt : em.pendingEnds < (em.step a).pendingEnds
      · rw [if_pos hlt]
        rw [h2 hlt] at hih
        have : (em.step a).completionEdges rest = 0 := by simpa using hih
        rw [this]
        simp
      · rw [if_neg hlt]
        have hle : (em.step a).completionEdges rest ≤ 1 :=
          le_trans hih (by split_ifs <;> decide)
        simpa using hle

/-- C25. Running distance and completion.  In every state of the session,
whatever the frames, key presses and callbacks, the running distance lies
within 0 and 100.  `updateRunningWoodsEvent` changes nothing once the stage
is marked completed; with the distance at 100 and the stage not yet marked
it sets the mark and schedules the end of the event in 2000 ms.  As long as
one woods event stays the current event, at most one action schedules that
end.  In the session the frame at 54 s marks the first woods stage and
schedules its end, and the next frame schedules nothing. -/
theorem running_distance_bounded_completion_once (now : ℚ) (actions : List GameAction)
    (em : EventManager) (ev : GameEvent) :
    (0 ≤ ((startedGame now).run actions).runningState.distance
        ∧ ((startedGame now).run actions).runningState.distance ≤ 100)
      ∧ (em.runningState.completed = true → em.updateRunningWoodsEvent = em)
      ∧ (em.runningState.completed = false → em.runningState.distance ≥ 100 →
        em.updateRunningWoodsEvent.runningState.completed = true
          ∧ em.updateRunningWoodsEvent.timers = em.timers ++ [(2000, .endCurrentEvent)])
      ∧ (em.currentEvent = some ev → ev.type = .runningWoods → em.StaysIn ev actions →
        em.completionEdges actions ≤ 1)
      ∧ (freshWoods.runningState.completed = false
        ∧ woodsCompleted.runningState.distance = 100
        ∧ woodsCompleted.runningState.completed = true
        ∧ woodsCompleted.currentEvent = freshWoods.currentEvent
        ∧ woodsCompleted.timers = [(9000, .jumpPrompt), (2000, .endCurrentEvent)]
        ∧ (woodsCompleted.step (.frame 16 1054016 0)).timers = woodsCompleted.timers
        ∧ freshWoods.completionEdges
            (fortySteps 1051050 ++ [.frame 3000 1054000 0, .frame 16 1054016 0]) = 1) := by
  refine ⟨EventManager.run_distance actions (startedGame now) (le_refl 0)
      (show (0 : ℚ) ≤ 100 by norm_num),
    fun h => ?_, fun h hd => ?_, fun hev hty hstay => ?_, by decide!⟩
  · unfold EventManager.updateRunningWoodsEvent
    rw [if_neg (by simp [h])]
  · unfold EventManager.updateRunningWoodsEvent
    rw [if_pos (by simp [h, hd])]
    dsimp only [EventManager.showEventDisplay, EventManager.emit, EventManager.setTimeout]
    split_ifs <;> exact ⟨rfl, rfl⟩
  · refine le_trans (EventManager.completionEdges_le actions em ev hev hty hstay) ?_
    split_ifs <;> simp

/-! ## C30 -/

/-- With the level at 50 and the target within 40 and 60 the two are at most
10 apart. -/
theorem EventManager.EyeContactNeutral.diff_le (em : EventManager)
    (h : em.EyeContactNeutral) :
    |em.conversationState.eyeContactLevel - em.conversationState.eyeContactTarget| ≤ 10 := by
  obtain ⟨hl, h1, h2⟩ := h
  rw [hl]
  exact abs_le.mpr ⟨by linarith, by linarith⟩

/-- With the eye contact neutral `updateOrderCoffeeEvent` adds no
suspicion. -/
theorem EventManager.updateOrderCoffeeEvent_of_neutral (em : EventManager)
    (deltaTime now : ℚ) (h : em.EyeContactNeutral) :
    (em.updateOrderCoffeeEvent deltaTime now).gameState = em.gameState := by
  have hd := EventManager.EyeContactNeutral.diff_le em h
  rw [EventManager.updateOrderCoffeeEvent_gameState, if_neg (by linarith)]

/-- A reset of the eye contact leaves it neutral. -/
theorem EventManager.EyeContactNeutral.of_reset (em em' : EventManager) (r : ℚ)
    (h : em.EyeContactNeutral) (h0 : 0 ≤ r) (h1 : r < 1)
    (hrel : (em'.conversationState.eyeContactLevel = em.conversationState.eyeContactLevel
          ∧ em'.conversationState.eyeContactTarget = em.conversationState.eyeContactTarget)
        ∨ (em'.conversationState.eyeContactLevel = 50
          ∧ (em'.conversationState.eyeContactTarget = 50
            ∨ em'.conversationState.eyeContactTarget = 40 + r * 20))) :
    em'.EyeContactNeutral := by
  unfold EventManager.EyeContactNeutral at h ⊢
  rcases hrel with ⟨hl, ht⟩ | ⟨hl, ht | ht⟩
  · rw [hl, ht]
    exact h
  · rw [hl, ht]
    exact ⟨rfl, by norm_num, by norm_num⟩
  · rw [hl, ht]
    exact ⟨rfl, by linarith, by linarith⟩

/-- An action other than a press of the eye-contact key during a coffee
stage keeps the eye contact neutral. -/
theorem EventManager.step_neutral (em : EventManager) (a : GameAction)
    (h : em.EyeContactNeutral) (ha : em.KeepsNeutral a) : (em.step a).EyeContactNeutral := by
  have hSame : ∀ em' : EventManager, em'.conversationState = em.conversationState →
      em'.EyeContactNeutral := by
    intro em' hc
    unfold EventManager.EyeContactNeutral at h ⊢
    rw [hc]
    exact h
  have hZero := fun em' hrel =>
    EventManager.EyeContactNeutral.of_reset em em' 0 h (le_refl 0) (by norm_num) hrel
  cases a with
  | frame deltaTime now r =>
    have hr : 0 ≤ r ∧ r < 1 := ha
    exact EventManager.EyeContactNeutral.of_reset em _ r h hr.1 hr.2
      (gameFrame_footprint em deltaTime now r).2
  | input action now =>
    cases action
    · exact hSame _ rfl
    · exact hSame _ rfl
    · exact hSame _ rfl
    · have hc : isEventOfType em.currentEvent .orderCoffee = false := ha
      refine hSame _ ?_
      show em.handleEyeContact.conversationState = _
      unfold EventManager.handleEyeContact
      rw [hc]
      split_ifs <;> first | rfl | contradiction
    · exact hZero _ (EventManager.footprint_handlers 0 em 0).1.2.2.2
    · exact hSame _ (EventManager.handleStep_keeps em .left).2.2.1
    · exact hSame _ (EventManager.handleStep_keeps em .right).2.2.1
    · exact hZero _ (EventManager.footprint_handlers 0 em 0).2.1.2.2.2
    · exact hZero _ (EventManager.footprint_handlers 0 em 1).2.2.2.2.2
    · exact hZero _ (EventManager.footprint_handlers 0 em 2).2.2.2.2.2
    · exact hZero _ (EventManager.footprint_handlers 0 em 3).2.2.2.2.2
    · exact hZero _ (EventManager.footprint_handlers 0 em 4).2.2.2.2.2
  | timer i now r1 r2 =>
    show (em.fireTimer i now r1 r2).EyeContactNeutral
    rcases EventManager.fireTimer_eq em i now r1 r2 with h' | ⟨d, t, -, h'⟩
    · rw [h']
      exact h
    · rw [h']
      by_cases ht : t = .jumpTimeout
      · subst ht
        exact hSame _ (EventManager.jumpTimeout_keeps
          { em with timers := em.timers.eraseIdx i }).2.2.1
      · exact hZero _ (EventManager.footprint_runCallback 0
          { em with timers := em.timers.eraseIdx i } t now r1 r2 ht).2.2.2
  | blinkTimeout =>
    show (EventManager.step em .blinkTimeout).EyeContactNeutral
    unfold EventManager.step
    dsimp only
    split_ifs <;> exact h

theorem EventManager.run_neutral (actions : List GameAction) :
    ∀ em : EventManager, em.EyeContactNeutral → em.NoEyeContact actions →
      (em.run actions).EyeContactNeutral := by
  induction actions with
  | nil => intro em h _; exact h
  | cons a rest ih =>
    intro em h hno
    exact ih (em.step a) (EventManager.step_neutral em a h hno.1) hno.2

/-- In a frame that starts from a neutral eye contact the state handed to
`updateCurrentEvent` is neutral as well, and the frame leaves suspicion as
`gameState.update` has left it. -/
theorem gameFrame_of_neutral (em : EventManager) (deltaTime now r : ℚ)
    (h : em.EyeContactNeutral) (h0 : 0 ≤ r) (h1 : r < 1) :
    (EventManager.afterStageCheck { em with gameState := em.gameState.update deltaTime now }
        deltaTime r).EyeContactNeutral
      ∧ (gameFrame em deltaTime now r).gameState.suspicion
        = (em.gameState.update deltaTime now).suspicion := by
  have hA : (EventManager.afterStageCheck
      { em with gameState := em.gameState.update deltaTime now }
      deltaTime r).EyeContactNeutral :=
    EventManager.EyeContactNeutral.of_reset em _ r h h0 h1
      (EventManager.footprint_afterStageCheck r
        { em with gameState := em.gameState.update deltaTime now } deltaTime).2.2.2
  refine ⟨hA, ?_⟩
  unfold gameFrame
  dsimp only
  rw [EventManager.update_eq]
  split_ifs
  · have hC : ∀ em' : EventManager,
        em'.checkGameOverConditions.gameState.suspicion = em'.gameState.suspicion := by
      intro em'
      unfold EventManager.checkGameOverConditions
      split_ifs
      · exact EventManager.triggerGameOver_suspicion _ _ _
      · rfl
    rw [hC]
    unfold EventManager.beforeOutcomeCheck
    dsimp only
    have hS := EventManager.afterStageCheck_suspicion
      { em with gameState := em.gameState.update deltaTime now } deltaTime r
    split_ifs
    · unfold EventManager.updateCurrentEvent
      split
      · exact hS
      · dsimp only
        split_ifs
        · rw [EventManager.endCurrentEvent_suspicion]
          exact hS
        · split
          · rw [EventManager.updateOrderCoffeeEvent_of_neutral _ _ _ hA]
            exact hS
          · rw [EventManager.updateRunningWoodsEvent_gameState]
            exact hS
          · exact hS
    · exact hS
  · rfl

/-- The level after `n + 1` presses of the eye-contact key, starting from
50: 30 for an odd number of presses, 70 for an even one. -/
theorem eyeContactToggle_iterate (n : ℕ) :
    eyeContactToggle^[n + 1] 50 = if n % 2 = 0 then 30 else 70 := by
  induction n with
  | zero =>
    simp [eyeContactToggle]
  | succ k ih =>
    rw [Function.iterate_succ_apply', ih]
    rcases Nat.mod_two_eq_zero_or_one k with hk | hk
    · have hk' : (k + 1) % 2 = 1 := by omega
      rw [if_pos hk, if_neg (by omega)]
      unfold eyeContactToggle
      norm_num
    · have hk' : (k + 1) % 2 = 0 := by omega
      rw [if_neg (by omega), if_pos hk']
      unfold eyeContactToggle
      norm_num

/-- The keys other than the eye-contact key keep the eye contact and the
ending flag. -/
theorem InputHandler.executeAction_eyeContact (em : EventManager) (action : InputAction)
    (now : ℚ) (ha : action ≠ .eyeContact) :
    (InputHandler.executeAction em action now).conversationState.eyeContactLevel
        = em.conversationState.eyeContactLevel
      ∧ (InputHandler.executeAction em action now).conversationState.eyeContactTarget
        = em.conversationState.eyeContactTarget
      ∧ (InputHandler.executeAction em action now).isEnding = em.isEnding := by
  have hOption : ∀ option : Int,
      (em.handleConversationOption option).conversationState.eyeContactLevel
          = em.conversationState.eyeContactLevel
        ∧ (em.handleConversationOption option).conversationState.eyeContactTarget
          = em.conversationState.eyeContactTarget
        ∧ (em.handleConversationOption option).isEnding = em.isEnding := by
    intro option
    unfold EventManager.handleConversationOption
    by_cases hE : em.isEnding = true
    · rw [if_pos hE]
      exact ⟨rfl, rfl, rfl⟩
    · rw [if_neg hE]
      by_cases hW : (isEventOfType em.currentEvent .orderCoffee
          && em.conversationState.waitingForResponse) = true
      · rw [if_pos hW]
        dsimp only [EventManager.hideEventPopup, EventManager.showEventPopup,
          EventManager.showEventDisplay, EventManager.emit, EventManager.setTimeout]
        split
        · exact ⟨rfl, rfl, rfl⟩
        · split_ifs <;> exact ⟨rfl, rfl, rfl⟩
      · rw [if_neg hW]
        exact ⟨rfl, rfl, rfl⟩
  cases action
  · exact ⟨rfl, rfl, rfl⟩
  · exact ⟨rfl, rfl, rfl⟩
  · exact ⟨rfl, rfl, rfl⟩
  · exact absurd rfl ha
  · unfold InputHandler.executeAction EventManager.handleSwallow
    dsimp only [EventManager.hideEventPopup, EventManager.emit]
    split_ifs <;> exact ⟨rfl, rfl, rfl⟩
  · unfold InputHandler.executeAction EventManager.handleStep
    dsimp only
    split_ifs <;> exact ⟨rfl, rfl, rfl⟩
  · unfold InputHandler.executeAction EventManager.handleStep
    dsimp only
    split_ifs <;> exact ⟨rfl, rfl, rfl⟩
  · unfold InputHandler.executeAction EventManager.handleJump
    dsimp only [EventManager.hideEventPopup, EventManager.emit]
    split_ifs <;> exact ⟨rfl, rfl, rfl⟩
  · exact hOption 1
  · exact hOption 2
  · exact hOption 3
  · exact hOption 4

/-- A deferred callback other than the delayed end of the event keeps the
eye contact and the ending flag. -/
theorem EventManager.runCallback_eyeContact (em : EventManager) (t : Timer) (now r1 r2 : ℚ)
    (ht : t ≠ .endCurrentEvent) :
    (em.runCallback t now r1 r2).conversationState.eyeContactLevel
        = em.conversationState.eyeContactLevel
      ∧ (em.runCallback t now r1 r2).conversationState.eyeContactTarget
        = em.conversationState.eyeContactTarget
      ∧ (em.runCallback t now r1 r2).isEnding = em.isEnding := by
  cases t <;>
    (unfold EventManager.runCallback
     dsimp only [EventManager.promptEyeContact, EventManager.promptSwallow,
       EventManager.startConversation, EventManager.showFirstConversation,
       EventManager.swallowTimeout, EventManager.showSecondConversation,
       EventManager.promptJump, EventManager.scheduleJumpPrompt, EventManager.jumpTimeout,
       EventManager.showEndScreen,
       EventManager.hideEventPopup, EventManager.showEventPopup,
       EventManager.showEventDisplay, EventManager.emit, EventManager.setTimeout]
     first
       | exact absurd rfl ht
       | exact ⟨rfl, rfl, rfl⟩
       | (split_ifs <;> exact ⟨rfl, rfl, rfl⟩))

/-- One action within a coffee stage on a manager that is not ending: a
press of the eye-contact key toggles the level, every other action keeps it;
the target and the ending flag are kept. -/
theorem EventManager.step_within_coffee (em : EventManager) (a : GameAction) (ev : GameEvent)
    (hev : em.currentEvent = some ev) (hty : ev.type = .orderCoffee)
    (hEnding : em.isEnding = false) (hstay : (em.step a).currentEvent = some ev) :
    (em.step a).conversationState.eyeContactLevel
        = (if a.isEyeContact then eyeContactToggle em.conversationState.eyeContactLevel
          else em.conversationState.eyeContactLevel)
      ∧ (em.step a).conversationState.eyeContactTarget
        = em.conversationState.eyeContactTarget
      ∧ (em.step a).isEnding = false := by
  cases a with
  | frame deltaTime now r =>
    have hne : ev.type ≠ .finish := by rw [hty]; decide
    rw [show em.step (.frame deltaTime now r) = gameFrame em deltaTime now r from rfl]
    simp only [GameAction.isEyeContact, Bool.false_eq_true, if_false]
    rcases gameFrame_within_event em deltaTime now r ev hev hne hstay with h | ⟨h, -, -⟩
    · rw [h]
      exact ⟨rfl, rfl, hEnding⟩
    · rw [h hty]
      unfold EventManager.updateOrderCoffeeEvent
      dsimp only [EventManager.updateEventPopup, EventManager.emit]
      split_ifs <;> exact ⟨rfl, rfl, hEnding⟩
  | input action now =>
    rw [show em.step (.input action now) = InputHandler.executeAction em action now from rfl]
    by_cases ha : action = .eyeContact
    · subst ha
      have hc : isEventOfType em.currentEvent .orderCoffee = true := by
        rw [hev]
        simp [isEventOfType, hty]
      have hK : InputHandler.executeAction em .eyeContact now
          = { em with
              conversationState :=
                { em.conversationState with
                  eyeContactLevel := eyeContactToggle em.conversationState.eyeContactLevel } } := by
        show em.handleEyeContact = _
        unfold EventManager.handleEyeContact
        rw [if_neg (by simp [hEnding]), if_pos hc]
        rfl
      rw [hK]
      exact ⟨rfl, rfl, hEnding⟩
    · obtain ⟨h1, h2, h3⟩ := InputHandler.executeAction_eyeContact em action now ha
      refine ⟨?_, h2, h3.trans hEnding⟩
      rw [h1]
      cases action <;> first | rfl | exact absurd rfl ha
  | timer i now r1 r2 =>
    rw [show em.step (.timer i now r1 r2) = em.fireTimer i now r1 r2 from rfl]
    simp only [GameAction.isEyeContact, Bool.false_eq_true, if_false]
    rcases EventManager.fireTimer_within_event em i now r1 r2 ev hstay with h | ⟨d, t, -, ht, h⟩
    · rw [h]
      exact ⟨rfl, rfl, hEnding⟩
    · rw [h]
      obtain ⟨h1, h2, h3⟩ := EventManager.runCallback_eyeContact
        { em with timers := em.timers.eraseIdx i } t now r1 r2 ht
      exact ⟨h1, h2, h3.trans hEnding⟩
  | blinkTimeout =>
    simp only [GameAction.isEyeContact, Bool.false_eq_true, if_false]
    unfold EventManager.step
    dsimp only
    split_ifs <;> exact ⟨rfl, rfl, hEnding⟩

/-- Within one coffee stage the eye-contact level is the level at the
outset toggled once per press of the eye-contact key, and the target is
kept. -/
theorem EventManager.run_within_coffee (actions : List GameAction) :
    ∀ (em : EventManager) (ev : GameEvent), em.currentEvent = some ev →
      ev.type = .orderCoffee → em.isEnding = false → em.StaysIn ev actions →
      (em.run actions).conversationState.eyeContactLevel
          = eyeContactToggle^[eyeContactPresses actions] em.conversationState.eyeContactLevel
        ∧ (em.run actions).conversationState.eyeContactTarget
          = em.conversationState.eyeContactTarget := by
  induction actions with
  | nil => intro em ev _ _ _ _; exact ⟨rfl, rfl⟩
  | cons a rest ih =>
    intro em ev hev hty hEnding hstay
    obtain ⟨hs, hrest⟩ := hstay
    obtain ⟨h1, h2, h3⟩ := EventManager.step_within_coffee em a ev hev hty hEnding hs
    obtain ⟨i1, i2⟩ := ih (em.step a) ev hs hty h3 hrest
    refine ⟨?_, i2.trans h2⟩
    show ((em.step a).run rest).conversationState.eyeContactLevel = _
    rw [i1, h1]
    unfold eyeContactPresses
    rw [List.countP_cons]
    cases a.isEyeContact
    · rfl
    · exact (Function.iterate_succ_apply _ _ _).symm

/-- C30. Eye-contact tolerance.  For a draw `r` in `[0, 1)`
`startOrderCoffeeEvent` sets the level to 50 and the target to `40 + 20 r`,
within 40 and 60, so the two are at most 10 apart.  With the level at 50 and
the target within 40 and 60 `updateOrderCoffeeEvent` adds no suspicion; this
holds at the start of the session and stays so through every frame, key and
callback as long as the eye-contact key is not pressed during a coffee
stage, and a frame then leaves suspicion as `gameState.update` has left it.
Within one coffee stage on a manager that is not ending the level is the
outset level toggled once per press and the target is kept: after `n + 1`
presses from 50 the level is 30 for even `n` and 70 for odd `n`, never 50.
In the session at the first conversation prompt the level is 50 and one,
two and three presses leave 30, 70 and 30. -/
theorem eye_contact_tolerance (em : EventManager) (r deltaTime now : ℚ)
    (actions : List GameAction) (ev : GameEvent) (n : ℕ) :
    (0 ≤ r → r < 1 →
        (em.startOrderCoffeeEvent r).conversationState.eyeContactLevel = 50
          ∧ (em.startOrderCoffeeEvent r).conversationState.eyeContactTarget = 40 + r * 20
          ∧ 40 ≤ (em.startOrderCoffeeEvent r).conversationState.eyeContactTarget
          ∧ (em.startOrderCoffeeEvent r).conversationState.eyeContactTarget < 60
          ∧ |(em.startOrderCoffeeEvent r).conversationState.eyeContactLevel
              - (em.startOrderCoffeeEvent r).conversationState.eyeContactTarget| ≤ 10)
      ∧ (em.EyeContactNeutral →
        (em.updateOrderCoffeeEvent deltaTime now).gameState = em.gameState)
      ∧ (startedGame now).EyeContactNeutral
      ∧ (em.EyeContactNeutral → em.NoEyeContact actions →
        (em.run actions).EyeContactNeutral)
      ∧ (em.EyeContactNeutral → 0 ≤ r → r < 1 →
        (EventManager.afterStageCheck
            { em with gameState := em.gameState.update deltaTime now }
            deltaTime r).EyeContactNeutral
          ∧ (gameFrame em deltaTime now r).gameState.suspicion
            = (em.gameState.update deltaTime now).suspicion)
      ∧ (em.currentEvent = some ev → ev.type = .orderCoffee → em.isEnding = false →
        em.StaysIn ev actions →
        (em.run actions).conversationState.eyeContactLevel
            = eyeContactToggle^[eyeContactPresses actions]
                em.conversationState.eyeContactLevel
          ∧ (em.run actions).conversationState.eyeContactTarget
            = em.conversationState.eyeContactTarget)
      ∧ (eyeContactToggle^[n + 1] 50 = (if n % 2 = 0 then 30 else 70)
        ∧ eyeContactToggle^[n + 1] 50 ≠ 50)
      ∧ (isEventOfType coffeeAtFirstPrompt.currentEvent .orderCoffee = true
        ∧ coffeeAtFirstPrompt.conversationState.eyeContactLevel = 50
        ∧ coffeeAtFirstPrompt.conversationState.eyeContactTarget = 50
        ∧ coffeeAtFirstPrompt.handleEyeContact.conversationState.eyeContactLevel = 30
        ∧ coffeeAtFirstPrompt.handleEyeContact.handleEyeContact.conversationState.eyeContactLevel
          = 70
        ∧ coffeeAtFirstPrompt.handleEyeContact.handleEyeContact.handleEyeContact.conversationState.eyeContactLevel
          = 30) := by
  have hStart : 0 ≤ r → r < 1 →
      (em.startOrderCoffeeEvent r).conversationState.eyeContactLevel = 50
        ∧ (em.startOrderCoffeeEvent r).conversationState.eyeContactTarget = 40 + r * 20 := by
    intro _ _
    unfold EventManager.startOrderCoffeeEvent
    dsimp only [EventManager.showEventPopup, EventManager.showEventDisplay,
      EventManager.playSequence, EventManager.emit, EventManager.setTimeout]
    split_ifs <;> exact ⟨rfl, rfl⟩
  refine ⟨fun h0 h1 => ?_, EventManager.updateOrderCoffeeEvent_of_neutral em deltaTime now,
    ⟨rfl, by norm_num [startedGame, BodyControlGame.init, showMainInterface,
      BodyControlGame.new, EventManager.new, defaultConversationState],
      by norm_num [startedGame, BodyControlGame.init, showMainInterface,
      BodyControlGame.new, EventManager.new, defaultConversationState]⟩,
    EventManager.run_neutral actions em, gameFrame_of_neutral em deltaTime now r,
    EventManager.run_within_coffee actions em ev, ⟨eyeContactToggle_iterate n, ?_⟩,
    by decide!⟩
  · obtain ⟨hl, ht⟩ := hStart h0 h1
    have hN : (em.startOrderCoffeeEvent r).EyeContactNeutral :=
      ⟨hl, by rw [ht]; linarith, by rw [ht]; linarith⟩
    exact ⟨hl, ht, hN.2.1, hN.2.2, EventManager.EyeContactNeutral.diff_le _ hN⟩
  · rw [eyeContactToggle_iterate]
    split_ifs <;> norm_num
